import Mathlib

/-!
# Richards benchmark (WARDuino variant): allocator and task scheduler

A shallow embedding of `richards.c` and a verification of its stated properties.

## Memory model

* A pointer is a natural number, the byte address; `0` is `NULL`.
* Memory is split by the type it is accessed at: `Pool.cells` holds the `ptr`
  member of a `Cell`, `State.tasks` the `struct task` objects and
  `State.packets` the `struct packet` objects, each a finite map from address
  to value.  Memory never written reads as zero (static storage).
* `int` and `long` values are mathematical integers (signed overflow is
  undefined in C and does not occur in the runs considered); a `long` holding a
  pointer holds its address.
* The diagnostic output (`print_string`, `print_int`) is not part of the state.
* Loops that need not terminate take a `fuel` argument and return `none` when
  it runs out.
-/

namespace Richards

/-! ## Finite maps from addresses to values -/

/-- Finite map from addresses to values, as an association list. -/
def Mem (α : Type) : Type := List (Nat × α)

instance (α : Type) [DecidableEq α] : DecidableEq (Mem α) :=
  inferInstanceAs (DecidableEq (List (Nat × α)))

instance (α : Type) : Inhabited (Mem α) := ⟨([] : List (Nat × α))⟩

/-- The empty memory: every address reads as the default (all-zero) value. -/
def Mem.empty {α : Type} : Mem α := ([] : List (Nat × α))

/-- Value stored at address `a`, the default value when nothing was stored. -/
def Mem.read {α : Type} [Inhabited α] : Mem α → Nat → α
  | [], _ => default
  | (k, v) :: r, a => if k = a then v else Mem.read r a

/-- Store `v` at address `a`. -/
def Mem.write {α : Type} : Mem α → Nat → α → Mem α
  | [], a, v => [(a, v)]
  | (k, w) :: r, a, v => if k = a then (a, v) :: r else (k, w) :: Mem.write r a v

/-! ## The block allocator -/

def CELL_SIZE : Nat := 64
def POOL_SIZE_IN_PAGES : Nat := 4000

/-- The expansion of `POOL_SIZE_IN_PAGES * PAGE_SIZE` with `PAGE_SIZE` defined
as `1<<12` without parentheses: `(4000 * 1) << 12`. -/
def POOL_SIZE : Nat := (POOL_SIZE_IN_PAGES * 1) <<< 12

/-- Allocator globals: the `ptr` member of every cell, `pool` and `freelist`. -/
structure Pool where
  cells : Mem Nat
  pool : Nat
  freelist : Nat
deriving DecidableEq

/-- The loop of `init_mem_pool`: `while (cell < lim) { next = cell+1;
cell->ptr = next; cell = next; }`; returns the memory and the final `cell`. -/
def init_loop (lim : Nat) (cells : Mem Nat) (cell : Nat) : Mem Nat × Nat :=
  if cell < lim then
    let next := cell + CELL_SIZE
    init_loop lim (cells.write cell next) next
  else (cells, cell)
termination_by lim - cell
decreasing_by simp [CELL_SIZE]; omega

/-- Translation of `init_mem_pool`; `p` is the address of `mem[0]`. -/
def init_mem_pool (p : Nat) (P : Pool) : Pool :=
  let pool_size := POOL_SIZE
  let r := init_loop ((p + pool_size) - 32) P.cells p
  let cells := r.1.write r.2 0
  { cells := cells, freelist := p, pool := p }

/-- Translation of `my_malloc`: the pool afterwards and the pointer returned. -/
def my_malloc (P : Pool) : Pool × Nat :=
  if P.freelist = 0 then (P, 0)
  else (({ P with freelist := P.cells.read P.freelist } : Pool), P.freelist)

/-- Translation of `my_free`. -/
def my_free (P : Pool) (ptr : Nat) : Pool :=
  let empty := ptr
  let P : Pool := { P with cells := P.cells.write empty P.freelist }
  { P with freelist := empty }

/-- The pointers returned by `n` successive `my_malloc` calls. -/
def my_malloc_n : Nat → Pool → Pool × List Nat
  | 0, P => (P, [])
  | n + 1, P =>
    let r := my_malloc P
    let q := my_malloc_n n r.1
    (q.1, r.2 :: q.2)

/-! ## Constants of the benchmark -/

def Count : Int := 10000
def Qpktcountval : Int := 23246
def Holdcountval : Int := 9297
def MAXINT : Int := 32767
def BUFSIZE : Nat := 3
def I_IDLE : Int := 1
def I_WORK : Int := 2
def I_HANDLERA : Int := 3
def I_HANDLERB : Int := 4
def I_DEVA : Int := 5
def I_DEVB : Int := 6
def PKTBIT : Int := 1
def WAITBIT : Int := 2
def HOLDBIT : Int := 4
def NOTHOLDBIT : Int := 0xFFFB
def S_RUN : Int := 0
def S_RUNPKT : Int := 1
def S_WAIT : Int := 2
def S_WAITPKT : Int := 3
def S_HOLD : Int := 4
def S_HOLDPKT : Int := 5
def S_HOLDWAIT : Int := 6
def S_HOLDWAITPKT : Int := 7
def K_DEV : Int := 1000
def K_WORK : Int := 1001

/-- The array `alphabet[28]`, initialised with "0ABCDEFGHIJKLMNOPQRSTUVWXYZ"
and a terminating zero. -/
def alphabet : List Int :=
  [48, 65, 66, 67, 68, 69, 70, 71, 72, 73, 74, 75, 76, 77,
   78, 79, 80, 81, 82, 83, 84, 85, 86, 87, 88, 89, 90, 0]

/-! ## Tasks, packets and the scheduler globals -/

/-- The behaviour functions a task can be bound to (`t_fn`); `null` is the
null function pointer of zeroed memory. -/
inductive Fn where
  | null | idlefn | workfn | handlerfn | devfn
deriving DecidableEq, Repr

/-- Translation of `struct packet`. -/
structure Packet where
  p_link : Nat
  p_id : Int
  p_kind : Int
  p_a1 : Int
  p_a2 : List Int
deriving DecidableEq, Repr

instance : Inhabited Packet := ⟨⟨0, 0, 0, 0, [0, 0, 0, 0]⟩⟩

/-- Translation of `struct task`. -/
structure Task where
  t_link : Nat
  t_id : Int
  t_pri : Int
  t_wkq : Nat
  t_state : Int
  t_fn : Fn
  t_v1 : Int
  t_v2 : Int
deriving DecidableEq, Repr

instance : Inhabited Task := ⟨⟨0, 0, 0, 0, 0, Fn.null, 0, 0⟩⟩

/-- The scheduler globals and the task and packet objects in memory. -/
structure State where
  tasks : Mem Task
  packets : Mem Packet
  tasktab : List Nat
  tasklist : Nat
  tcb : Nat
  taskid : Int
  v1 : Int
  v2 : Int
  qpktcount : Int
  holdcount : Int
  tracing : Int
  layout : Int
deriving DecidableEq

/-- The globals as initialised at program start. -/
def State.init : State :=
  { tasks := Mem.empty, packets := Mem.empty,
    tasktab := [10, 0, 0, 0, 0, 0, 0, 0, 0, 0, 0],
    tasklist := 0, tcb := 0, taskid := 0, v1 := 0, v2 := 0,
    qpktcount := 0, holdcount := 0, tracing := 0, layout := 0 }

/-- The task object `*t`. -/
def State.task (s : State) (t : Nat) : Task := s.tasks.read t

/-- The packet object `*p`. -/
def State.packet (s : State) (p : Nat) : Packet := s.packets.read p

/-- Assignment to the task object `*t`. -/
def State.setTask (s : State) (t : Nat) (T : Task) : State :=
  { s with tasks := s.tasks.write t T }

/-- Assignment to the packet object `*p`. -/
def State.setPacket (s : State) (p : Nat) (P : Packet) : State :=
  { s with packets := s.packets.write p P }

/-- The places `append` reaches through its `struct packet *ptr` argument: the
first word of a packet (`p_link`), or the word a cast pointer designates,
`&(t->t_wkq)`, `&v1` or `&v2`. -/
inductive Ref where
  | wkq (t : Nat)
  | v1
  | v2
  | pkt (p : Nat)
deriving DecidableEq, Repr

/-- The value of `ptr->p_link`. -/
def State.rdLink (s : State) : Ref → Nat
  | .wkq t => (s.task t).t_wkq
  | .v1 => s.v1.toNat
  | .v2 => s.v2.toNat
  | .pkt p => (s.packet p).p_link

/-- The assignment `ptr->p_link = x`. -/
def State.wrLink (s : State) : Ref → Nat → State
  | .wkq t, x => s.setTask t { s.task t with t_wkq := x }
  | .v1, x => { s with v1 := (x : Int) }
  | .v2, x => { s with v2 := (x : Int) }
  | .pkt p, x => s.setPacket p { s.packet p with p_link := x }

/-- Translation of `trace` (the output itself is not modelled). -/
def trace (s : State) (_a : Int) : State :=
  let s : State := { s with layout := s.layout - 1 }
  if s.layout ≤ 0 then { s with layout := 50 } else s

/-- Translation of `wait_task`. -/
def wait_task (s : State) : State × Nat :=
  let s := s.setTask s.tcb { s.task s.tcb with t_state := Int.lor (s.task s.tcb).t_state WAITBIT }
  (s, s.tcb)

/-- Translation of `holdself`. -/
def holdself (s : State) : State × Nat :=
  let s : State := { s with holdcount := s.holdcount + 1 }
  let s := s.setTask s.tcb { s.task s.tcb with t_state := Int.lor (s.task s.tcb).t_state HOLDBIT }
  (s, (s.task s.tcb).t_link)

/-- Translation of `findtcb` (the "Bad task id" message is not modelled). -/
def findtcb (s : State) (id : Int) : Nat :=
  let t := 0
  let t := if 1 ≤ id ∧ id ≤ (s.tasktab.getD 0 0 : Int) then s.tasktab.getD id.toNat 0 else t
  t

/-- Translation of `release`. -/
def release (s : State) (id : Int) : State × Nat :=
  let t := findtcb s id
  if t = 0 then (s, 0)
  else
    let s := s.setTask t { s.task t with t_state := Int.land (s.task t).t_state NOTHOLDBIT }
    if (s.task t).t_pri > (s.task s.tcb).t_pri then (s, t)
    else (s, s.tcb)

/-- The loop of `append`: `while (ptr->p_link) ptr = ptr->p_link;`. -/
def append_walk : Nat → State → Ref → Option Ref
  | 0, _, _ => none
  | fuel + 1, s, ptr =>
    if s.rdLink ptr ≠ 0 then append_walk fuel s (.pkt (s.rdLink ptr)) else some ptr

/-- Translation of `append`. -/
def append (fuel : Nat) (s : State) (pkt : Nat) (ptr : Ref) : Option State :=
  let s := s.setPacket pkt { s.packet pkt with p_link := 0 }
  match append_walk fuel s ptr with
  | none => none
  | some ptr => some (s.wrLink ptr pkt)

/-- Translation of `qpkt`. -/
def qpkt (fuel : Nat) (s : State) (pkt : Nat) : Option (State × Nat) :=
  let t := findtcb s (s.packet pkt).p_id
  if t = 0 then some (s, t)
  else
    let s : State := { s with qpktcount := s.qpktcount + 1 }
    let s := s.setPacket pkt { s.packet pkt with p_link := 0 }
    let s := s.setPacket pkt { s.packet pkt with p_id := s.taskid }
    if (s.task t).t_wkq = 0 then
      let s := s.setTask t { s.task t with t_wkq := pkt }
      let s := s.setTask t { s.task t with t_state := Int.lor (s.task t).t_state PKTBIT }
      if (s.task t).t_pri > (s.task s.tcb).t_pri then some (s, t)
      else some (s, s.tcb)
    else
      match append fuel s pkt (.wkq t) with
      | none => none
      | some s => some (s, s.tcb)

/-- Translation of `idlefn`. -/
def idlefn (s : State) (_pkt : Nat) : State × Nat :=
  let s : State := { s with v2 := s.v2 - 1 }
  if s.v2 = 0 then holdself s
  else if Int.land s.v1 1 = 0 then
    let s : State := { s with v1 := Int.land (s.v1 >>> 1) MAXINT }
    release s I_DEVA
  else
    let s : State := { s with v1 := Int.xor (Int.land (s.v1 >>> 1) MAXINT) 0xD008 }
    release s I_DEVB

/-- One pass of the body of the `for` loop of `workfn`, for index `i`. -/
def workfn_body (pkt : Nat) (s : State) (i : Nat) : State :=
  let s : State := { s with v2 := s.v2 + 1 }
  let s : State := if s.v2 > 26 then { s with v2 := 1 } else s
  s.setPacket pkt { s.packet pkt with
    p_a2 := (s.packet pkt).p_a2.set i (alphabet.getD s.v2.toNat 0) }

/-- The part of `workfn` between the test of `pkt` and the call of `qpkt`: the
destination alternates, the cursor is reset and the payload filled. -/
def workfn_fill (s : State) (pkt : Nat) : State :=
  let s : State := { s with v1 := I_HANDLERA + I_HANDLERB - s.v1 }
  let s := s.setPacket pkt { s.packet pkt with p_id := s.v1 }
  let s := s.setPacket pkt { s.packet pkt with p_a1 := 0 }
  (List.range (BUFSIZE + 1)).foldl (workfn_body pkt) s

/-- Translation of `workfn`. -/
def workfn (fuel : Nat) (s : State) (pkt : Nat) : Option (State × Nat) :=
  if pkt = 0 then some (wait_task s)
  else qpkt fuel (workfn_fill s pkt) pkt

/-- The first statement of `handlerfn`: an inbound packet is filed at the end of the
chain for its kind, `v1` for work packets and `v2` for device packets. -/
def handler_file (fuel : Nat) (s : State) (pkt : Nat) : Option State :=
  if pkt ≠ 0 then
    append fuel s pkt (if (s.packet pkt).p_kind = K_WORK then Ref.v1 else Ref.v2)
  else some s

/-- The statement `v1 = (long)(((struct packet *)v1)->p_link);` of `handlerfn`. -/
def handler_unlink_work (s : State) : State :=
  { s with v1 := ((s.packet s.v1.toNat).p_link : Int) }

/-- The statements of `handlerfn` that pair the first work packet with the first
device packet, up to the call of `qpkt`. -/
def handler_pair_dev (s : State) : State :=
  let workpkt := s.v1.toNat
  let count := (s.packet workpkt).p_a1
  let devpkt := s.v2.toNat
  let s : State := { s with v2 := ((s.packet s.v2.toNat).p_link : Int) }
  let s := s.setPacket devpkt { s.packet devpkt with
    p_a1 := (s.packet workpkt).p_a2.getD count.toNat 0 }
  s.setPacket workpkt { s.packet workpkt with p_a1 := count + 1 }

/-- The part of `handlerfn` after the inbound packet has been filed. -/
def handler_pair (fuel : Nat) (s : State) : Option (State × Nat) :=
  if s.v1 ≠ 0 then
    let workpkt := s.v1.toNat
    let count := (s.packet workpkt).p_a1
    if count > BUFSIZE then qpkt fuel (handler_unlink_work s) workpkt
    else if s.v2 ≠ 0 then qpkt fuel (handler_pair_dev s) s.v2.toNat
    else some (wait_task s)
  else some (wait_task s)

/-- Translation of `handlerfn`. -/
def handlerfn (fuel : Nat) (s : State) (pkt : Nat) : Option (State × Nat) :=
  match handler_file fuel s pkt with
  | none => none
  | some s => handler_pair fuel s

/-- Translation of `devfn`. -/
def devfn (fuel : Nat) (s : State) (pkt : Nat) : Option (State × Nat) :=
  if pkt = 0 then
    if s.v1 = 0 then some (wait_task s)
    else
      let pkt := s.v1.toNat
      let s : State := { s with v1 := 0 }
      qpkt fuel s pkt
  else
    let s : State := { s with v1 := (pkt : Int) }
    let s := if s.tracing ≠ 0 then trace s (s.packet pkt).p_a1 else s
    some (holdself s)

/-- The indirect call `(*(tcb->t_fn))(pkt)`; calling the null pointer does not
return. -/
def callFn (f : Fn) (fuel : Nat) (s : State) (pkt : Nat) : Option (State × Nat) :=
  match f with
  | .null => none
  | .idlefn => some (idlefn s pkt)
  | .workfn => workfn fuel s pkt
  | .handlerfn => handlerfn fuel s pkt
  | .devfn => devfn fuel s pkt

/-- The `S_WAITPKT` case of `schedule` up to its fall through: the state
afterwards and the packet taken from the queue. -/
def dequeue (s : State) : State × Nat :=
  let pkt := (s.task s.tcb).t_wkq
  let s := s.setTask s.tcb { s.task s.tcb with t_wkq := (s.packet pkt).p_link }
  let s := s.setTask s.tcb { s.task s.tcb with
    t_state := if (s.task s.tcb).t_wkq = 0 then S_RUN else S_RUNPKT }
  (s, pkt)

/-- The `S_RUN`/`S_RUNPKT` case of `schedule` before the call of the behaviour:
`taskid = tcb->t_id; v1 = tcb->t_v1; v2 = tcb->t_v2; if (tracing) trace(taskid+'0');`. -/
def load_scratch (s : State) : State :=
  let s : State := { s with taskid := (s.task s.tcb).t_id }
  let s : State := { s with v1 := (s.task s.tcb).t_v1 }
  let s : State := { s with v2 := (s.task s.tcb).t_v2 }
  if s.tracing ≠ 0 then trace s (s.taskid + 48) else s

/-- The `S_RUN`/`S_RUNPKT` case of `schedule` after the call of the behaviour, which
left the state `r.1` and returned `r.2`:
`tcb->t_v1 = v1; tcb->t_v2 = v2; tcb = newtcb;`. -/
def store_scratch (r : State × Nat) : State :=
  let s := r.1
  let newtcb := r.2
  let s := s.setTask s.tcb { s.task s.tcb with t_v1 := s.v1 }
  let s := s.setTask s.tcb { s.task s.tcb with t_v2 := s.v2 }
  { s with tcb := newtcb }

/-- The `S_RUN`/`S_RUNPKT` case of `schedule`: load the scratch slots, call the
behaviour `(*(tcb->t_fn))(pkt)`, store the scratch slots back, take the returned task
as current. -/
def dispatch (fuel : Nat) (s : State) (pkt : Nat) : Option State :=
  let s := load_scratch s
  match callFn (s.task s.tcb).t_fn fuel s pkt with
  | none => none
  | some r => some (store_scratch r)

/-- Translation of `schedule`: `none` when the fuel runs out before the loop
ends, otherwise the state in which `schedule` returns. -/
def schedule : Nat → State → Option State
  | 0, _ => none
  | fuel + 1, s =>
    if s.tcb ≠ 0 then
      let st := (s.task s.tcb).t_state
      if st = S_WAITPKT then
        let r := dequeue s
        match dispatch fuel r.1 r.2 with
        | none => none
        | some s => schedule fuel s
      else if st = S_RUN ∨ st = S_RUNPKT then
        match dispatch fuel s 0 with
        | none => none
        | some s => schedule fuel s
      else if st = S_WAIT ∨ st = S_HOLD ∨ st = S_HOLDPKT ∨ st = S_HOLDWAIT
          ∨ st = S_HOLDWAITPKT then
        schedule fuel { s with tcb := (s.task s.tcb).t_link }
      else some s
    else some s

/-- Translation of `createtask`. -/
def createtask (M : Pool × State) (id : Int) (pri : Int) (wkq : Nat) (state : Int)
    (fn : Fn) (v1 : Int) (v2 : Int) : Pool × State :=
  let r := my_malloc M.1
  let t := r.2
  let s := M.2
  let s : State := { s with tasktab := s.tasktab.set id.toNat t }
  let s := s.setTask t
    { t_link := s.tasklist, t_id := id, t_pri := pri, t_wkq := wkq, t_state := state,
      t_fn := fn, t_v1 := v1, t_v2 := v2 }
  (r.1, { s with tasklist := t })

/-- Translation of `pkt`: the memory afterwards and the packet returned. -/
def pkt (M : Pool × State) (link : Nat) (id : Int) (kind : Int) : (Pool × State) × Nat :=
  let r := my_malloc M.1
  let p := r.2
  let s := M.2
  let s := (List.range (BUFSIZE + 1)).foldl
    (fun s i => s.setPacket p { s.packet p with p_a2 := (s.packet p).p_a2.set i 0 }) s
  let s := s.setPacket p { s.packet p with p_link := link }
  let s := s.setPacket p { s.packet p with p_id := id }
  let s := s.setPacket p { s.packet p with p_kind := kind }
  let s := s.setPacket p { s.packet p with p_a1 := 0 }
  ((r.1, s), p)

/-- The part of `bench` before the call of `schedule`. -/
def bench_setup (M : Pool × State) : Pool × State :=
  let wkq := 0
  let M := createtask M I_IDLE 0 wkq S_RUN Fn.idlefn 1 Count
  let r := pkt M 0 0 K_WORK
  let r := pkt r.1 r.2 0 K_WORK
  let M := createtask r.1 I_WORK 1000 r.2 S_WAITPKT Fn.workfn I_HANDLERA 0
  let r := pkt M 0 I_DEVA K_DEV
  let r := pkt r.1 r.2 I_DEVA K_DEV
  let r := pkt r.1 r.2 I_DEVA K_DEV
  let M := createtask r.1 I_HANDLERA 2000 r.2 S_WAITPKT Fn.handlerfn 0 0
  let r := pkt M 0 I_DEVB K_DEV
  let r := pkt r.1 r.2 I_DEVB K_DEV
  let r := pkt r.1 r.2 I_DEVB K_DEV
  let M := createtask r.1 I_HANDLERB 3000 r.2 S_WAITPKT Fn.handlerfn 0 0
  let wkq := 0
  let M := createtask M I_DEVA 4000 wkq S_WAIT Fn.devfn 0 0
  let M := createtask M I_DEVB 5000 wkq S_WAIT Fn.devfn 0 0
  let s := M.2
  let s : State := { s with tcb := s.tasklist }
  let s : State := { s with holdcount := 0 }
  let s : State := { s with qpktcount := s.holdcount }
  let s : State := { s with tracing := 0 }
  let s : State := { s with layout := 0 }
  (M.1, s)

/-! ## Linked lists in memory -/

/-- The cells reached from `h` by following `next` are exactly those of `l`, in
order, and the list ends with the null pointer. -/
def Chain (next : Nat → Nat) : Nat → List Nat → Prop
  | h, [] => h = 0
  | h, c :: l => h = c ∧ c ≠ 0 ∧ Chain next (next c) l

/-- The freelist of the allocator, as the list of its cells. -/
def Pool.FreeList (P : Pool) (l : List Nat) : Prop :=
  Chain (fun c => P.cells.read c) P.freelist l

/-- The work queue of task `t`, as the list of its packets. -/
def State.Queue (s : State) (t : Nat) (l : List Nat) : Prop :=
  Chain (fun p => (s.packet p).p_link) (s.task t).t_wkq l

/-- Successive calls `qpkt(P1); qpkt(P2); ...` for the packets of the list, the
returned task pointers being ignored. -/
def qpkt_all (fuel : Nat) : State → List Nat → Option State
  | s, [] => some s
  | s, p :: ps =>
    match qpkt fuel s p with
    | none => none
    | some r => qpkt_all fuel r.1 ps

/-- The packets taken by `n` successive dequeue steps (the `S_WAITPKT` case of
`schedule`) on the current task, in the order in which they are taken. -/
def drain : Nat → State → List Nat
  | 0, _ => []
  | n + 1, s => (dequeue s).2 :: drain n (dequeue s).1

/-- The identifier that the behaviour `f`, called with `pkt` in state `s`, passes to
`findtcb` through its call of `release` or `qpkt`; `none` when it makes no such call
(it calls `holdself` or `wait_task` instead) or does not get that far. -/
def lookup_id (f : Fn) (fuel : Nat) (s : State) (pkt : Nat) : Option Int :=
  match f with
  | .null => none
  | .idlefn =>
    if s.v2 - 1 = 0 then none
    else if Int.land s.v1 1 = 0 then some I_DEVA else some I_DEVB
  | .workfn => if pkt = 0 then none else some (I_HANDLERA + I_HANDLERB - s.v1)
  | .handlerfn =>
    match handler_file fuel s pkt with
    | none => none
    | some s =>
      if s.v1 ≠ 0 then
        if (s.packet s.v1.toNat).p_a1 > BUFSIZE then some (s.packet s.v1.toNat).p_id
        else if s.v2 ≠ 0 then some (s.packet s.v2.toNat).p_id
        else none
      else none
  | .devfn =>
    if pkt = 0 then
      if s.v1 = 0 then none else some (s.packet s.v1.toNat).p_id
    else none

/-- The state in which `qpkt` looks at the queue of the destination: the counter is
incremented, the link of the packet cleared and the packet stamped with `taskid`. -/
def qpkt_stamped (s : State) (pkt : Nat) : State :=
  ({ s with qpktcount := s.qpktcount + 1 } : State).setPacket pkt
    { s.packet pkt with p_link := 0, p_id := s.taskid }

/-- The state `qpkt` leaves when the queue of the destination `t` is empty. -/
def qpkt_empty_state (s : State) (pkt t : Nat) : State :=
  (qpkt_stamped s pkt).setTask t
    { s.task t with t_wkq := pkt, t_state := Int.lor (s.task t).t_state PKTBIT }

/-- The state `qpkt` leaves when the queue of the destination is not empty and `q` is
its last packet. -/
def qpkt_append_state (s : State) (pkt q : Nat) : State :=
  (qpkt_stamped s pkt).setPacket q { (qpkt_stamped s pkt).packet q with p_link := pkt }

/-! ## A small configuration for examples -/

/-- A configuration with three tasks: the current task at 64 (identifier 1, priority
0, bound to `idlefn`, scratch `(1, 5)`), the task at 128 (identifier 2, priority 1000,
in `S_WAITPKT` with the packet 192 queued) and the task at 320 (identifier 3,
priority 2000, in `S_WAIT` with an empty queue); the packets 256 (addressed to
task 2), 384 and 448 (addressed to task 3) are not queued. -/
def State.sample : State :=
  { tasks := [(64, ⟨0, 1, 0, 0, 0, Fn.idlefn, 1, 5⟩),
              (128, ⟨64, 2, 1000, 192, 3, Fn.workfn, 3, 0⟩),
              (320, ⟨128, 3, 2000, 0, 2, Fn.handlerfn, 0, 0⟩)],
    packets := [(192, ⟨0, 2, 1001, 0, [0, 0, 0, 0]⟩),
                (256, ⟨0, 2, 1001, 0, [0, 0, 0, 0]⟩),
                (384, ⟨0, 3, 1000, 0, [0, 0, 0, 0]⟩),
                (448, ⟨0, 3, 1000, 0, [0, 0, 0, 0]⟩)],
    tasktab := [10, 64, 128, 320, 0, 0, 0, 0, 0, 0, 0],
    tasklist := 320, tcb := 64, taskid := 1, v1 := 1, v2 := 5,
    qpktcount := 0, holdcount := 0, tracing := 0, layout := 0 }

/-! ## The iterations of the scheduler loop -/

/-- The states at the top of the iterations of the loop of `schedule`, in order, with
the state in which the loop ends last: the recursion of `schedule`, collecting the
states.  The list stops early where the fuel runs out or a behaviour does not
return. -/
def schedule_trace : Nat → State → List State
  | 0, _ => []
  | fuel + 1, s =>
    s :: (if s.tcb ≠ 0 then
      let st := (s.task s.tcb).t_state
      if st = S_WAITPKT then
        let r := dequeue s
        match dispatch fuel r.1 r.2 with
        | none => []
        | some s => schedule_trace fuel s
      else if st = S_RUN ∨ st = S_RUNPKT then
        match dispatch fuel s 0 with
        | none => []
        | some s => schedule_trace fuel s
      else if st = S_WAIT ∨ st = S_HOLD ∨ st = S_HOLDPKT ∨ st = S_HOLDWAIT
          ∨ st = S_HOLDWAITPKT then
        schedule_trace fuel { s with tcb := (s.task s.tcb).t_link }
      else []
    else [])

/-! ## The benchmark driver -/

/-- How a function that may call `exit` ends. -/
inductive Outcome (α : Type) where
  | returned (a : α)
  | exited (code : Int)

/-- Translation of `bench`: the memory afterwards and the value returned, or
`exited 1` when the counters are not the expected ones; `none` when `schedule` does
not return within `fuel` iterations. -/
def bench (fuel : Nat) (M : Pool × State) : Option (Outcome ((Pool × State) × Int)) :=
  let M := bench_setup M
  match schedule fuel M.2 with
  | none => none
  | some s =>
    if ¬ (s.qpktcount = Qpktcountval ∧ s.holdcount = Holdcountval) then some (.exited 1)
    else some (.returned ((M.1, s), s.qpktcount))

/-- The loop of `inner_loop` with `n` iterations to go and the sum `r` so far. -/
def inner_loop_from (fuel : Nat) : Nat → Int → Pool × State →
    Option (Outcome ((Pool × State) × Int))
  | 0, r, M => some (.returned (M, r))
  | n + 1, r, M =>
    match bench fuel M with
    | none => none
    | some (.exited c) => some (.exited c)
    | some (.returned (M, q)) => inner_loop_from fuel n (r + q) M

/-- Translation of `inner_loop`. -/
def inner_loop (fuel : Nat) (inner : Int) (M : Pool × State) :
    Option (Outcome ((Pool × State) × Int)) :=
  inner_loop_from fuel inner.toNat 0 M

/-- Translation of `start`, for the pool at address `p`: one pass of the outer loop
(`iterations = 1`) with `inner_iterations = 100`; the value is the final `result`. -/
def start (fuel : Nat) (p : Nat) (M : Pool × State) :
    Option (Outcome ((Pool × State) × Int)) :=
  let M := (init_mem_pool p M.1, M.2)
  match inner_loop fuel 100 M with
  | none => none
  | some (.exited c) => some (.exited c)
  | some (.returned (M, r)) => some (.returned (M, 0 + r))

/-! ## The task list -/

/-- The tasks met when following `t_link` from `t`, at most `n` of them, up to the
null pointer. -/
def State.listFrom (s : State) : Nat → Nat → List Nat
  | 0, _ => []
  | n + 1, t => if t = 0 then [] else t :: s.listFrom n (s.task t).t_link

/-- The tasks met when following `t_link` from `t`, at most `n` of them, before the
current task or the null pointer is reached: the tasks that precede the current
task when `t` is the head of the task list. -/
def State.before (s : State) : Nat → Nat → List Nat
  | 0, _ => []
  | n + 1, t => if t = 0 ∨ t = s.tcb then [] else t :: s.before n (s.task t).t_link

/-- The states in which `schedule` passes a task by: `S_WAIT` and the four held
states. -/
def parked (st : Int) : Prop :=
  st = S_WAIT ∨ st = S_HOLD ∨ st = S_HOLDPKT ∨ st = S_HOLDWAIT ∨ st = S_HOLDWAITPKT

instance (st : Int) : Decidable (parked st) := by
  unfold parked
  infer_instance

/-- Every one of the first `n` tasks of the task list that precedes the current task
is passed by. -/
def State.PriorityOrdered (s : State) (n : Nat) : Prop :=
  ∀ t ∈ s.before n s.tasklist, parked (s.task t).t_state

/-! ## Consistency of the task states -/

/-- The state of a task is one of the eight composite states and its packet-pending
bit tells whether its queue is non-empty. -/
def Task.consistent (T : Task) : Prop :=
  0 ≤ T.t_state ∧ T.t_state ≤ 7 ∧ (Int.land T.t_state PKTBIT ≠ 0 ↔ T.t_wkq ≠ 0)

/-- Every task is consistent (memory never written holds a zero task: state `S_RUN`,
empty queue). -/
def State.Consistent (s : State) : Prop := ∀ t, (s.task t).consistent

/-! ## Two configurations of a handler for examples -/

/-- The sample configuration with the handler at 320 as the current task: its work
chain `v1` is the work packet 256, whose cursor is 2 and whose payload is `ABCD`, its
device chain `v2` is the device packet 384 followed by 448; the packet 384 is
addressed to task 1, the packet 256 to task 2. -/
def State.pairing : State :=
  { tasks := [(64, ⟨0, 1, 0, 0, 0, Fn.idlefn, 1, 5⟩),
              (128, ⟨64, 2, 1000, 192, 3, Fn.workfn, 3, 0⟩),
              (320, ⟨128, 3, 2000, 0, 0, Fn.handlerfn, 256, 384⟩)],
    packets := [(192, ⟨0, 2, 1001, 0, [0, 0, 0, 0]⟩),
                (256, ⟨0, 2, 1001, 2, [65, 66, 67, 68]⟩),
                (384, ⟨448, 1, 1000, 0, [0, 0, 0, 0]⟩),
                (448, ⟨0, 1, 1000, 0, [0, 0, 0, 0]⟩)],
    tasktab := [10, 64, 128, 320, 0, 0, 0, 0, 0, 0, 0],
    tasklist := 320, tcb := 320, taskid := 3, v1 := 256, v2 := 384,
    qpktcount := 0, holdcount := 0, tracing := 0, layout := 0 }

/-- The configuration `State.pairing` with the cursor of the work packet 256 at 4, the
number of characters of the payload. -/
def State.forwarding : State :=
  { State.pairing with
    packets := [(192, ⟨0, 2, 1001, 0, [0, 0, 0, 0]⟩),
                (256, ⟨0, 2, 1001, 4, [65, 66, 67, 68]⟩),
                (384, ⟨448, 1, 1000, 0, [0, 0, 0, 0]⟩),
                (448, ⟨0, 1, 1000, 0, [0, 0, 0, 0]⟩)] }

/-- A pool of three free cells at 64, 128 and 192. -/
def Pool.sample : Pool := { cells := [(64, 128), (128, 192), (192, 0)], pool := 64, freelist := 64 }

/-! ## A flat representation of the benchmark configuration

The six tasks and eight packets of one `bench` run occupy fourteen consecutive cells of
the pool.  In the flat representation a pointer to the cell number `i` (1 to 14, in
the order of allocation) is the index `i`, the null pointer is 0, and the tasks and
packets are the fields of a record.  It is used to evaluate the run; `FState.abs`
gives the configuration that a flat state stands for. -/

/-- The mutable fields of a packet; `link` is an index. -/
structure FPkt where
  link : Nat
  id : Int
  a1 : Int
  b0 : Int
  b1 : Int
  b2 : Int
  b3 : Int
deriving DecidableEq

/-- The mutable fields of a task; `wkq` is an index. -/
structure FTask where
  wkq : Nat
  state : Int
  v1 : Int
  v2 : Int
deriving DecidableEq

/-- The six tasks, named by their cell numbers. -/
structure FTasks where
  t1 : FTask
  t4 : FTask
  t8 : FTask
  t12 : FTask
  t13 : FTask
  t14 : FTask
deriving DecidableEq

/-- The eight packets, named by their cell numbers. -/
structure FPkts where
  p2 : FPkt
  p3 : FPkt
  p5 : FPkt
  p6 : FPkt
  p7 : FPkt
  p9 : FPkt
  p10 : FPkt
  p11 : FPkt
deriving DecidableEq

/-- The flat state: tasks, packets, the index of the current task and the counters. -/
structure FState where
  tasks : FTasks
  pkts : FPkts
  tcb : Nat
  qpktcount : Int
  holdcount : Int
deriving DecidableEq

/-- The task in cell `i`. -/
def FTasks.rd (m : FTasks) (i : Nat) : Option FTask :=
  match m with
  | ⟨a, b, c, d, e, f⟩ =>
    bif Nat.ble i 8 then
      bif Nat.beq i 1 then some a else bif Nat.beq i 4 then some b
      else bif Nat.beq i 8 then some c else none
    else
      bif Nat.beq i 12 then some d else bif Nat.beq i 13 then some e
      else bif Nat.beq i 14 then some f else none

/-- Assignment to the task in cell `i`. -/
def FTasks.wr (m : FTasks) (i : Nat) (T : FTask) : FTasks :=
  match m with
  | ⟨a, b, c, d, e, f⟩ =>
    bif Nat.ble i 8 then
      bif Nat.beq i 1 then ⟨T, b, c, d, e, f⟩ else bif Nat.beq i 4 then ⟨a, T, c, d, e, f⟩
      else bif Nat.beq i 8 then ⟨a, b, T, d, e, f⟩ else ⟨a, b, c, d, e, f⟩
    else
      bif Nat.beq i 12 then ⟨a, b, c, T, e, f⟩ else bif Nat.beq i 13 then ⟨a, b, c, d, T, f⟩
      else bif Nat.beq i 14 then ⟨a, b, c, d, e, T⟩ else ⟨a, b, c, d, e, f⟩

/-- The packet in cell `i`. -/
def FPkts.rd (m : FPkts) (i : Nat) : Option FPkt :=
  match m with
  | ⟨a, b, c, d, e, f, g, h⟩ =>
    bif Nat.ble i 6 then
      bif Nat.ble i 3 then
        bif Nat.beq i 2 then some a else bif Nat.beq i 3 then some b else none
      else bif Nat.beq i 5 then some c else bif Nat.beq i 6 then some d else none
    else
      bif Nat.ble i 9 then
        bif Nat.beq i 7 then some e else bif Nat.beq i 9 then some f else none
      else bif Nat.beq i 10 then some g else bif Nat.beq i 11 then some h else none

/-- Assignment to the packet in cell `i`. -/
def FPkts.wr (m : FPkts) (i : Nat) (P : FPkt) : FPkts :=
  match m with
  | ⟨a, b, c, d, e, f, g, h⟩ =>
    bif Nat.ble i 6 then
      bif Nat.ble i 3 then
        bif Nat.beq i 2 then ⟨P, b, c, d, e, f, g, h⟩
        else bif Nat.beq i 3 then ⟨a, P, c, d, e, f, g, h⟩ else ⟨a, b, c, d, e, f, g, h⟩
      else bif Nat.beq i 5 then ⟨a, b, P, d, e, f, g, h⟩
        else bif Nat.beq i 6 then ⟨a, b, c, P, e, f, g, h⟩ else ⟨a, b, c, d, e, f, g, h⟩
    else
      bif Nat.ble i 9 then
        bif Nat.beq i 7 then ⟨a, b, c, d, P, f, g, h⟩
        else bif Nat.beq i 9 then ⟨a, b, c, d, e, P, g, h⟩ else ⟨a, b, c, d, e, f, g, h⟩
      else bif Nat.beq i 10 then ⟨a, b, c, d, e, f, P, h⟩
        else bif Nat.beq i 11 then ⟨a, b, c, d, e, f, g, P⟩ else ⟨a, b, c, d, e, f, g, h⟩

/-- The identifier of the task in cell `i`. -/
def tId (i : Nat) : Int :=
  bif Nat.ble i 8 then bif Nat.beq i 1 then 1 else bif Nat.beq i 4 then 2 else 3
  else bif Nat.beq i 12 then 4 else bif Nat.beq i 13 then 5 else 6

/-- The priority of the task in cell `i`. -/
def tPri (i : Nat) : Nat :=
  bif Nat.ble i 8 then bif Nat.beq i 1 then 0 else bif Nat.beq i 4 then 1000 else 2000
  else bif Nat.beq i 12 then 3000 else bif Nat.beq i 13 then 4000 else 5000

/-- The cell of the next task in the task list; 0 stands for what `tasklist` was when
the first of the six tasks was created. -/
def tLink (i : Nat) : Nat :=
  bif Nat.ble i 8 then bif Nat.beq i 1 then 0 else bif Nat.beq i 4 then 1 else 4
  else bif Nat.beq i 12 then 8 else bif Nat.beq i 13 then 12 else 13

/-- The behaviour of the task in cell `i`. -/
def tFn (i : Nat) : Fn :=
  bif Nat.ble i 8 then bif Nat.beq i 1 then Fn.idlefn else bif Nat.beq i 4 then Fn.workfn
    else Fn.handlerfn
  else bif Nat.beq i 12 then Fn.handlerfn else Fn.devfn

/-- The cell of the task with identifier `id`, 0 if there is none: `findtcb`. -/
def fFind (id : Int) : Nat :=
  match id with
  | Int.ofNat n =>
    bif Nat.ble n 3 then
      bif Nat.beq n 1 then 1 else bif Nat.beq n 2 then 4 else bif Nat.beq n 3 then 8 else 0
    else bif Nat.beq n 4 then 12 else bif Nat.beq n 5 then 13 else bif Nat.beq n 6 then 14 else 0
  | Int.negSucc _ => 0

/-- The loop of `append` from packet `i` on. -/
def fWalk : Nat → FPkts → Nat → Option Nat
  | 0, _, _ => none
  | k + 1, ps, i =>
    match ps.rd i with
    | none => none
    | some P => bif Nat.beq P.link 0 then some i else fWalk k ps P.link

/-- The function `append` for a chain whose head `h` is kept in a scratch slot: the
packets afterwards and the new head. -/
def fAppend (fuel : Nat) (ps : FPkts) (h pkt : Nat) : Option (FPkts × Nat) :=
  match fuel with
  | 0 => none
  | k + 1 =>
    match ps.rd pkt with
    | none => none
    | some P =>
      bif Nat.beq h 0 then some (ps.wr pkt ⟨0, P.id, P.a1, P.b0, P.b1, P.b2, P.b3⟩, pkt)
      else
        match fWalk k (ps.wr pkt ⟨0, P.id, P.a1, P.b0, P.b1, P.b2, P.b3⟩) h with
        | none => none
        | some q =>
          match (ps.wr pkt ⟨0, P.id, P.a1, P.b0, P.b1, P.b2, P.b3⟩).rd q with
          | none => none
          | some Q =>
            some ((ps.wr pkt ⟨0, P.id, P.a1, P.b0, P.b1, P.b2, P.b3⟩).wr q
              ⟨pkt, Q.id, Q.a1, Q.b0, Q.b1, Q.b2, Q.b3⟩, h)

/-- The function `qpkt` called by the task in cell `cur` for the packet in cell `pkt`:
tasks and packets afterwards and the cell of the task returned.  It gives up (`none`)
when the lookup fails or the destination is the caller. -/
def fQpkt (fuel : Nat) (ts : FTasks) (ps : FPkts) (cur pkt : Nat) :
    Option (FTasks × FPkts × Nat) :=
  match ps.rd pkt with
  | none => none
  | some P =>
    bif Nat.beq (fFind P.id) 0 then none
    else bif Nat.beq (fFind P.id) cur then none
    else
      match ts.rd (fFind P.id) with
      | none => none
      | some T =>
        bif Nat.beq T.wkq 0 then
          some (ts.wr (fFind P.id) ⟨pkt, Int.lor T.state 1, T.v1, T.v2⟩,
            ps.wr pkt ⟨0, tId cur, P.a1, P.b0, P.b1, P.b2, P.b3⟩,
            bif Nat.blt (tPri cur) (tPri (fFind P.id)) then fFind P.id else cur)
        else
          match fuel with
          | 0 => none
          | k + 1 =>
            match fWalk k (ps.wr pkt ⟨0, tId cur, P.a1, P.b0, P.b1, P.b2, P.b3⟩) T.wkq with
            | none => none
            | some q =>
              match (ps.wr pkt ⟨0, tId cur, P.a1, P.b0, P.b1, P.b2, P.b3⟩).rd q with
              | none => none
              | some Q =>
                some (ts, (ps.wr pkt ⟨0, tId cur, P.a1, P.b0, P.b1, P.b2, P.b3⟩).wr q
                  ⟨pkt, Q.id, Q.a1, Q.b0, Q.b1, Q.b2, Q.b3⟩, cur)

/-- The end of a dispatch that called `qpkt`: the scratch values `v1`, `v2` are stored
into the task `T` in cell `i`, the counter of queued packets is incremented. -/
def fSent (f : FState) (i : Nat) (T : FTask) (v1 v2 : Int)
    (r : Option (FTasks × FPkts × Nat)) : Option FState :=
  match r with
  | none => none
  | some (ts, ps, n) =>
    some ⟨ts.wr i ⟨T.wkq, T.state, v1, v2⟩, ps, n, f.qpktcount + 1, f.holdcount⟩

/-- The end of a dispatch that called `wait_task`. -/
def fWait (f : FState) (ts : FTasks) (ps : FPkts) (i : Nat) (T : FTask) (v1 v2 : Int) :
    Option FState :=
  some ⟨ts.wr i ⟨T.wkq, Int.lor T.state 2, v1, v2⟩, ps, i, f.qpktcount, f.holdcount⟩

/-- The end of a dispatch that called `holdself`. -/
def fHold (f : FState) (ts : FTasks) (ps : FPkts) (i : Nat) (T : FTask) (v1 v2 : Int) :
    Option FState :=
  some ⟨ts.wr i ⟨T.wkq, Int.lor T.state 4, v1, v2⟩, ps, tLink i, f.qpktcount, f.holdcount + 1⟩

/-- The end of a dispatch of `idlefn` that called `release` for the task in cell `t`. -/
def fRelease (f : FState) (ts : FTasks) (T : FTask) (v1 v2 : Int) (t : Nat) : Option FState :=
  match ts.rd t with
  | none => none
  | some U =>
    some ⟨(ts.wr t ⟨U.wkq, Int.land U.state 0xFFFB, U.v1, U.v2⟩).wr 1 ⟨T.wkq, T.state, v1, v2⟩,
      f.pkts, bif Nat.blt (tPri 1) (tPri t) then t else 1, f.qpktcount, f.holdcount⟩

/-- A dispatch of `idlefn`; `T` is the record of the idle task. -/
def fIdle (f : FState) (ts : FTasks) (T : FTask) : Option FState :=
  if T.v2 - 1 = 0 then fHold f ts f.pkts 1 T T.v1 (T.v2 - 1)
  else if Int.land T.v1 1 = 0 then
    fRelease f ts T (Int.land (T.v1 >>> 1) 32767) (T.v2 - 1) 13
  else fRelease f ts T (Int.xor (Int.land (T.v1 >>> 1) 32767) 53256) (T.v2 - 1) 14

/-- One pass of the loop of `workfn` on the counter `v2`. -/
def fBump (v2 : Int) : Int := if v2 + 1 > 26 then 1 else v2 + 1

/-- A dispatch of `workfn`; `T` is the record of the worker task. -/
def fWork (fuel : Nat) (f : FState) (ts : FTasks) (T : FTask) (pkt : Nat) : Option FState :=
  bif Nat.beq pkt 0 then fWait f ts f.pkts 4 T T.v1 T.v2
  else
    match f.pkts.rd pkt with
    | none => none
    | some P =>
      fSent f 4 T (7 - T.v1) (fBump (fBump (fBump (fBump T.v2))))
        (fQpkt fuel ts (f.pkts.wr pkt ⟨P.link, 7 - T.v1, 0,
            alphabet.getD (fBump T.v2).toNat 0,
            alphabet.getD (fBump (fBump T.v2)).toNat 0,
            alphabet.getD (fBump (fBump (fBump T.v2))).toNat 0,
            alphabet.getD (fBump (fBump (fBump (fBump T.v2)))).toNat 0⟩) 4 pkt)

/-- The payload character at index `n`. -/
def FPkt.char (P : FPkt) (n : Nat) : Int :=
  match n with
  | 0 => P.b0
  | 1 => P.b1
  | 2 => P.b2
  | 3 => P.b3
  | _ => 0

/-- The part of `handlerfn` after the inbound packet has been filed: `w` and `d` are
the heads of the chains of work packets and of device packets. -/
def fPair (fuel : Nat) (f : FState) (ts : FTasks) (ps : FPkts) (i : Nat) (T : FTask)
    (w d : Nat) : Option FState :=
  bif Nat.beq w 0 then fWait f ts ps i T (Int.ofNat w) (Int.ofNat d)
  else
    match ps.rd w with
    | none => none
    | some W =>
      if W.a1 > 3 then
        fSent f i T (Int.ofNat W.link) (Int.ofNat d) (fQpkt fuel ts ps i w)
      else bif Nat.beq d 0 then fWait f ts ps i T (Int.ofNat w) (Int.ofNat d)
      else
        match ps.rd d with
        | none => none
        | some D =>
          match (ps.wr d ⟨D.link, D.id, W.char W.a1.toNat, D.b0, D.b1, D.b2, D.b3⟩).rd w with
          | none => none
          | some W' =>
            fSent f i T (Int.ofNat w) (Int.ofNat D.link)
              (fQpkt fuel ts
                ((ps.wr d ⟨D.link, D.id, W.char W.a1.toNat, D.b0, D.b1, D.b2, D.b3⟩).wr w
                  ⟨W'.link, W'.id, W.a1 + 1, W'.b0, W'.b1, W'.b2, W'.b3⟩) i d)

/-- A dispatch of `handlerfn` for the handler in cell `i`. -/
def fHandler (fuel : Nat) (f : FState) (ts : FTasks) (i : Nat) (T : FTask) (pkt : Nat) :
    Option FState :=
  bif Nat.beq pkt 0 then fPair fuel f ts f.pkts i T T.v1.toNat T.v2.toNat
  else bif Nat.ble pkt 3 then
    match fAppend fuel f.pkts T.v1.toNat pkt with
    | none => none
    | some (ps, w) => fPair fuel f ts ps i T w T.v2.toNat
  else
    match fAppend fuel f.pkts T.v2.toNat pkt with
    | none => none
    | some (ps, d) => fPair fuel f ts ps i T T.v1.toNat d

/-- A dispatch of `devfn` for the device task in cell `i`. -/
def fDev (fuel : Nat) (f : FState) (ts : FTasks) (i : Nat) (T : FTask) (pkt : Nat) :
    Option FState :=
  bif Nat.beq pkt 0 then
    bif Nat.beq T.v1.toNat 0 then fWait f ts f.pkts i T (Int.ofNat T.v1.toNat) T.v2
    else fSent f i T 0 T.v2 (fQpkt fuel ts f.pkts i T.v1.toNat)
  else fHold f ts f.pkts i T (Int.ofNat pkt) T.v2

/-- The call of the behaviour of the task in cell `i`. -/
def fCall (fuel : Nat) (f : FState) (ts : FTasks) (i : Nat) (T : FTask) (pkt : Nat) :
    Option FState :=
  bif Nat.ble i 4 then bif Nat.beq i 1 then fIdle f ts T else fWork fuel f ts T pkt
  else bif Nat.ble i 12 then fHandler fuel f ts i T pkt else fDev fuel f ts i T pkt

/-- One iteration of the loop of `schedule`. -/
def fStep (fuel : Nat) (f : FState) : Option FState :=
  match f.tasks.rd f.tcb with
  | none => none
  | some T =>
    match T.state with
    | Int.ofNat 0 => fCall fuel f f.tasks f.tcb T 0
    | Int.ofNat 1 => fCall fuel f f.tasks f.tcb T 0
    | Int.ofNat 2 => some ⟨f.tasks, f.pkts, tLink f.tcb, f.qpktcount, f.holdcount⟩
    | Int.ofNat 3 =>
      match f.pkts.rd T.wkq with
      | none => none
      | some P =>
        fCall fuel f
          (f.tasks.wr f.tcb ⟨P.link, bif Nat.beq P.link 0 then 0 else 1, T.v1, T.v2⟩) f.tcb
          ⟨P.link, bif Nat.beq P.link 0 then 0 else 1, T.v1, T.v2⟩ T.wkq
    | Int.ofNat 4 => some ⟨f.tasks, f.pkts, tLink f.tcb, f.qpktcount, f.holdcount⟩
    | Int.ofNat 5 => some ⟨f.tasks, f.pkts, tLink f.tcb, f.qpktcount, f.holdcount⟩
    | Int.ofNat 6 => some ⟨f.tasks, f.pkts, tLink f.tcb, f.qpktcount, f.holdcount⟩
    | Int.ofNat 7 => some ⟨f.tasks, f.pkts, tLink f.tcb, f.qpktcount, f.holdcount⟩
    | _ => none

/-- The first `k` iterations of the loop of `schedule (fuel + k)`. -/
def fRun : Nat → Nat → FState → Option FState
  | 0, _, f => some f
  | k + 1, fuel, f =>
    match fStep (fuel + k) f with
    | none => none
    | some f => fRun k fuel f

/-- The states in which `schedule` passes a task by. -/
def fParked (st : Int) : Bool :=
  match st with
  | Int.ofNat 2 => true
  | Int.ofNat 4 => true
  | Int.ofNat 5 => true
  | Int.ofNat 6 => true
  | Int.ofNat 7 => true
  | _ => false

/-- The task in cell `j` is passed by if it precedes the current task `cur` in the
task list, that is, if `cur` is null or a lower cell. -/
def fPassed (cur j : Nat) (T : FTask) : Bool :=
  bif Nat.beq cur 0 then fParked T.state
  else bif Nat.blt cur j then fParked T.state else true

/-- The current task is null or one of the six tasks, and every task that precedes
it in the task list is passed by. -/
def fOk (f : FState) : Bool :=
  match f.tasks with
  | ⟨a, b, c, d, e, g⟩ =>
    (bif Nat.beq f.tcb 0 then true else (f.tasks.rd f.tcb).isSome) &&
      (fPassed f.tcb 14 g && (fPassed f.tcb 13 e && (fPassed f.tcb 12 d &&
        (fPassed f.tcb 8 c && (fPassed f.tcb 4 b && fPassed f.tcb 1 a)))))

/-- The first `k` iterations of the loop of `schedule (fuel + k)`, with the check
`fOk` of every state met, the last one included. -/
def fRunI : Nat → Nat → FState → Option FState
  | 0, _, f => bif fOk f then some f else none
  | k + 1, fuel, f =>
    bif fOk f then
      match fStep (fuel + k) f with
      | none => none
      | some f => fRunI k fuel f
    else none

/-- The flat state of the canonical setup built by `bench`. -/
def FState.start : FState :=
  { tasks := ⟨⟨0, 0, 1, 10000⟩, ⟨3, 3, 3, 0⟩, ⟨7, 3, 0, 0⟩, ⟨11, 3, 0, 0⟩, ⟨0, 2, 0, 0⟩,
      ⟨0, 2, 0, 0⟩⟩,
    pkts := ⟨⟨0, 0, 0, 0, 0, 0, 0⟩, ⟨2, 0, 0, 0, 0, 0, 0⟩, ⟨0, 5, 0, 0, 0, 0, 0⟩,
      ⟨5, 5, 0, 0, 0, 0, 0⟩, ⟨6, 5, 0, 0, 0, 0, 0⟩, ⟨0, 6, 0, 0, 0, 0, 0⟩,
      ⟨9, 6, 0, 0, 0, 0, 0⟩, ⟨10, 6, 0, 0, 0, 0, 0⟩⟩,
    tcb := 14, qpktcount := 0, holdcount := 0 }

/-! ## What a flat state stands for -/

/-- Where the fourteen cells lie: `p` is the address of the first cell, `L` the value
of `tasklist` before the six tasks were created, `frT` and `frP` the task and packet
objects that were in memory before. -/
structure Place where
  p : Nat
  L : Nat
  frT : List (Nat × Task)
  frP : List (Nat × Packet)

/-- The memory with the given association list. -/
def Mem.ofList {α : Type} (l : List (Nat × α)) : Mem α := l

/-- The association list of a memory. -/
def Mem.toList {α : Type} (m : Mem α) : List (Nat × α) := m

/-- Every address in use is below `b`. -/
def Mem.Below {α : Type} (m : Mem α) (b : Nat) : Prop := ∀ kv ∈ m.toList, kv.1 < b

/-- The cells start at a non-null address above every object that was in memory
before. -/
def Place.ok (E : Place) : Prop :=
  0 < E.p ∧ (∀ kv ∈ E.frT, kv.1 < E.p) ∧ (∀ kv ∈ E.frP, kv.1 < E.p)

/-- The address of the cell number `i`. -/
def Place.cell (E : Place) (i : Nat) : Nat := E.p + 64 * (i - 1)

/-- The pointer to a packet that the index `i` stands for. -/
def Place.ptr (E : Place) (i : Nat) : Nat := if i = 0 then 0 else E.cell i

/-- The pointer to a task that the index `i` stands for. -/
def Place.tptr (E : Place) (i : Nat) : Nat := if i = 0 then E.L else E.cell i

/-- The value of `v1` that `v` stands for while the task in cell `i` runs: a packet
pointer for the handlers (cells 8 and 12) and the device tasks (cells 13 and 14). -/
def Place.v1 (E : Place) (i : Nat) (v : Int) : Int :=
  if i < 8 then v else ((E.ptr v.toNat : Nat) : Int)

/-- The value of `v2` that `v` stands for while the task in cell `i` runs: a packet
pointer for the handlers (cells 8 and 12). -/
def Place.v2 (E : Place) (i : Nat) (v : Int) : Int :=
  if i = 8 ∨ i = 12 then ((E.ptr v.toNat : Nat) : Int) else v

/-- The task object that the record `T` of the task in cell `i` stands for. -/
def Place.task (E : Place) (i : Nat) (T : FTask) : Task :=
  { t_link := E.tptr (tLink i), t_id := tId i, t_pri := (tPri i : Int),
    t_wkq := E.ptr T.wkq, t_state := T.state, t_fn := tFn i,
    t_v1 := E.v1 i T.v1, t_v2 := E.v2 i T.v2 }

/-- The packet object that the record `P` of the packet in cell `i` stands for: the
packets of cells 2 and 3 are the work packets. -/
def Place.packet (E : Place) (i : Nat) (P : FPkt) : Packet :=
  { p_link := E.ptr P.link, p_id := P.id, p_kind := if i ≤ 3 then K_WORK else K_DEV,
    p_a1 := P.a1, p_a2 := [P.b0, P.b1, P.b2, P.b3] }

/-- The task objects in memory. -/
def Place.tasks (E : Place) (ts : FTasks) : Mem Task :=
  Mem.ofList (E.frT ++
    [(E.cell 1, E.task 1 ts.t1), (E.cell 4, E.task 4 ts.t4), (E.cell 8, E.task 8 ts.t8),
     (E.cell 12, E.task 12 ts.t12), (E.cell 13, E.task 13 ts.t13),
     (E.cell 14, E.task 14 ts.t14)])

/-- The packet objects in memory. -/
def Place.packets (E : Place) (ps : FPkts) : Mem Packet :=
  Mem.ofList (E.frP ++
    [(E.cell 2, E.packet 2 ps.p2), (E.cell 3, E.packet 3 ps.p3), (E.cell 5, E.packet 5 ps.p5),
     (E.cell 6, E.packet 6 ps.p6), (E.cell 7, E.packet 7 ps.p7), (E.cell 9, E.packet 9 ps.p9),
     (E.cell 10, E.packet 10 ps.p10), (E.cell 11, E.packet 11 ps.p11)])

/-- The task table after the six tasks have been created. -/
def Place.tasktab (E : Place) : List Nat :=
  [10, E.cell 1, E.cell 4, E.cell 8, E.cell 12, E.cell 13, E.cell 14, 0, 0, 0, 0]

/-- The configuration `s` is the one the flat state `f` stands for; the scratch slots
`taskid`, `v1`, `v2` and `layout` of `s` are left open, tracing is off. -/
def Place.Rep (E : Place) (f : FState) (s : State) : Prop :=
  s.tasks = E.tasks f.tasks ∧ s.packets = E.packets f.pkts ∧ s.tasktab = E.tasktab ∧
    s.tcb = E.tptr f.tcb ∧ s.qpktcount = f.qpktcount ∧ s.holdcount = f.holdcount ∧
    s.tracing = 0 ∧ s.tasklist = E.cell 14

/-- The configuration `s` during a dispatch of the task in cell `i`, whose record in
the flat tasks `ts` is `T`; `ps` are the flat packets, `qc` and `hc` the counters. -/
structure Place.Pre (E : Place) (qc hc : Int) (ts : FTasks) (ps : FPkts) (i : Nat) (T : FTask)
    (s : State) : Prop where
  tasks : s.tasks = E.tasks ts
  packets : s.packets = E.packets ps
  tasktab : s.tasktab = E.tasktab
  tcb : s.tcb = E.cell i
  rd : ts.rd i = some T
  qpktcount : s.qpktcount = qc
  holdcount : s.holdcount = hc
  tracing : s.tracing = 0
  tasklist : s.tasklist = E.cell 14

/-- The place of the first run of `bench`: the cells start at `p`, nothing was in
memory before. -/
def Place.first (p : Nat) : Place := ⟨p, 0, [], []⟩

/-- From `t` on the task list has `m` tasks, every one in a state in which `schedule`
passes it by, and then ends. -/
def ParkedFrom (tasks : Mem Task) : Nat → Nat → Prop
  | 0, t => t = 0
  | m + 1, t => t ≠ 0 ∧ parked (tasks.read t).t_state ∧ ParkedFrom tasks m (tasks.read t).t_link

/-- The memory `M` between two calls of `bench`, after `j` of them: the free list
starts at the cell number `14 * j` of the pool at `p`, every task and packet lies
below it, the task table has its eleven entries, and the task list has `6 * j` tasks
that `schedule` passes by. -/
structure Between (cells : Mem Nat) (pool p j : Nat) (M : Pool × State) : Prop where
  free : M.1 = ⟨cells, pool, p + 896 * j⟩
  tasks : M.2.tasks.Below (p + 896 * j)
  packets : M.2.packets.Below (p + 896 * j)
  tab : ∃ a1 a2 a3 a4 a5 a6, M.2.tasktab = [10, a1, a2, a3, a4, a5, a6, 0, 0, 0, 0]
  list : ParkedFrom M.2.tasks (6 * j) M.2.tasklist

/-! ## Checkpoints of the run

The flat state `ck i` is the one reached from `FState.start` after `2000 * i` iterations
of the scheduler loop (`ck54` after all 106604). -/

def ck0 : FState :=
  ⟨⟨⟨0, 0, 1, 10000⟩, ⟨3, 3, 3, 0⟩, ⟨7, 3, 0, 0⟩, ⟨11, 3, 0, 0⟩, ⟨0, 2, 0, 0⟩, ⟨0, 2, 0, 0⟩⟩,
    ⟨⟨0, 0, 0, 0, 0, 0, 0⟩, ⟨2, 0, 0, 0, 0, 0, 0⟩, ⟨0, 5, 0, 0, 0, 0, 0⟩, ⟨5, 5, 0, 0, 0, 0, 0⟩,
      ⟨6, 5, 0, 0, 0, 0, 0⟩, ⟨0, 6, 0, 0, 0, 0, 0⟩, ⟨9, 6, 0, 0, 0, 0, 0⟩, ⟨10, 6, 0, 0, 0, 0, 0⟩⟩,
    14, 0, 0⟩

def ck1 : FState :=
  ⟨⟨⟨0, 0, 14625, 9817⟩, ⟨0, 2, 4, 24⟩, ⟨6, 3, 2, 0⟩, ⟨0, 2, 3, 0⟩, ⟨5, 1, 0, 0⟩, ⟨9, 5, 10, 0⟩⟩,
    ⟨⟨0, 2, 1, 81, 82, 83, 84⟩, ⟨0, 2, 0, 85, 86, 87, 88⟩, ⟨7, 3, 76, 0, 0, 0, 0⟩, ⟨0, 5, 75, 0, 0, 0, 0⟩,
      ⟨0, 3, 81, 0, 0, 0, 0⟩, ⟨11, 4, 79, 0, 0, 0, 0⟩, ⟨9, 4, 78, 0, 0, 0, 0⟩, ⟨0, 4, 80, 0, 0, 0, 0⟩⟩,
    13, 429, 169⟩

def ck2 : FState :=
  ⟨⟨⟨0, 0, 40636, 9624⟩, ⟨0, 2, 4, 10⟩, ⟨0, 2, 3, 0⟩, ⟨0, 2, 2, 0⟩, ⟨6, 5, 7, 0⟩, ⟨11, 1, 9, 0⟩⟩,
    ⟨⟨0, 2, 1, 71, 72, 73, 74⟩, ⟨0, 2, 3, 67, 68, 69, 70⟩, ⟨0, 3, 69, 0, 0, 0, 0⟩, ⟨5, 3, 68, 0, 0, 0, 0⟩,
      ⟨0, 3, 67, 0, 0, 0, 0⟩, ⟨11, 4, 65, 0, 0, 0, 0⟩, ⟨0, 4, 71, 0, 0, 0, 0⟩, ⟨10, 4, 66, 0, 0, 0, 0⟩⟩,
    14, 854, 340⟩

def ck3 : FState :=
  ⟨⟨⟨0, 0, 11376, 9439⟩, ⟨0, 2, 4, 4⟩, ⟨0, 2, 2, 0⟩, ⟨0, 2, 3, 0⟩, ⟨5, 5, 6, 0⟩, ⟨11, 5, 9, 0⟩⟩,
    ⟨⟨0, 2, 0, 87, 88, 89, 90⟩, ⟨0, 2, 3, 65, 66, 67, 68⟩, ⟨7, 3, 81, 0, 0, 0, 0⟩, ⟨5, 3, 80, 0, 0, 0, 0⟩,
      ⟨0, 3, 82, 0, 0, 0, 0⟩, ⟨0, 4, 65, 0, 0, 0, 0⟩, ⟨0, 4, 67, 0, 0, 0, 0⟩, ⟨10, 4, 66, 0, 0, 0, 0⟩⟩,
    1, 1292, 515⟩

def ck4 : FState :=
  ⟨⟨⟨0, 0, 43212, 9251⟩, ⟨0, 0, 4, 24⟩, ⟨0, 2, 2, 0⟩, ⟨3, 3, 0, 0⟩, ⟨7, 5, 5, 0⟩, ⟨10, 5, 11, 0⟩⟩,
    ⟨⟨0, 2, 3, 81, 82, 83, 84⟩, ⟨0, 2, 0, 85, 86, 87, 88⟩, ⟨7, 3, 81, 0, 0, 0, 0⟩, ⟨0, 3, 83, 0, 0, 0, 0⟩,
      ⟨6, 3, 82, 0, 0, 0, 0⟩, ⟨0, 4, 80, 0, 0, 0, 0⟩, ⟨9, 4, 79, 0, 0, 0, 0⟩, ⟨10, 4, 78, 0, 0, 0, 0⟩⟩,
    12, 1732, 691⟩

def ck5 : FState :=
  ⟨⟨⟨0, 0, 13095, 9062⟩, ⟨0, 2, 4, 18⟩, ⟨6, 3, 0, 0⟩, ⟨0, 2, 3, 0⟩, ⟨7, 5, 5, 0⟩, ⟨9, 5, 10, 0⟩⟩,
    ⟨⟨0, 2, 0, 79, 80, 81, 82⟩, ⟨2, 2, 1, 71, 72, 73, 74⟩, ⟨7, 3, 77, 0, 0, 0, 0⟩, ⟨0, 5, 76, 0, 0, 0, 0⟩,
      ⟨0, 3, 78, 0, 0, 0, 0⟩, ⟨11, 4, 66, 0, 0, 0, 0⟩, ⟨9, 4, 65, 0, 0, 0, 0⟩, ⟨0, 4, 71, 0, 0, 0, 0⟩⟩,
    12, 2169, 866⟩

def ck6 : FState :=
  ⟨⟨⟨0, 0, 49544, 8872⟩, ⟨0, 0, 3, 8⟩, ⟨0, 0, 2, 5⟩, ⟨0, 2, 3, 0⟩, ⟨0, 4, 6, 0⟩, ⟨9, 5, 10, 0⟩⟩,
    ⟨⟨0, 2, 1, 69, 70, 71, 72⟩, ⟨0, 2, 0, 65, 66, 67, 68⟩, ⟨7, 5, 89, 0, 0, 0, 0⟩, ⟨0, 3, 69, 0, 0, 0, 0⟩,
      ⟨0, 5, 90, 0, 0, 0, 0⟩, ⟨11, 4, 85, 0, 0, 0, 0⟩, ⟨9, 4, 84, 0, 0, 0, 0⟩, ⟨0, 4, 86, 0, 0, 0, 0⟩⟩,
    8, 2600, 1039⟩

def ck7 : FState :=
  ⟨⟨⟨0, 0, 49432, 8683⟩, ⟨0, 2, 3, 20⟩, ⟨0, 2, 3, 0⟩, ⟨10, 3, 2, 0⟩, ⟨5, 5, 6, 0⟩, ⟨9, 1, 0, 0⟩⟩,
    ⟨⟨0, 2, 3, 77, 78, 79, 80⟩, ⟨0, 2, 3, 81, 82, 83, 84⟩, ⟨7, 3, 82, 0, 0, 0, 0⟩, ⟨5, 3, 81, 0, 0, 0, 0⟩,
      ⟨0, 3, 83, 0, 0, 0, 0⟩, ⟨11, 4, 78, 0, 0, 0, 0⟩, ⟨0, 6, 77, 0, 0, 0, 0⟩, ⟨0, 4, 79, 0, 0, 0, 0⟩⟩,
    14, 3029, 1210⟩

def ck8 : FState :=
  ⟨⟨⟨0, 0, 59313, 8500⟩, ⟨0, 2, 4, 18⟩, ⟨0, 2, 2, 0⟩, ⟨9, 3, 3, 0⟩, ⟨6, 5, 7, 0⟩, ⟨10, 5, 11, 0⟩⟩,
    ⟨⟨0, 2, 1, 75, 76, 77, 78⟩, ⟨0, 2, 2, 79, 80, 81, 82⟩, ⟨0, 3, 75, 0, 0, 0, 0⟩, ⟨5, 3, 70, 0, 0, 0, 0⟩,
      ⟨6, 3, 69, 0, 0, 0, 0⟩, ⟨0, 6, 74, 0, 0, 0, 0⟩, ⟨0, 4, 80, 0, 0, 0, 0⟩, ⟨10, 4, 79, 0, 0, 0, 0⟩⟩,
    13, 3473, 1388⟩

def ck9 : FState :=
  ⟨⟨⟨0, 0, 63030, 8310⟩, ⟨0, 2, 3, 8⟩, ⟨0, 2, 2, 0⟩, ⟨0, 0, 3, 0⟩, ⟨7, 5, 5, 0⟩, ⟨9, 5, 10, 0⟩⟩,
    ⟨⟨0, 2, 2, 69, 70, 71, 72⟩, ⟨0, 2, 4, 65, 66, 67, 68⟩, ⟨7, 3, 90, 0, 0, 0, 0⟩, ⟨0, 3, 70, 0, 0, 0, 0⟩,
      ⟨6, 3, 69, 0, 0, 0, 0⟩, ⟨11, 4, 67, 0, 0, 0, 0⟩, ⟨9, 4, 66, 0, 0, 0, 0⟩, ⟨0, 4, 68, 0, 0, 0, 0⟩⟩,
    12, 3908, 1562⟩

def ck10 : FState :=
  ⟨⟨⟨0, 0, 64153, 8114⟩, ⟨0, 2, 3, 20⟩, ⟨0, 2, 3, 0⟩, ⟨0, 2, 0, 10⟩, ⟨7, 5, 5, 0⟩, ⟨0, 2, 0, 0⟩⟩,
    ⟨⟨0, 2, 0, 81, 82, 83, 84⟩, ⟨2, 2, 3, 73, 74, 75, 76⟩, ⟨7, 3, 73, 0, 0, 0, 0⟩, ⟨0, 3, 75, 0, 0, 0, 0⟩,
      ⟨6, 3, 74, 0, 0, 0, 0⟩, ⟨11, 6, 79, 0, 0, 0, 0⟩, ⟨9, 6, 78, 0, 0, 0, 0⟩, ⟨0, 6, 80, 0, 0, 0, 0⟩⟩,
    8, 4325, 1729⟩

def ck11 : FState :=
  ⟨⟨⟨0, 0, 46021, 7926⟩, ⟨0, 2, 3, 6⟩, ⟨0, 2, 3, 0⟩, ⟨0, 2, 0, 10⟩, ⟨5, 5, 6, 0⟩, ⟨0, 2, 0, 0⟩⟩,
    ⟨⟨0, 2, 0, 67, 68, 69, 70⟩, ⟨2, 2, 2, 85, 86, 87, 88⟩, ⟨7, 3, 85, 0, 0, 0, 0⟩, ⟨5, 3, 80, 0, 0, 0, 0⟩,
      ⟨0, 3, 86, 0, 0, 0, 0⟩, ⟨11, 6, 65, 0, 0, 0, 0⟩, ⟨9, 6, 90, 0, 0, 0, 0⟩, ⟨0, 6, 66, 0, 0, 0, 0⟩⟩,
    1, 4743, 1896⟩

def ck12 : FState :=
  ⟨⟨⟨0, 0, 46738, 7741⟩, ⟨0, 2, 4, 4⟩, ⟨0, 2, 3, 0⟩, ⟨9, 3, 2, 0⟩, ⟨5, 5, 6, 0⟩, ⟨10, 5, 11, 0⟩⟩,
    ⟨⟨0, 2, 0, 65, 66, 67, 68⟩, ⟨0, 2, 0, 87, 88, 89, 90⟩, ⟨7, 3, 81, 0, 0, 0, 0⟩, ⟨5, 3, 80, 0, 0, 0, 0⟩,
      ⟨0, 3, 82, 0, 0, 0, 0⟩, ⟨0, 6, 84, 0, 0, 0, 0⟩, ⟨0, 4, 86, 0, 0, 0, 0⟩, ⟨10, 4, 85, 0, 0, 0, 0⟩⟩,
    12, 5187, 2073⟩

def ck13 : FState :=
  ⟨⟨⟨0, 0, 5829, 7551⟩, ⟨0, 2, 4, 16⟩, ⟨7, 3, 3, 0⟩, ⟨0, 2, 2, 0⟩, ⟨5, 5, 6, 0⟩, ⟨10, 5, 11, 0⟩⟩,
    ⟨⟨0, 2, 1, 77, 78, 79, 80⟩, ⟨0, 2, 2, 73, 74, 75, 76⟩, ⟨0, 3, 74, 0, 0, 0, 0⟩, ⟨5, 3, 73, 0, 0, 0, 0⟩,
      ⟨0, 5, 68, 0, 0, 0, 0⟩, ⟨0, 4, 77, 0, 0, 0, 0⟩, ⟨9, 4, 72, 0, 0, 0, 0⟩, ⟨10, 4, 71, 0, 0, 0, 0⟩⟩,
    12, 5613, 2244⟩

def ck14 : FState :=
  ⟨⟨⟨0, 0, 48818, 7363⟩, ⟨0, 2, 3, 6⟩, ⟨0, 2, 3, 0⟩, ⟨0, 2, 2, 0⟩, ⟨5, 5, 6, 0⟩, ⟨9, 5, 10, 0⟩⟩,
    ⟨⟨0, 2, 2, 89, 90, 65, 66⟩, ⟨0, 2, 2, 67, 68, 69, 70⟩, ⟨7, 3, 67, 0, 0, 0, 0⟩, ⟨5, 3, 88, 0, 0, 0, 0⟩,
      ⟨0, 3, 68, 0, 0, 0, 0⟩, ⟨11, 4, 89, 0, 0, 0, 0⟩, ⟨9, 4, 84, 0, 0, 0, 0⟩, ⟨0, 4, 90, 0, 0, 0, 0⟩⟩,
    1, 6044, 2416⟩

def ck15 : FState :=
  ⟨⟨⟨0, 0, 23400, 7180⟩, ⟨0, 2, 3, 8⟩, ⟨0, 2, 3, 0⟩, ⟨0, 2, 0, 0⟩, ⟨6, 5, 7, 0⟩, ⟨11, 5, 9, 0⟩⟩,
    ⟨⟨0, 2, 0, 69, 70, 71, 72⟩, ⟨2, 2, 3, 87, 88, 89, 90⟩, ⟨0, 3, 89, 0, 0, 0, 0⟩, ⟨5, 3, 88, 0, 0, 0, 0⟩,
      ⟨6, 3, 87, 0, 0, 0, 0⟩, ⟨11, 4, 66, 0, 0, 0, 0⟩, ⟨0, 4, 68, 0, 0, 0, 0⟩, ⟨10, 4, 67, 0, 0, 0, 0⟩⟩,
    8, 6502, 2599⟩

def ck16 : FState :=
  ⟨⟨⟨0, 0, 57874, 6990⟩, ⟨0, 2, 4, 24⟩, ⟨0, 2, 3, 0⟩, ⟨11, 3, 2, 0⟩, ⟨5, 5, 6, 0⟩, ⟨9, 5, 10, 0⟩⟩,
    ⟨⟨0, 2, 1, 85, 86, 87, 88⟩, ⟨0, 2, 3, 81, 82, 83, 84⟩, ⟨7, 3, 82, 0, 0, 0, 0⟩, ⟨5, 3, 81, 0, 0, 0, 0⟩,
      ⟨0, 3, 83, 0, 0, 0, 0⟩, ⟨0, 4, 85, 0, 0, 0, 0⟩, ⟨9, 4, 80, 0, 0, 0, 0⟩, ⟨0, 6, 79, 0, 0, 0, 0⟩⟩,
    12, 6935, 2773⟩

def ck17 : FState :=
  ⟨⟨⟨0, 0, 10670, 6799⟩, ⟨0, 2, 4, 18⟩, ⟨0, 2, 2, 0⟩, ⟨0, 2, 3, 0⟩, ⟨5, 1, 6, 0⟩, ⟨9, 5, 10, 0⟩⟩,
    ⟨⟨0, 2, 2, 75, 76, 77, 78⟩, ⟨0, 2, 1, 79, 80, 81, 82⟩, ⟨7, 3, 75, 0, 0, 0, 0⟩, ⟨5, 3, 70, 0, 0, 0, 0⟩,
      ⟨0, 3, 76, 0, 0, 0, 0⟩, ⟨11, 4, 74, 0, 0, 0, 0⟩, ⟨9, 4, 73, 0, 0, 0, 0⟩, ⟨0, 4, 79, 0, 0, 0, 0⟩⟩,
    13, 7372, 2947⟩

def ck18 : FState :=
  ⟨⟨⟨0, 0, 1567, 6612⟩, ⟨3, 3, 4, 12⟩, ⟨0, 0, 0, 0⟩, ⟨0, 2, 2, 0⟩, ⟨5, 5, 6, 0⟩, ⟨11, 5, 9, 0⟩⟩,
    ⟨⟨0, 2, 1, 73, 74, 75, 76⟩, ⟨0, 3, 4, 69, 70, 71, 72⟩, ⟨7, 3, 71, 0, 0, 0, 0⟩, ⟨5, 3, 70, 0, 0, 0, 0⟩,
      ⟨0, 3, 72, 0, 0, 0, 0⟩, ⟨11, 4, 67, 0, 0, 0, 0⟩, ⟨0, 4, 73, 0, 0, 0, 0⟩, ⟨10, 4, 68, 0, 0, 0, 0⟩⟩,
    8, 7817, 3125⟩

def ck19 : FState :=
  ⟨⟨⟨0, 0, 52963, 6416⟩, ⟨0, 2, 3, 2⟩, ⟨0, 2, 2, 0⟩, ⟨9, 3, 3, 0⟩, ⟨6, 5, 7, 0⟩, ⟨10, 5, 11, 0⟩⟩,
    ⟨⟨0, 2, 2, 89, 90, 65, 66⟩, ⟨0, 2, 1, 85, 86, 87, 88⟩, ⟨0, 3, 90, 0, 0, 0, 0⟩, ⟨5, 3, 89, 0, 0, 0, 0⟩,
      ⟨6, 3, 84, 0, 0, 0, 0⟩, ⟨0, 6, 79, 0, 0, 0, 0⟩, ⟨0, 4, 85, 0, 0, 0, 0⟩, ⟨10, 4, 80, 0, 0, 0, 0⟩⟩,
    12, 8243, 3296⟩

def ck20 : FState :=
  ⟨⟨⟨0, 0, 4029, 6225⟩, ⟨0, 2, 4, 18⟩, ⟨5, 3, 0, 0⟩, ⟨0, 2, 3, 0⟩, ⟨6, 5, 7, 0⟩, ⟨9, 5, 10, 0⟩⟩,
    ⟨⟨0, 2, 0, 79, 80, 81, 82⟩, ⟨2, 2, 0, 71, 72, 73, 74⟩, ⟨0, 5, 76, 0, 0, 0, 0⟩, ⟨0, 3, 78, 0, 0, 0, 0⟩,
      ⟨6, 3, 77, 0, 0, 0, 0⟩, ⟨11, 4, 65, 0, 0, 0, 0⟩, ⟨9, 4, 90, 0, 0, 0, 0⟩, ⟨0, 4, 66, 0, 0, 0, 0⟩⟩,
    12, 8667, 3465⟩

def ck21 : FState :=
  ⟨⟨⟨0, 0, 56256, 6035⟩, ⟨0, 2, 4, 4⟩, ⟨0, 2, 0, 5⟩, ⟨0, 2, 3, 0⟩, ⟨0, 2, 0, 0⟩, ⟨9, 1, 10, 0⟩⟩,
    ⟨⟨0, 2, 0, 65, 66, 67, 68⟩, ⟨2, 2, 3, 83, 84, 85, 86⟩, ⟨7, 5, 88, 0, 0, 0, 0⟩, ⟨0, 5, 90, 0, 0, 0, 0⟩,
      ⟨6, 5, 89, 0, 0, 0, 0⟩, ⟨11, 4, 84, 0, 0, 0, 0⟩, ⟨9, 4, 83, 0, 0, 0, 0⟩, ⟨0, 4, 85, 0, 0, 0, 0⟩⟩,
    14, 9095, 3637⟩

def ck22 : FState :=
  ⟨⟨⟨0, 0, 12939, 5851⟩, ⟨0, 2, 3, 2⟩, ⟨0, 2, 2, 0⟩, ⟨0, 2, 3, 0⟩, ⟨7, 5, 5, 0⟩, ⟨9, 5, 10, 0⟩⟩,
    ⟨⟨0, 2, 2, 89, 90, 65, 66⟩, ⟨0, 2, 1, 85, 86, 87, 88⟩, ⟨7, 3, 84, 0, 0, 0, 0⟩, ⟨0, 3, 90, 0, 0, 0, 0⟩,
      ⟨6, 3, 89, 0, 0, 0, 0⟩, ⟨11, 4, 80, 0, 0, 0, 0⟩, ⟨9, 4, 79, 0, 0, 0, 0⟩, ⟨0, 4, 85, 0, 0, 0, 0⟩⟩,
    8, 9542, 3815⟩

def ck23 : FState :=
  ⟨⟨⟨0, 0, 65222, 5666⟩, ⟨0, 2, 4, 26⟩, ⟨0, 2, 3, 0⟩, ⟨10, 3, 2, 0⟩, ⟨7, 5, 5, 0⟩, ⟨9, 3, 0, 0⟩⟩,
    ⟨⟨0, 2, 2, 87, 88, 89, 90⟩, ⟨0, 2, 1, 83, 84, 85, 86⟩, ⟨7, 3, 77, 0, 0, 0, 0⟩, ⟨0, 3, 83, 0, 0, 0, 0⟩,
      ⟨6, 3, 78, 0, 0, 0, 0⟩, ⟨11, 4, 87, 0, 0, 0, 0⟩, ⟨0, 6, 82, 0, 0, 0, 0⟩, ⟨0, 4, 88, 0, 0, 0, 0⟩⟩,
    14, 9993, 3995⟩

def ck24 : FState :=
  ⟨⟨⟨0, 0, 62943, 5482⟩, ⟨0, 0, 3, 24⟩, ⟨3, 3, 2, 0⟩, ⟨0, 2, 0, 0⟩, ⟨6, 5, 7, 0⟩, ⟨9, 5, 10, 0⟩⟩,
    ⟨⟨0, 2, 1, 77, 78, 79, 80⟩, ⟨0, 2, 0, 85, 86, 87, 88⟩, ⟨0, 3, 77, 0, 0, 0, 0⟩, ⟨5, 3, 72, 0, 0, 0, 0⟩,
      ⟨6, 3, 71, 0, 0, 0, 0⟩, ⟨11, 4, 83, 0, 0, 0, 0⟩, ⟨9, 4, 82, 0, 0, 0, 0⟩, ⟨0, 4, 84, 0, 0, 0, 0⟩⟩,
    8, 10438, 4173⟩

def ck25 : FState :=
  ⟨⟨⟨0, 0, 22990, 5290⟩, ⟨0, 2, 3, 10⟩, ⟨0, 2, 3, 0⟩, ⟨0, 2, 2, 0⟩, ⟨5, 5, 6, 0⟩, ⟨10, 5, 11, 0⟩⟩,
    ⟨⟨0, 2, 0, 67, 68, 69, 70⟩, ⟨0, 2, 1, 71, 72, 73, 74⟩, ⟨7, 3, 66, 0, 0, 0, 0⟩, ⟨5, 3, 65, 0, 0, 0, 0⟩,
      ⟨0, 3, 71, 0, 0, 0, 0⟩, ⟨0, 4, 88, 0, 0, 0, 0⟩, ⟨9, 4, 87, 0, 0, 0, 0⟩, ⟨10, 4, 86, 0, 0, 0, 0⟩⟩,
    4, 10858, 4341⟩

def ck26 : FState :=
  ⟨⟨⟨0, 0, 31361, 5103⟩, ⟨0, 2, 3, 4⟩, ⟨0, 2, 2, 0⟩, ⟨0, 2, 0, 0⟩, ⟨7, 5, 5, 0⟩, ⟨11, 5, 9, 0⟩⟩,
    ⟨⟨3, 2, 2, 83, 84, 85, 86⟩, ⟨0, 2, 0, 65, 66, 67, 68⟩, ⟨7, 3, 78, 0, 0, 0, 0⟩, ⟨0, 3, 84, 0, 0, 0, 0⟩,
      ⟨6, 3, 83, 0, 0, 0, 0⟩, ⟨11, 4, 88, 0, 0, 0, 0⟩, ⟨0, 4, 90, 0, 0, 0, 0⟩, ⟨10, 4, 89, 0, 0, 0, 0⟩⟩,
    1, 11300, 4518⟩

def ck27 : FState :=
  ⟨⟨⟨0, 0, 36723, 4916⟩, ⟨0, 2, 3, 24⟩, ⟨0, 2, 2, 0⟩, ⟨0, 2, 3, 0⟩, ⟨6, 5, 7, 0⟩, ⟨10, 5, 11, 0⟩⟩,
    ⟨⟨0, 2, 1, 85, 86, 87, 88⟩, ⟨0, 2, 1, 81, 82, 83, 84⟩, ⟨0, 3, 85, 0, 0, 0, 0⟩, ⟨5, 3, 80, 0, 0, 0, 0⟩,
      ⟨6, 3, 79, 0, 0, 0, 0⟩, ⟨0, 4, 81, 0, 0, 0, 0⟩, ⟨9, 4, 76, 0, 0, 0, 0⟩, ⟨10, 4, 75, 0, 0, 0, 0⟩⟩,
    1, 11740, 4694⟩

def ck28 : FState :=
  ⟨⟨⟨0, 0, 40394, 4731⟩, ⟨0, 0, 4, 22⟩, ⟨0, 2, 3, 0⟩, ⟨0, 2, 2, 0⟩, ⟨6, 5, 7, 0⟩, ⟨9, 5, 10, 0⟩⟩,
    ⟨⟨0, 2, 0, 83, 84, 85, 86⟩, ⟨0, 2, 0, 79, 80, 81, 82⟩, ⟨0, 3, 74, 0, 0, 0, 0⟩, ⟨5, 3, 73, 0, 0, 0, 0⟩,
      ⟨6, 3, 72, 0, 0, 0, 0⟩, ⟨11, 4, 77, 0, 0, 0, 0⟩, ⟨9, 4, 76, 0, 0, 0, 0⟩, ⟨0, 4, 78, 0, 0, 0, 0⟩⟩,
    12, 12186, 4872⟩

def ck29 : FState :=
  ⟨⟨⟨0, 0, 55805, 4542⟩, ⟨2, 3, 4, 8⟩, ⟨0, 2, 3, 0⟩, ⟨0, 2, 0, 0⟩, ⟨5, 5, 6, 0⟩, ⟨11, 5, 9, 0⟩⟩,
    ⟨⟨0, 4, 4, 69, 70, 71, 72⟩, ⟨0, 2, 1, 65, 66, 67, 68⟩, ⟨7, 3, 86, 0, 0, 0, 0⟩, ⟨5, 3, 85, 0, 0, 0, 0⟩,
      ⟨0, 3, 65, 0, 0, 0, 0⟩, ⟨11, 4, 70, 0, 0, 0, 0⟩, ⟨0, 4, 72, 0, 0, 0, 0⟩, ⟨10, 4, 71, 0, 0, 0, 0⟩⟩,
    8, 12617, 5045⟩

def ck30 : FState :=
  ⟨⟨⟨0, 0, 44236, 4352⟩, ⟨0, 2, 3, 24⟩, ⟨0, 2, 3, 0⟩, ⟨0, 2, 0, 9⟩, ⟨5, 5, 6, 0⟩, ⟨10, 5, 11, 0⟩⟩,
    ⟨⟨0, 2, 0, 85, 86, 87, 88⟩, ⟨2, 2, 1, 77, 78, 79, 80⟩, ⟨7, 3, 72, 0, 0, 0, 0⟩, ⟨5, 3, 71, 0, 0, 0, 0⟩,
      ⟨0, 3, 77, 0, 0, 0, 0⟩, ⟨0, 6, 82, 0, 0, 0, 0⟩, ⟨0, 4, 84, 0, 0, 0, 0⟩, ⟨10, 4, 83, 0, 0, 0, 0⟩⟩,
    8, 13039, 5214⟩

def ck31 : FState :=
  ⟨⟨⟨0, 0, 10493, 4166⟩, ⟨0, 2, 3, 18⟩, ⟨0, 2, 2, 0⟩, ⟨0, 2, 3, 0⟩, ⟨6, 1, 7, 0⟩, ⟨9, 5, 10, 0⟩⟩,
    ⟨⟨0, 2, 1, 79, 80, 81, 82⟩, ⟨0, 2, 2, 75, 76, 77, 78⟩, ⟨0, 3, 79, 0, 0, 0, 0⟩, ⟨5, 3, 74, 0, 0, 0, 0⟩,
      ⟨6, 3, 73, 0, 0, 0, 0⟩, ⟨11, 4, 75, 0, 0, 0, 0⟩, ⟨9, 4, 70, 0, 0, 0, 0⟩, ⟨0, 4, 76, 0, 0, 0, 0⟩⟩,
    13, 13482, 5391⟩

def ck32 : FState :=
  ⟨⟨⟨0, 0, 54243, 3983⟩, ⟨0, 2, 4, 16⟩, ⟨0, 2, 3, 0⟩, ⟨0, 2, 2, 0⟩, ⟨7, 5, 5, 0⟩, ⟨10, 5, 11, 0⟩⟩,
    ⟨⟨0, 2, 2, 77, 78, 79, 80⟩, ⟨0, 2, 2, 73, 74, 75, 76⟩, ⟨7, 3, 68, 0, 0, 0, 0⟩, ⟨0, 3, 74, 0, 0, 0, 0⟩,
      ⟨6, 3, 73, 0, 0, 0, 0⟩, ⟨0, 4, 78, 0, 0, 0, 0⟩, ⟨9, 4, 77, 0, 0, 0, 0⟩, ⟨10, 4, 72, 0, 0, 0, 0⟩⟩,
    8, 13934, 5572⟩

def ck33 : FState :=
  ⟨⟨⟨0, 0, 4980, 3796⟩, ⟨0, 2, 4, 10⟩, ⟨0, 2, 3, 0⟩, ⟨0, 2, 2, 0⟩, ⟨5, 5, 6, 0⟩, ⟨11, 5, 9, 0⟩⟩,
    ⟨⟨0, 2, 0, 71, 72, 73, 74⟩, ⟨0, 2, 3, 67, 68, 69, 70⟩, ⟨7, 3, 68, 0, 0, 0, 0⟩, ⟨5, 3, 67, 0, 0, 0, 0⟩,
      ⟨0, 3, 69, 0, 0, 0, 0⟩, ⟨11, 4, 90, 0, 0, 0, 0⟩, ⟨0, 4, 66, 0, 0, 0, 0⟩, ⟨10, 4, 65, 0, 0, 0, 0⟩⟩,
    8, 14372, 5747⟩

def ck34 : FState :=
  ⟨⟨⟨0, 0, 15428, 3609⟩, ⟨0, 2, 4, 4⟩, ⟨0, 2, 2, 0⟩, ⟨0, 2, 3, 0⟩, ⟨7, 1, 5, 0⟩, ⟨10, 5, 11, 0⟩⟩,
    ⟨⟨0, 2, 0, 87, 88, 89, 90⟩, ⟨0, 2, 3, 65, 66, 67, 68⟩, ⟨7, 3, 80, 0, 0, 0, 0⟩, ⟨0, 3, 82, 0, 0, 0, 0⟩,
      ⟨6, 3, 81, 0, 0, 0, 0⟩, ⟨0, 4, 67, 0, 0, 0, 0⟩, ⟨9, 4, 66, 0, 0, 0, 0⟩, ⟨0, 4, 65, 0, 0, 0, 0⟩⟩,
    13, 14812, 5923⟩

def ck35 : FState :=
  ⟨⟨⟨0, 0, 24077, 3423⟩, ⟨0, 2, 3, 20⟩, ⟨0, 0, 3, 0⟩, ⟨0, 2, 0, 10⟩, ⟨6, 5, 7, 0⟩, ⟨0, 2, 0, 0⟩⟩,
    ⟨⟨0, 2, 0, 81, 82, 83, 84⟩, ⟨2, 2, 4, 73, 74, 75, 76⟩, ⟨0, 3, 76, 0, 0, 0, 0⟩, ⟨5, 3, 75, 0, 0, 0, 0⟩,
      ⟨6, 3, 74, 0, 0, 0, 0⟩, ⟨11, 6, 79, 0, 0, 0, 0⟩, ⟨9, 6, 78, 0, 0, 0, 0⟩, ⟨0, 6, 80, 0, 0, 0, 0⟩⟩,
    8, 15247, 6098⟩

def ck36 : FState :=
  ⟨⟨⟨0, 0, 193, 3234⟩, ⟨0, 2, 3, 14⟩, ⟨0, 2, 2, 0⟩, ⟨0, 2, 3, 0⟩, ⟨6, 1, 7, 0⟩, ⟨9, 5, 10, 0⟩⟩,
    ⟨⟨0, 2, 2, 75, 76, 77, 78⟩, ⟨0, 2, 3, 71, 72, 73, 74⟩, ⟨0, 3, 76, 0, 0, 0, 0⟩, ⟨5, 3, 75, 0, 0, 0, 0⟩,
      ⟨6, 3, 70, 0, 0, 0, 0⟩, ⟨11, 4, 72, 0, 0, 0, 0⟩, ⟨0, 4, 71, 0, 0, 0, 0⟩, ⟨0, 4, 73, 0, 0, 0, 0⟩⟩,
    13, 15686, 6273⟩

def ck37 : FState :=
  ⟨⟨⟨0, 0, 18951, 3046⟩, ⟨0, 2, 3, 8⟩, ⟨0, 2, 2, 0⟩, ⟨0, 2, 0, 11⟩, ⟨7, 5, 5, 0⟩, ⟨9, 5, 10, 0⟩⟩,
    ⟨⟨3, 2, 1, 87, 88, 89, 90⟩, ⟨0, 2, 0, 69, 70, 71, 72⟩, ⟨7, 3, 81, 0, 0, 0, 0⟩, ⟨0, 3, 87, 0, 0, 0, 0⟩,
      ⟨6, 3, 82, 0, 0, 0, 0⟩, ⟨0, 4, 68, 0, 0, 0, 0⟩, ⟨9, 4, 67, 0, 0, 0, 0⟩, ⟨0, 6, 66, 0, 0, 0, 0⟩⟩,
    8, 16119, 6446⟩

def ck38 : FState :=
  ⟨⟨⟨0, 0, 9704, 2850⟩, ⟨0, 2, 4, 16⟩, ⟨5, 3, 0, 0⟩, ⟨0, 2, 3, 0⟩, ⟨6, 5, 7, 0⟩, ⟨9, 5, 10, 0⟩⟩,
    ⟨⟨0, 2, 0, 77, 78, 79, 80⟩, ⟨2, 2, 3, 69, 70, 71, 72⟩, ⟨0, 5, 74, 0, 0, 0, 0⟩, ⟨0, 3, 76, 0, 0, 0, 0⟩,
      ⟨6, 3, 75, 0, 0, 0, 0⟩, ⟨11, 4, 70, 0, 0, 0, 0⟩, ⟨9, 4, 69, 0, 0, 0, 0⟩, ⟨0, 4, 71, 0, 0, 0, 0⟩⟩,
    8, 16533, 6612⟩

def ck39 : FState :=
  ⟨⟨⟨0, 0, 44751, 2663⟩, ⟨0, 2, 4, 10⟩, ⟨0, 2, 3, 0⟩, ⟨0, 2, 2, 0⟩, ⟨7, 5, 5, 0⟩, ⟨9, 5, 10, 0⟩⟩,
    ⟨⟨0, 2, 1, 71, 72, 73, 74⟩, ⟨0, 2, 3, 67, 68, 69, 70⟩, ⟨7, 3, 67, 0, 0, 0, 0⟩, ⟨0, 3, 69, 0, 0, 0, 0⟩,
      ⟨6, 3, 68, 0, 0, 0, 0⟩, ⟨11, 4, 66, 0, 0, 0, 0⟩, ⟨9, 4, 65, 0, 0, 0, 0⟩, ⟨0, 4, 71, 0, 0, 0, 0⟩⟩,
    4, 16974, 6788⟩

def ck40 : FState :=
  ⟨⟨⟨0, 0, 61194, 2482⟩, ⟨0, 2, 3, 8⟩, ⟨0, 2, 2, 0⟩, ⟨0, 2, 0, 0⟩, ⟨6, 5, 7, 0⟩, ⟨11, 5, 9, 0⟩⟩,
    ⟨⟨3, 2, 0, 87, 88, 89, 90⟩, ⟨0, 2, 0, 69, 70, 71, 72⟩, ⟨0, 3, 82, 0, 0, 0, 0⟩, ⟨5, 3, 81, 0, 0, 0, 0⟩,
      ⟨6, 3, 80, 0, 0, 0, 0⟩, ⟨11, 4, 66, 0, 0, 0, 0⟩, ⟨0, 4, 68, 0, 0, 0, 0⟩, ⟨10, 4, 67, 0, 0, 0, 0⟩⟩,
    4, 17416, 6964⟩

def ck41 : FState :=
  ⟨⟨⟨0, 0, 17510, 2295⟩, ⟨0, 2, 3, 20⟩, ⟨7, 3, 3, 0⟩, ⟨0, 2, 0, 9⟩, ⟨5, 5, 6, 0⟩, ⟨0, 2, 0, 0⟩⟩,
    ⟨⟨0, 2, 0, 81, 82, 83, 84⟩, ⟨2, 2, 3, 73, 74, 75, 76⟩, ⟨0, 3, 75, 0, 0, 0, 0⟩, ⟨5, 3, 74, 0, 0, 0, 0⟩,
      ⟨0, 5, 73, 0, 0, 0, 0⟩, ⟨11, 6, 78, 0, 0, 0, 0⟩, ⟨0, 6, 80, 0, 0, 0, 0⟩, ⟨10, 6, 79, 0, 0, 0, 0⟩⟩,
    12, 17846, 7138⟩

def ck42 : FState :=
  ⟨⟨⟨0, 0, 46985, 2110⟩, ⟨0, 2, 4, 18⟩, ⟨0, 2, 0, 7⟩, ⟨10, 3, 3, 0⟩, ⟨0, 4, 5, 0⟩, ⟨9, 1, 0, 0⟩⟩,
    ⟨⟨0, 2, 0, 79, 80, 81, 82⟩, ⟨2, 2, 2, 71, 72, 73, 74⟩, ⟨0, 3, 78, 0, 0, 0, 0⟩, ⟨0, 5, 77, 0, 0, 0, 0⟩,
      ⟨6, 5, 76, 0, 0, 0, 0⟩, ⟨11, 4, 71, 0, 0, 0, 0⟩, ⟨0, 6, 66, 0, 0, 0, 0⟩, ⟨0, 4, 72, 0, 0, 0, 0⟩⟩,
    14, 18293, 7316⟩

def ck43 : FState :=
  ⟨⟨⟨0, 0, 54845, 1924⟩, ⟨0, 2, 4, 12⟩, ⟨0, 2, 0, 6⟩, ⟨0, 0, 2, 0⟩, ⟨0, 2, 0, 0⟩, ⟨9, 5, 10, 0⟩⟩,
    ⟨⟨3, 2, 4, 65, 66, 67, 68⟩, ⟨0, 2, 0, 73, 74, 75, 76⟩, ⟨7, 5, 71, 0, 0, 0, 0⟩, ⟨5, 5, 70, 0, 0, 0, 0⟩,
      ⟨0, 5, 72, 0, 0, 0, 0⟩, ⟨11, 4, 67, 0, 0, 0, 0⟩, ⟨9, 4, 66, 0, 0, 0, 0⟩, ⟨0, 4, 68, 0, 0, 0, 0⟩⟩,
    12, 18737, 7494⟩

def ck44 : FState :=
  ⟨⟨⟨0, 0, 3722, 1741⟩, ⟨0, 2, 4, 14⟩, ⟨0, 2, 0, 7⟩, ⟨0, 2, 2, 0⟩, ⟨0, 2, 0, 0⟩, ⟨11, 5, 9, 0⟩⟩,
    ⟨⟨3, 2, 0, 67, 68, 69, 70⟩, ⟨0, 2, 0, 75, 76, 77, 78⟩, ⟨0, 5, 74, 0, 0, 0, 0⟩, ⟨5, 5, 73, 0, 0, 0, 0⟩,
      ⟨6, 5, 72, 0, 0, 0, 0⟩, ⟨11, 4, 86, 0, 0, 0, 0⟩, ⟨0, 4, 88, 0, 0, 0, 0⟩, ⟨10, 4, 87, 0, 0, 0, 0⟩⟩,
    8, 19189, 7674⟩

def ck45 : FState :=
  ⟨⟨⟨0, 0, 17910, 1553⟩, ⟨0, 0, 4, 26⟩, ⟨0, 2, 2, 0⟩, ⟨0, 2, 3, 0⟩, ⟨7, 5, 5, 0⟩, ⟨10, 5, 11, 0⟩⟩,
    ⟨⟨0, 2, 0, 83, 84, 85, 86⟩, ⟨0, 2, 3, 87, 88, 89, 90⟩, ⟨7, 3, 76, 0, 0, 0, 0⟩, ⟨0, 3, 78, 0, 0, 0, 0⟩,
      ⟨6, 3, 77, 0, 0, 0, 0⟩, ⟨0, 4, 89, 0, 0, 0, 0⟩, ⟨9, 4, 88, 0, 0, 0, 0⟩, ⟨0, 4, 87, 0, 0, 0, 0⟩⟩,
    8, 19612, 7843⟩

def ck46 : FState :=
  ⟨⟨⟨0, 0, 64788, 1360⟩, ⟨0, 2, 4, 12⟩, ⟨0, 2, 2, 0⟩, ⟨10, 3, 3, 0⟩, ⟨6, 5, 7, 0⟩, ⟨9, 3, 0, 0⟩⟩,
    ⟨⟨0, 2, 1, 69, 70, 71, 72⟩, ⟨0, 2, 1, 73, 74, 75, 76⟩, ⟨0, 3, 69, 0, 0, 0, 0⟩, ⟨5, 3, 90, 0, 0, 0, 0⟩,
      ⟨6, 3, 89, 0, 0, 0, 0⟩, ⟨11, 4, 68, 0, 0, 0, 0⟩, ⟨0, 6, 67, 0, 0, 0, 0⟩, ⟨0, 4, 73, 0, 0, 0, 0⟩⟩,
    14, 20031, 8010⟩

def ck47 : FState :=
  ⟨⟨⟨0, 0, 38425, 1177⟩, ⟨0, 2, 3, 10⟩, ⟨0, 2, 3, 0⟩, ⟨0, 2, 2, 0⟩, ⟨7, 5, 5, 0⟩, ⟨9, 1, 10, 0⟩⟩,
    ⟨⟨0, 2, 3, 67, 68, 69, 70⟩, ⟨0, 2, 1, 71, 72, 73, 74⟩, ⟨7, 3, 65, 0, 0, 0, 0⟩, ⟨0, 3, 71, 0, 0, 0, 0⟩,
      ⟨6, 3, 66, 0, 0, 0, 0⟩, ⟨11, 4, 68, 0, 0, 0, 0⟩, ⟨9, 4, 67, 0, 0, 0, 0⟩, ⟨0, 4, 69, 0, 0, 0, 0⟩⟩,
    14, 20484, 8192⟩

def ck48 : FState :=
  ⟨⟨⟨0, 0, 50325, 994⟩, ⟨0, 2, 4, 8⟩, ⟨0, 2, 3, 0⟩, ⟨0, 0, 2, 0⟩, ⟨5, 5, 6, 0⟩, ⟨9, 5, 10, 0⟩⟩,
    ⟨⟨0, 2, 4, 69, 70, 71, 72⟩, ⟨0, 2, 2, 65, 66, 67, 68⟩, ⟨7, 3, 65, 0, 0, 0, 0⟩, ⟨5, 3, 86, 0, 0, 0, 0⟩,
      ⟨0, 3, 66, 0, 0, 0, 0⟩, ⟨11, 4, 71, 0, 0, 0, 0⟩, ⟨9, 4, 70, 0, 0, 0, 0⟩, ⟨0, 4, 72, 0, 0, 0, 0⟩⟩,
    12, 20938, 8374⟩

def ck49 : FState :=
  ⟨⟨⟨0, 0, 53911, 804⟩, ⟨2, 3, 3, 24⟩, ⟨0, 2, 3, 0⟩, ⟨0, 2, 0, 0⟩, ⟨6, 5, 7, 0⟩, ⟨9, 5, 10, 0⟩⟩,
    ⟨⟨0, 4, 4, 81, 82, 83, 84⟩, ⟨0, 2, 0, 85, 86, 87, 88⟩, ⟨0, 3, 80, 0, 0, 0, 0⟩, ⟨5, 3, 79, 0, 0, 0, 0⟩,
      ⟨6, 3, 78, 0, 0, 0, 0⟩, ⟨11, 4, 83, 0, 0, 0, 0⟩, ⟨9, 4, 82, 0, 0, 0, 0⟩, ⟨0, 4, 84, 0, 0, 0, 0⟩⟩,
    4, 21365, 8544⟩

def ck50 : FState :=
  ⟨⟨⟨0, 0, 58647, 614⟩, ⟨0, 2, 4, 14⟩, ⟨0, 2, 2, 0⟩, ⟨0, 2, 3, 0⟩, ⟨7, 5, 5, 0⟩, ⟨10, 1, 11, 0⟩⟩,
    ⟨⟨0, 2, 2, 71, 72, 73, 74⟩, ⟨0, 2, 2, 75, 76, 77, 78⟩, ⟨7, 3, 66, 0, 0, 0, 0⟩, ⟨0, 3, 72, 0, 0, 0, 0⟩,
      ⟨6, 3, 71, 0, 0, 0, 0⟩, ⟨0, 4, 76, 0, 0, 0, 0⟩, ⟨9, 4, 75, 0, 0, 0, 0⟩, ⟨10, 4, 70, 0, 0, 0, 0⟩⟩,
    14, 21794, 8716⟩

def ck51 : FState :=
  ⟨⟨⟨0, 0, 11942, 429⟩, ⟨0, 2, 3, 12⟩, ⟨7, 3, 3, 0⟩, ⟨0, 2, 2, 0⟩, ⟨5, 5, 6, 0⟩, ⟨11, 5, 9, 0⟩⟩,
    ⟨⟨0, 2, 0, 69, 70, 71, 72⟩, ⟨0, 2, 1, 73, 74, 75, 76⟩, ⟨0, 3, 73, 0, 0, 0, 0⟩, ⟨5, 3, 68, 0, 0, 0, 0⟩,
      ⟨0, 5, 67, 0, 0, 0, 0⟩, ⟨11, 4, 88, 0, 0, 0, 0⟩, ⟨0, 4, 90, 0, 0, 0, 0⟩, ⟨10, 4, 89, 0, 0, 0, 0⟩⟩,
    8, 22239, 8894⟩

def ck52 : FState :=
  ⟨⟨⟨0, 0, 27265, 239⟩, ⟨0, 2, 3, 24⟩, ⟨5, 3, 3, 0⟩, ⟨0, 2, 2, 0⟩, ⟨7, 1, 0, 0⟩, ⟨11, 5, 9, 0⟩⟩,
    ⟨⟨0, 2, 0, 81, 82, 83, 84⟩, ⟨0, 2, 3, 85, 86, 87, 88⟩, ⟨0, 5, 85, 0, 0, 0, 0⟩, ⟨0, 3, 87, 0, 0, 0, 0⟩,
      ⟨6, 3, 86, 0, 0, 0, 0⟩, ⟨11, 4, 74, 0, 0, 0, 0⟩, ⟨0, 4, 76, 0, 0, 0, 0⟩, ⟨10, 4, 75, 0, 0, 0, 0⟩⟩,
    13, 22663, 9063⟩

def ck53 : FState :=
  ⟨⟨⟨0, 0, 42686, 55⟩, ⟨0, 0, 4, 22⟩, ⟨0, 2, 3, 0⟩, ⟨0, 2, 2, 0⟩, ⟨6, 5, 7, 0⟩, ⟨9, 5, 10, 0⟩⟩,
    ⟨⟨0, 2, 0, 83, 84, 85, 86⟩, ⟨0, 2, 3, 79, 80, 81, 82⟩, ⟨0, 3, 81, 0, 0, 0, 0⟩, ⟨5, 3, 80, 0, 0, 0, 0⟩,
      ⟨6, 3, 79, 0, 0, 0, 0⟩, ⟨11, 4, 77, 0, 0, 0, 0⟩, ⟨9, 4, 76, 0, 0, 0, 0⟩, ⟨0, 4, 78, 0, 0, 0, 0⟩⟩,
    8, 23112, 9243⟩

def ck54 : FState :=
  ⟨⟨⟨0, 4, 53246, 0⟩, ⟨0, 2, 4, 26⟩, ⟨0, 2, 3, 0⟩, ⟨0, 2, 2, 0⟩, ⟨5, 5, 6, 0⟩, ⟨11, 5, 9, 0⟩⟩,
    ⟨⟨0, 2, 0, 87, 88, 89, 90⟩, ⟨0, 2, 0, 83, 84, 85, 86⟩, ⟨7, 3, 77, 0, 0, 0, 0⟩, ⟨5, 3, 76, 0, 0, 0, 0⟩,
      ⟨0, 3, 78, 0, 0, 0, 0⟩, ⟨11, 4, 80, 0, 0, 0, 0⟩, ⟨0, 4, 82, 0, 0, 0, 0⟩, ⟨10, 4, 81, 0, 0, 0, 0⟩⟩,
    0, 23246, 9297⟩

/-! ## A second evaluator of the flat states

`gRun n f` computes `4 * n` iterations of the loop of `schedule` from the flat state `f`,
like `fRunI`, in a form that is cheap to evaluate: every function passes the state on to
its continuation, the six tasks are taken apart once per iteration, and the numbers are
natural numbers.  It covers the cases that occur in the run of the benchmark and gives
`FState.bad` in all others. -/

/-- The value of a failed evaluation: no task lives in cell 15. -/
def FState.bad : FState := ⟨FState.start.tasks, FState.start.pkts, 15, 0, 0⟩

/-- What is done with the tasks, the packets, the current task and the two counters after
an iteration. -/
@[reducible] def Cont : Type := FTasks → FPkts → Nat → Int → Int → FState

/-- What is done with a packet and the assignment to its cell. -/
@[reducible] def PCont : Type := FPkt → (FPkt → FPkts) → FState

/-- The states 2, 4, 5, 6 and 7, in which `schedule` passes a task by, are the bits of
244. -/
def gBit (n : Nat) : Bool :=
  Nat.beq (Nat.land (Nat.shiftRight (nat_lit 244) n) (nat_lit 1)) (nat_lit 1)

/-- The task is in a state in which `schedule` passes it by. -/
def gParked (T : FTask) : Bool :=
  FTask.casesOn T fun _ st _ _ => Int.casesOn st gBit fun _ => false

/-- The packet in cell 2 and the assignment to it. -/
def gP2 (ps : FPkts) (k : PCont) : FState :=
  FPkts.casesOn ps fun a b c d e f g h => k a fun x => ⟨x, b, c, d, e, f, g, h⟩

/-- The packet in cell 3 and the assignment to it. -/
def gP3 (ps : FPkts) (k : PCont) : FState :=
  FPkts.casesOn ps fun a b c d e f g h => k b fun x => ⟨a, x, c, d, e, f, g, h⟩

/-- The packet in cell 5 and the assignment to it. -/
def gP5 (ps : FPkts) (k : PCont) : FState :=
  FPkts.casesOn ps fun a b c d e f g h => k c fun x => ⟨a, b, x, d, e, f, g, h⟩

/-- The packet in cell 6 and the assignment to it. -/
def gP6 (ps : FPkts) (k : PCont) : FState :=
  FPkts.casesOn ps fun a b c d e f g h => k d fun x => ⟨a, b, c, x, e, f, g, h⟩

/-- The packet in cell 7 and the assignment to it. -/
def gP7 (ps : FPkts) (k : PCont) : FState :=
  FPkts.casesOn ps fun a b c d e f g h => k e fun x => ⟨a, b, c, d, x, f, g, h⟩

/-- The packet in cell 9 and the assignment to it. -/
def gP9 (ps : FPkts) (k : PCont) : FState :=
  FPkts.casesOn ps fun a b c d e f g h => k f fun x => ⟨a, b, c, d, e, x, g, h⟩

/-- The packet in cell 10 and the assignment to it. -/
def gP10 (ps : FPkts) (k : PCont) : FState :=
  FPkts.casesOn ps fun a b c d e f g h => k g fun x => ⟨a, b, c, d, e, f, x, h⟩

/-- The packet in cell 11 and the assignment to it. -/
def gP11 (ps : FPkts) (k : PCont) : FState :=
  FPkts.casesOn ps fun a b c d e f g h => k h fun x => ⟨a, b, c, d, e, f, g, x⟩

/-- No packet lives in the cell. -/
def gP0 (_ : FPkts) (_ : PCont) : FState := FState.bad

/-- The packet in cell `i` and the assignment to it are passed on. -/
def gPkt (i : Nat) : FPkts → PCont → FState :=
  Bool.casesOn (Nat.ble i (nat_lit 6))
    (Bool.casesOn (Nat.ble i (nat_lit 9))
      (Bool.casesOn (Nat.beq i (nat_lit 10)) (Bool.casesOn (Nat.beq i (nat_lit 11)) gP0 gP11)
        gP10)
      (Bool.casesOn (Nat.beq i (nat_lit 7)) (Bool.casesOn (Nat.beq i (nat_lit 9)) gP0 gP9) gP7))
    (Bool.casesOn (Nat.ble i (nat_lit 3))
      (Bool.casesOn (Nat.beq i (nat_lit 5)) (Bool.casesOn (Nat.beq i (nat_lit 6)) gP0 gP6) gP5)
      (Bool.casesOn (Nat.beq i (nat_lit 2)) (Bool.casesOn (Nat.beq i (nat_lit 3)) gP0 gP3) gP2))

/-- The packet `pkt` is linked behind the packet `i`, which must be the last of its
chain. -/
def gLast1 (ps : FPkts) (i pkt : Nat) (k : FPkts → FState) : FState :=
  gPkt i ps fun Q set => FPkt.casesOn Q fun l id a1 b0 b1 b2 b3 =>
    Bool.casesOn (Nat.beq l (nat_lit 0)) FState.bad (k (set ⟨pkt, id, a1, b0, b1, b2, b3⟩))

/-- The packet `pkt` is linked behind the last packet of the chain from `i` on, of at
most two packets. -/
def gLast2 (ps : FPkts) (i pkt : Nat) (k : FPkts → FState) : FState :=
  gPkt i ps fun Q set => FPkt.casesOn Q fun l id a1 b0 b1 b2 b3 =>
    Bool.casesOn (Nat.beq l (nat_lit 0)) (gLast1 ps l pkt k)
      (k (set ⟨pkt, id, a1, b0, b1, b2, b3⟩))

/-- The packet `pkt` is linked behind the last packet of the chain from `i` on, of at
most three packets. -/
def gLast3 (ps : FPkts) (i pkt : Nat) (k : FPkts → FState) : FState :=
  gPkt i ps fun Q set => FPkt.casesOn Q fun l id a1 b0 b1 b2 b3 =>
    Bool.casesOn (Nat.beq l (nat_lit 0)) (gLast2 ps l pkt k)
      (k (set ⟨pkt, id, a1, b0, b1, b2, b3⟩))

/-- The packet `pkt` is linked behind the last packet of the chain from `i` on, of at
most four packets. -/
def gLast4 (ps : FPkts) (i pkt : Nat) (k : FPkts → FState) : FState :=
  gPkt i ps fun Q set => FPkt.casesOn Q fun l id a1 b0 b1 b2 b3 =>
    Bool.casesOn (Nat.beq l (nat_lit 0)) (gLast3 ps l pkt k)
      (k (set ⟨pkt, id, a1, b0, b1, b2, b3⟩))

/-- The function `append` for the packet `pkt` and the chain with the head `hd`. -/
def gApp (ps : FPkts) (hd pkt : Nat) (k : FPkts → Nat → FState) : FState :=
  gPkt pkt ps fun P set => FPkt.casesOn P fun _ id a1 b0 b1 b2 b3 =>
    Bool.casesOn (Nat.beq hd (nat_lit 0))
      (gLast4 (set ⟨nat_lit 0, id, a1, b0, b1, b2, b3⟩) hd pkt fun ps1 => k ps1 hd)
      (k (set ⟨nat_lit 0, id, a1, b0, b1, b2, b3⟩) pkt)

/-- The function `qpkt` for the packet `pkt` with the fields `a1` to `b3` and the
assignment `set` to its cell, sent by the task with the identifier `idc` in cell `cc` to
the task `U`: `mkE` gives the tasks when `U` has changed, `tsN` are the tasks when it has
not, `nxE` is the current task when the queue of `U` was empty. -/
def gSend (k : Cont) (idc : Int) (U : FTask) (mkE : FTask → FTasks) (tsN : FTasks)
    (nxE cc : Nat) (set : FPkt → FPkts) (pkt : Nat) (a1 b0 b1 b2 b3 : Int) (q h : Int) :
    FState :=
  FTask.casesOn U fun uw ust uv1 uv2 =>
    Bool.casesOn (Nat.beq uw (nat_lit 0))
      (gLast4 (set ⟨nat_lit 0, idc, a1, b0, b1, b2, b3⟩) uw pkt fun ps1 =>
        k tsN ps1 cc (q + 1) h)
      (Int.casesOn ust
        (fun us => k (mkE ⟨pkt, Int.ofNat (Nat.lor us (nat_lit 1)), uv1, uv2⟩)
          (set ⟨nat_lit 0, idc, a1, b0, b1, b2, b3⟩) nxE (q + 1) h)
        fun _ => FState.bad)

/-- A dispatch of `devfn` for a task in cell `cc` that is not passed by: `n` is its
state, `wkq` its queue, `v1` and `v2` are its variables. -/
def gDevGo (k : Cont) (ps : FPkts) (q h : Int) (wkq n : Nat) (st v1 v2 : Int)
    (mk : FTask → FTasks) (mk2 : FTask → FTask → FTasks) (U : FTask) (cc lk : Nat) (idc : Int)
    (eid : Nat) : FState :=
  Bool.casesOn (Nat.ble n (nat_lit 1))
    (Bool.casesOn (Nat.beq n (nat_lit 3)) FState.bad
      (gPkt wkq ps fun P _ => FPkt.casesOn P fun l _ _ _ _ _ _ =>
        k (mk ⟨l, Bool.casesOn (Nat.beq l (nat_lit 0)) (Int.ofNat (nat_lit 5))
            (Int.ofNat (nat_lit 4)), Int.ofNat wkq, v2⟩) ps lk q (h + 1)))
    (Int.casesOn v1
      (fun m =>
        Bool.casesOn (Nat.beq m (nat_lit 0))
          (gPkt m ps fun P set => FPkt.casesOn P fun _ id a1 b0 b1 b2 b3 =>
            Int.casesOn id
              (fun i =>
                Bool.casesOn (Nat.beq i eid) FState.bad
                  (gSend k idc U (fun u => mk2 u ⟨wkq, st, Int.ofNat (nat_lit 0), v2⟩)
                    (mk ⟨wkq, st, Int.ofNat (nat_lit 0), v2⟩) cc cc set m a1 b0 b1 b2 b3
                    q h))
              fun _ => FState.bad)
          (k (mk ⟨wkq, Int.ofNat (Nat.lor n (nat_lit 2)), v1, v2⟩) ps cc q h))
      fun _ => FState.bad)

/-- A dispatch of `devfn` for the task `T` in cell `cc` with the identifier `idc` and the
link `lk`, whose packets go to the task `U` with the identifier `eid`. -/
def gDev (k : Cont) (ts : FTasks) (ps : FPkts) (q h : Int) (T : FTask) (mk : FTask → FTasks)
    (mk2 : FTask → FTask → FTasks) (U : FTask) (cc lk : Nat) (idc : Int) (eid : Nat) :
    FState :=
  FTask.casesOn T fun wkq st v1 v2 =>
    Int.casesOn st
      (fun n =>
        Bool.casesOn (gBit n) (gDevGo k ps q h wkq n st v1 v2 mk mk2 U cc lk idc eid)
          (k ts ps lk q h))
      fun _ => FState.bad

/-- The part of `handlerfn` after the inbound packet has been filed, for the handler in
cell `cc` with the identifier `idc`, the link `wkq` and the state `sn`; `w` and `d` are
the heads of the chains of work packets and of device packets, `UW` is the worker and
`UD` the device task, with the identifier `eid` in cell `nxD`. -/
def gPair (k : Cont) (cc : Nat) (idc : Int) (mk : FTask → FTasks) (UW : FTask)
    (mkW : FTask → FTask → FTasks) (UD : FTask) (mkD : FTask → FTask → FTasks) (nxD eid : Nat)
    (wkq sn w d : Nat) (ps : FPkts) (q h : Int) : FState :=
  Bool.casesOn (Nat.beq w (nat_lit 0))
    (gPkt w ps fun W setw => FPkt.casesOn W fun wl wid wa1 wb0 wb1 wb2 wb3 =>
      Int.casesOn wa1
        (fun na =>
          Bool.casesOn (Nat.ble (nat_lit 4) na)
            (Bool.casesOn (Nat.beq d (nat_lit 0))
              (gPkt d ps fun D setd => FPkt.casesOn D fun dl did _ db0 db1 db2 db3 =>
                gPkt w (setd ⟨dl, did,
                    Bool.casesOn (Nat.ble na (nat_lit 1))
                      (Bool.casesOn (Nat.beq na (nat_lit 2)) wb3 wb2)
                      (Bool.casesOn (Nat.beq na (nat_lit 0)) wb1 wb0),
                    db0, db1, db2, db3⟩) fun W2 setw2 =>
                  FPkt.casesOn W2 fun l2 id2 _ c0 c1 c2 c3 =>
                    gPkt d (setw2 ⟨l2, id2, Int.ofNat (Nat.succ na), c0, c1, c2, c3⟩)
                      fun D2 setd2 => FPkt.casesOn D2 fun _ id3 ea1 e0 e1 e2 e3 =>
                        Int.casesOn id3
                          (fun i =>
                            Bool.casesOn (Nat.beq i eid) FState.bad
                              (gSend k idc UD
                                (fun u => mkD u ⟨wkq, Int.ofNat sn, Int.ofNat w, Int.ofNat dl⟩)
                                (mk ⟨wkq, Int.ofNat sn, Int.ofNat w, Int.ofNat dl⟩) nxD cc setd2
                                d ea1 e0 e1 e2 e3 q h))
                          fun _ => FState.bad)
              (k (mk ⟨wkq, Int.ofNat (Nat.lor sn (nat_lit 2)), Int.ofNat w, Int.ofNat d⟩) ps cc
                q h))
            (Int.casesOn wid
              (fun i =>
                Bool.casesOn (Nat.beq i (nat_lit 2)) FState.bad
                  (gSend k idc UW
                    (fun u => mkW u ⟨wkq, Int.ofNat sn, Int.ofNat wl, Int.ofNat d⟩)
                    (mk ⟨wkq, Int.ofNat sn, Int.ofNat wl, Int.ofNat d⟩) cc cc setw w wa1 wb0
                    wb1 wb2 wb3 q h))
              fun _ => FState.bad))
        fun _ => FState.bad)
    (k (mk ⟨wkq, Int.ofNat (Nat.lor sn (nat_lit 2)), Int.ofNat w, Int.ofNat d⟩) ps cc q h)

/-- A dispatch of `handlerfn` for a task in cell `cc` that is not passed by. -/
def gHandlerGo (k : Cont) (ps : FPkts) (q h : Int) (wkq n : Nat) (v1 v2 : Int) (cc : Nat)
    (idc : Int) (mk : FTask → FTasks) (UW : FTask) (mkW : FTask → FTask → FTasks)
    (UD : FTask) (mkD : FTask → FTask → FTasks) (nxD eid : Nat) : FState :=
  Int.casesOn v1
    (fun w =>
      Int.casesOn v2
        (fun d =>
          Bool.casesOn (Nat.ble n (nat_lit 1))
            (Bool.casesOn (Nat.beq n (nat_lit 3)) FState.bad
              (gPkt wkq ps fun P _ => FPkt.casesOn P fun l _ _ _ _ _ _ =>
                Bool.casesOn (Nat.ble wkq (nat_lit 3))
                  (gApp ps d wkq fun ps1 d1 =>
                    gPair k cc idc mk UW mkW UD mkD nxD eid l
                      (Bool.casesOn (Nat.beq l (nat_lit 0)) (nat_lit 1) (nat_lit 0))
                      w d1 ps1 q h)
                  (gApp ps w wkq fun ps1 w1 =>
                    gPair k cc idc mk UW mkW UD mkD nxD eid l
                      (Bool.casesOn (Nat.beq l (nat_lit 0)) (nat_lit 1) (nat_lit 0))
                      w1 d ps1 q h)))
            (gPair k cc idc mk UW mkW UD mkD nxD eid wkq n w d ps q h))
        fun _ => FState.bad)
    fun _ => FState.bad

/-- A dispatch of `handlerfn` for the task `T` in cell `cc`. -/
def gHandler (k : Cont) (ts : FTasks) (ps : FPkts) (q h : Int) (T : FTask) (cc lk : Nat)
    (idc : Int) (mk : FTask → FTasks) (UW : FTask) (mkW : FTask → FTask → FTasks)
    (UD : FTask) (mkD : FTask → FTask → FTasks) (nxD eid : Nat) : FState :=
  FTask.casesOn T fun wkq st v1 v2 =>
    Int.casesOn st
      (fun n =>
        Bool.casesOn (gBit n)
          (gHandlerGo k ps q h wkq n v1 v2 cc idc mk UW mkW UD mkD nxD eid)
          (k ts ps lk q h))
      fun _ => FState.bad

/-- One pass of the loop of `workfn` on the counter `v2`. -/
def gBump (j : Nat) : Nat :=
  Bool.casesOn (Nat.ble (nat_lit 26) j) (Nat.succ j) (nat_lit 1)

/-- The end of a dispatch of `workfn` for the packet in cell `pkt`: the packet gets the
identifier `i`, the count 0 and the letters after `j`, and is sent to the task `U` in
cell `nx`. -/
def gFill (k : Cont) (U : FTask) (mkE : FTask → FTask → FTasks) (mk : FTask → FTasks)
    (nx : Nat) (set : FPkt → FPkts) (pkt : Nat) (l sn i j : Nat) (q h : Int) : FState :=
  gSend k (Int.ofNat (nat_lit 2)) U
    (fun u => mkE u ⟨l, Int.ofNat sn, Int.ofNat i, Int.ofNat (gBump (gBump (gBump (gBump j))))⟩)
    (mk ⟨l, Int.ofNat sn, Int.ofNat i, Int.ofNat (gBump (gBump (gBump (gBump j))))⟩) nx
    (nat_lit 4) set pkt (Int.ofNat (nat_lit 0))
    (Int.ofNat (Nat.add (nat_lit 64) (gBump j)))
    (Int.ofNat (Nat.add (nat_lit 64) (gBump (gBump j))))
    (Int.ofNat (Nat.add (nat_lit 64) (gBump (gBump (gBump j)))))
    (Int.ofNat (Nat.add (nat_lit 64) (gBump (gBump (gBump (gBump j)))))) q h

/-- A dispatch of `workfn` for the worker in cell 4, which is not passed by; `c` and
`d` are the two handlers. -/
def gWorkGo (k : Cont) (ps : FPkts) (q h : Int) (wkq n : Nat) (v1 v2 : Int)
    (a c d e g : FTask) : FState :=
  Bool.casesOn (Nat.ble n (nat_lit 1))
    (Bool.casesOn (Nat.beq n (nat_lit 3)) FState.bad
      (gPkt wkq ps fun P set => FPkt.casesOn P fun l _ _ _ _ _ _ =>
        Int.casesOn v1
          (fun m =>
            Int.casesOn v2
              (fun j =>
                Bool.casesOn (Nat.beq m (nat_lit 3))
                  (Bool.casesOn (Nat.beq m (nat_lit 4)) FState.bad
                    (gFill k c (fun u x => ⟨a, x, u, d, e, g⟩) (fun x => ⟨a, x, c, d, e, g⟩)
                      (nat_lit 8) set wkq l
                      (Bool.casesOn (Nat.beq l (nat_lit 0)) (nat_lit 1) (nat_lit 0))
                      (nat_lit 3) j q h))
                  (gFill k d (fun u x => ⟨a, x, c, u, e, g⟩) (fun x => ⟨a, x, c, d, e, g⟩)
                    (nat_lit 12) set wkq l
                    (Bool.casesOn (Nat.beq l (nat_lit 0)) (nat_lit 1) (nat_lit 0))
                    (nat_lit 4) j q h))
              fun _ => FState.bad)
          fun _ => FState.bad))
    (k ⟨a, ⟨wkq, Int.ofNat (Nat.lor n (nat_lit 2)), v1, v2⟩, c, d, e, g⟩ ps (nat_lit 4) q h)

/-- A dispatch of `workfn`, for the worker `T` in cell 4. -/
def gWork (k : Cont) (ts : FTasks) (ps : FPkts) (q h : Int) (a T c d e g : FTask) : FState :=
  FTask.casesOn T fun wkq st v1 v2 =>
    Int.casesOn st
      (fun n =>
        Bool.casesOn (gBit n) (gWorkGo k ps q h wkq n v1 v2 a c d e g)
          (k ts ps (nat_lit 1) q h))
      fun _ => FState.bad

/-- The end of a dispatch of `idlefn` that releases the device task `U`. -/
def gRelease (k : Cont) (U : FTask) (mk : FTask → FTasks) (nx : Nat) (ps : FPkts) (q h : Int) :
    FState :=
  FTask.casesOn U fun uw ust uv1 uv2 =>
    Int.casesOn ust
      (fun us => k (mk ⟨uw, Int.ofNat (Nat.land us (nat_lit 65531)), uv1, uv2⟩) ps nx q h)
      fun _ => FState.bad

/-- A dispatch of `idlefn` for the idle task in cell 1, which is not passed by; `e`
and `g` are the two device tasks. -/
def gIdleGo (k : Cont) (ps : FPkts) (q h : Int) (wkq n : Nat) (st v1 v2 : Int)
    (b c d e g : FTask) : FState :=
  Bool.casesOn (Nat.ble n (nat_lit 1)) FState.bad
    (Int.casesOn v2
      (fun j =>
        Bool.casesOn (Nat.ble j (nat_lit 1))
          (Int.casesOn v1
            (fun m =>
              Bool.casesOn (Nat.beq (Nat.land m (nat_lit 1)) (nat_lit 0))
                (gRelease k g
                  (fun u => ⟨⟨wkq, st,
                    Int.ofNat (Nat.xor (Nat.land (Nat.shiftRight m (nat_lit 1))
                      (nat_lit 32767)) (nat_lit 53256)),
                    Int.ofNat (Nat.pred j)⟩, b, c, d, e, u⟩) (nat_lit 14) ps q h)
                (gRelease k e
                  (fun u => ⟨⟨wkq, st,
                    Int.ofNat (Nat.land (Nat.shiftRight m (nat_lit 1)) (nat_lit 32767)),
                    Int.ofNat (Nat.pred j)⟩, b, c, d, u, g⟩) (nat_lit 13) ps q h))
            fun _ => FState.bad)
          (Bool.casesOn (Nat.beq j (nat_lit 1)) FState.bad
            (k ⟨⟨wkq, Int.ofNat (Nat.lor n (nat_lit 4)), v1, Int.ofNat (nat_lit 0)⟩, b, c,
              d, e, g⟩ ps (nat_lit 0) q (h + 1))))
      fun _ => FState.bad)

/-- A dispatch of `idlefn`, for the idle task `T` in cell 1. -/
def gIdle (k : Cont) (ts : FTasks) (ps : FPkts) (q h : Int) (T b c d e g : FTask) : FState :=
  FTask.casesOn T fun wkq st v1 v2 =>
    Int.casesOn st
      (fun n =>
        Bool.casesOn (gBit n) (gIdleGo k ps q h wkq n st v1 v2 b c d e g)
          (k ts ps (nat_lit 0) q h))
      fun _ => FState.bad

/-- An iteration for the device task in cell 14. -/
def g14 (k : Cont) (ts : FTasks) (ps : FPkts) (q h : Int) : FState :=
  FTasks.casesOn ts fun a b c d e g =>
    gDev k ts ps q h g (fun x => ⟨a, b, c, d, e, x⟩) (fun u x => ⟨a, b, c, u, e, x⟩) d
      (nat_lit 14) (nat_lit 13) (Int.ofNat (nat_lit 6)) (nat_lit 4)

/-- An iteration for the device task in cell 13. -/
def g13 (k : Cont) (ts : FTasks) (ps : FPkts) (q h : Int) : FState :=
  FTasks.casesOn ts fun a b c d e g =>
    Bool.casesOn (gParked g) FState.bad
      (gDev k ts ps q h e (fun x => ⟨a, b, c, d, x, g⟩) (fun u x => ⟨a, b, u, d, x, g⟩) c
        (nat_lit 13) (nat_lit 12) (Int.ofNat (nat_lit 5)) (nat_lit 3))

/-- An iteration for the handler in cell 12. -/
def g12 (k : Cont) (ts : FTasks) (ps : FPkts) (q h : Int) : FState :=
  FTasks.casesOn ts fun a b c d e g =>
    Bool.casesOn (gParked g) FState.bad
      (Bool.casesOn (gParked e) FState.bad
        (gHandler k ts ps q h d (nat_lit 12) (nat_lit 8) (Int.ofNat (nat_lit 4))
          (fun x => ⟨a, b, c, x, e, g⟩) b (fun u x => ⟨a, u, c, x, e, g⟩) g
          (fun u x => ⟨a, b, c, x, e, u⟩) (nat_lit 14) (nat_lit 6)))

/-- An iteration for the handler in cell 8. -/
def g8 (k : Cont) (ts : FTasks) (ps : FPkts) (q h : Int) : FState :=
  FTasks.casesOn ts fun a b c d e g =>
    Bool.casesOn (gParked g) FState.bad
      (Bool.casesOn (gParked e) FState.bad
        (Bool.casesOn (gParked d) FState.bad
          (gHandler k ts ps q h c (nat_lit 8) (nat_lit 4) (Int.ofNat (nat_lit 3))
            (fun x => ⟨a, b, x, d, e, g⟩) b (fun u x => ⟨a, u, x, d, e, g⟩) e
            (fun u x => ⟨a, b, x, d, u, g⟩) (nat_lit 13) (nat_lit 5))))

/-- An iteration for the worker in cell 4. -/
def g4 (k : Cont) (ts : FTasks) (ps : FPkts) (q h : Int) : FState :=
  FTasks.casesOn ts fun a b c d e g =>
    Bool.casesOn (gParked g) FState.bad
      (Bool.casesOn (gParked e) FState.bad
        (Bool.casesOn (gParked d) FState.bad
          (Bool.casesOn (gParked c) FState.bad (gWork k ts ps q h a b c d e g))))

/-- An iteration for the idle task in cell 1. -/
def g1 (k : Cont) (ts : FTasks) (ps : FPkts) (q h : Int) : FState :=
  FTasks.casesOn ts fun a b c d e g =>
    Bool.casesOn (gParked g) FState.bad
      (Bool.casesOn (gParked e) FState.bad
        (Bool.casesOn (gParked d) FState.bad
          (Bool.casesOn (gParked c) FState.bad
            (Bool.casesOn (gParked b) FState.bad (gIdle k ts ps q h a b c d e g)))))

/-- No iteration: the current task is none of the six tasks. -/
def g0 (_ : Cont) (_ : FTasks) (_ : FPkts) (_ _ : Int) : FState := FState.bad

/-- One iteration of the loop of `schedule`, with the check that the tasks before the
current one in the task list are passed by; `k` takes the state afterwards. -/
def gStep (k : Cont) : Cont := fun ts ps tcb q h =>
  (Bool.casesOn (Nat.ble tcb (nat_lit 8))
    (Bool.casesOn (Nat.beq tcb (nat_lit 12))
      (Bool.casesOn (Nat.beq tcb (nat_lit 13)) (Bool.casesOn (Nat.beq tcb (nat_lit 14)) g0 g14)
        g13)
      g12)
    (Bool.casesOn (Nat.beq tcb (nat_lit 8))
      (Bool.casesOn (Nat.beq tcb (nat_lit 4)) (Bool.casesOn (Nat.beq tcb (nat_lit 1)) g0 g1) g4)
      g8) : Cont → FTasks → FPkts → Int → Int → FState) k ts ps q h

/-- The state after `4 * n` iterations. -/
def gRunK : Nat → Cont
  | 0 => fun ts ps tcb q h => ⟨ts, ps, tcb, q, h⟩
  | n + 1 => gStep (gStep (gStep (gStep (gRunK n))))

/-- The flat state after `4 * n` iterations of the loop of `schedule`, `FState.bad` if
one of them is not covered. -/
def gRun (n : Nat) (f : FState) : FState :=
  FState.casesOn f (gRunK n)

/-! # Theorems -/

/-! ## Reading and writing memory -/

theorem Mem.read_write_same {α : Type} [Inhabited α] (m : Mem α) (a : Nat) (v : α) :
    (m.write a v).read a = v := by
  induction m with
  | nil => simp [Mem.write, Mem.read]
  | cons kv r ih =>
    obtain ⟨k, w⟩ := kv
    by_cases h : k = a
    · simp [Mem.write, Mem.read, h]
    · simp [Mem.write, Mem.read, h, ih]

theorem Mem.read_write_ne {α : Type} [Inhabited α] (m : Mem α) (a b : Nat) (v : α)
    (h : a ≠ b) : (m.write a v).read b = m.read b := by
  induction m with
  | nil => simp [Mem.write, Mem.read, h]
  | cons kv r ih =>
    obtain ⟨k, w⟩ := kv
    by_cases hk : k = a
    · subst hk
      simp [Mem.write, Mem.read, h]
    · by_cases hb : k = b
      · subst hb
        simp [Mem.write, Mem.read, hk]
      · simp [Mem.write, Mem.read, hk, hb, ih]

theorem Mem.read_write {α : Type} [Inhabited α] (m : Mem α) (a b : Nat) (v : α) :
    (m.write a v).read b = if a = b then v else m.read b := by
  by_cases h : a = b
  · subst h; simp [Mem.read_write_same]
  · simp [h, Mem.read_write_ne]

theorem Mem.write_write_same {α : Type} (m : Mem α) (a : Nat) (v w : α) :
    (m.write a v).write a w = m.write a w := by
  induction m with
  | nil => simp [Mem.write]
  | cons kv r ih =>
    obtain ⟨k, u⟩ := kv
    by_cases h : k = a
    · simp [Mem.write, h]
    · simp [Mem.write, h, ih]

/-! ## The allocator -/

theorem init_loop_read_below (lim : Nat) (n : Nat) :
    ∀ (cells : Mem Nat) (cell a : Nat), lim - cell ≤ n → a < cell →
      (init_loop lim cells cell).1.read a = cells.read a := by
  induction n with
  | zero =>
    intro cells cell a hn _
    rw [init_loop]
    have : ¬ cell < lim := by omega
    simp [this]
  | succ n ih =>
    intro cells cell a hn ha
    rw [init_loop]
    by_cases hc : cell < lim
    · simp only [hc, if_true]
      rw [ih _ _ _ (by simp [CELL_SIZE]; omega) (by omega)]
      exact Mem.read_write_ne _ _ _ _ (by omega)
    · simp [hc]

/-- The loop of `init_mem_pool` links every cell it visits to the next one. -/
theorem init_loop_read (n : Nat) :
    ∀ (cells : Mem Nat) (c : Nat) (j : Nat), j < n →
      (init_loop (c + CELL_SIZE * n - 32) cells c).1.read (c + CELL_SIZE * j)
        = c + CELL_SIZE * (j + 1) := by
  induction n with
  | zero => intro _ _ j h; omega
  | succ n ih =>
    intro cells c j hj
    rw [init_loop]
    have hc : c < c + CELL_SIZE * (n + 1) - 32 := by simp [CELL_SIZE]; omega
    simp only [hc, if_true]
    have e : c + CELL_SIZE * (n + 1) - 32 = (c + CELL_SIZE) + CELL_SIZE * n - 32 := by
      simp [CELL_SIZE]; omega
    rw [e]
    cases j with
    | zero =>
      rw [init_loop_read_below _ _ _ _ _ (le_refl _) (by simp [CELL_SIZE])]
      simp [Mem.read_write_same]
    | succ j =>
      have := ih (cells.write c (c + CELL_SIZE)) (c + CELL_SIZE) j (by omega)
      have e2 : c + CELL_SIZE * (j + 1) = c + CELL_SIZE + CELL_SIZE * j := by
        simp [CELL_SIZE]; omega
      have e3 : c + CELL_SIZE * (j + 1 + 1) = c + CELL_SIZE + CELL_SIZE * (j + 1) := by
        simp [CELL_SIZE]; omega
      rw [e2, e3]; exact this

/-- The loop of `init_mem_pool` stops at the address `CELL_SIZE * n` past its start. -/
theorem init_loop_final (n : Nat) :
    ∀ (cells : Mem Nat) (c : Nat),
      (init_loop (c + CELL_SIZE * n - 32) cells c).2 = c + CELL_SIZE * n := by
  induction n with
  | zero =>
    intro cells c
    rw [init_loop]
    have : ¬ c < c - 32 := by omega
    simp [this]
  | succ n ih =>
    intro cells c
    rw [init_loop]
    have hc : c < c + CELL_SIZE * (n + 1) - 32 := by simp [CELL_SIZE]; omega
    simp only [hc, if_true]
    have e : c + CELL_SIZE * (n + 1) - 32 = (c + CELL_SIZE) + CELL_SIZE * n - 32 := by
      simp [CELL_SIZE]; omega
    rw [e, ih]
    simp [CELL_SIZE]; omega

theorem POOL_SIZE_eq : POOL_SIZE = CELL_SIZE * 256000 := by decide

/-- After `init_mem_pool` the cell at offset `CELL_SIZE * j`, `j < 256000`, points to
the next cell. -/
theorem init_mem_pool_read (p : Nat) (P : Pool) (j : Nat) (hj : j < 256000) :
    (init_mem_pool p P).cells.read (p + CELL_SIZE * j) = p + CELL_SIZE * (j + 1) := by
  unfold init_mem_pool
  simp only [POOL_SIZE_eq]
  rw [init_loop_final, Mem.read_write_ne _ _ _ _ (by simp [CELL_SIZE]; omega)]
  exact init_loop_read 256000 P.cells p j hj

/-- After `init_mem_pool` the address just past the pool, `mem + POOL_SIZE`, has been
written as the list tail. -/
theorem init_mem_pool_read_end (p : Nat) (P : Pool) :
    (init_mem_pool p P).cells.read (p + CELL_SIZE * 256000) = 0 := by
  unfold init_mem_pool
  simp only [POOL_SIZE_eq]
  rw [init_loop_final, Mem.read_write_same]

theorem my_malloc_n_cells (n : Nat) : ∀ (P : Pool), (my_malloc_n n P).1.cells = P.cells := by
  induction n with
  | zero => intro P; rfl
  | succ n ih =>
    intro P
    simp only [my_malloc_n, ih]
    unfold my_malloc
    split <;> rfl

/-- Successive allocations from a chain of `n` linked cells starting at `c`. -/
theorem my_malloc_n_chain (n : Nat) :
    ∀ (P : Pool) (c : Nat) (i : Nat), 0 < c → P.freelist = c + CELL_SIZE * i →
      (∀ j, i ≤ j → j < i + n → P.cells.read (c + CELL_SIZE * j) = c + CELL_SIZE * (j + 1)) →
      (my_malloc_n n P).2 = (List.range n).map (fun j => c + CELL_SIZE * (i + j)) ∧
      (my_malloc_n n P).1.freelist = c + CELL_SIZE * (i + n) := by
  induction n with
  | zero => intro P c i _ hf _; simp [my_malloc_n, hf]
  | succ n ih =>
    intro P c i hc hf hl
    have hne : P.freelist ≠ 0 := by rw [hf]; omega
    have hm : my_malloc P = (({ P with freelist := c + CELL_SIZE * (i + 1) } : Pool),
        c + CELL_SIZE * i) := by
      unfold my_malloc
      rw [if_neg hne, hf, hl i (le_refl _) (by omega)]
    have := ih ({ P with freelist := c + CELL_SIZE * (i + 1) } : Pool) c (i + 1) hc rfl
      (fun j h1 h2 => hl j (by omega) (by omega))
    simp only [my_malloc_n, hm]
    constructor
    · rw [this.1, List.range_succ_eq_map]
      simp [Function.comp_def, Nat.add_assoc, Nat.add_comm 1]
    · rw [this.2]; congr 2; omega

theorem Chain.congr {next next' : Nat → Nat} :
    ∀ (l : List Nat) (h : Nat), Chain next h l → (∀ c ∈ l, next' c = next c) →
      Chain next' h l := by
  intro l
  induction l with
  | nil => intro h hc _; exact hc
  | cons c l ih =>
    intro h hc hn
    obtain ⟨h1, h2, h3⟩ := hc
    refine ⟨h1, h2, ?_⟩
    rw [hn c (List.mem_cons_self _ _)]
    exact ih _ h3 (fun d hd => hn d (List.mem_cons_of_mem _ hd))

theorem my_malloc_n_succ_last (n : Nat) : ∀ (P : Pool),
    my_malloc_n (n + 1) P
      = ((my_malloc (my_malloc_n n P).1).1,
          (my_malloc_n n P).2 ++ [(my_malloc (my_malloc_n n P).1).2]) := by
  induction n with
  | zero => intro P; simp [my_malloc_n]
  | succ n ih =>
    intro P
    have h := ih (my_malloc P).1
    have e : my_malloc_n (n + 1 + 1) P
        = ((my_malloc_n (n + 1) (my_malloc P).1).1,
            (my_malloc P).2 :: (my_malloc_n (n + 1) (my_malloc P).1).2) := rfl
    have e2 : my_malloc_n (n + 1) P
        = ((my_malloc_n n (my_malloc P).1).1,
            (my_malloc P).2 :: (my_malloc_n n (my_malloc P).1).2) := rfl
    rw [e, h, e2]
    simp

theorem my_malloc_of_ne (P : Pool) (h : P.freelist ≠ 0) :
    (my_malloc P).2 = P.freelist ∧ (my_malloc P).1.freelist = P.cells.read P.freelist ∧
      (my_malloc P).1.cells = P.cells := by
  unfold my_malloc
  rw [if_neg h]
  exact ⟨rfl, rfl, rfl⟩

theorem my_malloc_of_null (P : Pool) (h : P.freelist = 0) : my_malloc P = (P, 0) := by
  unfold my_malloc
  rw [if_pos h]

theorem map_range_succ (f : Nat → Nat) (n : Nat) :
    (List.range (n + 1)).map f = (List.range n).map f ++ [f n] := by
  rw [List.range_succ, List.map_append]; rfl

/-- Allocation from a pool whose freelist is a chain of `n + 1` cells: `n` linked cells
followed by one more cell whose link is null. -/
theorem my_malloc_n_all (n : Nat) (Q : Pool) (p : Nat) (hp : 0 < p) (hf : Q.freelist = p)
    (hl : ∀ j, j < n → Q.cells.read (p + CELL_SIZE * j) = p + CELL_SIZE * (j + 1))
    (he : Q.cells.read (p + CELL_SIZE * n) = 0) :
    (my_malloc_n (n + 1) Q).2 = (List.range (n + 1)).map (fun j => p + CELL_SIZE * j) ∧
      (my_malloc_n (n + 1) Q).2.getLast? = some (p + CELL_SIZE * n) ∧
      (my_malloc (my_malloc_n (n + 1) Q).1).2 = 0 := by
  have h := my_malloc_n_chain n Q p 0 hp (by simp [hf]) (fun j _ hj => hl j (by omega))
  have hc := my_malloc_n_cells n Q
  obtain ⟨h1, h2⟩ := h
  simp only [Nat.zero_add] at h1 h2
  have hne : (my_malloc_n n Q).1.freelist ≠ 0 := by rw [h2]; omega
  rw [my_malloc_n_succ_last]
  generalize my_malloc_n n Q = R at h1 h2 hc hne
  obtain ⟨m2, m1, _⟩ := my_malloc_of_ne _ hne
  have hm1 : (my_malloc R.1).1.freelist = 0 := by
    rw [m1, h2, hc, he]
  refine ⟨?_, ?_, ?_⟩
  · simp only [h1, m2, h2]
    exact (map_range_succ _ n).symm
  · simp only [m2, h2, List.getLast?_append, List.getLast?_singleton]
    rfl
  · simp only [my_malloc_of_null _ hm1]

/-- C2 (as the code behaves): with `N = POOL_SIZE / CELL_SIZE = 256000`, after
`init_mem_pool` the first `N + 1` calls of `my_malloc` all return a cell, the cells at
offsets `0, 64, ..., 64 * N` from the start `p` of `mem`; the last of them,
`p + POOL_SIZE`, is not null and lies just past the end of the pool.  Only the call
after that returns the null pointer. -/
theorem init_mem_pool_gives_one_cell_too_many (p : Nat) (hp : 0 < p) (P : Pool) :
    POOL_SIZE = 16384000 ∧ POOL_SIZE / CELL_SIZE = 256000 ∧
      (my_malloc_n (POOL_SIZE / CELL_SIZE + 1) (init_mem_pool p P)).2
        = (List.range (POOL_SIZE / CELL_SIZE + 1)).map (fun j => p + CELL_SIZE * j) ∧
      (my_malloc_n (POOL_SIZE / CELL_SIZE + 1) (init_mem_pool p P)).2.getLast?
        = some (p + POOL_SIZE) ∧
      p + POOL_SIZE ≠ 0 ∧
      (my_malloc (my_malloc_n (POOL_SIZE / CELL_SIZE + 1) (init_mem_pool p P)).1).2 = 0 := by
  have hN : POOL_SIZE / CELL_SIZE = 256000 := by decide
  have hS : POOL_SIZE = CELL_SIZE * (POOL_SIZE / CELL_SIZE) := by decide
  have h := my_malloc_n_all (POOL_SIZE / CELL_SIZE) (init_mem_pool p P) p hp
    (by simp [init_mem_pool])
    (fun j hj => init_mem_pool_read p P j (by omega))
    (by rw [hN]; exact init_mem_pool_read_end p P)
  refine ⟨by decide, hN, h.1, ?_, by omega, h.2.2⟩
  rw [h.2.1]
  exact congrArg (fun x => some (p + x)) hS.symm

/-- C7: for a freelist `F` and a cell `c` (not null) that is not on it, `my_free c`
makes `c` the head of the freelist with `F` as its remainder and writes no cell but
`c`; the `my_malloc` that follows returns `c`, writes no cell, and leaves the freelist
equal to `F` again. -/
theorem my_free_then_my_malloc (P : Pool) (F : List Nat) (c : Nat)
    (hF : P.FreeList F) (hc : c ≠ 0) (hn : c ∉ F) :
    (my_free P c).FreeList (c :: F) ∧
      (∀ a, a ≠ c → (my_free P c).cells.read a = P.cells.read a) ∧
      (my_malloc (my_free P c)).2 = c ∧
      (my_malloc (my_free P c)).1.FreeList F ∧
      (my_malloc (my_free P c)).1.freelist = P.freelist ∧
      (my_malloc (my_free P c)).1.cells = (my_free P c).cells ∧
      (∀ a, a ≠ c → (my_malloc (my_free P c)).1.cells.read a = P.cells.read a) := by
  have hr : ∀ a, a ≠ c → (P.cells.write c P.freelist).read a = P.cells.read a :=
    fun a ha => Mem.read_write_ne _ _ _ _ (Ne.symm ha)
  have hch : Chain (fun d => (P.cells.write c P.freelist).read d) P.freelist F :=
    Chain.congr F _ hF (fun d hd => hr d (fun h => hn (h ▸ hd)))
  have hm : my_malloc (my_free P c)
      = (({ cells := P.cells.write c P.freelist, pool := P.pool, freelist := P.freelist } : Pool), c) := by
    simp [my_malloc, my_free, hc, Mem.read_write_same]
  rw [hm]
  refine ⟨⟨rfl, hc, ?_⟩, hr, rfl, hch, rfl, rfl, hr⟩
  simpa [my_free, Mem.read_write_same] using hch

theorem my_free_then_my_malloc_witness :
    (my_free ⟨[(64, 128), (128, 0)], 64, 64⟩ 192).FreeList (192 :: [64, 128]) ∧
      (∀ a, a ≠ 192 → (my_free ⟨[(64, 128), (128, 0)], 64, 64⟩ 192).cells.read a
        = (⟨[(64, 128), (128, 0)], 64, 64⟩ : Pool).cells.read a) ∧
      (my_malloc (my_free ⟨[(64, 128), (128, 0)], 64, 64⟩ 192)).2 = 192 ∧
      (my_malloc (my_free ⟨[(64, 128), (128, 0)], 64, 64⟩ 192)).1.FreeList [64, 128] ∧
      (my_malloc (my_free ⟨[(64, 128), (128, 0)], 64, 64⟩ 192)).1.freelist
        = (⟨[(64, 128), (128, 0)], 64, 64⟩ : Pool).freelist ∧
      (my_malloc (my_free ⟨[(64, 128), (128, 0)], 64, 64⟩ 192)).1.cells
        = (my_free ⟨[(64, 128), (128, 0)], 64, 64⟩ 192).cells ∧
      (∀ a, a ≠ 192 → (my_malloc (my_free ⟨[(64, 128), (128, 0)], 64, 64⟩ 192)).1.cells.read a
        = (⟨[(64, 128), (128, 0)], 64, 64⟩ : Pool).cells.read a) :=
  my_free_then_my_malloc ⟨[(64, 128), (128, 0)], 64, 64⟩ [64, 128] 192
    (by simp [Pool.FreeList, Chain, Mem.read]) (by decide) (by decide)

theorem init_mem_pool_gives_one_cell_too_many_witness :
    POOL_SIZE = 16384000 ∧ POOL_SIZE / CELL_SIZE = 256000 ∧
      (my_malloc_n (POOL_SIZE / CELL_SIZE + 1) (init_mem_pool 1024 ⟨Mem.empty, 0, 0⟩)).2
        = (List.range (POOL_SIZE / CELL_SIZE + 1)).map (fun j => 1024 + CELL_SIZE * j) ∧
      (my_malloc_n (POOL_SIZE / CELL_SIZE + 1) (init_mem_pool 1024 ⟨Mem.empty, 0, 0⟩)).2.getLast?
        = some (1024 + POOL_SIZE) ∧
      1024 + POOL_SIZE ≠ 0 ∧
      (my_malloc (my_malloc_n (POOL_SIZE / CELL_SIZE + 1)
        (init_mem_pool 1024 ⟨Mem.empty, 0, 0⟩)).1).2 = 0 :=
  init_mem_pool_gives_one_cell_too_many 1024 (by decide) ⟨Mem.empty, 0, 0⟩

/-! ## Task and packet objects -/

theorem State.task_setTask (s : State) (t u : Nat) (T : Task) :
    (s.setTask t T).task u = if t = u then T else s.task u := by
  simp [State.task, State.setTask, Mem.read_write]

theorem State.task_setTask_same (s : State) (t : Nat) (T : Task) :
    (s.setTask t T).task t = T := by
  simp [State.task_setTask]

theorem State.task_setTask_ne (s : State) (t u : Nat) (T : Task) (h : t ≠ u) :
    (s.setTask t T).task u = s.task u := by
  simp [State.task_setTask, h]

theorem State.packet_setTask (s : State) (t p : Nat) (T : Task) :
    (s.setTask t T).packet p = s.packet p := rfl

theorem State.packet_setPacket (s : State) (p q : Nat) (P : Packet) :
    (s.setPacket p P).packet q = if p = q then P else s.packet q := by
  simp [State.packet, State.setPacket, Mem.read_write]

theorem State.packet_setPacket_same (s : State) (p : Nat) (P : Packet) :
    (s.setPacket p P).packet p = P := by
  simp [State.packet_setPacket]

theorem State.packet_setPacket_ne (s : State) (p q : Nat) (P : Packet) (h : p ≠ q) :
    (s.setPacket p P).packet q = s.packet q := by
  simp [State.packet_setPacket, h]

theorem State.task_setPacket (s : State) (p t : Nat) (P : Packet) :
    (s.setPacket p P).task t = s.task t := rfl

/-! ## Task lookup -/

theorem findtcb_eq (s : State) (id : Int) :
    findtcb s id
      = if 1 ≤ id ∧ id ≤ (s.tasktab.getD 0 0 : Int) then s.tasktab.getD id.toNat 0 else 0 := rfl

/-- C5: for an identifier below 1, above the limit kept in `tasktab[0]`, or whose
slot of the task table is empty, `release` returns the null task and `qpkt` of a
packet carrying that destination returns the null task, and both leave the whole
state (tasks, packets, counters, every global) as it was. -/
theorem bad_id_gives_no_task (s : State) (id : Int)
    (h : id < 1 ∨ (s.tasktab.getD 0 0 : Int) < id ∨ s.tasktab.getD id.toNat 0 = 0) :
    findtcb s id = 0 ∧ release s id = (s, 0) ∧
      ∀ (fuel pkt : Nat), (s.packet pkt).p_id = id → qpkt fuel s pkt = some (s, 0) := by
  have hf : findtcb s id = 0 := by
    rw [findtcb_eq]
    split
    · rename_i hc
      rcases h with h | h | h
      · omega
      · omega
      · exact h
    · rfl
  refine ⟨hf, ?_, ?_⟩
  · simp [release, hf]
  · intro fuel pkt hp
    simp [qpkt, hp, hf]

theorem bad_id_gives_no_task_witness :
    findtcb State.init 11 = 0 ∧ release State.init 11 = (State.init, 0) ∧
      ∀ (fuel pkt : Nat), (State.init.packet pkt).p_id = 11 →
        qpkt fuel State.init pkt = some (State.init, 0) :=
  bad_id_gives_no_task State.init 11 (Or.inr (Or.inl (by decide)))

theorem findtcb_of_registered (s : State) (id : Int) (t : Nat)
    (h1 : 1 ≤ id) (h2 : id ≤ (s.tasktab.getD 0 0 : Int)) (h3 : s.tasktab.getD id.toNat 0 = t) :
    findtcb s id = t := by
  rw [findtcb_eq, if_pos ⟨h1, h2⟩, h3]

/-- The effect of `&= NOTHOLDBIT` on the eight composite states. -/
theorem land_NOTHOLDBIT (st : Int) (h0 : 0 ≤ st) (h7 : st ≤ 7) :
    Int.land (Int.land st NOTHOLDBIT) HOLDBIT = 0 ∧
      Int.land (Int.land st NOTHOLDBIT) PKTBIT = Int.land st PKTBIT ∧
      Int.land (Int.land st NOTHOLDBIT) WAITBIT = Int.land st WAITBIT ∧
      0 ≤ Int.land st NOTHOLDBIT ∧ Int.land st NOTHOLDBIT ≤ 3 := by
  interval_cases st <;> decide

/-- C4: for an identifier naming a registered task `t` other than the current task
`c = tcb`, with `t` in one of the eight composite states, `release` clears the holding
flag of `t` and keeps its packet-pending and waiting flags and its other fields, changes
no other task, no packet, no counter and no global, and returns `t` if and only if the
priority of `t` is strictly greater than that of `c`; otherwise it returns `c`. -/
theorem release_registered (s : State) (id : Int) (t : Nat)
    (h1 : 1 ≤ id) (h2 : id ≤ (s.tasktab.getD 0 0 : Int)) (h3 : s.tasktab.getD id.toNat 0 = t)
    (ht : t ≠ 0) (hc : t ≠ s.tcb)
    (h0 : 0 ≤ (s.task t).t_state) (h7 : (s.task t).t_state ≤ 7) :
    (release s id).1
        = s.setTask t { s.task t with t_state := Int.land (s.task t).t_state NOTHOLDBIT } ∧
      Int.land ((release s id).1.task t).t_state HOLDBIT = 0 ∧
      Int.land ((release s id).1.task t).t_state PKTBIT = Int.land (s.task t).t_state PKTBIT ∧
      Int.land ((release s id).1.task t).t_state WAITBIT = Int.land (s.task t).t_state WAITBIT ∧
      (∀ u, u ≠ t → (release s id).1.task u = s.task u) ∧
      (release s id).1.packets = s.packets ∧
      (release s id).1.qpktcount = s.qpktcount ∧
      (release s id).1.holdcount = s.holdcount ∧
      (release s id).1.tcb = s.tcb ∧
      ((release s id).2 = t ↔ (s.task t).t_pri > (s.task s.tcb).t_pri) ∧
      (¬ (s.task t).t_pri > (s.task s.tcb).t_pri → (release s id).2 = s.tcb) := by
  have hf := findtcb_of_registered s id t h1 h2 h3
  obtain ⟨b1, b2, b3, _, _⟩ := land_NOTHOLDBIT _ h0 h7
  have e : release s id
      = (s.setTask t { s.task t with t_state := Int.land (s.task t).t_state NOTHOLDBIT },
          if (s.task t).t_pri > (s.task s.tcb).t_pri then t else s.tcb) := by
    unfold release
    simp only [hf, if_neg ht]
    have e1 : (s.setTask t { s.task t with t_state := Int.land (s.task t).t_state NOTHOLDBIT }).tcb
        = s.tcb := rfl
    simp only [State.task_setTask_same, e1, State.task_setTask_ne _ _ _ _ hc]
    split <;> rfl
  rw [e]
  refine ⟨rfl, ?_, ?_, ?_, ?_, rfl, rfl, rfl, rfl, ?_, ?_⟩
  · simpa [State.task_setTask_same] using b1
  · simpa [State.task_setTask_same] using b2
  · simpa [State.task_setTask_same] using b3
  · intro u hu
    exact State.task_setTask_ne _ _ _ _ (Ne.symm hu)
  · constructor
    · intro h
      by_contra hn
      simp only [if_neg hn] at h
      exact hc h.symm
    · intro h
      simp only [if_pos h]
  · intro h
    simp only [if_neg h]

theorem release_registered_witness :
    (release State.sample 2).1
        = State.sample.setTask 128 { State.sample.task 128 with
            t_state := Int.land (State.sample.task 128).t_state NOTHOLDBIT } ∧
      ((release State.sample 2).2 = 128 ↔
        (State.sample.task 128).t_pri > (State.sample.task State.sample.tcb).t_pri) :=
  ⟨(release_registered State.sample 2 128 (by decide) (by decide) rfl (by decide) (by decide)
      (by decide) (by decide)).1,
   (release_registered State.sample 2 128 (by decide) (by decide) rfl (by decide) (by decide)
      (by decide) (by decide)).2.2.2.2.2.2.2.2.2.1⟩

theorem nat_bit_facts (n : Nat) :
    (n ||| 1) &&& 1 = 1 ∧ (n ||| 1) &&& 2 = n &&& 2 ∧ (n ||| 1) &&& 4 = n &&& 4 := by
  refine ⟨?_, ?_, ?_⟩
  · apply Nat.eq_of_testBit_eq; intro i
    simp only [Nat.testBit_and, Nat.testBit_or]
    cases i <;> simp [Nat.testBit_succ]
  · apply Nat.eq_of_testBit_eq; intro i
    simp only [Nat.testBit_and, Nat.testBit_or]
    rcases i with _ | _ | i <;> simp [Nat.testBit_succ]
  · apply Nat.eq_of_testBit_eq; intro i
    simp only [Nat.testBit_and, Nat.testBit_or]
    rcases i with _ | _ | _ | i <;> simp [Nat.testBit_succ]

theorem nat_ldiff_facts (n : Nat) :
    Nat.ldiff 1 (Nat.ldiff n 1) = 1 ∧ Nat.ldiff 2 (Nat.ldiff n 1) = Nat.ldiff 2 n ∧
      Nat.ldiff 4 (Nat.ldiff n 1) = Nat.ldiff 4 n := by
  refine ⟨?_, ?_, ?_⟩
  · apply Nat.eq_of_testBit_eq; intro i
    simp only [Nat.testBit_ldiff]
    cases i <;> simp [Nat.testBit_succ]
  · apply Nat.eq_of_testBit_eq; intro i
    simp only [Nat.testBit_ldiff]
    rcases i with _ | _ | i <;> simp [Nat.testBit_succ]
  · apply Nat.eq_of_testBit_eq; intro i
    simp only [Nat.testBit_ldiff]
    rcases i with _ | _ | _ | i <;> simp [Nat.testBit_succ]

/-- Setting the packet-pending bit of a state keeps its waiting and holding bits. -/
theorem lor_PKTBIT (st : Int) :
    Int.land (Int.lor st PKTBIT) PKTBIT = PKTBIT ∧
      Int.land (Int.lor st PKTBIT) WAITBIT = Int.land st WAITBIT ∧
      Int.land (Int.lor st PKTBIT) HOLDBIT = Int.land st HOLDBIT := by
  cases st with
  | ofNat n =>
    obtain ⟨a, b, c⟩ := nat_bit_facts n
    refine ⟨?_, ?_, ?_⟩
    · show ((((n ||| 1) &&& 1 : Nat)) : Int) = ((1 : Nat) : Int)
      rw [a]
    · show ((((n ||| 1) &&& 2 : Nat)) : Int) = (((n &&& 2 : Nat)) : Int)
      rw [b]
    · show ((((n ||| 1) &&& 4 : Nat)) : Int) = (((n &&& 4 : Nat)) : Int)
      rw [c]
  | negSucc n =>
    obtain ⟨a, b, c⟩ := nat_ldiff_facts n
    refine ⟨?_, ?_, ?_⟩
    · show ((Nat.ldiff 1 (Nat.ldiff n 1) : Nat) : Int) = ((1 : Nat) : Int)
      rw [a]
    · show ((Nat.ldiff 2 (Nat.ldiff n 1) : Nat) : Int) = ((Nat.ldiff 2 n : Nat) : Int)
      rw [b]
    · show ((Nat.ldiff 4 (Nat.ldiff n 1) : Nat) : Int) = ((Nat.ldiff 4 n : Nat) : Int)
      rw [c]

/-! ## Chains -/

theorem Chain.head_ne_nil {next : Nat → Nat} {h : Nat} {l : List Nat} (hc : Chain next h l)
    (hh : h ≠ 0) : l ≠ [] := by
  cases l with
  | nil => exact absurd hc hh
  | cons c r => simp

theorem Chain.head_eq_zero_iff {next : Nat → Nat} {h : Nat} {l : List Nat}
    (hc : Chain next h l) : h = 0 ↔ l = [] := by
  cases l with
  | nil => exact ⟨fun _ => rfl, fun _ => hc⟩
  | cons c r =>
    obtain ⟨h1, h2, _⟩ := hc
    constructor
    · intro h0; exact absurd (h1 ▸ h0) h2
    · intro h0; simp at h0

theorem Chain.last_next {next : Nat → Nat} :
    ∀ (l : List Nat) (h : Nat) (hl : l ≠ []), Chain next h l → next (l.getLast hl) = 0 := by
  intro l
  induction l with
  | nil => intro h hl; exact absurd rfl hl
  | cons c r ih =>
    intro h hl hc
    obtain ⟨_, _, h3⟩ := hc
    cases r with
    | nil => simpa [Chain] using h3
    | cons d r' =>
      rw [List.getLast_cons (by simp)]
      exact ih _ (by simp) h3

theorem Chain.last_ne_zero {next : Nat → Nat} :
    ∀ (l : List Nat) (h : Nat) (hl : l ≠ []), Chain next h l → l.getLast hl ≠ 0 := by
  intro l
  induction l with
  | nil => intro h hl; exact absurd rfl hl
  | cons c r ih =>
    intro h hl hc
    obtain ⟨_, h2, h3⟩ := hc
    cases r with
    | nil => simpa using h2
    | cons d r' =>
      rw [List.getLast_cons (by simp)]
      exact ih _ (by simp) h3

/-- Linking a new cell behind the last cell of a chain appends it to the chain. -/
theorem Chain.snoc (next next' : Nat → Nat) (pkt : Nat) (hp : pkt ≠ 0) (h2 : next' pkt = 0) :
    ∀ (l : List Nat) (h : Nat) (hl : l ≠ []), Chain next h l → pkt ∉ l →
      next' (l.getLast hl) = pkt →
      (∀ c ∈ l, c ≠ l.getLast hl → next' c = next c) →
      Chain next' h (l ++ [pkt]) := by
  intro l
  induction l with
  | nil => intro h hl; exact absurd rfl hl
  | cons c r ih =>
    intro h hl hc hn h1 h3
    obtain ⟨e1, e2, e3⟩ := hc
    cases r with
    | nil =>
      simp only [List.getLast_singleton] at h1
      refine ⟨e1, e2, ?_⟩
      rw [h1]
      exact ⟨rfl, hp, h2⟩
    | cons d r' =>
      have hlast : (c :: d :: r').getLast hl = (d :: r').getLast (by simp) :=
        List.getLast_cons (by simp)
      have hd : next c = d := e3.1
      have hcne : c ≠ (c :: d :: r').getLast hl := by
        intro hE
        have := Chain.last_next (c :: d :: r') h hl ⟨e1, e2, e3⟩
        rw [← hE, hd] at this
        exact e3.2.1 this
      refine ⟨e1, e2, ?_⟩
      show Chain next' (next' c) (d :: r' ++ [pkt])
      rw [h3 c (List.mem_cons_self _ _) hcne]
      refine ih (next c) (by simp) e3 (fun hm => hn (List.mem_cons_of_mem _ hm)) ?_ ?_
      · rw [← hlast]; exact h1
      · intro x hx hxne
        exact h3 x (List.mem_cons_of_mem _ hx) (by rw [hlast]; exact hxne)

/-- Clearing the link of one cell leaves a chain, no longer than before, from every
head. -/
theorem Chain.cut (next next' : Nat → Nat) (pkt : Nat) (h2 : next' pkt = 0)
    (h3 : ∀ c, c ≠ pkt → next' c = next c) :
    ∀ (l : List Nat) (h : Nat), Chain next h l →
      ∃ l', Chain next' h l' ∧ l'.length ≤ l.length ∧ (l ≠ [] → l' ≠ []) := by
  intro l
  induction l with
  | nil => intro h hc; exact ⟨[], hc, le_refl _, fun h => h⟩
  | cons c r ih =>
    intro h hc
    obtain ⟨e1, e2, e3⟩ := hc
    by_cases hcp : c = pkt
    · refine ⟨[c], ⟨e1, e2, ?_⟩, by simp, by simp⟩
      rw [hcp]; exact h2
    · obtain ⟨r', c1, c2, _⟩ := ih (next c) e3
      refine ⟨c :: r', ⟨e1, e2, ?_⟩, by simpa using c2, by simp⟩
      rw [h3 c hcp]; exact c1

/-! ## The loop of `append` -/

/-- On a chain the loop of `append` stops, given fuel beyond the length of the chain,
at the last packet of the chain. -/
theorem append_walk_chain (s : State) :
    ∀ (l : List Nat) (ptr : Ref) (hl : l ≠ []) (fuel : Nat),
      Chain (fun p => (s.packet p).p_link) (s.rdLink ptr) l → l.length < fuel →
      append_walk fuel s ptr = some (Ref.pkt (l.getLast hl)) := by
  intro l
  induction l with
  | nil => intro _ hl; exact absurd rfl hl
  | cons c r ih =>
    intro ptr hl fuel hc hf
    obtain ⟨e1, e2, e3⟩ := hc
    cases fuel with
    | zero => simp at hf
    | succ fuel =>
      have hne : s.rdLink ptr ≠ 0 := by rw [e1]; exact e2
      rw [append_walk, if_pos hne, e1]
      cases r with
      | nil =>
        cases fuel with
        | zero => simp at hf
        | succ fuel =>
          have h0 : s.rdLink (Ref.pkt c) = 0 := e3
          rw [append_walk]
          simp [h0]
      | cons d r' =>
        have := ih (Ref.pkt c) (by simp) fuel e3 (by simpa using hf)
        rw [this]
        exact congrArg (fun x => some (Ref.pkt x)) (List.getLast_cons (by simp)).symm

theorem qpkt_of_empty (fuel : Nat) (s : State) (pkt t : Nat)
    (hf : findtcb s (s.packet pkt).p_id = t) (ht : t ≠ 0) (hq : (s.task t).t_wkq = 0) :
    qpkt fuel s pkt = some (qpkt_empty_state s pkt t,
      if (s.task t).t_pri > (s.task s.tcb).t_pri then t else s.tcb) := by
  unfold qpkt qpkt_empty_state qpkt_stamped
  obtain ⟨tasks, packets, tasktab, tasklist, tcb, taskid, v1, v2, qc, hc, tr, lay⟩ := s
  simp only [State.task, State.packet, State.setTask, State.setPacket, findtcb] at *
  simp only [hf, if_neg ht, Mem.read_write_same, Mem.write_write_same, hq, if_true]
  by_cases h : t = tcb
  · subst h
    simp [Mem.read_write_same]
  · simp only [Mem.read_write_ne _ _ _ _ h]
    split <;> rfl

theorem append_of_chain (fuel : Nat) (s : State) (pkt : Nat) (ptr : Ref) (l : List Nat)
    (hl : l ≠ [])
    (hc : Chain (fun p => ((s.setPacket pkt { s.packet pkt with p_link := 0 }).packet p).p_link)
      ((s.setPacket pkt { s.packet pkt with p_link := 0 }).rdLink ptr) l)
    (hfuel : l.length < fuel) :
    append fuel s pkt ptr
      = some ((s.setPacket pkt { s.packet pkt with p_link := 0 }).wrLink
          (Ref.pkt (l.getLast hl)) pkt) := by
  unfold append
  simp only [append_walk_chain _ l ptr hl fuel hc hfuel]

theorem append_of_null (fuel : Nat) (s : State) (pkt : Nat) (ptr : Ref)
    (hc : (s.setPacket pkt { s.packet pkt with p_link := 0 }).rdLink ptr = 0) :
    append (fuel + 1) s pkt ptr
      = some ((s.setPacket pkt { s.packet pkt with p_link := 0 }).wrLink ptr pkt) := by
  unfold append
  simp only [append_walk, hc, ne_eq, not_true_eq_false, if_false]

theorem qpkt_stamped_restamp (s : State) (pkt : Nat) :
    (qpkt_stamped s pkt).setPacket pkt { (qpkt_stamped s pkt).packet pkt with p_link := 0 }
      = qpkt_stamped s pkt := by
  obtain ⟨tasks, packets, tasktab, tasklist, tcb, taskid, v1, v2, qc, hc, tr, lay⟩ := s
  simp [qpkt_stamped, State.packet, State.setPacket, Mem.read_write_same,
    Mem.write_write_same]

theorem qpkt_unfold (fuel : Nat) (s : State) (pkt t : Nat)
    (hf : findtcb s (s.packet pkt).p_id = t) (ht : t ≠ 0) (hq : (s.task t).t_wkq ≠ 0) :
    qpkt fuel s pkt
      = match append fuel (qpkt_stamped s pkt) pkt (Ref.wkq t) with
        | none => none
        | some s' => some (s', s'.tcb) := by
  unfold qpkt qpkt_stamped
  obtain ⟨tasks, packets, tasktab, tasklist, tcb, taskid, v1, v2, qc, hc, tr, lay⟩ := s
  simp only [State.task, State.packet, State.setTask, State.setPacket, findtcb] at *
  simp only [hf, if_neg ht, Mem.read_write_same, Mem.write_write_same, hq, if_false]
  all_goals rfl

/-- What `qpkt` does when the queue of the destination is not empty: `l` is the queue
as the loop of `append` finds it, after the link of the packet has been cleared. -/
theorem qpkt_of_nonempty (fuel : Nat) (s : State) (pkt t : Nat) (l : List Nat) (hl : l ≠ [])
    (hf : findtcb s (s.packet pkt).p_id = t) (ht : t ≠ 0)
    (hc : Chain (fun p => ((qpkt_stamped s pkt).packet p).p_link) (s.task t).t_wkq l)
    (hfuel : l.length < fuel) :
    qpkt fuel s pkt = some (qpkt_append_state s pkt (l.getLast hl), s.tcb) := by
  have hq : (s.task t).t_wkq ≠ 0 := fun h0 => hl ((Chain.head_eq_zero_iff hc).1 h0)
  rw [qpkt_unfold fuel s pkt t hf ht hq]
  have := append_of_chain fuel (qpkt_stamped s pkt) pkt (Ref.wkq t) l hl
    (by rw [qpkt_stamped_restamp]; exact hc) hfuel
  rw [this, qpkt_stamped_restamp]
  rfl

theorem packet_qpkt_stamped (s : State) (pkt q : Nat) :
    (qpkt_stamped s pkt).packet q
      = if pkt = q then { s.packet pkt with p_link := 0, p_id := s.taskid } else s.packet q := by
  unfold qpkt_stamped
  rw [State.packet_setPacket]
  rfl

theorem packet_qpkt_stamped_ne (s : State) (pkt q : Nat) (h : pkt ≠ q) :
    (qpkt_stamped s pkt).packet q = s.packet q := by
  rw [packet_qpkt_stamped, if_neg h]

/-- A queue that does not hold the packet is not changed by stamping the packet. -/
theorem chain_qpkt_stamped (s : State) (pkt h : Nat) (l : List Nat)
    (hc : Chain (fun p => (s.packet p).p_link) h l) (hn : pkt ∉ l) :
    Chain (fun p => ((qpkt_stamped s pkt).packet p).p_link) h l :=
  Chain.congr l h hc (fun c hm => by
    show ((qpkt_stamped s pkt).packet c).p_link = (s.packet c).p_link
    rw [packet_qpkt_stamped_ne s pkt c (fun e => hn (e ▸ hm))])

/-- C3 (as the code behaves): for a packet whose destination identifier names a
registered task `t` other than the current task `c`: when the queue of `t` is empty,
`qpkt` returns `t` if and only if the priority of `t` is strictly greater than that of
`c`, and `c` otherwise; when the queue of `t` is not empty, `qpkt` returns `c` whatever
the priorities are. -/
theorem qpkt_next_task (s : State) (pkt : Nat) (id : Int) (t : Nat) (l : List Nat)
    (hid : (s.packet pkt).p_id = id)
    (h1 : 1 ≤ id) (h2 : id ≤ (s.tasktab.getD 0 0 : Int)) (h3 : s.tasktab.getD id.toNat 0 = t)
    (ht : t ≠ 0) (hc : t ≠ s.tcb) (hq : s.Queue t l) :
    (l = [] → ∀ fuel, ∃ s' r, qpkt fuel s pkt = some (s', r) ∧
        (r = t ↔ (s.task t).t_pri > (s.task s.tcb).t_pri) ∧
        (¬ (s.task t).t_pri > (s.task s.tcb).t_pri → r = s.tcb)) ∧
      (l ≠ [] → ∀ fuel, l.length < fuel → ∃ s', qpkt fuel s pkt = some (s', s.tcb)) := by
  have hf : findtcb s (s.packet pkt).p_id = t := by
    rw [hid]; exact findtcb_of_registered s id t h1 h2 h3
  constructor
  · intro hl fuel
    have hw : (s.task t).t_wkq = 0 := by
      subst hl; exact hq
    refine ⟨_, _, qpkt_of_empty fuel s pkt t hf ht hw, ?_, ?_⟩
    · constructor
      · intro h
        by_contra hn
        rw [if_neg hn] at h
        exact hc h.symm
      · intro h; rw [if_pos h]
    · intro h; rw [if_neg h]
  · intro hl fuel hfuel
    obtain ⟨l', c1, c2, c3⟩ := Chain.cut (fun p => (s.packet p).p_link)
      (fun p => ((qpkt_stamped s pkt).packet p).p_link) pkt
      (by simp [packet_qpkt_stamped])
      (fun c hcp => by
        show ((qpkt_stamped s pkt).packet c).p_link = (s.packet c).p_link
        rw [packet_qpkt_stamped_ne s pkt c (Ne.symm hcp)])
      l _ hq
    exact ⟨_, qpkt_of_nonempty fuel s pkt t l' (c3 hl) hf ht c1 (by omega)⟩

theorem sample_queue : State.sample.Queue 128 [192] := by
  simp [State.Queue, Chain, State.sample, State.task, State.packet, Mem.read]

/-- C3 fails as stated: in the sample configuration the packet 256 is addressed to the
task at 128, whose priority 1000 is greater than the priority 0 of the current task at
64 and whose queue is not empty, and `qpkt` returns the current task, not the
destination. -/
theorem qpkt_nonempty_queue_keeps_current :
    findtcb State.sample (State.sample.packet 256).p_id = 128 ∧
      (128 : Nat) ≠ State.sample.tcb ∧
      (State.sample.task 128).t_pri > (State.sample.task State.sample.tcb).t_pri ∧
      (qpkt 2 State.sample 256).map Prod.snd = some State.sample.tcb ∧
      (qpkt 2 State.sample 256).map Prod.snd ≠ some 128 := by
  decide

theorem qpkt_next_task_witness :
    ∃ s', qpkt 2 State.sample 256 = some (s', State.sample.tcb) :=
  (qpkt_next_task State.sample 256 2 128 [192] rfl (by decide) (by decide) rfl
    (by decide) (by decide) sample_queue).2 (by simp) 2 (by simp)

/-- C9: for a packet (not null, not already on the queue) whose destination
identifier names a registered task `t` with queue `l`, `qpkt` returns, increases
`qpktcount` by exactly 1, clears the link of the packet and stamps it with `taskid`,
and makes the queue of `t` the old queue followed by the packet.  If the queue was
empty the packet-pending flag of `t` is set and its waiting and holding flags are
kept; otherwise the state of `t` is unchanged.  `holdcount`, the other tasks and the
other fields of `t` are unchanged. -/
theorem qpkt_effect (s : State) (pkt : Nat) (id : Int) (t : Nat) (l : List Nat) (fuel : Nat)
    (hid : (s.packet pkt).p_id = id)
    (h1 : 1 ≤ id) (h2 : id ≤ (s.tasktab.getD 0 0 : Int)) (h3 : s.tasktab.getD id.toNat 0 = t)
    (ht : t ≠ 0) (hp : pkt ≠ 0) (hq : s.Queue t l) (hn : pkt ∉ l) (hfuel : l.length < fuel) :
    ∃ s' r, qpkt fuel s pkt = some (s', r) ∧
      s'.qpktcount = s.qpktcount + 1 ∧
      (s'.packet pkt).p_link = 0 ∧ (s'.packet pkt).p_id = s.taskid ∧
      s'.Queue t (l ++ [pkt]) ∧
      (l = [] → (s'.task t).t_state = Int.lor (s.task t).t_state PKTBIT ∧
        Int.land (s'.task t).t_state PKTBIT = PKTBIT ∧
        Int.land (s'.task t).t_state WAITBIT = Int.land (s.task t).t_state WAITBIT ∧
        Int.land (s'.task t).t_state HOLDBIT = Int.land (s.task t).t_state HOLDBIT) ∧
      (l ≠ [] → (s'.task t).t_state = (s.task t).t_state) ∧
      s'.holdcount = s.holdcount ∧
      (∀ u, u ≠ t → s'.task u = s.task u) ∧
      (s'.task t).t_link = (s.task t).t_link ∧ (s'.task t).t_id = (s.task t).t_id ∧
      (s'.task t).t_pri = (s.task t).t_pri ∧ (s'.task t).t_fn = (s.task t).t_fn ∧
      (s'.task t).t_v1 = (s.task t).t_v1 ∧ (s'.task t).t_v2 = (s.task t).t_v2 ∧
      (∀ q, q ≠ pkt → (s'.packet q).p_id = (s.packet q).p_id) ∧
      s'.tasktab = s.tasktab ∧ s'.tcb = s.tcb ∧ s'.taskid = s.taskid := by
  have hf : findtcb s (s.packet pkt).p_id = t := by
    rw [hid]; exact findtcb_of_registered s id t h1 h2 h3
  by_cases hl : l = []
  · subst hl
    have hw : (s.task t).t_wkq = 0 := hq
    refine ⟨_, _, qpkt_of_empty fuel s pkt t hf ht hw, rfl, ?_, ?_, ?_, ?_, ?_, rfl, ?_,
      ?_, ?_, ?_, ?_, ?_, ?_, ?_, rfl, rfl, rfl⟩
    · show ((qpkt_stamped s pkt).packet pkt).p_link = 0
      simp [packet_qpkt_stamped]
    · show ((qpkt_stamped s pkt).packet pkt).p_id = s.taskid
      simp [packet_qpkt_stamped]
    · refine ⟨?_, hp, ?_⟩
      · simp [qpkt_empty_state, State.task_setTask_same]
      · show ((qpkt_stamped s pkt).packet pkt).p_link = 0
        simp [packet_qpkt_stamped]
    · intro _
      have e : ((qpkt_empty_state s pkt t).task t).t_state
          = Int.lor (s.task t).t_state PKTBIT := by
        simp [qpkt_empty_state, State.task_setTask_same]
      rw [e]
      exact ⟨rfl, lor_PKTBIT _⟩
    · intro h; exact absurd rfl h
    · intro u hu
      simp only [qpkt_empty_state]
      rw [State.task_setTask_ne _ _ _ _ (Ne.symm hu)]
      rfl
    all_goals first
      | (intro q hq'
         show ((qpkt_stamped s pkt).packet q).p_id = (s.packet q).p_id
         rw [packet_qpkt_stamped_ne s pkt q (Ne.symm hq')])
      | simp [qpkt_empty_state, State.task_setTask_same]
  · have hc := chain_qpkt_stamped s pkt _ l hq hn
    have hlast_ne : l.getLast hl ≠ pkt := fun e => hn (e ▸ List.getLast_mem hl)
    refine ⟨_, _, qpkt_of_nonempty fuel s pkt t l hl hf ht hc hfuel, rfl, ?_, ?_, ?_, ?_, ?_,
      rfl, ?_, rfl, rfl, rfl, rfl, rfl, rfl, ?_, rfl, rfl, rfl⟩
    · simp [qpkt_append_state, State.packet_setPacket, hlast_ne, packet_qpkt_stamped]
    · simp [qpkt_append_state, State.packet_setPacket, hlast_ne, packet_qpkt_stamped]
    · refine Chain.snoc (fun p => (s.packet p).p_link) _ pkt hp ?_ l _ hl hq hn ?_ ?_
      · simp [qpkt_append_state, State.packet_setPacket, hlast_ne, packet_qpkt_stamped]
      · simp [qpkt_append_state, State.packet_setPacket]
      · intro c hcm hcl
        have hcp : pkt ≠ c := fun e => hn (e ▸ hcm)
        simp [qpkt_append_state, State.packet_setPacket, Ne.symm hcl, packet_qpkt_stamped, hcp]
    · intro h; exact absurd h hl
    · intro _; rfl
    · intro u _; rfl
    · intro q hq'
      simp only [qpkt_append_state, State.packet_setPacket]
      split
      · rename_i e; subst e
        simp [packet_qpkt_stamped, Ne.symm hq']
      · rw [packet_qpkt_stamped_ne s pkt q (Ne.symm hq')]

theorem sample_queue_empty : State.sample.Queue 320 [] := by
  simp [State.Queue, Chain, State.sample, State.task, Mem.read]

theorem qpkt_effect_witness :
    ∃ s' r, qpkt 1 State.sample 384 = some (s', r) ∧
      s'.qpktcount = State.sample.qpktcount + 1 ∧ s'.Queue 320 ([] ++ [384]) := by
  obtain ⟨s', r, h, hc, _, _, hq, _⟩ := qpkt_effect State.sample 384 3 320 [] 1 rfl
    (by decide) (by decide) rfl (by decide) (by decide) sample_queue_empty (by simp) (by simp)
  exact ⟨s', r, h, hc, hq⟩

theorem trace_tasks (s : State) (a : Int) :
    (trace s a).tasks = s.tasks ∧ (trace s a).packets = s.packets ∧ (trace s a).tcb = s.tcb ∧
      (trace s a).tasktab = s.tasktab ∧ (trace s a).qpktcount = s.qpktcount ∧
      (trace s a).holdcount = s.holdcount ∧ (trace s a).taskid = s.taskid ∧
      (trace s a).v1 = s.v1 ∧ (trace s a).v2 = s.v2 ∧ (trace s a).tracing = s.tracing := by
  unfold trace
  simp only
  split <;> exact ⟨rfl, rfl, rfl, rfl, rfl, rfl, rfl, rfl, rfl, rfl⟩

/-- Loading the scratch slots changes no task, no packet and no counter. -/
theorem load_scratch_frame (s : State) :
    (load_scratch s).tasks = s.tasks ∧ (load_scratch s).packets = s.packets ∧
      (load_scratch s).tcb = s.tcb ∧ (load_scratch s).tasktab = s.tasktab ∧
      (load_scratch s).qpktcount = s.qpktcount ∧ (load_scratch s).holdcount = s.holdcount ∧
      (load_scratch s).taskid = (s.task s.tcb).t_id ∧
      (load_scratch s).v1 = (s.task s.tcb).t_v1 ∧ (load_scratch s).v2 = (s.task s.tcb).t_v2 ∧
      (load_scratch s).tracing = s.tracing := by
  unfold load_scratch
  simp only
  split
  · obtain ⟨a, b, c, d, e, f, g, h, i, j⟩ := trace_tasks
      ({ s with taskid := (s.task s.tcb).t_id, v1 := (s.task s.tcb).t_v1,
                v2 := (s.task s.tcb).t_v2 } : State)
      ((s.task s.tcb).t_id + 48)
    exact ⟨a, b, c, d, e, f, g, h, i, j⟩
  · exact ⟨rfl, rfl, rfl, rfl, rfl, rfl, rfl, rfl, rfl, rfl⟩

theorem load_scratch_task (s : State) (t : Nat) : (load_scratch s).task t = s.task t := by
  unfold State.task
  rw [(load_scratch_frame s).1]

theorem schedule_succ (fuel : Nat) (s : State) :
    schedule (fuel + 1) s
      = if s.tcb ≠ 0 then
          if (s.task s.tcb).t_state = S_WAITPKT then
            match dispatch fuel (dequeue s).1 (dequeue s).2 with
            | none => none
            | some s => schedule fuel s
          else if (s.task s.tcb).t_state = S_RUN ∨ (s.task s.tcb).t_state = S_RUNPKT then
            match dispatch fuel s 0 with
            | none => none
            | some s => schedule fuel s
          else if (s.task s.tcb).t_state = S_WAIT ∨ (s.task s.tcb).t_state = S_HOLD
              ∨ (s.task s.tcb).t_state = S_HOLDPKT ∨ (s.task s.tcb).t_state = S_HOLDWAIT
              ∨ (s.task s.tcb).t_state = S_HOLDWAITPKT then
            schedule fuel { s with tcb := (s.task s.tcb).t_link }
          else some s
        else some s := by
  rw [schedule]
  all_goals rfl

theorem dequeue_eq (s : State) :
    dequeue s
      = (s.setTask s.tcb { s.task s.tcb with
            t_wkq := (s.packet (s.task s.tcb).t_wkq).p_link,
            t_state := if (s.packet (s.task s.tcb).t_wkq).p_link = 0 then S_RUN else S_RUNPKT },
          (s.task s.tcb).t_wkq) := by
  unfold dequeue
  obtain ⟨tasks, packets, tasktab, tasklist, tcb, taskid, v1, v2, qc, hc, tr, lay⟩ := s
  simp [State.task, State.packet, State.setTask, Mem.read_write_same, Mem.write_write_same]

/-- C10: for a current task in state `S_WAITPKT` whose queue is `p` followed by
`rest`, one iteration of `schedule` takes `p` from the queue (the queue becomes
`rest`), sets the state of the task to `S_RUN` if `rest` is empty and to `S_RUNPKT`
otherwise (so the waiting flag is cleared), touches nothing else, and then calls the
behaviour of the task with `p` as its packet argument. -/
theorem schedule_waitpkt (s : State) (fuel : Nat) (p : Nat) (rest : List Nat)
    (hcur : s.tcb ≠ 0) (hst : (s.task s.tcb).t_state = S_WAITPKT)
    (hq : s.Queue s.tcb (p :: rest)) :
    (dequeue s).2 = p ∧
      (dequeue s).1.Queue s.tcb rest ∧
      ((dequeue s).1.task s.tcb).t_state = (if rest = [] then S_RUN else S_RUNPKT) ∧
      Int.land ((dequeue s).1.task s.tcb).t_state WAITBIT = 0 ∧
      (dequeue s).1 = s.setTask s.tcb { s.task s.tcb with
          t_wkq := (s.packet p).p_link,
          t_state := if rest = [] then S_RUN else S_RUNPKT } ∧
      schedule (fuel + 1) s
        = match callFn (s.task s.tcb).t_fn fuel (load_scratch (dequeue s).1) p with
          | none => none
          | some r => schedule fuel (store_scratch r) := by
  obtain ⟨e1, e2, e3⟩ := hq
  have hrest : (s.packet p).p_link = 0 ↔ rest = [] := Chain.head_eq_zero_iff e3
  have hd : dequeue s = (s.setTask s.tcb { s.task s.tcb with
          t_wkq := (s.packet p).p_link,
          t_state := if rest = [] then S_RUN else S_RUNPKT }, p) := by
    rw [dequeue_eq, e1]
    simp only [hrest]
  have hfn : ((load_scratch (dequeue s).1).task (load_scratch (dequeue s).1).tcb).t_fn
      = (s.task s.tcb).t_fn := by
    rw [load_scratch_task, (load_scratch_frame _).2.2.1, hd]
    show ((s.setTask s.tcb _).task s.tcb).t_fn = _
    rw [State.task_setTask_same]
  refine ⟨by rw [hd], ?_, ?_, ?_, by rw [hd], ?_⟩
  · rw [hd]
    show Chain _ ((s.setTask s.tcb _).task s.tcb).t_wkq rest
    rw [State.task_setTask_same]
    exact e3
  · rw [hd]
    show ((s.setTask s.tcb _).task s.tcb).t_state = _
    rw [State.task_setTask_same]
  · rw [hd]
    show Int.land ((s.setTask s.tcb _).task s.tcb).t_state WAITBIT = 0
    rw [State.task_setTask_same]
    show Int.land (if rest = [] then S_RUN else S_RUNPKT) WAITBIT = 0
    split <;> decide
  · rw [schedule_succ, if_pos hcur, if_pos hst]
    unfold dispatch
    simp only [hfn]
    rw [hd]
    cases callFn (s.task s.tcb).t_fn fuel (load_scratch (s.setTask s.tcb { s.task s.tcb with
          t_wkq := (s.packet p).p_link,
          t_state := if rest = [] then S_RUN else S_RUNPKT })) p <;> rfl

theorem sample_waitpkt_queue :
    ({ State.sample with tcb := 128 } : State).Queue
      ({ State.sample with tcb := 128 } : State).tcb (192 :: []) := by
  simp [State.Queue, Chain, State.sample, State.task, State.packet, Mem.read]

theorem schedule_waitpkt_witness :
    (dequeue ({ State.sample with tcb := 128 } : State)).2 = 192 ∧
      (dequeue ({ State.sample with tcb := 128 } : State)).1.Queue 128 [] :=
  ⟨(schedule_waitpkt ({ State.sample with tcb := 128 } : State) 0 192 [] (by decide)
      (by decide) sample_waitpkt_queue).1,
   (schedule_waitpkt ({ State.sample with tcb := 128 } : State) 0 192 [] (by decide)
      (by decide) sample_waitpkt_queue).2.1⟩

/-- Successive `qpkt` calls for distinct packets append them to the queue in the
order of the calls. -/
theorem qpkt_all_queue (id : Int) (t : Nat) (fuel : Nat) (ht : t ≠ 0) (h1 : 1 ≤ id) :
    ∀ (ps l : List Nat) (s : State),
      id ≤ (s.tasktab.getD 0 0 : Int) → s.tasktab.getD id.toNat 0 = t →
      s.Queue t l → (l ++ ps).Nodup → (∀ p ∈ ps, p ≠ 0 ∧ (s.packet p).p_id = id) →
      (l ++ ps).length ≤ fuel →
      ∃ s', qpkt_all fuel s ps = some s' ∧ s'.Queue t (l ++ ps) := by
  intro ps
  induction ps with
  | nil =>
    intro l s _ _ hq _ _ _
    exact ⟨s, rfl, by simpa using hq⟩
  | cons p ps ih =>
    intro l s h2 h3 hq hnd hp hfuel
    have hpl : p ∉ l := by
      intro hm
      have := List.disjoint_of_nodup_append hnd hm
      exact this (List.mem_cons_self _ _)
    obtain ⟨hp0, hpid⟩ := hp p (List.mem_cons_self _ _)
    obtain ⟨s1, r, hs1, _, _, _, hq1, _, _, _, _, _, _, _, _, _, _, hids, htab, _, _⟩ :=
      qpkt_effect s p id t l fuel hpid h1 h2 h3 ht hp0 hq hpl
        (by simp at hfuel; omega)
    have hnd1 : ((l ++ [p]) ++ ps).Nodup := by simpa using hnd
    have hpp : p ∉ ps := by
      have := (List.nodup_append.1 hnd).2.1
      exact (List.nodup_cons.1 this).1
    obtain ⟨s', hs', hq'⟩ := ih (l ++ [p]) s1 (by rw [htab]; exact h2) (by rw [htab]; exact h3)
      hq1 hnd1
      (fun q hq => ⟨(hp q (List.mem_cons_of_mem _ hq)).1, by
        rw [hids q (fun e => hpp (e ▸ hq))]
        exact (hp q (List.mem_cons_of_mem _ hq)).2⟩)
      (by simpa using hfuel)
    refine ⟨s', ?_, by simpa using hq'⟩
    rw [qpkt_all, hs1]
    exact hs'

/-- Successive dequeue steps on the current task take the packets of its queue from
the front, in the order of the queue. -/
theorem drain_queue : ∀ (l : List Nat) (s : State), s.Queue s.tcb l → drain l.length s = l := by
  intro l
  induction l with
  | nil => intro s _; rfl
  | cons p rest ih =>
    intro s hq
    obtain ⟨e1, e2, e3⟩ := hq
    have hd : dequeue s = (s.setTask s.tcb { s.task s.tcb with
          t_wkq := (s.packet p).p_link,
          t_state := if (s.packet p).p_link = 0 then S_RUN else S_RUNPKT }, p) := by
      rw [dequeue_eq, e1]
    show (dequeue s).2 :: drain rest.length (dequeue s).1 = p :: rest
    rw [hd]
    simp only
    rw [ih]
    show Chain _ ((s.setTask s.tcb _).task s.tcb).t_wkq rest
    rw [State.task_setTask_same]
    exact e3

/-- C6: for a registered task `t` with an empty queue and distinct packets
`P1, ..., Pn` addressed to it, the successive calls `qpkt(P1); ...; qpkt(Pn)` all
return and leave the queue of `t` equal to `P1, ..., Pn` in that order, and `n`
successive dequeue steps of the scheduler on `t` then take the packets in the order
`P1, P2, ..., Pn`. -/
theorem queue_is_fifo (s : State) (id : Int) (t : Nat) (ps : List Nat) (fuel : Nat)
    (h1 : 1 ≤ id) (h2 : id ≤ (s.tasktab.getD 0 0 : Int)) (h3 : s.tasktab.getD id.toNat 0 = t)
    (ht : t ≠ 0) (hq : s.Queue t []) (hnd : ps.Nodup)
    (hp : ∀ p ∈ ps, p ≠ 0 ∧ (s.packet p).p_id = id) (hfuel : ps.length ≤ fuel) :
    ∃ s', qpkt_all fuel s ps = some s' ∧ s'.Queue t ps ∧
      drain ps.length { s' with tcb := t } = ps := by
  obtain ⟨s', hs', hq'⟩ := qpkt_all_queue id t fuel ht h1 ps [] s h2 h3 hq (by simpa using hnd)
    hp (by simpa using hfuel)
  simp only [List.nil_append] at hq'
  exact ⟨s', hs', hq', drain_queue ps { s' with tcb := t } hq'⟩

theorem queue_is_fifo_witness :
    ∃ s', qpkt_all 2 State.sample [384, 448] = some s' ∧ s'.Queue 320 [384, 448] ∧
      drain [384, 448].length { s' with tcb := 320 } = [384, 448] :=
  queue_is_fifo State.sample 3 320 [384, 448] 2 (by decide) (by decide) rfl (by decide)
    sample_queue_empty (by simp)
    (by
      intro p hp
      simp only [List.mem_cons, List.mem_singleton, List.not_mem_nil, or_false] at hp
      rcases hp with rfl | rfl <;> exact ⟨by decide, by decide⟩)
    (by simp)

theorem findtcb_congr (s s' : State) (id : Int) (h : s'.tasktab = s.tasktab) :
    findtcb s' id = findtcb s id := by
  rw [findtcb_eq, findtcb_eq, h]

theorem release_of_bad_id (s : State) (id : Int) (h : findtcb s id = 0) :
    release s id = (s, 0) := by
  simp [release, h]

theorem qpkt_of_bad_id (fuel : Nat) (s : State) (pkt : Nat)
    (h : findtcb s (s.packet pkt).p_id = 0) : qpkt fuel s pkt = some (s, 0) := by
  simp [qpkt, h]

theorem wrLink_frame (s : State) (ptr : Ref) (x : Nat) :
    (s.wrLink ptr x).tasktab = s.tasktab ∧ (s.wrLink ptr x).tcb = s.tcb ∧
      (s.wrLink ptr x).qpktcount = s.qpktcount ∧ (s.wrLink ptr x).holdcount = s.holdcount := by
  cases ptr <;> exact ⟨rfl, rfl, rfl, rfl⟩

theorem append_frame (fuel : Nat) (s s' : State) (pkt : Nat) (ptr : Ref)
    (h : append fuel s pkt ptr = some s') :
    s'.tasktab = s.tasktab ∧ s'.tcb = s.tcb ∧ s'.qpktcount = s.qpktcount ∧
      s'.holdcount = s.holdcount := by
  unfold append at h
  simp only at h
  cases hw : append_walk fuel (s.setPacket pkt { s.packet pkt with p_link := 0 }) ptr with
  | none => rw [hw] at h; exact absurd h (by simp)
  | some r =>
    rw [hw] at h
    simp only [Option.some.injEq] at h
    subst h
    exact wrLink_frame _ r pkt

theorem workfn_body_frame (pkt : Nat) (s : State) (i : Nat) :
    (workfn_body pkt s i).tasktab = s.tasktab ∧ (workfn_body pkt s i).tcb = s.tcb ∧
      (workfn_body pkt s i).qpktcount = s.qpktcount ∧
      (workfn_body pkt s i).holdcount = s.holdcount ∧
      ((workfn_body pkt s i).packet pkt).p_id = (s.packet pkt).p_id := by
  unfold workfn_body
  simp only
  split <;> refine ⟨rfl, rfl, rfl, rfl, ?_⟩ <;> rw [State.packet_setPacket_same] <;> rfl

theorem workfn_loop_frame (pkt : Nat) : ∀ (l : List Nat) (s : State),
    (l.foldl (workfn_body pkt) s).tasktab = s.tasktab ∧
      (l.foldl (workfn_body pkt) s).tcb = s.tcb ∧
      (l.foldl (workfn_body pkt) s).qpktcount = s.qpktcount ∧
      (l.foldl (workfn_body pkt) s).holdcount = s.holdcount ∧
      ((l.foldl (workfn_body pkt) s).packet pkt).p_id = (s.packet pkt).p_id := by
  intro l
  induction l with
  | nil => intro s; exact ⟨rfl, rfl, rfl, rfl, rfl⟩
  | cons i l ih =>
    intro s
    obtain ⟨a, b, c, d, e⟩ := ih (workfn_body pkt s i)
    obtain ⟨a', b', c', d', e'⟩ := workfn_body_frame pkt s i
    simp only [List.foldl_cons]
    exact ⟨a.trans a', b.trans b', c.trans c', d.trans d', e.trans e'⟩

theorem workfn_fill_frame (s : State) (pkt : Nat) :
    (workfn_fill s pkt).tasktab = s.tasktab ∧ (workfn_fill s pkt).tcb = s.tcb ∧
      (workfn_fill s pkt).qpktcount = s.qpktcount ∧
      (workfn_fill s pkt).holdcount = s.holdcount ∧
      ((workfn_fill s pkt).packet pkt).p_id = I_HANDLERA + I_HANDLERB - s.v1 := by
  unfold workfn_fill
  simp only
  obtain ⟨a, b, c, d, e⟩ := workfn_loop_frame pkt (List.range (BUFSIZE + 1))
    ((({ s with v1 := I_HANDLERA + I_HANDLERB - s.v1 } : State).setPacket pkt
      { ({ s with v1 := I_HANDLERA + I_HANDLERB - s.v1 } : State).packet pkt with
        p_id := I_HANDLERA + I_HANDLERB - s.v1 }).setPacket pkt
      { (({ s with v1 := I_HANDLERA + I_HANDLERB - s.v1 } : State).setPacket pkt
        { ({ s with v1 := I_HANDLERA + I_HANDLERB - s.v1 } : State).packet pkt with
          p_id := I_HANDLERA + I_HANDLERB - s.v1 }).packet pkt with p_a1 := 0 })
  refine ⟨a, b, c, d, ?_⟩
  rw [e, State.packet_setPacket_same]
  simp only [State.packet_setPacket_same]

theorem handler_pair_dev_frame (s : State) :
    (handler_pair_dev s).tasktab = s.tasktab ∧ (handler_pair_dev s).tcb = s.tcb ∧
      (handler_pair_dev s).qpktcount = s.qpktcount ∧
      (handler_pair_dev s).holdcount = s.holdcount ∧
      ((handler_pair_dev s).packet s.v2.toNat).p_id = (s.packet s.v2.toNat).p_id := by
  refine ⟨rfl, rfl, rfl, rfl, ?_⟩
  unfold handler_pair_dev
  obtain ⟨tasks, packets, tasktab, tasklist, tcb, taskid, v1, v2, qc, hc, tr, lay⟩ := s
  simp only [State.packet, State.setPacket, Mem.read_write]
  split_ifs <;> simp_all

/-- A behaviour whose call of `release` or `qpkt` fails to find the task returns the
null task; it has changed neither the current task pointer nor a counter. -/
theorem callFn_of_failed_lookup (f : Fn) (fuel : Nat) (s : State) (pkt : Nat) (id : Int)
    (hl : lookup_id f fuel s pkt = some id) (hf : findtcb s id = 0) :
    ∃ s', callFn f fuel s pkt = some (s', 0) ∧ s'.tcb = s.tcb ∧
      s'.qpktcount = s.qpktcount ∧ s'.holdcount = s.holdcount := by
  cases f with
  | null => simp [lookup_id] at hl
  | idlefn =>
    unfold lookup_id at hl
    simp only at hl
    unfold callFn idlefn
    simp only
    by_cases h0 : s.v2 - 1 = 0
    · simp [h0] at hl
    · rw [if_neg h0] at hl
      rw [if_neg h0]
      by_cases h1 : Int.land s.v1 1 = 0
      · rw [if_pos h1] at hl
        rw [if_pos h1]
        simp only [Option.some.injEq] at hl
        rw [release_of_bad_id _ _ (by rw [hl]; exact (findtcb_congr s _ id rfl).trans hf)]
        exact ⟨_, rfl, rfl, rfl, rfl⟩
      · rw [if_neg h1] at hl
        rw [if_neg h1]
        simp only [Option.some.injEq] at hl
        rw [release_of_bad_id _ _ (by rw [hl]; exact (findtcb_congr s _ id rfl).trans hf)]
        exact ⟨_, rfl, rfl, rfl, rfl⟩
  | workfn =>
    unfold lookup_id at hl
    simp only at hl
    unfold callFn workfn
    simp only
    by_cases h0 : pkt = 0
    · simp [h0] at hl
    · rw [if_neg h0] at hl
      rw [if_neg h0]
      simp only [Option.some.injEq] at hl
      obtain ⟨a, b, c, d, e⟩ := workfn_fill_frame s pkt
      rw [qpkt_of_bad_id _ _ _ (by rw [e, hl]; exact (findtcb_congr s _ id a).trans hf)]
      exact ⟨_, rfl, b, c, d⟩
  | handlerfn =>
    unfold lookup_id at hl
    simp only at hl
    unfold callFn handlerfn
    simp only
    cases hfile : handler_file fuel s pkt with
    | none => rw [hfile] at hl; simp at hl
    | some s1 =>
      rw [hfile] at hl
      simp only at hl ⊢
      have hfr : s1.tasktab = s.tasktab ∧ s1.tcb = s.tcb ∧ s1.qpktcount = s.qpktcount ∧
          s1.holdcount = s.holdcount := by
        unfold handler_file at hfile
        split at hfile
        · exact append_frame _ _ _ _ _ hfile
        · simp only [Option.some.injEq] at hfile
          subst hfile
          exact ⟨rfl, rfl, rfl, rfl⟩
      obtain ⟨a, b, c, d⟩ := hfr
      unfold handler_pair
      by_cases h1 : s1.v1 ≠ 0
      · rw [if_pos h1] at hl
        rw [if_pos h1]
        simp only
        by_cases h2 : (s1.packet s1.v1.toNat).p_a1 > BUFSIZE
        · rw [if_pos h2] at hl
          rw [if_pos h2]
          simp only [Option.some.injEq] at hl
          rw [qpkt_of_bad_id _ _ _ (by
            show findtcb (handler_unlink_work s1) (s1.packet s1.v1.toNat).p_id = 0
            rw [hl]; exact (findtcb_congr s _ id a).trans hf)]
          exact ⟨_, rfl, b, c, d⟩
        · rw [if_neg h2] at hl
          rw [if_neg h2]
          by_cases h3 : s1.v2 ≠ 0
          · rw [if_pos h3] at hl
            rw [if_pos h3]
            simp only [Option.some.injEq] at hl
            obtain ⟨a', b', c', d', e'⟩ := handler_pair_dev_frame s1
            rw [qpkt_of_bad_id _ _ _ (by
              rw [e', hl]; exact (findtcb_congr s _ id (a'.trans a)).trans hf)]
            exact ⟨_, rfl, b'.trans b, c'.trans c, d'.trans d⟩
          · rw [if_neg h3] at hl
            simp at hl
      · rw [if_neg h1] at hl
        simp at hl
  | devfn =>
    unfold lookup_id at hl
    simp only at hl
    unfold callFn devfn
    simp only
    by_cases h0 : pkt = 0
    · rw [if_pos h0] at hl
      rw [if_pos h0]
      by_cases h1 : s.v1 = 0
      · simp [h1] at hl
      · rw [if_neg h1] at hl
        rw [if_neg h1]
        simp only [Option.some.injEq] at hl
        rw [qpkt_of_bad_id _ _ _ (by
          show findtcb ({ s with v1 := 0 } : State) (s.packet s.v1.toNat).p_id = 0
          rw [hl]; exact (findtcb_congr s _ id rfl).trans hf)]
        exact ⟨_, rfl, rfl, rfl, rfl⟩
    · simp [h0] at hl

theorem schedule_of_null (k : Nat) (s : State) (h : s.tcb = 0) :
    schedule (k + 1) s = some s := by
  rw [schedule_succ]
  simp [h]

theorem store_scratch_eq (s : State) (n : Nat) :
    (store_scratch (s, n)).tcb = n ∧
      (store_scratch (s, n)).qpktcount = s.qpktcount ∧
      (store_scratch (s, n)).holdcount = s.holdcount ∧
      (store_scratch (s, n)).v1 = s.v1 ∧ (store_scratch (s, n)).v2 = s.v2 ∧
      ((store_scratch (s, n)).task s.tcb).t_v1 = s.v1 ∧
      ((store_scratch (s, n)).task s.tcb).t_v2 = s.v2 := by
  refine ⟨rfl, rfl, rfl, rfl, rfl, ?_, ?_⟩
  · unfold store_scratch
    obtain ⟨tasks, packets, tasktab, tasklist, tcb, taskid, v1, v2, qc, hc, tr, lay⟩ := s
    simp [State.task, State.setTask, Mem.read_write_same]
  · unfold store_scratch
    obtain ⟨tasks, packets, tasktab, tasklist, tcb, taskid, v1, v2, qc, hc, tr, lay⟩ := s
    simp [State.task, State.setTask, Mem.read_write_same]

/-- C8 (as the code behaves): when the behaviour dispatched by `schedule` calls
`qpkt` or `release` with an identifier for which the task lookup fails, no error exit
is taken, but the dispatch ends the scheduler loop: the behaviour returns the null
task, the scratch values it left in `v1` and `v2` are stored back into the dispatching
task, the counters are unchanged, the current task pointer becomes null and `schedule`
returns in that state. -/
theorem failed_lookup_ends_schedule (s : State) (fuel : Nat) (pkt : Nat) (id : Int)
    (hl : lookup_id (s.task s.tcb).t_fn fuel (load_scratch s) pkt = some id)
    (hf : findtcb s id = 0) :
    ∃ s', dispatch fuel s pkt = some s' ∧ s'.tcb = 0 ∧
      (∀ k, schedule (k + 1) s' = some s') ∧
      s'.qpktcount = s.qpktcount ∧ s'.holdcount = s.holdcount ∧
      (s'.task s.tcb).t_v1 = s'.v1 ∧ (s'.task s.tcb).t_v2 = s'.v2 := by
  obtain ⟨_, _, f3, f4, f5, f6, _⟩ := load_scratch_frame s
  have hfn : ((load_scratch s).task (load_scratch s).tcb).t_fn = (s.task s.tcb).t_fn := by
    rw [load_scratch_task, f3]
  obtain ⟨s1, h1, h2, h3, h4⟩ := callFn_of_failed_lookup (s.task s.tcb).t_fn fuel
    (load_scratch s) pkt id hl ((findtcb_congr s _ id f4).trans hf)
  obtain ⟨g1, g2, g3, g4, g5, g6, g7⟩ := store_scratch_eq s1 0
  refine ⟨store_scratch (s1, 0), ?_, g1, fun k => schedule_of_null k _ g1, ?_, ?_, ?_, ?_⟩
  · unfold dispatch
    simp only [hfn, h1]
  · rw [g2, h3, f5]
  · rw [g3, h4, f6]
  · rw [g4, ← g6, h2, f3]
  · rw [g5, ← g7, h2, f3]

/-- C8 fails as stated: in the sample configuration the current task is bound to
`idlefn` with scratch `(1, 5)`; its call `release(I_DEVB)` finds no task, and after the
dispatch the current task pointer is null and the scratch fields of the task are
`(53256, 4)`, not what they were. -/
theorem failed_lookup_stops_the_loop :
    lookup_id (State.sample.task State.sample.tcb).t_fn 1 (load_scratch State.sample) 0
        = some I_DEVB ∧
      findtcb State.sample I_DEVB = 0 ∧
      ((State.sample.task 64).t_v1, (State.sample.task 64).t_v2) = (1, 5) ∧
      (dispatch 1 State.sample 0).map (fun s' => (s'.tcb, (s'.task 64).t_v1, (s'.task 64).t_v2))
        = some (0, 53256, 4) := by
  decide

theorem failed_lookup_ends_schedule_witness :
    ∃ s', dispatch 1 State.sample 0 = some s' ∧ s'.tcb = 0 ∧
      (∀ k, schedule (k + 1) s' = some s') ∧
      s'.qpktcount = State.sample.qpktcount ∧ s'.holdcount = State.sample.holdcount ∧
      (s'.task State.sample.tcb).t_v1 = s'.v1 ∧ (s'.task State.sample.tcb).t_v2 = s'.v2 :=
  failed_lookup_ends_schedule State.sample 1 0 I_DEVB (by decide) (by decide)

/-! ## Reading and writing the flat records -/

theorem FTasks.task_rd_eq (ts : FTasks) (i : Nat) :
    ts.rd i = if i = 1 then some ts.t1 else if i = 4 then some ts.t4
      else if i = 8 then some ts.t8 else if i = 12 then some ts.t12
      else if i = 13 then some ts.t13 else if i = 14 then some ts.t14 else none := by
  obtain ⟨a, b, c, d, e, f⟩ := ts
  simp only [FTasks.rd, cond_eq_if, Nat.ble_eq, Nat.beq_eq]
  by_cases h1 : i = 1
  · subst h1; rfl
  by_cases h4 : i = 4
  · subst h4; rfl
  by_cases h8 : i = 8
  · subst h8; rfl
  by_cases h12 : i = 12
  · subst h12; rfl
  by_cases h13 : i = 13
  · subst h13; rfl
  by_cases h14 : i = 14
  · subst h14; rfl
  simp only [h1, h4, h8, h12, h13, h14, if_false, ite_self]

theorem FTasks.task_wr_eq (ts : FTasks) (i : Nat) (T : FTask) :
    ts.wr i T = if i = 1 then { ts with t1 := T } else if i = 4 then { ts with t4 := T }
      else if i = 8 then { ts with t8 := T } else if i = 12 then { ts with t12 := T }
      else if i = 13 then { ts with t13 := T } else if i = 14 then { ts with t14 := T }
      else ts := by
  obtain ⟨a, b, c, d, e, f⟩ := ts
  simp only [FTasks.wr, cond_eq_if, Nat.ble_eq, Nat.beq_eq]
  by_cases h1 : i = 1
  · subst h1; rfl
  by_cases h4 : i = 4
  · subst h4; rfl
  by_cases h8 : i = 8
  · subst h8; rfl
  by_cases h12 : i = 12
  · subst h12; rfl
  by_cases h13 : i = 13
  · subst h13; rfl
  by_cases h14 : i = 14
  · subst h14; rfl
  simp only [h1, h4, h8, h12, h13, h14, if_false, ite_self]

theorem FPkts.pkt_rd_eq (ps : FPkts) (i : Nat) :
    ps.rd i = if i = 2 then some ps.p2 else if i = 3 then some ps.p3
      else if i = 5 then some ps.p5 else if i = 6 then some ps.p6
      else if i = 7 then some ps.p7 else if i = 9 then some ps.p9
      else if i = 10 then some ps.p10 else if i = 11 then some ps.p11 else none := by
  obtain ⟨a, b, c, d, e, f, g, h⟩ := ps
  simp only [FPkts.rd, cond_eq_if, Nat.ble_eq, Nat.beq_eq]
  by_cases h2 : i = 2
  · subst h2; rfl
  by_cases h3 : i = 3
  · subst h3; rfl
  by_cases h5 : i = 5
  · subst h5; rfl
  by_cases h6 : i = 6
  · subst h6; rfl
  by_cases h7 : i = 7
  · subst h7; rfl
  by_cases h9 : i = 9
  · subst h9; rfl
  by_cases h10 : i = 10
  · subst h10; rfl
  by_cases h11 : i = 11
  · subst h11; rfl
  simp only [h2, h3, h5, h6, h7, h9, h10, h11, if_false, ite_self]

theorem FPkts.pkt_wr_eq (ps : FPkts) (i : Nat) (P : FPkt) :
    ps.wr i P = if i = 2 then { ps with p2 := P } else if i = 3 then { ps with p3 := P }
      else if i = 5 then { ps with p5 := P } else if i = 6 then { ps with p6 := P }
      else if i = 7 then { ps with p7 := P } else if i = 9 then { ps with p9 := P }
      else if i = 10 then { ps with p10 := P } else if i = 11 then { ps with p11 := P }
      else ps := by
  obtain ⟨a, b, c, d, e, f, g, h⟩ := ps
  simp only [FPkts.wr, cond_eq_if, Nat.ble_eq, Nat.beq_eq]
  by_cases h2 : i = 2
  · subst h2; rfl
  by_cases h3 : i = 3
  · subst h3; rfl
  by_cases h5 : i = 5
  · subst h5; rfl
  by_cases h6 : i = 6
  · subst h6; rfl
  by_cases h7 : i = 7
  · subst h7; rfl
  by_cases h9 : i = 9
  · subst h9; rfl
  by_cases h10 : i = 10
  · subst h10; rfl
  by_cases h11 : i = 11
  · subst h11; rfl
  simp only [h2, h3, h5, h6, h7, h9, h10, h11, if_false, ite_self]

/-- The cells that hold tasks. -/
theorem FTasks.task_rd_some (ts : FTasks) (i : Nat) (T : FTask) (h : ts.rd i = some T) :
    i = 1 ∨ i = 4 ∨ i = 8 ∨ i = 12 ∨ i = 13 ∨ i = 14 := by
  rw [FTasks.task_rd_eq] at h
  split_ifs at h <;> simp_all

/-- The cells that hold packets. -/
theorem FPkts.pkt_rd_some (ps : FPkts) (i : Nat) (P : FPkt) (h : ps.rd i = some P) :
    i = 2 ∨ i = 3 ∨ i = 5 ∨ i = 6 ∨ i = 7 ∨ i = 9 ∨ i = 10 ∨ i = 11 := by
  rw [FPkts.pkt_rd_eq] at h
  split_ifs at h <;> simp_all

theorem Mem.read_ofList_append {α : Type} [Inhabited α] (fr l : List (Nat × α)) (a : Nat)
    (h : ∀ kv ∈ fr, kv.1 ≠ a) :
    (Mem.ofList (fr ++ l)).read a = (Mem.ofList l).read a := by
  induction fr with
  | nil => rfl
  | cons kv fr ih =>
    obtain ⟨k, v⟩ := kv
    have hk : k ≠ a := h (k, v) (List.mem_cons_self _ _)
    show Mem.read ((k, v) :: (fr ++ l)) a = _
    rw [Mem.read, if_neg hk]
    exact ih (fun kv hm => h kv (List.mem_cons_of_mem _ hm))

theorem Mem.write_ofList_append {α : Type} (fr l l' : List (Nat × α)) (a : Nat) (v : α)
    (h : ∀ kv ∈ fr, kv.1 ≠ a) (hl : (Mem.ofList l).write a v = Mem.ofList l') :
    (Mem.ofList (fr ++ l)).write a v = Mem.ofList (fr ++ l') := by
  induction fr with
  | nil => exact hl
  | cons kv fr ih =>
    obtain ⟨k, w⟩ := kv
    have hk : k ≠ a := h (k, w) (List.mem_cons_self _ _)
    show Mem.write ((k, w) :: (fr ++ l)) a v = _
    rw [Mem.write, if_neg hk]
    have := ih (fun kv hm => h kv (List.mem_cons_of_mem _ hm))
    show (k, w) :: Mem.write (Mem.ofList (fr ++ l)) a v = (k, w) :: (fr ++ l')
    rw [this]
    rfl

theorem Place.cell_inj (E : Place) (i j : Nat) (hi : 0 < i) (hj : 0 < j) :
    E.cell i = E.cell j ↔ i = j := by
  unfold Place.cell
  omega

theorem Place.frT_fresh (E : Place) (h : E.ok) (i : Nat) : ∀ kv ∈ E.frT, kv.1 ≠ E.cell i := by
  intro kv hm
  have := h.2.1 kv hm
  unfold Place.cell
  omega

theorem Place.frP_fresh (E : Place) (h : E.ok) (i : Nat) : ∀ kv ∈ E.frP, kv.1 ≠ E.cell i := by
  intro kv hm
  have := h.2.2 kv hm
  unfold Place.cell
  omega

/-- Reading the task object in the cell `i`. -/
theorem Place.read_tasks (E : Place) (h : E.ok) (ts : FTasks) (i : Nat) (T : FTask)
    (hr : ts.rd i = some T) : (E.tasks ts).read (E.cell i) = E.task i T := by
  unfold Place.tasks
  rw [Mem.read_ofList_append _ _ _ (E.frT_fresh h i)]
  rw [FTasks.task_rd_eq] at hr
  simp only [Mem.ofList, Mem.read]
  split_ifs at hr <;> simp only [Option.some.injEq] at hr <;> subst_vars <;>
    simp [Place.cell]

/-- Writing the task object in the cell `i`. -/
theorem Place.write_tasks (E : Place) (h : E.ok) (ts : FTasks) (i : Nat) (T0 T : FTask)
    (hr : ts.rd i = some T0) :
    (E.tasks ts).write (E.cell i) (E.task i T) = E.tasks (ts.wr i T) := by
  unfold Place.tasks
  refine Mem.write_ofList_append _ _ _ _ _ (E.frT_fresh h i) ?_
  rcases FTasks.task_rd_some ts i T0 hr with r | r | r | r | r | r <;> subst r <;>
    simp [FTasks.task_wr_eq, Mem.ofList, Mem.write, Place.cell]

/-- Reading the packet object in the cell `i`. -/
theorem Place.read_packets (E : Place) (h : E.ok) (ps : FPkts) (i : Nat) (P : FPkt)
    (hr : ps.rd i = some P) : (E.packets ps).read (E.cell i) = E.packet i P := by
  unfold Place.packets
  rw [Mem.read_ofList_append _ _ _ (E.frP_fresh h i)]
  rw [FPkts.pkt_rd_eq] at hr
  simp only [Mem.ofList, Mem.read]
  split_ifs at hr <;> simp only [Option.some.injEq] at hr <;> subst_vars <;>
    simp [Place.cell]

/-- Writing the packet object in the cell `i`. -/
theorem Place.write_packets (E : Place) (h : E.ok) (ps : FPkts) (i : Nat) (P0 P : FPkt)
    (hr : ps.rd i = some P0) :
    (E.packets ps).write (E.cell i) (E.packet i P) = E.packets (ps.wr i P) := by
  unfold Place.packets
  refine Mem.write_ofList_append _ _ _ _ _ (E.frP_fresh h i) ?_
  rcases FPkts.pkt_rd_some ps i P0 hr with r | r | r | r | r | r | r | r <;> subst r <;>
    simp [FPkts.pkt_wr_eq, Mem.ofList, Mem.write, Place.cell]

theorem FTasks.task_rd_wr (ts : FTasks) (i j : Nat) (T0 T : FTask) (hr : ts.rd i = some T0) :
    (ts.wr i T).rd j = if i = j then some T else ts.rd j := by
  by_cases hij : i = j
  · subst hij
    rw [if_pos rfl]
    rcases FTasks.task_rd_some ts i T0 hr with r | r | r | r | r | r <;> subst r <;>
      simp [FTasks.task_wr_eq, FTasks.task_rd_eq]
  · rw [if_neg hij]
    have hji : ¬ j = i := fun e => hij e.symm
    rcases FTasks.task_rd_some ts i T0 hr with r | r | r | r | r | r <;> subst r <;>
      simp [FTasks.task_wr_eq, FTasks.task_rd_eq, hji]

theorem FPkts.pkt_rd_wr (ps : FPkts) (i j : Nat) (P0 P : FPkt) (hr : ps.rd i = some P0) :
    (ps.wr i P).rd j = if i = j then some P else ps.rd j := by
  by_cases hij : i = j
  · subst hij
    rw [if_pos rfl]
    rcases FPkts.pkt_rd_some ps i P0 hr with r | r | r | r | r | r | r | r <;> subst r <;>
      simp [FPkts.pkt_wr_eq, FPkts.pkt_rd_eq]
  · rw [if_neg hij]
    have hji : ¬ j = i := fun e => hij e.symm
    rcases FPkts.pkt_rd_some ps i P0 hr with r | r | r | r | r | r | r | r <;> subst r <;>
      simp [FPkts.pkt_wr_eq, FPkts.pkt_rd_eq, hji]

theorem Place.ptr_of_pos (E : Place) (i : Nat) (h : i ≠ 0) : E.ptr i = E.cell i := by
  simp [Place.ptr, h]

theorem Place.tptr_of_pos (E : Place) (i : Nat) (h : i ≠ 0) : E.tptr i = E.cell i := by
  simp [Place.tptr, h]

theorem Place.cell_ne_zero (E : Place) (h : E.ok) (i : Nat) : E.cell i ≠ 0 := by
  have := h.1
  unfold Place.cell
  omega

theorem Place.ptr_eq_zero (E : Place) (h : E.ok) (i : Nat) : E.ptr i = 0 ↔ i = 0 := by
  unfold Place.ptr
  split
  · simp [*]
  · simp [*, E.cell_ne_zero h]

theorem Place.ptr_toNat (E : Place) (i : Nat) : ((E.ptr i : Nat) : Int).toNat = E.ptr i := by
  simp

/-! ## Task lookup, the loop of `append`, `append` and `qpkt` on flat states -/

theorem fFind_eq (id : Int) :
    fFind id = if id = 1 then 1 else if id = 2 then 4 else if id = 3 then 8
      else if id = 4 then 12 else if id = 5 then 13 else if id = 6 then 14 else 0 := by
  cases id with
  | ofNat n =>
    simp only [fFind, cond_eq_if, Nat.ble_eq, Nat.beq_eq]
    by_cases h1 : n = 1
    · subst h1; rfl
    by_cases h2 : n = 2
    · subst h2; rfl
    by_cases h3 : n = 3
    · subst h3; rfl
    by_cases h4 : n = 4
    · subst h4; rfl
    by_cases h5 : n = 5
    · subst h5; rfl
    by_cases h6 : n = 6
    · subst h6; rfl
    have e1 : ¬ (Int.ofNat n = 1) := fun e => h1 (Int.ofNat.inj e)
    have e2 : ¬ (Int.ofNat n = 2) := fun e => h2 (Int.ofNat.inj e)
    have e3 : ¬ (Int.ofNat n = 3) := fun e => h3 (Int.ofNat.inj e)
    have e4 : ¬ (Int.ofNat n = 4) := fun e => h4 (Int.ofNat.inj e)
    have e5 : ¬ (Int.ofNat n = 5) := fun e => h5 (Int.ofNat.inj e)
    have e6 : ¬ (Int.ofNat n = 6) := fun e => h6 (Int.ofNat.inj e)
    simp only [h1, h2, h3, h4, h5, h6, e1, e2, e3, e4, e5, e6, if_false, ite_self]
  | negSucc n =>
    have e1 : ¬ (Int.negSucc n = 1) := fun h => Int.noConfusion h
    have e2 : ¬ (Int.negSucc n = 2) := fun h => Int.noConfusion h
    have e3 : ¬ (Int.negSucc n = 3) := fun h => Int.noConfusion h
    have e4 : ¬ (Int.negSucc n = 4) := fun h => Int.noConfusion h
    have e5 : ¬ (Int.negSucc n = 5) := fun h => Int.noConfusion h
    have e6 : ¬ (Int.negSucc n = 6) := fun h => Int.noConfusion h
    simp only [fFind, e1, e2, e3, e4, e5, e6, if_false]

/-- The task lookup finds the cell that `fFind` names. -/
theorem findtcb_place (E : Place) (S : State) (htab : S.tasktab = E.tasktab) (id : Int) :
    findtcb S id = E.ptr (fFind id) := by
  rw [findtcb_eq, htab, fFind_eq]
  by_cases h1 : 1 ≤ id
  · by_cases h2 : id ≤ 10
    · have h2' : id ≤ ((E.tasktab.getD 0 0 : Nat) : Int) := by simpa [Place.tasktab] using h2
      rw [if_pos ⟨h1, h2'⟩]
      interval_cases id <;> simp [Place.tasktab, Place.ptr]
    · have h2' : ¬ id ≤ ((E.tasktab.getD 0 0 : Nat) : Int) := by simpa [Place.tasktab] using h2
      rw [if_neg (fun h => h2' h.2)]
      have : ¬ id = 1 ∧ ¬ id = 2 ∧ ¬ id = 3 ∧ ¬ id = 4 ∧ ¬ id = 5 ∧ ¬ id = 6 := by omega
      simp [this, Place.ptr]
  · rw [if_neg (fun h => h1 h.1)]
    have : ¬ id = 1 ∧ ¬ id = 2 ∧ ¬ id = 3 ∧ ¬ id = 4 ∧ ¬ id = 5 ∧ ¬ id = 6 := by omega
    simp [this, Place.ptr]

theorem Place.packet_read (E : Place) (h : E.ok) (S : State) (ps : FPkts)
    (hP : S.packets = E.packets ps) (i : Nat) (P : FPkt) (hr : ps.rd i = some P) :
    S.packet (E.cell i) = E.packet i P := by
  unfold State.packet
  rw [hP]
  exact E.read_packets h ps i P hr

theorem Place.task_read (E : Place) (h : E.ok) (S : State) (ts : FTasks)
    (hT : S.tasks = E.tasks ts) (i : Nat) (T : FTask) (hr : ts.rd i = some T) :
    S.task (E.cell i) = E.task i T := by
  unfold State.task
  rw [hT]
  exact E.read_tasks h ts i T hr

theorem FPkts.pkt_pos_of_rd (ps : FPkts) (i : Nat) (P : FPkt) (h : ps.rd i = some P) : i ≠ 0 := by
  rcases FPkts.pkt_rd_some ps i P h with r | r | r | r | r | r | r | r <;> omega

theorem FTasks.task_pos_of_rd (ts : FTasks) (i : Nat) (T : FTask) (h : ts.rd i = some T) : i ≠ 0 := by
  rcases FTasks.task_rd_some ts i T h with r | r | r | r | r | r <;> omega

/-- The loop of `append`, started at a packet, stops at the packet that `fWalk`
finds. -/
theorem fWalk_sim (E : Place) (h : E.ok) (S : State) (ps : FPkts)
    (hP : S.packets = E.packets ps) :
    ∀ (k i q : Nat), fWalk k ps i = some q →
      append_walk k S (Ref.pkt (E.cell i)) = some (Ref.pkt (E.cell q)) ∧
        ∃ Q, ps.rd q = some Q := by
  intro k
  induction k with
  | zero => intro i q hw; simp [fWalk] at hw
  | succ k ih =>
    intro i q hw
    rw [fWalk] at hw
    cases hr : ps.rd i with
    | none => rw [hr] at hw; simp at hw
    | some P =>
      rw [hr] at hw
      simp only [cond_eq_if, Nat.beq_eq] at hw
      have hl : S.rdLink (Ref.pkt (E.cell i)) = E.ptr P.link := by
        show (S.packet (E.cell i)).p_link = _
        rw [E.packet_read h S ps hP i P hr]
        rfl
      rw [append_walk, hl]
      by_cases h0 : P.link = 0
      · rw [if_pos h0] at hw
        simp only [Option.some.injEq] at hw
        subst hw
        have : E.ptr P.link = 0 := (E.ptr_eq_zero h _).2 h0
        simp only [this, ne_eq, not_true_eq_false, if_false]
        exact ⟨trivial, P, hr⟩
      · rw [if_neg h0] at hw
        have : E.ptr P.link ≠ 0 := fun e => h0 ((E.ptr_eq_zero h _).1 e)
        rw [if_pos this, E.ptr_of_pos _ h0]
        exact ih _ _ hw

theorem Place.packet_link_zero (E : Place) (i : Nat) (P : FPkt) :
    ({ E.packet i P with p_link := 0 } : Packet)
      = E.packet i ⟨0, P.id, P.a1, P.b0, P.b1, P.b2, P.b3⟩ := by
  simp [Place.packet, Place.ptr]

theorem Place.packet_link (E : Place) (i j : Nat) (hj : j ≠ 0) (Q : FPkt) :
    ({ E.packet i Q with p_link := E.cell j } : Packet)
      = E.packet i ⟨j, Q.id, Q.a1, Q.b0, Q.b1, Q.b2, Q.b3⟩ := by
  simp [Place.packet, Place.ptr, hj]

/-- Clearing the link of the packet in cell `pkt`. -/
theorem Place.setPacket_link_zero (E : Place) (h : E.ok) (S : State) (ps : FPkts)
    (hP : S.packets = E.packets ps) (pkt : Nat) (P : FPkt) (hr : ps.rd pkt = some P) :
    S.setPacket (E.cell pkt) { S.packet (E.cell pkt) with p_link := 0 }
      = { S with packets := E.packets (ps.wr pkt ⟨0, P.id, P.a1, P.b0, P.b1, P.b2, P.b3⟩) } := by
  rw [E.packet_read h S ps hP pkt P hr, E.packet_link_zero]
  unfold State.setPacket
  rw [hP, E.write_packets h ps pkt P _ hr]

/-- The function `append` on a chain that is not empty. -/
theorem append_place (E : Place) (h : E.ok) (S : State) (ps : FPkts)
    (hP : S.packets = E.packets ps) (k hd pkt q : Nat) (P Q : FPkt) (ref : Ref)
    (hpk : ps.rd pkt = some P)
    (hl : ({ S with packets := E.packets (ps.wr pkt ⟨0, P.id, P.a1, P.b0, P.b1, P.b2, P.b3⟩) }
      : State).rdLink ref = E.cell hd)
    (hw : fWalk k (ps.wr pkt ⟨0, P.id, P.a1, P.b0, P.b1, P.b2, P.b3⟩) hd = some q)
    (hq : (ps.wr pkt ⟨0, P.id, P.a1, P.b0, P.b1, P.b2, P.b3⟩).rd q = some Q) :
    append (k + 1) S (E.cell pkt) ref
      = some { S with
          packets := E.packets ((ps.wr pkt ⟨0, P.id, P.a1, P.b0, P.b1, P.b2, P.b3⟩).wr q
                      ⟨pkt, Q.id, Q.a1, Q.b0, Q.b1, Q.b2, Q.b3⟩) } := by
  have hpos : pkt ≠ 0 := FPkts.pkt_pos_of_rd ps pkt P hpk
  unfold append
  simp only
  rw [E.setPacket_link_zero h S ps hP pkt P hpk]
  have hne : ({ S with packets := E.packets (ps.wr pkt ⟨0, P.id, P.a1, P.b0, P.b1, P.b2, P.b3⟩) }
      : State).rdLink ref ≠ 0 := by
    rw [hl]; exact E.cell_ne_zero h hd
  rw [append_walk, if_pos hne, hl]
  obtain ⟨hwalk, _⟩ := fWalk_sim E h
    ({ S with packets := E.packets (ps.wr pkt ⟨0, P.id, P.a1, P.b0, P.b1, P.b2, P.b3⟩) } : State)
    _ rfl k hd q hw
  rw [hwalk]
  simp only [State.wrLink]
  rw [E.packet_read h _ _ rfl q Q hq, E.packet_link _ _ hpos]
  unfold State.setPacket
  simp only
  rw [E.write_packets h _ q Q _ hq]

theorem FPkts.pkt_wr_wr (ps : FPkts) (i : Nat) (A B : FPkt) : (ps.wr i A).wr i B = ps.wr i B := by
  rw [FPkts.pkt_wr_eq ps i A, FPkts.pkt_wr_eq ps i B]
  by_cases h2 : i = 2
  · subst h2; rfl
  by_cases h3 : i = 3
  · subst h3; rfl
  by_cases h5 : i = 5
  · subst h5; rfl
  by_cases h6 : i = 6
  · subst h6; rfl
  by_cases h7 : i = 7
  · subst h7; rfl
  by_cases h9 : i = 9
  · subst h9; rfl
  by_cases h10 : i = 10
  · subst h10; rfl
  by_cases h11 : i = 11
  · subst h11; rfl
  simp only [h2, h3, h5, h6, h7, h9, h10, h11, if_false]
  rw [FPkts.pkt_wr_eq]
  simp only [h2, h3, h5, h6, h7, h9, h10, h11, if_false]

theorem FTasks.task_wr_wr (ts : FTasks) (i : Nat) (A B : FTask) : (ts.wr i A).wr i B = ts.wr i B := by
  rw [FTasks.task_wr_eq ts i A, FTasks.task_wr_eq ts i B]
  by_cases h1 : i = 1
  · subst h1; rfl
  by_cases h4 : i = 4
  · subst h4; rfl
  by_cases h8 : i = 8
  · subst h8; rfl
  by_cases h12 : i = 12
  · subst h12; rfl
  by_cases h13 : i = 13
  · subst h13; rfl
  by_cases h14 : i = 14
  · subst h14; rfl
  simp only [h1, h4, h8, h12, h13, h14, if_false]
  rw [FTasks.task_wr_eq]
  simp only [h1, h4, h8, h12, h13, h14, if_false]

theorem Place.packet_stamp (E : Place) (i : Nat) (P : FPkt) (id : Int) :
    ({ E.packet i P with p_link := 0, p_id := id } : Packet)
      = E.packet i ⟨0, id, P.a1, P.b0, P.b1, P.b2, P.b3⟩ := by
  simp [Place.packet, Place.ptr]

theorem Place.task_queue (E : Place) (i j : Nat) (hj : j ≠ 0) (T : FTask) :
    ({ E.task i T with t_wkq := E.cell j, t_state := Int.lor (E.task i T).t_state PKTBIT } : Task)
      = E.task i ⟨j, Int.lor T.state 1, T.v1, T.v2⟩ := by
  simp [Place.task, Place.ptr, hj, PKTBIT]

theorem tPri_blt (i j : Nat) : ((tPri j : Int) > (tPri i : Int)) ↔ Nat.blt (tPri i) (tPri j) = true := by
  rw [Nat.blt_eq]
  omega

/-- The state `qpkt_stamped` in terms of the flat packets. -/
theorem Place.qpkt_stamped (E : Place) (h : E.ok) (S : State) (ps : FPkts)
    (hP : S.packets = E.packets ps) (pkt : Nat) (P : FPkt) (hr : ps.rd pkt = some P) :
    Richards.qpkt_stamped S (E.cell pkt)
      = { S with
          packets := E.packets (ps.wr pkt ⟨0, S.taskid, P.a1, P.b0, P.b1, P.b2, P.b3⟩),
          qpktcount := S.qpktcount + 1 } := by
  unfold Richards.qpkt_stamped
  rw [E.packet_read h S ps hP pkt P hr, E.packet_stamp]
  unfold State.setPacket
  simp only
  rw [hP, E.write_packets h ps pkt P _ hr]

theorem fFind_ne_zero_rd (ts : FTasks) (id : Int) (T : FTask) (h : ts.rd (fFind id) = some T) :
    fFind id ≠ 0 := FTasks.task_pos_of_rd ts _ T h

/-- The function `qpkt` called by the task in cell `cur`. -/
theorem qpkt_place (E : Place) (h : E.ok) (S : State) (ts : FTasks) (ps : FPkts)
    (hT : S.tasks = E.tasks ts) (hP : S.packets = E.packets ps) (htab : S.tasktab = E.tasktab)
    (fuel cur pkt : Nat) (C : FTask) (hC : ts.rd cur = some C) (hcur : S.tcb = E.cell cur)
    (hid : S.taskid = tId cur) (ts' : FTasks) (ps' : FPkts) (n : Nat)
    (hq : fQpkt fuel ts ps cur pkt = some (ts', ps', n)) :
    qpkt fuel S (E.cell pkt)
        = some ({ S with tasks := E.tasks ts', packets := E.packets ps',
                         qpktcount := S.qpktcount + 1 }, E.tptr n) ∧
      ts'.rd cur = some C := by
  unfold fQpkt at hq
  cases hr : ps.rd pkt with
  | none => rw [hr] at hq; exact absurd hq (by simp)
  | some P =>
    rw [hr] at hq
    simp only [cond_eq_if, Nat.beq_eq] at hq
    by_cases h0 : fFind P.id = 0
    · rw [if_pos h0] at hq; exact absurd hq (by simp)
    rw [if_neg h0] at hq
    by_cases hc : fFind P.id = cur
    · rw [if_pos hc] at hq; exact absurd hq (by simp)
    rw [if_neg hc] at hq
    cases hrt : ts.rd (fFind P.id) with
    | none => rw [hrt] at hq; exact absurd hq (by simp)
    | some T =>
      rw [hrt] at hq
      simp only at hq
      have hpos : pkt ≠ 0 := FPkts.pkt_pos_of_rd ps pkt P hr
      have hcpos : cur ≠ 0 := FTasks.task_pos_of_rd ts cur C hC
      have hpk : S.packet (E.cell pkt) = E.packet pkt P := E.packet_read h S ps hP pkt P hr
      have hf : findtcb S (S.packet (E.cell pkt)).p_id = E.cell (fFind P.id) := by
        rw [hpk, findtcb_place E S htab]
        exact E.ptr_of_pos _ h0
      have ht : S.task (E.cell (fFind P.id)) = E.task (fFind P.id) T :=
        E.task_read h S ts hT _ T hrt
      have htc : S.task S.tcb = E.task cur C := by
        rw [hcur]; exact E.task_read h S ts hT _ C hC
      have hne : E.cell (fFind P.id) ≠ 0 := E.cell_ne_zero h _
      by_cases hw : T.wkq = 0
      · rw [if_pos hw] at hq
        simp only [Option.some.injEq, Prod.mk.injEq] at hq
        obtain ⟨hts, hps, hn⟩ := hq
        have hq0 : (S.task (E.cell (fFind P.id))).t_wkq = 0 := by
          rw [ht]; simp [Place.task, Place.ptr, hw]
        rw [qpkt_of_empty fuel S _ _ hf hne hq0]
        refine ⟨?_, ?_⟩
        · congr 1
          refine Prod.ext ?_ ?_
          · show qpkt_empty_state S (E.cell pkt) (E.cell (fFind P.id)) = _
            unfold qpkt_empty_state
            rw [E.qpkt_stamped h S ps hP pkt P hr, ht, E.task_queue _ _ hpos, hid, ← hts, ← hps]
            unfold State.setTask
            simp only
            rw [hT, E.write_tasks h ts _ T _ hrt]
          · show (if _ then _ else _) = _
            rw [ht, htc, ← hn]
            simp only [Place.task, cond_eq_if]
            by_cases hb : Nat.blt (tPri cur) (tPri (fFind P.id)) = true
            · rw [if_pos ((tPri_blt _ _).2 hb), if_pos hb, E.tptr_of_pos _ h0]
            · rw [if_neg (fun hh => hb ((tPri_blt _ _).1 hh)), if_neg hb, hcur,
                E.tptr_of_pos _ hcpos]
        · rw [← hts, FTasks.task_rd_wr ts _ cur T _ hrt, if_neg hc]
          exact hC
      · rw [if_neg hw] at hq
        cases fuel with
        | zero => exact absurd hq (by simp)
        | succ k =>
          simp only at hq
          cases hwk : fWalk k (ps.wr pkt ⟨0, tId cur, P.a1, P.b0, P.b1, P.b2, P.b3⟩) T.wkq with
          | none => rw [hwk] at hq; exact absurd hq (by simp)
          | some q =>
            rw [hwk] at hq
            simp only at hq
            cases hrq : (ps.wr pkt ⟨0, tId cur, P.a1, P.b0, P.b1, P.b2, P.b3⟩).rd q with
            | none => rw [hrq] at hq; exact absurd hq (by simp)
            | some Q =>
              rw [hrq] at hq
              simp only [Option.some.injEq, Prod.mk.injEq] at hq
              obtain ⟨hts, hps, hn⟩ := hq
              have hq0 : (S.task (E.cell (fFind P.id))).t_wkq ≠ 0 := by
                rw [ht]
                simp only [Place.task]
                exact fun e => hw ((E.ptr_eq_zero h _).1 e)
              rw [qpkt_unfold (k + 1) S _ _ hf hne hq0, E.qpkt_stamped h S ps hP pkt P hr, hid]
              have hr1 : (ps.wr pkt ⟨0, tId cur, P.a1, P.b0, P.b1, P.b2, P.b3⟩).rd pkt
                  = some ⟨0, tId cur, P.a1, P.b0, P.b1, P.b2, P.b3⟩ := by
                rw [FPkts.pkt_rd_wr ps pkt pkt P _ hr, if_pos rfl]
              have := append_place E h
                ({ S with
                    packets := E.packets (ps.wr pkt ⟨0, tId cur, P.a1, P.b0, P.b1, P.b2, P.b3⟩),
                    qpktcount := S.qpktcount + 1 } : State)
                (ps.wr pkt ⟨0, tId cur, P.a1, P.b0, P.b1, P.b2, P.b3⟩) rfl k T.wkq pkt q
                ⟨0, tId cur, P.a1, P.b0, P.b1, P.b2, P.b3⟩ Q (Ref.wkq (E.cell (fFind P.id))) hr1
                (by
                  show (State.task _ _).t_wkq = _
                  simp only [State.task]
                  have := ht
                  simp only [State.task] at this
                  rw [this]
                  simp only [Place.task]
                  exact E.ptr_of_pos _ hw)
                (by rw [FPkts.pkt_wr_wr]; exact hwk)
                (by rw [FPkts.pkt_wr_wr]; exact hrq)
              rw [hid] at this
              simp only [FPkts.pkt_wr_wr] at this
              rw [this]
              refine ⟨?_, ?_⟩
              · rw [← hts, ← hps, ← hn, E.tptr_of_pos _ hcpos, ← hcur, hT]
              · rw [← hts]; exact hC

theorem Place.task_scratch (E : Place) (i : Nat) (T : FTask) (a b : Int) :
    ({ ({ E.task i T with t_v1 := E.v1 i a } : Task) with t_v2 := E.v2 i b } : Task)
      = E.task i ⟨T.wkq, T.state, a, b⟩ := rfl

theorem Place.task_state (E : Place) (i : Nat) (T : FTask) (st : Int) :
    ({ E.task i T with t_state := st } : Task) = E.task i ⟨T.wkq, st, T.v1, T.v2⟩ := rfl

/-- The state that `store_scratch` leaves. -/
theorem store_place (E : Place) (h : E.ok) (qc hc : Int) (ts : FTasks) (ps : FPkts) (i : Nat)
    (T : FTask) (S : State) (pre : E.Pre qc hc ts ps i T S) (a b : Int)
    (h1 : S.v1 = E.v1 i a) (h2 : S.v2 = E.v2 i b) (n : Nat) :
    E.Rep ⟨ts.wr i ⟨T.wkq, T.state, a, b⟩, ps, n, qc, hc⟩ (store_scratch (S, E.tptr n)) := by
  have ht : S.task S.tcb = E.task i T := by
    rw [pre.tcb]; exact E.task_read h S ts pre.tasks i T pre.rd
  have hw := E.write_tasks h ts i T ⟨T.wkq, T.state, a, b⟩ pre.rd
  obtain ⟨hT, hP, htab, htcb, hrd, hq, hh, htr, htl⟩ := pre
  unfold store_scratch
  obtain ⟨tasks, packets, tasktab, tasklist, tcb, taskid, v1, v2, qc', hc', tr, lay⟩ := S
  simp only [State.task, State.setTask, Mem.read_write_same, Mem.write_write_same] at *
  subst hT hP htab htcb hq hh htr htl h1 h2
  rw [ht, E.task_scratch, hw]
  exact ⟨rfl, rfl, rfl, rfl, rfl, rfl, rfl, rfl⟩

/-- The function `wait_task` keeps the situation of a dispatch. -/
theorem wait_pre (E : Place) (h : E.ok) (qc hc : Int) (ts : FTasks) (ps : FPkts) (i : Nat)
    (T : FTask) (S : State) (pre : E.Pre qc hc ts ps i T S) :
    E.Pre qc hc (ts.wr i ⟨T.wkq, Int.lor T.state 2, T.v1, T.v2⟩) ps i
        ⟨T.wkq, Int.lor T.state 2, T.v1, T.v2⟩ (wait_task S).1 ∧
      (wait_task S).2 = E.tptr i ∧ (wait_task S).1.v1 = S.v1 ∧ (wait_task S).1.v2 = S.v2 := by
  have ht : S.task S.tcb = E.task i T := by
    rw [pre.tcb]; exact E.task_read h S ts pre.tasks i T pre.rd
  have hw := E.write_tasks h ts i T ⟨T.wkq, Int.lor T.state 2, T.v1, T.v2⟩ pre.rd
  have hi : i ≠ 0 := FTasks.task_pos_of_rd ts i T pre.rd
  have hrd' := FTasks.task_rd_wr ts i i T ⟨T.wkq, Int.lor T.state 2, T.v1, T.v2⟩ pre.rd
  rw [if_pos rfl] at hrd'
  obtain ⟨hT, hP, htab, htcb, hrd, hq, hh, htr, htl⟩ := pre
  unfold wait_task
  obtain ⟨tasks, packets, tasktab, tasklist, tcb, taskid, v1, v2, qc', hc', tr, lay⟩ := S
  simp only [State.task, State.setTask] at *
  subst hT hP htab htcb hq hh htr htl
  rw [ht]
  refine ⟨⟨?_, rfl, rfl, rfl, hrd', rfl, rfl, rfl, rfl⟩, (E.tptr_of_pos i hi).symm, trivial, trivial⟩
  exact hw

/-- The function `holdself` keeps the situation of a dispatch. -/
theorem hold_pre (E : Place) (h : E.ok) (qc hc : Int) (ts : FTasks) (ps : FPkts) (i : Nat)
    (T : FTask) (S : State) (pre : E.Pre qc hc ts ps i T S) :
    E.Pre qc (hc + 1) (ts.wr i ⟨T.wkq, Int.lor T.state 4, T.v1, T.v2⟩) ps i
        ⟨T.wkq, Int.lor T.state 4, T.v1, T.v2⟩ (holdself S).1 ∧
      (holdself S).2 = E.tptr (tLink i) ∧ (holdself S).1.v1 = S.v1 ∧
      (holdself S).1.v2 = S.v2 := by
  have ht : S.task S.tcb = E.task i T := by
    rw [pre.tcb]; exact E.task_read h S ts pre.tasks i T pre.rd
  have hw := E.write_tasks h ts i T ⟨T.wkq, Int.lor T.state 4, T.v1, T.v2⟩ pre.rd
  have hrd' := FTasks.task_rd_wr ts i i T ⟨T.wkq, Int.lor T.state 4, T.v1, T.v2⟩ pre.rd
  rw [if_pos rfl] at hrd'
  obtain ⟨hT, hP, htab, htcb, hrd, hq, hh, htr, htl⟩ := pre
  unfold holdself
  obtain ⟨tasks, packets, tasktab, tasklist, tcb, taskid, v1, v2, qc', hc', tr, lay⟩ := S
  simp only [State.task, State.setTask, Mem.read_write_same] at *
  subst hT hP htab htcb hq hh htr htl
  rw [ht]
  refine ⟨⟨?_, rfl, rfl, rfl, hrd', rfl, rfl, rfl, rfl⟩, rfl, trivial, trivial⟩
  exact hw

/-- The end of a dispatch that called `wait_task`. -/
theorem wait_place (E : Place) (h : E.ok) (f : FState) (ts : FTasks) (ps : FPkts) (i : Nat)
    (T : FTask) (S : State) (pre : E.Pre f.qpktcount f.holdcount ts ps i T S) (a b : Int)
    (h1 : S.v1 = E.v1 i a) (h2 : S.v2 = E.v2 i b) (f' : FState)
    (hf : fWait f ts ps i T a b = some f') :
    E.Rep f' (store_scratch (wait_task S)) := by
  obtain ⟨pre', hn, hv1, hv2⟩ := wait_pre E h _ _ ts ps i T S pre
  have := store_place E h _ _ _ ps i _ (wait_task S).1 pre' a b (hv1.trans h1) (hv2.trans h2) i
  rw [← hn, FTasks.task_wr_wr] at this
  unfold fWait at hf
  rw [← Option.some.inj hf]
  exact this

/-- The end of a dispatch that called `holdself`. -/
theorem hold_place (E : Place) (h : E.ok) (f : FState) (ts : FTasks) (ps : FPkts) (i : Nat)
    (T : FTask) (S : State) (pre : E.Pre f.qpktcount f.holdcount ts ps i T S) (a b : Int)
    (h1 : S.v1 = E.v1 i a) (h2 : S.v2 = E.v2 i b) (f' : FState)
    (hf : fHold f ts ps i T a b = some f') :
    E.Rep f' (store_scratch (holdself S)) := by
  obtain ⟨pre', hn, hv1, hv2⟩ := hold_pre E h _ _ ts ps i T S pre
  have := store_place E h _ _ _ ps i _ (holdself S).1 pre' a b (hv1.trans h1) (hv2.trans h2)
    (tLink i)
  rw [← hn, FTasks.task_wr_wr] at this
  unfold fHold at hf
  rw [← Option.some.inj hf]
  exact this

/-- The end of a dispatch that called `qpkt`. -/
theorem sent_place (E : Place) (h : E.ok) (f : FState) (ts : FTasks) (ps : FPkts) (i : Nat)
    (T : FTask) (S : State) (pre : E.Pre f.qpktcount f.holdcount ts ps i T S) (a b : Int)
    (h1 : S.v1 = E.v1 i a) (h2 : S.v2 = E.v2 i b) (hid : S.taskid = tId i) (fuel pkt : Nat)
    (f' : FState) (hf : fSent f i T a b (fQpkt fuel ts ps i pkt) = some f') :
    ∃ r, qpkt fuel S (E.cell pkt) = some r ∧ E.Rep f' (store_scratch r) := by
  cases hq : fQpkt fuel ts ps i pkt with
  | none => rw [hq] at hf; exact absurd hf (by simp [fSent])
  | some r =>
    obtain ⟨ts', ps', n⟩ := r
    rw [hq] at hf
    obtain ⟨hqp, hrd⟩ := qpkt_place E h S ts ps pre.tasks pre.packets pre.tasktab fuel i pkt T
      pre.rd pre.tcb hid ts' ps' n hq
    refine ⟨_, hqp, ?_⟩
    have pre' : E.Pre (f.qpktcount + 1) f.holdcount ts' ps' i T
        ({ S with tasks := E.tasks ts', packets := E.packets ps',
                  qpktcount := S.qpktcount + 1 } : State) :=
      ⟨rfl, rfl, pre.tasktab, pre.tcb, hrd, by rw [← pre.qpktcount], pre.holdcount, pre.tracing, pre.tasklist⟩
    have := store_place E h _ _ ts' ps' i T _ pre' a b h1 h2 n
    simp only [fSent] at hf
    rw [← Option.some.inj hf]
    exact this

theorem Place.v1_dev (E : Place) (i : Nat) (hi : 8 ≤ i) (n : Nat) :
    E.v1 i (Int.ofNat n) = ((E.ptr n : Nat) : Int) := by
  unfold Place.v1
  rw [if_neg (by omega)]
  rfl

theorem Place.v1_of_dev (E : Place) (i : Nat) (hi : 8 ≤ i) (v : Int) :
    E.v1 i v = ((E.ptr v.toNat : Nat) : Int) := by
  unfold Place.v1
  rw [if_neg (by omega)]

theorem Place.v2_of_dev (E : Place) (i : Nat) (hi : 12 < i) (v : Int) : E.v2 i v = v := by
  unfold Place.v2
  rw [if_neg (by omega)]

theorem Place.pre_scratch (E : Place) (qc hc : Int) (ts : FTasks) (ps : FPkts) (i : Nat)
    (T : FTask) (S : State) (pre : E.Pre qc hc ts ps i T S) (a b : Int) :
    E.Pre qc hc ts ps i T ({ S with v1 := a, v2 := b } : State) :=
  ⟨pre.tasks, pre.packets, pre.tasktab, pre.tcb, pre.rd, pre.qpktcount, pre.holdcount,
    pre.tracing, pre.tasklist⟩

/-- A dispatch of `devfn`. -/
theorem dev_place (E : Place) (h : E.ok) (f : FState) (ts : FTasks) (i : Nat) (T : FTask)
    (S : State) (pre : E.Pre f.qpktcount f.holdcount ts f.pkts i T S) (hi : 12 < i)
    (h1 : S.v1 = E.v1 i T.v1) (h2 : S.v2 = E.v2 i T.v2) (hid : S.taskid = tId i)
    (fuel pkt : Nat) (f' : FState) (hf : fDev fuel f ts i T pkt = some f') :
    ∃ r, devfn fuel S (E.ptr pkt) = some r ∧ E.Rep f' (store_scratch r) := by
  unfold fDev at hf
  simp only [cond_eq_if, Nat.beq_eq] at hf
  unfold devfn
  rw [E.v1_of_dev i (by omega)] at h1
  rw [E.v2_of_dev i hi] at h2
  by_cases hp : pkt = 0
  · rw [if_pos hp] at hf
    rw [if_pos ((E.ptr_eq_zero h pkt).2 hp)]
    by_cases hv : T.v1.toNat = 0
    · rw [if_pos hv] at hf
      have hz : S.v1 = 0 := by rw [h1, hv]; rfl
      rw [if_pos hz]
      refine ⟨_, rfl, wait_place E h f ts f.pkts i T S pre _ _ ?_ ?_ f' hf⟩
      · rw [E.v1_dev i (by omega)]; exact h1
      · rw [E.v2_of_dev i hi]; exact h2
    · rw [if_neg hv] at hf
      have hz : S.v1 ≠ 0 := by
        rw [h1]
        intro e
        exact hv ((E.ptr_eq_zero h _).1 (Int.ofNat.inj e))
      rw [if_neg hz]
      have hc : S.v1.toNat = E.cell T.v1.toNat := by
        rw [h1, E.ptr_toNat, E.ptr_of_pos _ hv]
      simp only
      rw [hc]
      refine sent_place E h f ts f.pkts i T ({ S with v1 := 0 } : State)
        ⟨pre.tasks, pre.packets, pre.tasktab, pre.tcb, pre.rd, pre.qpktcount, pre.holdcount,
          pre.tracing, pre.tasklist⟩ 0 T.v2 ?_ ?_ hid fuel _ f' hf
      · rw [E.v1_of_dev i (by omega)]; rfl
      · rw [E.v2_of_dev i hi]; exact h2
  · rw [if_neg hp] at hf
    rw [if_neg (fun e => hp ((E.ptr_eq_zero h pkt).1 e))]
    simp only
    have htr : ¬ (S.tracing ≠ 0) := by rw [pre.tracing]; simp
    rw [if_neg htr]
    refine ⟨_, rfl, hold_place E h f ts f.pkts i T ({ S with v1 := ((E.ptr pkt : Nat) : Int) } : State)
        ⟨pre.tasks, pre.packets, pre.tasktab, pre.tcb, pre.rd, pre.qpktcount, pre.holdcount,
          pre.tracing, pre.tasklist⟩ _ _ ?_ ?_ f' hf⟩
    · rw [E.v1_dev i (by omega)]
    · rw [E.v2_of_dev i hi]; exact h2

/-- The end of a dispatch of `idlefn` that called `release`. -/
theorem release_place (E : Place) (h : E.ok) (f : FState) (ts : FTasks) (T : FTask)
    (S : State) (pre : E.Pre f.qpktcount f.holdcount ts f.pkts 1 T S) (a b : Int)
    (h1 : S.v1 = a) (h2 : S.v2 = b) (id : Int) (ht1 : fFind id ≠ 1) (f' : FState)
    (hf : fRelease f ts T a b (fFind id) = some f') :
    E.Rep f' (store_scratch (release S id)) := by
  unfold fRelease at hf
  cases hr : ts.rd (fFind id) with
  | none => rw [hr] at hf; exact absurd hf (by simp)
  | some U =>
    rw [hr] at hf
    simp only [Option.some.injEq] at hf
    have h0 : fFind id ≠ 0 := FTasks.task_pos_of_rd ts _ U hr
    have hfind : findtcb S id = E.cell (fFind id) := by
      rw [findtcb_place E S pre.tasktab]; exact E.ptr_of_pos _ h0
    have hU : S.task (E.cell (fFind id)) = E.task (fFind id) U :=
      E.task_read h S ts pre.tasks _ U hr
    have hw := E.write_tasks h ts (fFind id) U
      ⟨U.wkq, Int.land U.state 0xFFFB, U.v1, U.v2⟩ hr
    have hrd' : (ts.wr (fFind id) ⟨U.wkq, Int.land U.state 0xFFFB, U.v1, U.v2⟩).rd 1
        = some T := by
      rw [FTasks.task_rd_wr ts _ 1 U _ hr, if_neg ht1]; exact pre.rd
    have pre' : E.Pre f.qpktcount f.holdcount
        (ts.wr (fFind id) ⟨U.wkq, Int.land U.state 0xFFFB, U.v1, U.v2⟩) f.pkts 1 T
        (S.setTask (E.cell (fFind id))
          { S.task (E.cell (fFind id)) with
            t_state := Int.land (S.task (E.cell (fFind id))).t_state NOTHOLDBIT }) := by
      refine ⟨?_, pre.packets, pre.tasktab, pre.tcb, hrd', pre.qpktcount, pre.holdcount,
        pre.tracing, pre.tasklist⟩
      rw [hU]
      show (S.tasks.write _ _) = _
      rw [pre.tasks]
      exact hw
    have hpri : ∀ S' : State, S'.tasks = E.tasks
        (ts.wr (fFind id) ⟨U.wkq, Int.land U.state 0xFFFB, U.v1, U.v2⟩) → S'.tcb = E.cell 1 →
        ((S'.task (E.cell (fFind id))).t_pri > (S'.task S'.tcb).t_pri ↔
          Nat.blt (tPri 1) (tPri (fFind id)) = true) := by
      intro S' hT' htcb'
      rw [htcb', E.task_read h S' _ hT' 1 T hrd',
        E.task_read h S' _ hT' (fFind id) ⟨U.wkq, Int.land U.state 0xFFFB, U.v1, U.v2⟩
          (by rw [FTasks.task_rd_wr ts _ _ U _ hr, if_pos rfl])]
      exact tPri_blt 1 (fFind id)
    have hres : release S id
        = (S.setTask (E.cell (fFind id))
            { S.task (E.cell (fFind id)) with
              t_state := Int.land (S.task (E.cell (fFind id))).t_state NOTHOLDBIT },
           E.tptr (bif Nat.blt (tPri 1) (tPri (fFind id)) then fFind id else 1)) := by
      unfold release
      simp only [hfind, if_neg (E.cell_ne_zero h _)]
      have := hpri _ pre'.tasks pre'.tcb
      by_cases hb : Nat.blt (tPri 1) (tPri (fFind id)) = true
      · rw [if_pos (this.2 hb), hb, cond_true, E.tptr_of_pos _ h0]
      · rw [if_neg (fun e => hb (this.1 e))]
        simp only [Bool.not_eq_true] at hb
        rw [hb, cond_false, E.tptr_of_pos _ (by decide)]
        exact congrArg _ pre'.tcb
    rw [hres, ← hf]
    exact store_place E h _ _ _ f.pkts 1 T _ pre' a b
      (by show S.v1 = _; rw [h1]; rfl) (by show S.v2 = _; rw [h2]; rfl) _

/-- A dispatch of `idlefn`. -/
theorem idle_place (E : Place) (h : E.ok) (f : FState) (ts : FTasks) (T : FTask)
    (S : State) (pre : E.Pre f.qpktcount f.holdcount ts f.pkts 1 T S)
    (h1 : S.v1 = T.v1) (h2 : S.v2 = T.v2) (pkt : Nat) (f' : FState)
    (hf : fIdle f ts T = some f') :
    E.Rep f' (store_scratch (idlefn S pkt)) := by
  unfold fIdle at hf
  unfold idlefn
  simp only
  rw [h2, h1]
  by_cases hz : T.v2 - 1 = 0
  · rw [if_pos hz] at hf
    rw [if_pos hz]
    exact hold_place E h f ts f.pkts 1 T _
      (E.pre_scratch _ _ ts f.pkts 1 T S pre T.v1 (T.v2 - 1)) T.v1 (T.v2 - 1)
      rfl rfl f' hf
  · rw [if_neg hz] at hf
    rw [if_neg hz]
    by_cases hb : Int.land T.v1 1 = 0
    · rw [if_pos hb] at hf
      rw [if_pos hb]
      exact release_place E h f ts T _
        (E.pre_scratch _ _ ts f.pkts 1 T S pre (Int.land (T.v1 >>> 1) MAXINT) (T.v2 - 1))
        _ _ rfl rfl I_DEVA (by decide) f' hf
    · rw [if_neg hb] at hf
      rw [if_neg hb]
      exact release_place E h f ts T _
        (E.pre_scratch _ _ ts f.pkts 1 T S pre
          (Int.xor (Int.land (T.v1 >>> 1) MAXINT) 0xD008) (T.v2 - 1))
        _ _ rfl rfl I_DEVB (by decide) f' hf

theorem workfn_body_eq (pkt : Nat) (s : State) (i : Nat) :
    workfn_body pkt s i
      = { s with
          v2 := fBump s.v2,
          packets := s.packets.write pkt
            { s.packet pkt with
              p_a2 := (s.packet pkt).p_a2.set i (alphabet.getD (fBump s.v2).toNat 0) } } := by
  unfold workfn_body fBump
  simp only
  split <;> rfl

/-- The state in which `workfn` calls `qpkt`. -/
theorem workfn_fill_place (E : Place) (h : E.ok) (S : State) (ps : FPkts)
    (hP : S.packets = E.packets ps) (pkt : Nat) (P : FPkt) (hr : ps.rd pkt = some P) :
    workfn_fill S (E.cell pkt)
      = { S with
          v1 := 7 - S.v1,
          v2 := fBump (fBump (fBump (fBump S.v2))),
          packets := E.packets (ps.wr pkt ⟨P.link, 7 - S.v1, 0,
            alphabet.getD (fBump S.v2).toNat 0,
            alphabet.getD (fBump (fBump S.v2)).toNat 0,
            alphabet.getD (fBump (fBump (fBump S.v2))).toNat 0,
            alphabet.getD (fBump (fBump (fBump (fBump S.v2)))).toNat 0⟩) } := by
  have hrd := E.read_packets h ps pkt P hr
  have hw := E.write_packets h ps pkt P ⟨P.link, 7 - S.v1, 0,
            alphabet.getD (fBump S.v2).toNat 0,
            alphabet.getD (fBump (fBump S.v2)).toNat 0,
            alphabet.getD (fBump (fBump (fBump S.v2))).toNat 0,
            alphabet.getD (fBump (fBump (fBump (fBump S.v2)))).toNat 0⟩ hr
  unfold workfn_fill
  have hrange : List.range (BUFSIZE + 1) = [0, 1, 2, 3] := by decide
  rw [hrange]
  simp only [List.foldl, workfn_body_eq]
  obtain ⟨tasks, packets, tasktab, tasklist, tcb, taskid, v1, v2, qc', hc', tr, lay⟩ := S
  simp only [State.packet, State.setPacket, Mem.read_write_same, Mem.write_write_same] at *
  subst hP
  rw [hrd, ← hw]
  rfl

/-- A dispatch of `workfn`. -/
theorem work_place (E : Place) (h : E.ok) (f : FState) (ts : FTasks) (T : FTask)
    (S : State) (pre : E.Pre f.qpktcount f.holdcount ts f.pkts 4 T S)
    (h1 : S.v1 = T.v1) (h2 : S.v2 = T.v2) (hid : S.taskid = tId 4)
    (fuel pkt : Nat) (f' : FState) (hf : fWork fuel f ts T pkt = some f') :
    ∃ r, workfn fuel S (E.ptr pkt) = some r ∧ E.Rep f' (store_scratch r) := by
  unfold fWork at hf
  simp only [cond_eq_if, Nat.beq_eq] at hf
  unfold workfn
  by_cases hp : pkt = 0
  · rw [if_pos hp] at hf
    rw [if_pos ((E.ptr_eq_zero h pkt).2 hp)]
    exact ⟨_, rfl, wait_place E h f ts f.pkts 4 T S pre _ _ h1 h2 f' hf⟩
  · rw [if_neg hp] at hf
    rw [if_neg (fun e => hp ((E.ptr_eq_zero h pkt).1 e)), E.ptr_of_pos _ hp]
    cases hr : f.pkts.rd pkt with
    | none => rw [hr] at hf; exact absurd hf (by simp)
    | some P =>
      rw [hr] at hf
      simp only at hf
      rw [workfn_fill_place E h S f.pkts pre.packets pkt P hr, h1, h2]
      refine sent_place E h f ts _ 4 T _ ?_ _ _ ?_ ?_ ?_ fuel pkt f' hf
      · exact ⟨pre.tasks, rfl, pre.tasktab, pre.tcb, pre.rd, pre.qpktcount, pre.holdcount,
          pre.tracing, pre.tasklist⟩
      · rfl
      · rfl
      · exact hid

/-- The function `append` on the chain kept in the scratch slot `v1`. -/
theorem fAppend_v1 (E : Place) (h : E.ok) (S : State) (ps : FPkts)
    (hP : S.packets = E.packets ps) (fuel hd pkt : Nat) (ps' : FPkts) (hd' : Nat)
    (hv : S.v1 = ((E.ptr hd : Nat) : Int)) (hA : fAppend fuel ps hd pkt = some (ps', hd')) :
    append fuel S (E.cell pkt) Ref.v1
      = some { S with packets := E.packets ps', v1 := ((E.ptr hd' : Nat) : Int) } := by
  unfold fAppend at hA
  cases fuel with
  | zero => exact absurd hA (by simp)
  | succ k =>
    simp only at hA
    cases hr : ps.rd pkt with
    | none => rw [hr] at hA; exact absurd hA (by simp)
    | some P =>
      rw [hr] at hA
      simp only [cond_eq_if, Nat.beq_eq] at hA
      have hpos : pkt ≠ 0 := FPkts.pkt_pos_of_rd ps pkt P hr
      by_cases h0 : hd = 0
      · rw [if_pos h0] at hA
        simp only [Option.some.injEq, Prod.mk.injEq] at hA
        obtain ⟨hps, hhd⟩ := hA
        have hz : (S.setPacket (E.cell pkt) { S.packet (E.cell pkt) with p_link := 0 }).rdLink
            Ref.v1 = 0 := by
          show S.v1.toNat = 0
          rw [hv, h0]
          rfl
        rw [append_of_null k S _ _ hz, E.setPacket_link_zero h S ps hP pkt P hr, ← hps, ← hhd,
          E.ptr_of_pos _ hpos]
        rfl
      · rw [if_neg h0] at hA
        cases hwk : fWalk k (ps.wr pkt ⟨0, P.id, P.a1, P.b0, P.b1, P.b2, P.b3⟩) hd with
        | none => rw [hwk] at hA; exact absurd hA (by simp)
        | some q =>
          rw [hwk] at hA
          simp only at hA
          cases hrq : (ps.wr pkt ⟨0, P.id, P.a1, P.b0, P.b1, P.b2, P.b3⟩).rd q with
          | none => rw [hrq] at hA; exact absurd hA (by simp)
          | some Q =>
            rw [hrq] at hA
            simp only [Option.some.injEq, Prod.mk.injEq] at hA
            obtain ⟨hps, hhd⟩ := hA
            have hl : ({ S with
                packets := E.packets (ps.wr pkt ⟨0, P.id, P.a1, P.b0, P.b1, P.b2, P.b3⟩) }
                : State).rdLink Ref.v1 = E.cell hd := by
              show S.v1.toNat = _
              rw [hv, E.ptr_toNat, E.ptr_of_pos _ h0]
            rw [append_place E h S ps hP k hd pkt q P Q Ref.v1 hr hl hwk hrq, ← hps, ← hhd, ← hv]

/-- The function `append` on the chain kept in the scratch slot `v2`. -/
theorem fAppend_v2 (E : Place) (h : E.ok) (S : State) (ps : FPkts)
    (hP : S.packets = E.packets ps) (fuel hd pkt : Nat) (ps' : FPkts) (hd' : Nat)
    (hv : S.v2 = ((E.ptr hd : Nat) : Int)) (hA : fAppend fuel ps hd pkt = some (ps', hd')) :
    append fuel S (E.cell pkt) Ref.v2
      = some { S with packets := E.packets ps', v2 := ((E.ptr hd' : Nat) : Int) } := by
  unfold fAppend at hA
  cases fuel with
  | zero => exact absurd hA (by simp)
  | succ k =>
    simp only at hA
    cases hr : ps.rd pkt with
    | none => rw [hr] at hA; exact absurd hA (by simp)
    | some P =>
      rw [hr] at hA
      simp only [cond_eq_if, Nat.beq_eq] at hA
      have hpos : pkt ≠ 0 := FPkts.pkt_pos_of_rd ps pkt P hr
      by_cases h0 : hd = 0
      · rw [if_pos h0] at hA
        simp only [Option.some.injEq, Prod.mk.injEq] at hA
        obtain ⟨hps, hhd⟩ := hA
        have hz : (S.setPacket (E.cell pkt) { S.packet (E.cell pkt) with p_link := 0 }).rdLink
            Ref.v2 = 0 := by
          show S.v2.toNat = 0
          rw [hv, h0]
          rfl
        rw [append_of_null k S _ _ hz, E.setPacket_link_zero h S ps hP pkt P hr, ← hps, ← hhd,
          E.ptr_of_pos _ hpos]
        rfl
      · rw [if_neg h0] at hA
        cases hwk : fWalk k (ps.wr pkt ⟨0, P.id, P.a1, P.b0, P.b1, P.b2, P.b3⟩) hd with
        | none => rw [hwk] at hA; exact absurd hA (by simp)
        | some q =>
          rw [hwk] at hA
          simp only at hA
          cases hrq : (ps.wr pkt ⟨0, P.id, P.a1, P.b0, P.b1, P.b2, P.b3⟩).rd q with
          | none => rw [hrq] at hA; exact absurd hA (by simp)
          | some Q =>
            rw [hrq] at hA
            simp only [Option.some.injEq, Prod.mk.injEq] at hA
            obtain ⟨hps, hhd⟩ := hA
            have hl : ({ S with
                packets := E.packets (ps.wr pkt ⟨0, P.id, P.a1, P.b0, P.b1, P.b2, P.b3⟩) }
                : State).rdLink Ref.v2 = E.cell hd := by
              show S.v2.toNat = _
              rw [hv, E.ptr_toNat, E.ptr_of_pos _ h0]
            rw [append_place E h S ps hP k hd pkt q P Q Ref.v2 hr hl hwk hrq, ← hps, ← hhd, ← hv]

theorem Place.v1_handler (E : Place) (i : Nat) (hi : i = 8 ∨ i = 12) (n : Nat) :
    E.v1 i (Int.ofNat n) = ((E.ptr n : Nat) : Int) :=
  E.v1_dev i (by omega) n

theorem Place.v2_handler (E : Place) (i : Nat) (hi : i = 8 ∨ i = 12) (n : Nat) :
    E.v2 i (Int.ofNat n) = ((E.ptr n : Nat) : Int) := by
  unfold Place.v2
  rw [if_pos hi]
  rfl

theorem Place.v2_of_handler (E : Place) (i : Nat) (hi : i = 8 ∨ i = 12) (v : Int) :
    E.v2 i v = ((E.ptr v.toNat : Nat) : Int) := by
  unfold Place.v2
  rw [if_pos hi]

theorem FPkt.char_eq (W : FPkt) (n : Nat) : [W.b0, W.b1, W.b2, W.b3].getD n 0 = W.char n := by
  match n with
  | 0 => rfl
  | 1 => rfl
  | 2 => rfl
  | 3 => rfl
  | _ + 4 => rfl

/-- The state in which `handlerfn` calls `qpkt` for the device packet. -/
theorem handler_pair_dev_place (E : Place) (h : E.ok) (S : State) (ps : FPkts)
    (hP : S.packets = E.packets ps) (w d : Nat) (hw : w ≠ 0) (hd : d ≠ 0)
    (h1 : S.v1 = ((E.ptr w : Nat) : Int)) (h2 : S.v2 = ((E.ptr d : Nat) : Int))
    (W D W' : FPkt) (hrw : ps.rd w = some W) (hrd : ps.rd d = some D)
    (hrw' : (ps.wr d ⟨D.link, D.id, W.char W.a1.toNat, D.b0, D.b1, D.b2, D.b3⟩).rd w = some W') :
    handler_pair_dev S
      = { S with
          v2 := ((E.ptr D.link : Nat) : Int),
          packets := E.packets
            ((ps.wr d ⟨D.link, D.id, W.char W.a1.toNat, D.b0, D.b1, D.b2, D.b3⟩).wr w
              ⟨W'.link, W'.id, W.a1 + 1, W'.b0, W'.b1, W'.b2, W'.b3⟩) } := by
  have e1 : S.v1.toNat = E.cell w := by rw [h1, E.ptr_toNat, E.ptr_of_pos _ hw]
  have e2 : S.v2.toNat = E.cell d := by rw [h2, E.ptr_toNat, E.ptr_of_pos _ hd]
  have r1 := E.read_packets h ps w W hrw
  have r2 := E.read_packets h ps d D hrd
  have w2 := E.write_packets h ps d D ⟨D.link, D.id, W.char W.a1.toNat, D.b0, D.b1, D.b2, D.b3⟩ hrd
  have r3 := E.read_packets h _ w W' hrw'
  have w3 := E.write_packets h _ w W' ⟨W'.link, W'.id, W.a1 + 1, W'.b0, W'.b1, W'.b2, W'.b3⟩ hrw'
  unfold handler_pair_dev
  obtain ⟨tasks, packets, tasktab, tasklist, tcb, taskid, v1, v2, qc', hc', tr, lay⟩ := S
  simp only [State.packet, State.setPacket] at *
  subst hP
  rw [e1, e2, r1, r2]
  have e3 : ({ E.packet d D with p_a1 := (E.packet w W).p_a2.getD (E.packet w W).p_a1.toNat 0 }
      : Packet) = E.packet d ⟨D.link, D.id, W.char W.a1.toNat, D.b0, D.b1, D.b2, D.b3⟩ := by
    simp only [Place.packet, FPkt.char_eq]
  rw [e3, w2, r3]
  have e4 : ({ E.packet w W' with p_a1 := (E.packet w W).p_a1 + 1 } : Packet)
      = E.packet w ⟨W'.link, W'.id, W.a1 + 1, W'.b0, W'.b1, W'.b2, W'.b3⟩ := rfl
  rw [e4, w3]
  rfl

/-- The part of a dispatch of `handlerfn` after the inbound packet has been filed. -/
theorem pair_place (E : Place) (h : E.ok) (f : FState) (ts : FTasks) (ps : FPkts) (i : Nat)
    (T : FTask) (S : State) (pre : E.Pre f.qpktcount f.holdcount ts ps i T S)
    (hi : i = 8 ∨ i = 12) (w d : Nat)
    (h1 : S.v1 = ((E.ptr w : Nat) : Int)) (h2 : S.v2 = ((E.ptr d : Nat) : Int))
    (hid : S.taskid = tId i) (fuel : Nat) (f' : FState)
    (hf : fPair fuel f ts ps i T w d = some f') :
    ∃ r, handler_pair fuel S = some r ∧ E.Rep f' (store_scratch r) := by
  unfold fPair at hf
  simp only [cond_eq_if, Nat.beq_eq] at hf
  unfold handler_pair
  have hwait : ∀ g, fWait f ts ps i T (Int.ofNat w) (Int.ofNat d) = some g →
      E.Rep g (store_scratch (wait_task S)) := fun g hg =>
    wait_place E h f ts ps i T S pre _ _ (by rw [E.v1_handler i hi]; exact h1)
      (by rw [E.v2_handler i hi]; exact h2) g hg
  by_cases hw : w = 0
  · rw [if_pos hw] at hf
    have hz : ¬ (S.v1 ≠ 0) := by rw [h1, hw]; simp [Place.ptr]
    rw [if_neg hz]
    exact ⟨_, rfl, hwait f' hf⟩
  · rw [if_neg hw] at hf
    have hz : S.v1 ≠ 0 := by
      rw [h1]
      intro e
      exact hw ((E.ptr_eq_zero h _).1 (Int.ofNat.inj e))
    rw [if_pos hz]
    have e1 : S.v1.toNat = E.cell w := by rw [h1, E.ptr_toNat, E.ptr_of_pos _ hw]
    simp only
    rw [e1]
    cases hrw : ps.rd w with
    | none => rw [hrw] at hf; exact absurd hf (by simp)
    | some W =>
      rw [hrw] at hf
      simp only at hf
      rw [E.packet_read h S ps pre.packets w W hrw]
      have hcnt : ((E.packet w W).p_a1 > ((BUFSIZE : Nat) : Int)) ↔ W.a1 > 3 := Iff.rfl
      by_cases hc : W.a1 > 3
      · rw [if_pos hc] at hf
        rw [if_pos (hcnt.2 hc)]
        have hu : handler_unlink_work S
            = { S with v1 := ((E.ptr W.link : Nat) : Int) } := by
          unfold handler_unlink_work
          rw [e1, E.packet_read h S ps pre.packets w W hrw]
          rfl
        rw [hu]
        refine sent_place E h f ts ps i T _ ?_ _ _ ?_ ?_ ?_ fuel w f' hf
        · exact ⟨pre.tasks, pre.packets, pre.tasktab, pre.tcb, pre.rd, pre.qpktcount,
            pre.holdcount, pre.tracing, pre.tasklist⟩
        · rw [E.v1_handler i hi]
        · rw [E.v2_handler i hi]; exact h2
        · exact hid
      · rw [if_neg hc] at hf
        rw [if_neg (fun e => hc (hcnt.1 e))]
        by_cases hd : d = 0
        · rw [if_pos hd] at hf
          have hz2 : ¬ (S.v2 ≠ 0) := by rw [h2, hd]; simp [Place.ptr]
          rw [if_neg hz2]
          exact ⟨_, rfl, hwait f' hf⟩
        · rw [if_neg hd] at hf
          have hz2 : S.v2 ≠ 0 := by
            rw [h2]
            intro e
            exact hd ((E.ptr_eq_zero h _).1 (Int.ofNat.inj e))
          rw [if_pos hz2]
          have e2 : S.v2.toNat = E.cell d := by rw [h2, E.ptr_toNat, E.ptr_of_pos _ hd]
          rw [e2]
          cases hrd : ps.rd d with
          | none => rw [hrd] at hf; exact absurd hf (by simp)
          | some D =>
            rw [hrd] at hf
            simp only at hf
            cases hrw' : (ps.wr d ⟨D.link, D.id, W.char W.a1.toNat, D.b0, D.b1, D.b2, D.b3⟩).rd w
              with
            | none => rw [hrw'] at hf; exact absurd hf (by simp)
            | some W' =>
              rw [hrw'] at hf
              simp only at hf
              rw [handler_pair_dev_place E h S ps pre.packets w d hw hd h1 h2 W D W' hrw hrd hrw']
              refine sent_place E h f ts _ i T _ ?_ _ _ ?_ ?_ ?_ fuel d f' hf
              · exact ⟨pre.tasks, rfl, pre.tasktab, pre.tcb, pre.rd, pre.qpktcount,
                  pre.holdcount, pre.tracing, pre.tasklist⟩
              · rw [E.v1_handler i hi]; exact h1
              · rw [E.v2_handler i hi]
              · exact hid

theorem load_scratch_tasklist (s : State) : (load_scratch s).tasklist = s.tasklist := by
  unfold load_scratch
  simp only
  split
  · unfold trace
    simp only
    split <;> rfl
  · rfl

/-- A dispatch of `handlerfn`. -/
theorem handler_place (E : Place) (h : E.ok) (f : FState) (ts : FTasks) (i : Nat)
    (T : FTask) (S : State) (pre : E.Pre f.qpktcount f.holdcount ts f.pkts i T S)
    (hi : i = 8 ∨ i = 12) (h1 : S.v1 = E.v1 i T.v1) (h2 : S.v2 = E.v2 i T.v2)
    (hid : S.taskid = tId i) (fuel pkt : Nat) (f' : FState)
    (hf : fHandler fuel f ts i T pkt = some f') :
    ∃ r, handlerfn fuel S (E.ptr pkt) = some r ∧ E.Rep f' (store_scratch r) := by
  unfold fHandler at hf
  simp only [cond_eq_if, Nat.beq_eq, Nat.ble_eq] at hf
  unfold handlerfn handler_file
  rw [E.v1_of_dev i (by omega)] at h1
  rw [E.v2_of_handler i hi] at h2
  by_cases hp : pkt = 0
  · rw [if_pos hp] at hf
    have : ¬ (E.ptr pkt ≠ 0) := by rw [hp]; simp [Place.ptr]
    rw [if_neg this]
    exact pair_place E h f ts f.pkts i T S pre hi _ _ h1 h2 hid fuel f' hf
  · rw [if_neg hp] at hf
    rw [if_pos (fun e => hp ((E.ptr_eq_zero h pkt).1 e)), E.ptr_of_pos _ hp]
    by_cases hk : pkt ≤ 3
    · rw [if_pos hk] at hf
      cases hA : fAppend fuel f.pkts T.v1.toNat pkt with
      | none => rw [hA] at hf; exact absurd hf (by simp)
      | some r =>
        obtain ⟨ps, w⟩ := r
        rw [hA] at hf
        simp only at hf
        have hP : ∃ P, f.pkts.rd pkt = some P := by
          unfold fAppend at hA
          cases fuel with
          | zero => exact absurd hA (by simp)
          | succ k =>
            cases hr : f.pkts.rd pkt with
            | none => simp only [hr] at hA; exact absurd hA (by simp)
            | some P => exact ⟨P, rfl⟩
        obtain ⟨P, hr⟩ := hP
        have hkind : (S.packet (E.cell pkt)).p_kind = K_WORK := by
          rw [E.packet_read h S f.pkts pre.packets pkt P hr]
          simp [Place.packet, hk]
        rw [if_pos hkind, fAppend_v1 E h S f.pkts pre.packets fuel _ pkt ps w h1 hA]
        refine pair_place E h f ts ps i T _ ?_ hi w _ ?_ ?_ ?_ fuel f' hf
        · exact ⟨pre.tasks, rfl, pre.tasktab, pre.tcb, pre.rd, pre.qpktcount, pre.holdcount,
            pre.tracing, pre.tasklist⟩
        · rfl
        · exact h2
        · exact hid
    · rw [if_neg hk] at hf
      cases hA : fAppend fuel f.pkts T.v2.toNat pkt with
      | none => rw [hA] at hf; exact absurd hf (by simp)
      | some r =>
        obtain ⟨ps, d⟩ := r
        rw [hA] at hf
        simp only at hf
        have hP : ∃ P, f.pkts.rd pkt = some P := by
          unfold fAppend at hA
          cases fuel with
          | zero => exact absurd hA (by simp)
          | succ k =>
            cases hr : f.pkts.rd pkt with
            | none => simp only [hr] at hA; exact absurd hA (by simp)
            | some P => exact ⟨P, rfl⟩
        obtain ⟨P, hr⟩ := hP
        have hkind : ¬ (S.packet (E.cell pkt)).p_kind = K_WORK := by
          rw [E.packet_read h S f.pkts pre.packets pkt P hr]
          simp [Place.packet, hk, K_WORK, K_DEV]
        rw [if_neg hkind, fAppend_v2 E h S f.pkts pre.packets fuel _ pkt ps d h2 hA]
        refine pair_place E h f ts ps i T _ ?_ hi _ d ?_ ?_ ?_ fuel f' hf
        · exact ⟨pre.tasks, rfl, pre.tasktab, pre.tcb, pre.rd, pre.qpktcount, pre.holdcount,
            pre.tracing, pre.tasklist⟩
        · exact h1
        · rfl
        · exact hid

/-- The `S_RUN`/`S_RUNPKT` case of `schedule`. -/
theorem dispatch_place (E : Place) (h : E.ok) (f : FState) (ts : FTasks) (i : Nat)
    (T : FTask) (S : State) (pre : E.Pre f.qpktcount f.holdcount ts f.pkts i T S)
    (fuel pkt : Nat) (f' : FState) (hf : fCall fuel f ts i T pkt = some f') :
    ∃ S', dispatch fuel S (E.ptr pkt) = some S' ∧ E.Rep f' S' := by
  obtain ⟨lT, lP, lc, ltab, lq, lh, lid, l1, l2, ltr⟩ := load_scratch_frame S
  have ht : S.task S.tcb = E.task i T := by
    rw [pre.tcb]; exact E.task_read h S ts pre.tasks i T pre.rd
  have pre' : E.Pre f.qpktcount f.holdcount ts f.pkts i T (load_scratch S) :=
    ⟨lT.trans pre.tasks, lP.trans pre.packets, ltab.trans pre.tasktab, lc.trans pre.tcb, pre.rd,
      lq.trans pre.qpktcount, lh.trans pre.holdcount, ltr.trans pre.tracing,
      (load_scratch_tasklist S).trans pre.tasklist⟩
  have hv1 : (load_scratch S).v1 = E.v1 i T.v1 := by rw [l1, ht]; rfl
  have hv2 : (load_scratch S).v2 = E.v2 i T.v2 := by rw [l2, ht]; rfl
  have hid : (load_scratch S).taskid = tId i := by rw [lid, ht]; rfl
  have hfn : ((load_scratch S).task (load_scratch S).tcb).t_fn = tFn i := by
    rw [load_scratch_task, lc, ht]; rfl
  unfold dispatch
  simp only
  rw [hfn]
  unfold fCall at hf
  simp only [cond_eq_if, Nat.beq_eq, Nat.ble_eq] at hf
  rcases FTasks.task_rd_some ts i T pre.rd with e | e | e | e | e | e <;> subst e
  · simp only [Nat.one_le_ofNat, if_true] at hf
    have := idle_place E h f ts T _ pre' hv1 hv2 (E.ptr pkt) f' hf
    exact ⟨_, rfl, this⟩
  · simp only [le_refl, if_true, OfNat.ofNat_ne_one, if_false] at hf
    obtain ⟨r, hr, hR⟩ := work_place E h f ts T _ pre' hv1 hv2 hid fuel pkt f' hf
    refine ⟨store_scratch r, ?_, hR⟩
    show (match workfn fuel (load_scratch S) (E.ptr pkt) with
      | none => none
      | some r => some (store_scratch r)) = _
    rw [hr]
  · simp only [Nat.reduceLeDiff, if_false, if_true] at hf
    obtain ⟨r, hr, hR⟩ := handler_place E h f ts 8 T _ pre' (Or.inl rfl) hv1 hv2 hid fuel pkt f' hf
    refine ⟨store_scratch r, ?_, hR⟩
    show (match handlerfn fuel (load_scratch S) (E.ptr pkt) with
      | none => none
      | some r => some (store_scratch r)) = _
    rw [hr]
  · simp only [Nat.reduceLeDiff, if_false, le_refl, if_true] at hf
    obtain ⟨r, hr, hR⟩ := handler_place E h f ts 12 T _ pre' (Or.inr rfl) hv1 hv2 hid fuel pkt f' hf
    refine ⟨store_scratch r, ?_, hR⟩
    show (match handlerfn fuel (load_scratch S) (E.ptr pkt) with
      | none => none
      | some r => some (store_scratch r)) = _
    rw [hr]
  · simp only [Nat.reduceLeDiff, if_false] at hf
    obtain ⟨r, hr, hR⟩ := dev_place E h f ts 13 T _ pre' (by decide) hv1 hv2 hid fuel pkt f' hf
    refine ⟨store_scratch r, ?_, hR⟩
    show (match devfn fuel (load_scratch S) (E.ptr pkt) with
      | none => none
      | some r => some (store_scratch r)) = _
    rw [hr]
  · simp only [Nat.reduceLeDiff, if_false] at hf
    obtain ⟨r, hr, hR⟩ := dev_place E h f ts 14 T _ pre' (by decide) hv1 hv2 hid fuel pkt f' hf
    refine ⟨store_scratch r, ?_, hR⟩
    show (match devfn fuel (load_scratch S) (E.ptr pkt) with
      | none => none
      | some r => some (store_scratch r)) = _
    rw [hr]

theorem schedule_trace_succ (fuel : Nat) (s : State) :
    schedule_trace (fuel + 1) s
      = s :: (if s.tcb ≠ 0 then
          if (s.task s.tcb).t_state = S_WAITPKT then
            match dispatch fuel (dequeue s).1 (dequeue s).2 with
            | none => []
            | some s => schedule_trace fuel s
          else if (s.task s.tcb).t_state = S_RUN ∨ (s.task s.tcb).t_state = S_RUNPKT then
            match dispatch fuel s 0 with
            | none => []
            | some s => schedule_trace fuel s
          else if (s.task s.tcb).t_state = S_WAIT ∨ (s.task s.tcb).t_state = S_HOLD
              ∨ (s.task s.tcb).t_state = S_HOLDPKT ∨ (s.task s.tcb).t_state = S_HOLDWAIT
              ∨ (s.task s.tcb).t_state = S_HOLDWAITPKT then
            schedule_trace fuel { s with tcb := (s.task s.tcb).t_link }
          else []
        else []) := by
  rw [schedule_trace]
  all_goals rfl

/-- An iteration of the loop of `schedule` for a task that runs. -/
theorem schedule_run (fuel : Nat) (s s' : State) (hc : s.tcb ≠ 0)
    (hs : (s.task s.tcb).t_state = S_RUN ∨ (s.task s.tcb).t_state = S_RUNPKT)
    (hd : dispatch fuel s 0 = some s') :
    schedule (fuel + 1) s = schedule fuel s' ∧
      schedule_trace (fuel + 1) s = s :: schedule_trace fuel s' := by
  have hn : ¬ (s.task s.tcb).t_state = S_WAITPKT := by
    rcases hs with e | e <;> rw [e] <;> decide
  rw [schedule_succ, schedule_trace_succ, if_pos hc, if_pos hc, if_neg hn, if_neg hn, if_pos hs,
    if_pos hs, hd]
  exact ⟨rfl, rfl⟩

/-- An iteration of the loop of `schedule` for a task that takes a packet. -/
theorem schedule_take (fuel : Nat) (s s' : State) (hc : s.tcb ≠ 0)
    (hs : (s.task s.tcb).t_state = S_WAITPKT)
    (hd : dispatch fuel (dequeue s).1 (dequeue s).2 = some s') :
    schedule (fuel + 1) s = schedule fuel s' ∧
      schedule_trace (fuel + 1) s = s :: schedule_trace fuel s' := by
  rw [schedule_succ, schedule_trace_succ, if_pos hc, if_pos hc, if_pos hs, if_pos hs, hd]
  exact ⟨rfl, rfl⟩

/-- An iteration of the loop of `schedule` for a task that is passed by. -/
theorem schedule_pass (fuel : Nat) (s : State) (hc : s.tcb ≠ 0)
    (hs : parked (s.task s.tcb).t_state) :
    schedule (fuel + 1) s = schedule fuel { s with tcb := (s.task s.tcb).t_link } ∧
      schedule_trace (fuel + 1) s
        = s :: schedule_trace fuel { s with tcb := (s.task s.tcb).t_link } := by
  have hn : ¬ (s.task s.tcb).t_state = S_WAITPKT := by
    rcases hs with e | e | e | e | e <;> rw [e] <;> decide
  have hn' : ¬ ((s.task s.tcb).t_state = S_RUN ∨ (s.task s.tcb).t_state = S_RUNPKT) := by
    rcases hs with e | e | e | e | e <;> rw [e] <;> decide
  rw [schedule_succ, schedule_trace_succ, if_pos hc, if_pos hc, if_neg hn, if_neg hn,
    if_neg hn', if_neg hn']
  have hs' : (s.task s.tcb).t_state = S_WAIT ∨ (s.task s.tcb).t_state = S_HOLD
      ∨ (s.task s.tcb).t_state = S_HOLDPKT ∨ (s.task s.tcb).t_state = S_HOLDWAIT
      ∨ (s.task s.tcb).t_state = S_HOLDWAITPKT := hs
  rw [if_pos hs', if_pos hs']
  exact ⟨rfl, rfl⟩

theorem Place.rep_pre (E : Place) (f : FState) (S : State) (hR : E.Rep f S) (T : FTask)
    (hr : f.tasks.rd f.tcb = some T) :
    E.Pre f.qpktcount f.holdcount f.tasks f.pkts f.tcb T S := by
  obtain ⟨a, b, c, d, e, g, k, l⟩ := hR
  refine ⟨a, b, c, ?_, hr, e, g, k, l⟩
  rw [d, E.tptr_of_pos _ (FTasks.task_pos_of_rd _ _ T hr)]

/-- One iteration of the loop of `schedule`. -/
theorem step_place (E : Place) (h : E.ok) (f : FState) (S : State) (hR : E.Rep f S)
    (fuel : Nat) (f' : FState) (hf : fStep fuel f = some f') :
    ∃ S', E.Rep f' S' ∧ schedule (fuel + 1) S = schedule fuel S' ∧
      schedule_trace (fuel + 1) S = S :: schedule_trace fuel S' := by
  unfold fStep at hf
  cases hr : f.tasks.rd f.tcb with
  | none => rw [hr] at hf; exact absurd hf (by simp)
  | some T =>
    rw [hr] at hf
    simp only at hf
    have pre := E.rep_pre f S hR T hr
    have hc : S.tcb ≠ 0 := by rw [pre.tcb]; exact E.cell_ne_zero h _
    have ht : S.task S.tcb = E.task f.tcb T := by
      rw [pre.tcb]; exact E.task_read h S f.tasks pre.tasks _ T hr
    have hst : (S.task S.tcb).t_state = T.state := by rw [ht]; rfl
    have hrun : (T.state = 0 ∨ T.state = 1) → fCall fuel f f.tasks f.tcb T 0 = some f' →
        ∃ S', E.Rep f' S' ∧ schedule (fuel + 1) S = schedule fuel S' ∧
          schedule_trace (fuel + 1) S = S :: schedule_trace fuel S' := by
      intro hs hcall
      obtain ⟨S', hd, hR'⟩ := dispatch_place E h f f.tasks f.tcb T S pre fuel 0 f' hcall
      exact ⟨S', hR', schedule_run fuel S S' hc (by rw [hst]; exact hs) hd⟩
    have hpass : parked T.state →
        some (⟨f.tasks, f.pkts, tLink f.tcb, f.qpktcount, f.holdcount⟩ : FState) = some f' →
        ∃ S', E.Rep f' S' ∧ schedule (fuel + 1) S = schedule fuel S' ∧
          schedule_trace (fuel + 1) S = S :: schedule_trace fuel S' := by
      intro hs he
      refine ⟨{ S with tcb := (S.task S.tcb).t_link }, ?_,
        schedule_pass fuel S hc (by rw [hst]; exact hs)⟩
      rw [← Option.some.inj he]
      refine ⟨pre.tasks, pre.packets, pre.tasktab, ?_, pre.qpktcount, pre.holdcount,
        pre.tracing, pre.tasklist⟩
      show (S.task S.tcb).t_link = _
      rw [ht]
      rfl
    obtain ⟨wkq, st, v1, v2⟩ := T
    cases st with
    | negSucc n => exact absurd hf (by simp)
    | ofNat n =>
      rcases n with _ | _ | _ | _ | _ | _ | _ | _ | n
      · exact hrun (Or.inl rfl) hf
      · exact hrun (Or.inr rfl) hf
      · exact hpass (Or.inl rfl) hf
      · simp only at hf
        cases hrp : f.pkts.rd wkq with
        | none => rw [hrp] at hf; exact absurd hf (by simp)
        | some P =>
          rw [hrp] at hf
          simp only at hf
          have hw : wkq ≠ 0 := FPkts.pkt_pos_of_rd _ _ P hrp
          have hwq : (S.task S.tcb).t_wkq = E.cell wkq := by
            rw [ht]; exact E.ptr_of_pos _ hw
          have hpk : S.packet (E.cell wkq) = E.packet wkq P :=
            E.packet_read h S f.pkts pre.packets wkq P hrp
          have hdq : dequeue S
              = (S.setTask S.tcb
                  (E.task f.tcb ⟨P.link, bif Nat.beq P.link 0 then 0 else 1, v1, v2⟩),
                 E.ptr wkq) := by
            rw [dequeue_eq, hwq, hpk, ht, E.ptr_of_pos _ hw]
            congr 2
            simp only [Place.task, Place.packet, cond_eq_if, Nat.beq_eq, E.ptr_eq_zero h]
            by_cases hl : P.link = 0
            · simp [hl, Place.ptr, S_RUN]
            · simp [hl, S_RUNPKT]
          have pre' : E.Pre f.qpktcount f.holdcount
              (f.tasks.wr f.tcb ⟨P.link, bif Nat.beq P.link 0 then 0 else 1, v1, v2⟩) f.pkts f.tcb
              ⟨P.link, bif Nat.beq P.link 0 then 0 else 1, v1, v2⟩
              (S.setTask S.tcb
                  (E.task f.tcb ⟨P.link, bif Nat.beq P.link 0 then 0 else 1, v1, v2⟩)) := by
            refine ⟨?_, pre.packets, pre.tasktab, pre.tcb, ?_, pre.qpktcount, pre.holdcount,
              pre.tracing, pre.tasklist⟩
            · show S.tasks.write _ _ = _
              rw [pre.tasks, pre.tcb]
              exact E.write_tasks h f.tasks f.tcb _ _ hr
            · rw [FTasks.task_rd_wr f.tasks _ _ _ _ hr, if_pos rfl]
          obtain ⟨S', hd, hR'⟩ := dispatch_place E h f _ f.tcb _ _ pre' fuel wkq f' hf
          refine ⟨S', hR', schedule_take fuel S S' hc (by rw [hst]; rfl) ?_⟩
          rw [hdq]
          exact hd
      · exact hpass (Or.inr (Or.inl rfl)) hf
      · exact hpass (Or.inr (Or.inr (Or.inl rfl))) hf
      · exact hpass (Or.inr (Or.inr (Or.inr (Or.inl rfl)))) hf
      · exact hpass (Or.inr (Or.inr (Or.inr (Or.inr rfl)))) hf
      · exact Option.noConfusion (show none = some f' from hf)

/-! ## More fuel does not change a result -/

theorem fWalk_mono (ps : FPkts) :
    ∀ (k k' i q : Nat), k ≤ k' → fWalk k ps i = some q → fWalk k' ps i = some q := by
  intro k
  induction k with
  | zero => intro k' i q _ h; exact absurd h (by simp [fWalk])
  | succ k ih =>
    intro k' i q hk h
    obtain ⟨j, rfl⟩ : ∃ j, k' = j + 1 := ⟨k' - 1, by omega⟩
    unfold fWalk at h ⊢
    cases hr : ps.rd i with
    | none => rw [hr] at h; exact absurd h (by simp)
    | some P =>
      rw [hr] at h
      simp only [cond_eq_if] at h ⊢
      by_cases hl : Nat.beq P.link 0 = true
      · rw [if_pos hl] at h ⊢; exact h
      · rw [if_neg hl] at h ⊢; exact ih j _ q (by omega) h

theorem fAppend_mono (ps : FPkts) (k k' hd pkt : Nat) (r : FPkts × Nat) (hk : k ≤ k')
    (h : fAppend k ps hd pkt = some r) : fAppend k' ps hd pkt = some r := by
  cases k with
  | zero => exact absurd h (by simp [fAppend])
  | succ k =>
    obtain ⟨j, rfl⟩ : ∃ j, k' = j + 1 := ⟨k' - 1, by omega⟩
    unfold fAppend at h ⊢
    simp only at h ⊢
    cases hr : ps.rd pkt with
    | none => rw [hr] at h; exact absurd h (by simp)
    | some P =>
      rw [hr] at h
      simp only [cond_eq_if] at h ⊢
      by_cases hl : Nat.beq hd 0 = true
      · rw [if_pos hl] at h ⊢; exact h
      · rw [if_neg hl] at h ⊢
        cases hw : fWalk k (ps.wr pkt ⟨0, P.id, P.a1, P.b0, P.b1, P.b2, P.b3⟩) hd with
        | none => rw [hw] at h; exact absurd h (by simp)
        | some q =>
          rw [hw] at h
          rw [fWalk_mono _ k j hd q (by omega) hw]
          exact h

theorem fQpkt_mono (ts : FTasks) (ps : FPkts) (k k' cur pkt : Nat) (r : FTasks × FPkts × Nat)
    (hk : k ≤ k') (h : fQpkt k ts ps cur pkt = some r) : fQpkt k' ts ps cur pkt = some r := by
  unfold fQpkt at h ⊢
  cases hr : ps.rd pkt with
  | none => rw [hr] at h; exact absurd h (by simp)
  | some P =>
    rw [hr] at h
    simp only [cond_eq_if] at h ⊢
    by_cases h0 : Nat.beq (fFind P.id) 0 = true
    · rw [if_pos h0] at h; exact absurd h (by simp)
    rw [if_neg h0] at h ⊢
    by_cases hc : Nat.beq (fFind P.id) cur = true
    · rw [if_pos hc] at h; exact absurd h (by simp)
    rw [if_neg hc] at h ⊢
    cases hrt : ts.rd (fFind P.id) with
    | none => rw [hrt] at h; exact absurd h (by simp)
    | some T =>
      rw [hrt] at h
      simp only at h ⊢
      by_cases hw : Nat.beq T.wkq 0 = true
      · rw [if_pos hw] at h ⊢; exact h
      · rw [if_neg hw] at h ⊢
        cases k with
        | zero => exact absurd h (by simp)
        | succ k =>
          obtain ⟨j, rfl⟩ : ∃ j, k' = j + 1 := ⟨k' - 1, by omega⟩
          simp only at h ⊢
          cases hwk : fWalk k (ps.wr pkt ⟨0, tId cur, P.a1, P.b0, P.b1, P.b2, P.b3⟩) T.wkq with
          | none => rw [hwk] at h; exact absurd h (by simp)
          | some q =>
            rw [hwk] at h
            rw [fWalk_mono _ k j _ q (by omega) hwk]
            exact h

theorem fSent_mono (f : FState) (ts : FTasks) (ps : FPkts) (i : Nat) (T : FTask) (a b : Int)
    (k k' pkt : Nat) (g : FState) (hk : k ≤ k')
    (h : fSent f i T a b (fQpkt k ts ps i pkt) = some g) :
    fSent f i T a b (fQpkt k' ts ps i pkt) = some g := by
  cases hq : fQpkt k ts ps i pkt with
  | none => rw [hq] at h; exact absurd h (by simp [fSent])
  | some r => rw [hq] at h; rw [fQpkt_mono ts ps k k' i pkt r hk hq]; exact h

theorem fWork_mono (f : FState) (ts : FTasks) (T : FTask) (k k' pkt : Nat) (g : FState)
    (hk : k ≤ k') (h : fWork k f ts T pkt = some g) : fWork k' f ts T pkt = some g := by
  unfold fWork at h ⊢
  simp only [cond_eq_if] at h ⊢
  by_cases hp : Nat.beq pkt 0 = true
  · rw [if_pos hp] at h ⊢; exact h
  · rw [if_neg hp] at h ⊢
    cases hr : f.pkts.rd pkt with
    | none => rw [hr] at h; exact absurd h (by simp)
    | some P =>
      rw [hr] at h
      simp only at h ⊢
      exact fSent_mono f ts _ 4 T _ _ k k' pkt g hk h

theorem fPair_mono (f : FState) (ts : FTasks) (ps : FPkts) (i : Nat) (T : FTask) (w d : Nat)
    (k k' : Nat) (g : FState) (hk : k ≤ k') (h : fPair k f ts ps i T w d = some g) :
    fPair k' f ts ps i T w d = some g := by
  unfold fPair at h ⊢
  simp only [cond_eq_if] at h ⊢
  by_cases hw : Nat.beq w 0 = true
  · rw [if_pos hw] at h ⊢; exact h
  · rw [if_neg hw] at h ⊢
    cases hr : ps.rd w with
    | none => rw [hr] at h; exact absurd h (by simp)
    | some W =>
      rw [hr] at h
      simp only at h ⊢
      by_cases hc : W.a1 > 3
      · rw [if_pos hc] at h ⊢
        exact fSent_mono f ts ps i T _ _ k k' w g hk h
      · rw [if_neg hc] at h ⊢
        by_cases hd : Nat.beq d 0 = true
        · rw [if_pos hd] at h ⊢; exact h
        · rw [if_neg hd] at h ⊢
          cases hrd : ps.rd d with
          | none => rw [hrd] at h; exact absurd h (by simp)
          | some D =>
            rw [hrd] at h
            simp only at h ⊢
            cases hrw :
              (ps.wr d ⟨D.link, D.id, W.char W.a1.toNat, D.b0, D.b1, D.b2, D.b3⟩).rd w with
            | none => rw [hrw] at h; exact absurd h (by simp)
            | some W' =>
              rw [hrw] at h
              simp only at h ⊢
              exact fSent_mono f ts _ i T _ _ k k' d g hk h

theorem fHandler_mono (f : FState) (ts : FTasks) (i : Nat) (T : FTask) (k k' pkt : Nat)
    (g : FState) (hk : k ≤ k') (h : fHandler k f ts i T pkt = some g) :
    fHandler k' f ts i T pkt = some g := by
  unfold fHandler at h ⊢
  simp only [cond_eq_if] at h ⊢
  by_cases hp : Nat.beq pkt 0 = true
  · rw [if_pos hp] at h ⊢; exact fPair_mono f ts _ i T _ _ k k' g hk h
  · rw [if_neg hp] at h ⊢
    by_cases hl : Nat.ble pkt 3 = true
    · rw [if_pos hl] at h ⊢
      cases hA : fAppend k f.pkts T.v1.toNat pkt with
      | none => rw [hA] at h; exact absurd h (by simp)
      | some r =>
        rw [hA] at h
        rw [fAppend_mono _ k k' _ pkt r hk hA]
        exact fPair_mono f ts _ i T _ _ k k' g hk h
    · rw [if_neg hl] at h ⊢
      cases hA : fAppend k f.pkts T.v2.toNat pkt with
      | none => rw [hA] at h; exact absurd h (by simp)
      | some r =>
        rw [hA] at h
        rw [fAppend_mono _ k k' _ pkt r hk hA]
        exact fPair_mono f ts _ i T _ _ k k' g hk h

theorem fDev_mono (f : FState) (ts : FTasks) (i : Nat) (T : FTask) (k k' pkt : Nat)
    (g : FState) (hk : k ≤ k') (h : fDev k f ts i T pkt = some g) :
    fDev k' f ts i T pkt = some g := by
  unfold fDev at h ⊢
  simp only [cond_eq_if] at h ⊢
  by_cases hp : Nat.beq pkt 0 = true
  · rw [if_pos hp] at h ⊢
    by_cases hv : Nat.beq T.v1.toNat 0 = true
    · rw [if_pos hv] at h ⊢; exact h
    · rw [if_neg hv] at h ⊢
      exact fSent_mono f ts _ i T _ _ k k' _ g hk h
  · rw [if_neg hp] at h ⊢; exact h

theorem fCall_mono (f : FState) (ts : FTasks) (i : Nat) (T : FTask) (k k' pkt : Nat)
    (g : FState) (hk : k ≤ k') (h : fCall k f ts i T pkt = some g) :
    fCall k' f ts i T pkt = some g := by
  unfold fCall at h ⊢
  simp only [cond_eq_if] at h ⊢
  by_cases h4 : Nat.ble i 4 = true
  · rw [if_pos h4] at h ⊢
    by_cases h1 : Nat.beq i 1 = true
    · rw [if_pos h1] at h ⊢; exact h
    · rw [if_neg h1] at h ⊢; exact fWork_mono f ts T k k' pkt g hk h
  · rw [if_neg h4] at h ⊢
    by_cases h12 : Nat.ble i 12 = true
    · rw [if_pos h12] at h ⊢; exact fHandler_mono f ts i T k k' pkt g hk h
    · rw [if_neg h12] at h ⊢; exact fDev_mono f ts i T k k' pkt g hk h

theorem fStep_mono (f : FState) (k k' : Nat) (g : FState) (hk : k ≤ k')
    (h : fStep k f = some g) : fStep k' f = some g := by
  unfold fStep at h ⊢
  cases hr : f.tasks.rd f.tcb with
  | none => rw [hr] at h; exact absurd h (by simp)
  | some T =>
    rw [hr] at h
    simp only at h ⊢
    split at h
    · exact fCall_mono f _ _ T k k' 0 g hk h
    · exact fCall_mono f _ _ T k k' 0 g hk h
    · exact h
    · cases hrp : f.pkts.rd T.wkq with
      | none => rw [hrp] at h; exact absurd h (by simp)
      | some P =>
        rw [hrp] at h
        simp only at h ⊢
        exact fCall_mono f _ _ _ k k' _ g hk h
    · exact h
    · exact h
    · exact h
    · exact h
    · exact absurd h (by simp)

theorem fRunI_mono : ∀ (n k k' : Nat) (f g : FState), k ≤ k' →
    fRunI n k f = some g → fRunI n k' f = some g := by
  intro n
  induction n with
  | zero => intro k k' f g _ h; exact h
  | succ n ih =>
    intro k k' f g hk h
    unfold fRunI at h ⊢
    simp only [cond_eq_if] at h ⊢
    by_cases ho : fOk f = true
    · rw [if_pos ho] at h ⊢
      cases hs : fStep (k + n) f with
      | none => rw [hs] at h; exact absurd h (by simp)
      | some f1 =>
        rw [hs] at h
        rw [fStep_mono f (k + n) (k' + n) f1 (by omega) hs]
        exact ih k k' f1 g hk h
    · rw [if_neg ho] at h; exact absurd h (by simp)

/-- Two runs in a row. -/
theorem fRunI_append : ∀ (n m k : Nat) (f g e : FState),
    fRunI n k f = some g → fRunI m k g = some e → fRunI (n + m) k f = some e := by
  intro n
  induction n with
  | zero =>
    intro m k f g e h1 h2
    unfold fRunI at h1
    simp only [cond_eq_if] at h1
    by_cases ho : fOk f = true
    · rw [if_pos ho] at h1
      rw [← Option.some.inj h1] at h2
      rw [Nat.zero_add]
      exact h2
    · rw [if_neg ho] at h1; exact absurd h1 (by simp)
  | succ n ih =>
    intro m k f g e h1 h2
    rw [Nat.succ_add_eq_add_succ, Nat.add_succ]
    unfold fRunI at h1 ⊢
    simp only [cond_eq_if] at h1 ⊢
    by_cases ho : fOk f = true
    · rw [if_pos ho] at h1 ⊢
      cases hs : fStep (k + n) f with
      | none => rw [hs] at h1; exact absurd h1 (by simp)
      | some f1 =>
        rw [hs] at h1
        rw [fStep_mono f (k + n) (k + (n + m)) f1 (by omega) hs]
        exact ih m k f1 g e h1 h2
    · rw [if_neg ho] at h1; exact absurd h1 (by simp)

/-! ## The run -/

/-- The first `n` iterations of the loop of `schedule`: `Q` is a property of the
states that the check `fOk` of the flat states ensures; in the states before the last
one the current task is one of the six tasks of the run. -/
theorem run_place (E : Place) (h : E.ok) (Q : State → Prop)
    (hQ : ∀ f S, E.Rep f S → fOk f = true → Q S) :
    ∀ (n fuel : Nat) (f : FState) (S : State) (f' : FState), E.Rep f S →
      fRunI n fuel f = some f' →
      ∃ S' l, E.Rep f' S' ∧ Q S' ∧ schedule (fuel + n) S = schedule fuel S' ∧
        schedule_trace (fuel + n) S = l ++ schedule_trace fuel S' ∧
        ∀ s ∈ l, Q s ∧ E.p ≤ s.tcb := by
  intro n
  induction n with
  | zero =>
    intro fuel f S f' hR hf
    unfold fRunI at hf
    simp only [cond_eq_if] at hf
    by_cases ho : fOk f = true
    · rw [if_pos ho] at hf
      rw [← Option.some.inj hf]
      exact ⟨S, [], hR, hQ f S hR ho, rfl, rfl, fun s hs => absurd hs (List.not_mem_nil s)⟩
    · rw [if_neg ho] at hf; exact absurd hf (by simp)
  | succ n ih =>
    intro fuel f S f' hR hf
    unfold fRunI at hf
    simp only [cond_eq_if] at hf
    by_cases ho : fOk f = true
    · rw [if_pos ho] at hf
      cases hs : fStep (fuel + n) f with
      | none => rw [hs] at hf; exact absurd hf (by simp)
      | some f1 =>
        rw [hs] at hf
        simp only at hf
        obtain ⟨S1, hR1, hsch, htr⟩ := step_place E h f S hR (fuel + n) f1 hs
        obtain ⟨S', l, hR', hQ', hsch', htr', hl⟩ := ih fuel f1 S1 f' hR1 hf
        refine ⟨S', S :: l, hR', hQ', ?_, ?_, ?_⟩
        · rw [← Nat.add_assoc, hsch, hsch']
        · rw [← Nat.add_assoc, htr, htr']
          rfl
        · intro s hmem
          rcases List.mem_cons.1 hmem with e | e
          · rw [e]
            refine ⟨hQ f S hR ho, ?_⟩
            have hpos : f.tcb ≠ 0 := by
              intro e0
              have hr0 : f.tasks.rd 0 = none := by rw [FTasks.task_rd_eq]; rfl
              unfold fStep at hs
              rw [e0, hr0] at hs
              exact absurd hs (by simp)
            rw [hR.2.2.2.1, E.tptr_of_pos _ hpos]
            exact Nat.le_add_right _ _
          · exact hl s e
    · rw [if_neg ho] at hf; exact absurd hf (by simp)

theorem schedule_trace_of_null (k : Nat) (s : State) (h : s.tcb = 0) :
    schedule_trace (k + 1) s = [s] := by
  rw [schedule_trace_succ]
  simp [h]

theorem fParked_parked (st : Int) (h : fParked st = true) : parked st := by
  unfold fParked at h
  unfold parked
  split at h
  · exact Or.inl rfl
  · exact Or.inr (Or.inl rfl)
  · exact Or.inr (Or.inr (Or.inl rfl))
  · exact Or.inr (Or.inr (Or.inr (Or.inl rfl)))
  · exact Or.inr (Or.inr (Or.inr (Or.inr rfl)))
  · exact absurd h (by simp)

theorem fPassed_parked (cur j : Nat) (T : FTask) (h : fPassed cur j T = true)
    (hj : cur = 0 ∨ cur < j) : parked T.state := by
  unfold fPassed at h
  simp only [cond_eq_if, Nat.beq_eq, Nat.blt_eq] at h
  by_cases h0 : cur = 0
  · rw [if_pos h0] at h; exact fParked_parked _ h
  · rw [if_neg h0] at h
    have : cur < j := by rcases hj with e | e; exact absurd e h0; exact e
    rw [if_pos this] at h
    exact fParked_parked _ h

theorem fOk_passed (f : FState) (h : fOk f = true) (j : Nat) (T : FTask)
    (hr : f.tasks.rd j = some T) : fPassed f.tcb j T = true := by
  unfold fOk at h
  simp only [Bool.and_eq_true] at h
  obtain ⟨_, h14, h13, h12, h8, h4, h1⟩ := h
  rw [FTasks.task_rd_eq] at hr
  rcases FTasks.task_rd_some f.tasks j T (by rw [FTasks.task_rd_eq]; exact hr) with e | e | e | e | e | e <;>
    subst e <;> simp only [if_true, OfNat.ofNat_ne_one, Nat.reduceEqDiff, if_false,
      Option.some.injEq] at hr <;> subst hr <;> assumption

theorem fOk_tcb (f : FState) (h : fOk f = true) :
    f.tcb = 0 ∨ f.tcb = 1 ∨ f.tcb = 4 ∨ f.tcb = 8 ∨ f.tcb = 12 ∨ f.tcb = 13 ∨ f.tcb = 14 := by
  unfold fOk at h
  simp only [Bool.and_eq_true, cond_eq_if, Nat.beq_eq] at h
  by_cases h0 : f.tcb = 0
  · exact Or.inl h0
  · have h1 := h.1
    rw [if_neg h0] at h1
    cases hr : f.tasks.rd f.tcb with
    | none => rw [hr] at h1; exact absurd h1 (by simp)
    | some T => exact Or.inr (FTasks.task_rd_some _ _ T hr)

theorem State.before_zero (s : State) (n : Nat) : s.before n 0 = [] := by
  cases n with
  | zero => rfl
  | succ n => simp [State.before]

/-- One step of the walk along the task list. -/
theorem Place.before_step (E : Place) (h : E.ok) (hL : E.L = 0) (f : FState) (S : State)
    (hR : E.Rep f S) (n j : Nat) (T : FTask) (hr : f.tasks.rd j = some T) :
    S.before (n + 1) (E.cell j)
      = if f.tcb = j then [] else E.cell j :: S.before n (E.tptr (tLink j)) := by
  have hj : j ≠ 0 := FTasks.task_pos_of_rd _ _ T hr
  have hc : (E.cell j = S.tcb) ↔ f.tcb = j := by
    rw [hR.2.2.2.1]
    by_cases h0 : f.tcb = 0
    · rw [h0]
      simp only [Place.tptr, if_true, hL]
      constructor
      · intro e; exact absurd e (E.cell_ne_zero h j)
      · intro e; exact absurd e.symm hj
    · rw [E.tptr_of_pos _ h0, E.cell_inj j f.tcb (by omega) (by omega)]
      exact eq_comm
  rw [State.before]
  have ht : S.task (E.cell j) = E.task j T := E.task_read h S f.tasks hR.1 j T hr
  rw [ht]
  by_cases e : f.tcb = j
  · rw [if_pos (Or.inr (hc.2 e)), if_pos e]
  · rw [if_neg, if_neg e]
    · rfl
    · intro hh
      rcases hh with hh | hh
      · exact E.cell_ne_zero h j hh
      · exact e (hc.1 hh)

/-- The check `fOk` ensures the order of dispatch by priority. -/
theorem ok_place (E : Place) (h : E.ok) (hL : E.L = 0) (f : FState) (S : State)
    (hR : E.Rep f S) (ho : fOk f = true) : S.PriorityOrdered 6 := by
  have hp : ∀ j T, f.tasks.rd j = some T → (f.tcb = 0 ∨ f.tcb < j) →
      parked (S.task (E.cell j)).t_state := by
    intro j T hr hj
    rw [E.task_read h S f.tasks hR.1 j T hr]
    exact fPassed_parked _ _ _ (fOk_passed f ho j T hr) hj
  have r14 : f.tasks.rd 14 = some f.tasks.t14 := by rw [FTasks.task_rd_eq]; rfl
  have r13 : f.tasks.rd 13 = some f.tasks.t13 := by rw [FTasks.task_rd_eq]; rfl
  have r12 : f.tasks.rd 12 = some f.tasks.t12 := by rw [FTasks.task_rd_eq]; rfl
  have r8 : f.tasks.rd 8 = some f.tasks.t8 := by rw [FTasks.task_rd_eq]; rfl
  have r4 : f.tasks.rd 4 = some f.tasks.t4 := by rw [FTasks.task_rd_eq]; rfl
  have r1 : f.tasks.rd 1 = some f.tasks.t1 := by rw [FTasks.task_rd_eq]; rfl
  have e13 : E.tptr (tLink 14) = E.cell 13 := rfl
  have e12 : E.tptr (tLink 13) = E.cell 12 := rfl
  have e8 : E.tptr (tLink 12) = E.cell 8 := rfl
  have e4 : E.tptr (tLink 8) = E.cell 4 := rfl
  have e1 : E.tptr (tLink 4) = E.cell 1 := rfl
  have e0 : E.tptr (tLink 1) = 0 := hL
  intro t ht
  rw [hR.2.2.2.2.2.2.2, E.before_step h hL f S hR 5 14 _ r14, e13,
    E.before_step h hL f S hR 4 13 _ r13, e12, E.before_step h hL f S hR 3 12 _ r12, e8,
    E.before_step h hL f S hR 2 8 _ r8, e4, E.before_step h hL f S hR 1 4 _ r4, e1,
    E.before_step h hL f S hR 0 1 _ r1, e0, State.before_zero] at ht
  have hc := fOk_tcb f ho
  by_cases c14 : f.tcb = 14
  · rw [if_pos c14] at ht; exact absurd ht (List.not_mem_nil t)
  rw [if_neg c14] at ht
  rcases List.mem_cons.1 ht with e | ht
  · rw [e]; exact hp 14 _ r14 (by omega)
  by_cases c13 : f.tcb = 13
  · rw [if_pos c13] at ht; exact absurd ht (List.not_mem_nil t)
  rw [if_neg c13] at ht
  rcases List.mem_cons.1 ht with e | ht
  · rw [e]; exact hp 13 _ r13 (by omega)
  by_cases c12 : f.tcb = 12
  · rw [if_pos c12] at ht; exact absurd ht (List.not_mem_nil t)
  rw [if_neg c12] at ht
  rcases List.mem_cons.1 ht with e | ht
  · rw [e]; exact hp 12 _ r12 (by omega)
  by_cases c8 : f.tcb = 8
  · rw [if_pos c8] at ht; exact absurd ht (List.not_mem_nil t)
  rw [if_neg c8] at ht
  rcases List.mem_cons.1 ht with e | ht
  · rw [e]; exact hp 8 _ r8 (by omega)
  by_cases c4 : f.tcb = 4
  · rw [if_pos c4] at ht; exact absurd ht (List.not_mem_nil t)
  rw [if_neg c4] at ht
  rcases List.mem_cons.1 ht with e | ht
  · rw [e]; exact hp 4 _ r4 (by omega)
  by_cases c1 : f.tcb = 1
  · rw [if_pos c1] at ht; exact absurd ht (List.not_mem_nil t)
  rw [if_neg c1] at ht
  rcases List.mem_cons.1 ht with e | ht
  · rw [e]; exact hp 1 _ r1 (by omega)
  exact absurd ht (List.not_mem_nil t)

/-! ## The setup of `bench` -/

theorem Mem.Below.mono {α : Type} {m : Mem α} {b b' : Nat} (h : m.Below b) (hb : b ≤ b') :
    m.Below b' := fun kv hkv => Nat.lt_of_lt_of_le (h kv hkv) hb

theorem Mem.Below.snoc_below {α : Type} {m : List (Nat × α)} {b b' a : Nat} (v : α)
    (h : Mem.Below (Mem.ofList m) b) (hb : b ≤ b') (ha : a < b') :
    Mem.Below (Mem.ofList (m ++ [(a, v)])) b' := by
  intro kv hkv
  rcases List.mem_append.1 hkv with e | e
  · exact Nat.lt_of_lt_of_le (h kv e) hb
  · rw [List.mem_singleton.1 e]; exact ha

theorem Mem.read_fresh {α : Type} [Inhabited α] (m : List (Nat × α)) (a : Nat)
    (h : ∀ kv ∈ m, kv.1 ≠ a) : (Mem.ofList m).read a = default := by
  induction m with
  | nil => rfl
  | cons kv r ih =>
    obtain ⟨k, v⟩ := kv
    show (if k = a then v else Mem.read r a) = default
    rw [if_neg (h (k, v) (List.mem_cons_self _ _))]
    exact ih (fun kv hkv => h kv (List.mem_cons_of_mem _ hkv))

theorem Mem.write_fresh {α : Type} (m : List (Nat × α)) (a : Nat) (v : α)
    (h : ∀ kv ∈ m, kv.1 ≠ a) : (Mem.ofList m).write a v = Mem.ofList (m ++ [(a, v)]) := by
  induction m with
  | nil => rfl
  | cons kv r ih =>
    obtain ⟨k, w⟩ := kv
    show (if k = a then (a, v) :: r else (k, w) :: Mem.write r a v) = _
    rw [if_neg (h (k, w) (List.mem_cons_self _ _))]
    exact congrArg _ (ih (fun kv hkv => h kv (List.mem_cons_of_mem _ hkv)))

theorem Mem.Below.fresh {α : Type} {m : List (Nat × α)} {b : Nat}
    (h : Mem.Below (Mem.ofList m) b) : ∀ kv ∈ m, kv.1 ≠ b :=
  fun kv hkv => Nat.ne_of_lt (h kv hkv)

/-- What `createtask` does when the cell at the head of the free list is above every
task in memory. -/
theorem createtask_fresh (P : Pool) (S : State) (id pri : Int) (wkq : Nat) (st : Int) (fn : Fn)
    (v1 v2 : Int) (hc : P.freelist ≠ 0) (hb : S.tasks.Below P.freelist) :
    createtask (P, S) id pri wkq st fn v1 v2
      = ({ P with freelist := P.cells.read P.freelist },
         { S with
           tasktab := S.tasktab.set id.toNat P.freelist,
           tasks := Mem.ofList (S.tasks.toList ++
             [(P.freelist, ⟨S.tasklist, id, pri, wkq, st, fn, v1, v2⟩)]),
           tasklist := P.freelist }) := by
  unfold createtask my_malloc
  simp only [if_neg hc, State.setTask]
  have := Mem.write_fresh S.tasks.toList P.freelist
    ⟨S.tasklist, id, pri, wkq, st, fn, v1, v2⟩ (Mem.Below.fresh hb)
  exact congrArg (fun m => (({ P with freelist := P.cells.read P.freelist } : Pool),
    ({ S with tasktab := S.tasktab.set id.toNat P.freelist, tasks := m,
              tasklist := P.freelist } : State))) this

/-- What `pkt` does when the cell at the head of the free list is above every packet
in memory. -/
theorem pkt_fresh (P : Pool) (S : State) (link : Nat) (id kind : Int) (hc : P.freelist ≠ 0)
    (hb : S.packets.Below P.freelist) :
    pkt (P, S) link id kind
      = (({ P with freelist := P.cells.read P.freelist },
          { S with
            packets := Mem.ofList (S.packets.toList ++
              [(P.freelist, ⟨link, id, kind, 0, [0, 0, 0, 0]⟩)]) }), P.freelist) := by
  have hr : S.packets.read P.freelist = default :=
    Mem.read_fresh S.packets.toList P.freelist (Mem.Below.fresh hb)
  have hw := Mem.write_fresh S.packets.toList P.freelist
    ⟨link, id, kind, 0, [0, 0, 0, 0]⟩ (Mem.Below.fresh hb)
  unfold pkt my_malloc
  have hrange : List.range (BUFSIZE + 1) = [0, 1, 2, 3] := by decide
  simp only [if_neg hc, hrange, List.foldl]
  obtain ⟨tasks, packets, tasktab, tasklist, tcb, taskid, v1, v2, qc', hc', tr, lay⟩ := S
  simp only [State.packet, State.setPacket, Mem.read_write_same, Mem.write_write_same] at *
  rw [hr, ← hw]
  rfl

theorem createtask_step (cells : Mem Nat) (pool c c' : Nat) (hc0 : c ≠ 0)
    (hrd : cells.read c = c') (T : List (Nat × Task)) (hb : (Mem.ofList T).Below c)
    (packets : Mem Packet) (tab : List Nat) (tl tcb : Nat) (tid sv1 sv2 qc hc tr lay : Int)
    (id pri : Int) (wkq : Nat) (st : Int) (fn : Fn) (v1 v2 : Int) :
    createtask (⟨cells, pool, c⟩,
        ⟨Mem.ofList T, packets, tab, tl, tcb, tid, sv1, sv2, qc, hc, tr, lay⟩)
        id pri wkq st fn v1 v2
      = (⟨cells, pool, c'⟩,
         ⟨Mem.ofList (T ++ [(c, ⟨tl, id, pri, wkq, st, fn, v1, v2⟩)]), packets,
           tab.set id.toNat c, c, tcb, tid, sv1, sv2, qc, hc, tr, lay⟩) := by
  rw [createtask_fresh _ _ _ _ _ _ _ _ _ hc0 hb]
  subst hrd
  rfl

theorem pkt_step (cells : Mem Nat) (pool c c' : Nat) (hc0 : c ≠ 0)
    (hrd : cells.read c = c') (L : List (Nat × Packet)) (hb : (Mem.ofList L).Below c)
    (tasks : Mem Task) (tab : List Nat) (tl tcb : Nat) (tid sv1 sv2 qc hc tr lay : Int)
    (link : Nat) (id kind : Int) :
    pkt (⟨cells, pool, c⟩,
        ⟨tasks, Mem.ofList L, tab, tl, tcb, tid, sv1, sv2, qc, hc, tr, lay⟩) link id kind
      = ((⟨cells, pool, c'⟩,
          ⟨tasks, Mem.ofList (L ++ [(c, ⟨link, id, kind, 0, [0, 0, 0, 0]⟩)]), tab, tl, tcb,
            tid, sv1, sv2, qc, hc, tr, lay⟩), c) := by
  rw [pkt_fresh _ _ _ _ _ hc0 hb]
  subst hrd
  rfl

/-- The memory that the part of `bench` before the call of `schedule` leaves, when the
free list starts with fourteen consecutive cells from `p` on that lie above every
task and packet in memory. -/
theorem bench_setup_eq (cells : Mem Nat) (pool p : Nat) (hp : 0 < p)
    (hcells : ∀ k, k < 14 → cells.read (p + 64 * k) = p + 64 * (k + 1))
    (T0 : List (Nat × Task)) (L0 : List (Nat × Packet)) (hT : (Mem.ofList T0).Below p)
    (hP : (Mem.ofList L0).Below p)
    (a1 a2 a3 a4 a5 a6 tasklist tcb : Nat) (taskid v1 v2 qc hc tr lay : Int) :
    bench_setup (⟨cells, pool, p + 64 * 0⟩,
        ⟨Mem.ofList T0, Mem.ofList L0, [10, a1, a2, a3, a4, a5, a6, 0, 0, 0, 0], tasklist, tcb, taskid, v1, v2,
          qc, hc, tr, lay⟩)
      = (⟨cells, pool, p + 64 * 14⟩,
         ⟨Mem.ofList (T0 ++ [(p + 64 * 0, ⟨tasklist, I_IDLE, 0, 0, S_RUN, Fn.idlefn, 1, Count⟩)] ++ [(p + 64 * 3, ⟨p + 64 * 0, I_WORK, 1000, (p + 64 * 2), S_WAITPKT, Fn.workfn, I_HANDLERA, 0⟩)] ++ [(p + 64 * 7, ⟨p + 64 * 3, I_HANDLERA, 2000, (p + 64 * 6), S_WAITPKT, Fn.handlerfn, 0, 0⟩)] ++ [(p + 64 * 11, ⟨p + 64 * 7, I_HANDLERB, 3000, (p + 64 * 10), S_WAITPKT, Fn.handlerfn, 0, 0⟩)] ++ [(p + 64 * 12, ⟨p + 64 * 11, I_DEVA, 4000, 0, S_WAIT, Fn.devfn, 0, 0⟩)] ++ [(p + 64 * 13, ⟨p + 64 * 12, I_DEVB, 5000, 0, S_WAIT, Fn.devfn, 0, 0⟩)]), Mem.ofList (L0 ++ [(p + 64 * 1, ⟨0, 0, K_WORK, 0, [0, 0, 0, 0]⟩)] ++ [(p + 64 * 2, ⟨(p + 64 * 1), 0, K_WORK, 0, [0, 0, 0, 0]⟩)] ++ [(p + 64 * 4, ⟨0, I_DEVA, K_DEV, 0, [0, 0, 0, 0]⟩)] ++ [(p + 64 * 5, ⟨(p + 64 * 4), I_DEVA, K_DEV, 0, [0, 0, 0, 0]⟩)] ++ [(p + 64 * 6, ⟨(p + 64 * 5), I_DEVA, K_DEV, 0, [0, 0, 0, 0]⟩)] ++ [(p + 64 * 8, ⟨0, I_DEVB, K_DEV, 0, [0, 0, 0, 0]⟩)] ++ [(p + 64 * 9, ⟨(p + 64 * 8), I_DEVB, K_DEV, 0, [0, 0, 0, 0]⟩)] ++ [(p + 64 * 10, ⟨(p + 64 * 9), I_DEVB, K_DEV, 0, [0, 0, 0, 0]⟩)]), [10, p + 64 * 0, p + 64 * 3, p + 64 * 7, p + 64 * 11, p + 64 * 12, p + 64 * 13, 0, 0, 0, 0], p + 64 * 13, p + 64 * 13, taskid, v1, v2, 0, 0, 0, 0⟩) := by
  have bT0 : (Mem.ofList (T0)).Below (p + 64 * 0) := fun kv hkv => hT kv hkv
  have bP0 : (Mem.ofList (L0)).Below (p + 64 * 0) := fun kv hkv => hP kv hkv
  have e1 : createtask (⟨cells, pool, p + 64 * 0⟩, ⟨Mem.ofList (T0), Mem.ofList (L0), [10, a1, a2, a3, a4, a5, a6, 0, 0, 0, 0], tasklist, tcb, taskid, v1, v2, qc, hc, tr, lay⟩) I_IDLE 0 0 S_RUN Fn.idlefn 1 Count
      = (⟨cells, pool, p + 64 * 1⟩, ⟨Mem.ofList (T0 ++ [(p + 64 * 0, ⟨tasklist, I_IDLE, 0, 0, S_RUN, Fn.idlefn, 1, Count⟩)]), Mem.ofList (L0), [10, p + 64 * 0, a2, a3, a4, a5, a6, 0, 0, 0, 0], p + 64 * 0, tcb, taskid, v1, v2, qc, hc, tr, lay⟩) :=
    createtask_step cells pool _ _ (by omega) (hcells 0 (by decide)) _ bT0 _ _ _ _ _ _ _ _ _ _ _ _ _ _ _ _ _ _
  have bT1 : (Mem.ofList (T0 ++ [(p + 64 * 0, ⟨tasklist, I_IDLE, 0, 0, S_RUN, Fn.idlefn, 1, Count⟩)])).Below (p + 64 * 1) := Mem.Below.snoc_below _ bT0 (by omega) (by omega)
  have bP1 : (Mem.ofList (L0)).Below (p + 64 * 1) := Mem.Below.mono bP0 (by omega)
  have e2 : pkt (⟨cells, pool, p + 64 * 1⟩, ⟨Mem.ofList (T0 ++ [(p + 64 * 0, ⟨tasklist, I_IDLE, 0, 0, S_RUN, Fn.idlefn, 1, Count⟩)]), Mem.ofList (L0), [10, p + 64 * 0, a2, a3, a4, a5, a6, 0, 0, 0, 0], p + 64 * 0, tcb, taskid, v1, v2, qc, hc, tr, lay⟩) 0 0 K_WORK
      = ((⟨cells, pool, p + 64 * 2⟩, ⟨Mem.ofList (T0 ++ [(p + 64 * 0, ⟨tasklist, I_IDLE, 0, 0, S_RUN, Fn.idlefn, 1, Count⟩)]), Mem.ofList (L0 ++ [(p + 64 * 1, ⟨0, 0, K_WORK, 0, [0, 0, 0, 0]⟩)]), [10, p + 64 * 0, a2, a3, a4, a5, a6, 0, 0, 0, 0], p + 64 * 0, tcb, taskid, v1, v2, qc, hc, tr, lay⟩), p + 64 * 1) :=
    pkt_step cells pool _ _ (by omega) (hcells 1 (by decide)) _ bP1 _ _ _ _ _ _ _ _ _ _ _ _ _ _
  have bP2 : (Mem.ofList (L0 ++ [(p + 64 * 1, ⟨0, 0, K_WORK, 0, [0, 0, 0, 0]⟩)])).Below (p + 64 * 2) := Mem.Below.snoc_below _ bP1 (by omega) (by omega)
  have bT2 : (Mem.ofList (T0 ++ [(p + 64 * 0, ⟨tasklist, I_IDLE, 0, 0, S_RUN, Fn.idlefn, 1, Count⟩)])).Below (p + 64 * 2) := Mem.Below.mono bT1 (by omega)
  have e3 : pkt (⟨cells, pool, p + 64 * 2⟩, ⟨Mem.ofList (T0 ++ [(p + 64 * 0, ⟨tasklist, I_IDLE, 0, 0, S_RUN, Fn.idlefn, 1, Count⟩)]), Mem.ofList (L0 ++ [(p + 64 * 1, ⟨0, 0, K_WORK, 0, [0, 0, 0, 0]⟩)]), [10, p + 64 * 0, a2, a3, a4, a5, a6, 0, 0, 0, 0], p + 64 * 0, tcb, taskid, v1, v2, qc, hc, tr, lay⟩) (p + 64 * 1) 0 K_WORK
      = ((⟨cells, pool, p + 64 * 3⟩, ⟨Mem.ofList (T0 ++ [(p + 64 * 0, ⟨tasklist, I_IDLE, 0, 0, S_RUN, Fn.idlefn, 1, Count⟩)]), Mem.ofList (L0 ++ [(p + 64 * 1, ⟨0, 0, K_WORK, 0, [0, 0, 0, 0]⟩)] ++ [(p + 64 * 2, ⟨(p + 64 * 1), 0, K_WORK, 0, [0, 0, 0, 0]⟩)]), [10, p + 64 * 0, a2, a3, a4, a5, a6, 0, 0, 0, 0], p + 64 * 0, tcb, taskid, v1, v2, qc, hc, tr, lay⟩), p + 64 * 2) :=
    pkt_step cells pool _ _ (by omega) (hcells 2 (by decide)) _ bP2 _ _ _ _ _ _ _ _ _ _ _ _ _ _
  have bP3 : (Mem.ofList (L0 ++ [(p + 64 * 1, ⟨0, 0, K_WORK, 0, [0, 0, 0, 0]⟩)] ++ [(p + 64 * 2, ⟨(p + 64 * 1), 0, K_WORK, 0, [0, 0, 0, 0]⟩)])).Below (p + 64 * 3) := Mem.Below.snoc_below _ bP2 (by omega) (by omega)
  have bT3 : (Mem.ofList (T0 ++ [(p + 64 * 0, ⟨tasklist, I_IDLE, 0, 0, S_RUN, Fn.idlefn, 1, Count⟩)])).Below (p + 64 * 3) := Mem.Below.mono bT2 (by omega)
  have e4 : createtask (⟨cells, pool, p + 64 * 3⟩, ⟨Mem.ofList (T0 ++ [(p + 64 * 0, ⟨tasklist, I_IDLE, 0, 0, S_RUN, Fn.idlefn, 1, Count⟩)]), Mem.ofList (L0 ++ [(p + 64 * 1, ⟨0, 0, K_WORK, 0, [0, 0, 0, 0]⟩)] ++ [(p + 64 * 2, ⟨(p + 64 * 1), 0, K_WORK, 0, [0, 0, 0, 0]⟩)]), [10, p + 64 * 0, a2, a3, a4, a5, a6, 0, 0, 0, 0], p + 64 * 0, tcb, taskid, v1, v2, qc, hc, tr, lay⟩) I_WORK 1000 (p + 64 * 2) S_WAITPKT Fn.workfn I_HANDLERA 0
      = (⟨cells, pool, p + 64 * 4⟩, ⟨Mem.ofList (T0 ++ [(p + 64 * 0, ⟨tasklist, I_IDLE, 0, 0, S_RUN, Fn.idlefn, 1, Count⟩)] ++ [(p + 64 * 3, ⟨p + 64 * 0, I_WORK, 1000, (p + 64 * 2), S_WAITPKT, Fn.workfn, I_HANDLERA, 0⟩)]), Mem.ofList (L0 ++ [(p + 64 * 1, ⟨0, 0, K_WORK, 0, [0, 0, 0, 0]⟩)] ++ [(p + 64 * 2, ⟨(p + 64 * 1), 0, K_WORK, 0, [0, 0, 0, 0]⟩)]), [10, p + 64 * 0, p + 64 * 3, a3, a4, a5, a6, 0, 0, 0, 0], p + 64 * 3, tcb, taskid, v1, v2, qc, hc, tr, lay⟩) :=
    createtask_step cells pool _ _ (by omega) (hcells 3 (by decide)) _ bT3 _ _ _ _ _ _ _ _ _ _ _ _ _ _ _ _ _ _
  have bT4 : (Mem.ofList (T0 ++ [(p + 64 * 0, ⟨tasklist, I_IDLE, 0, 0, S_RUN, Fn.idlefn, 1, Count⟩)] ++ [(p + 64 * 3, ⟨p + 64 * 0, I_WORK, 1000, (p + 64 * 2), S_WAITPKT, Fn.workfn, I_HANDLERA, 0⟩)])).Below (p + 64 * 4) := Mem.Below.snoc_below _ bT3 (by omega) (by omega)
  have bP4 : (Mem.ofList (L0 ++ [(p + 64 * 1, ⟨0, 0, K_WORK, 0, [0, 0, 0, 0]⟩)] ++ [(p + 64 * 2, ⟨(p + 64 * 1), 0, K_WORK, 0, [0, 0, 0, 0]⟩)])).Below (p + 64 * 4) := Mem.Below.mono bP3 (by omega)
  have e5 : pkt (⟨cells, pool, p + 64 * 4⟩, ⟨Mem.ofList (T0 ++ [(p + 64 * 0, ⟨tasklist, I_IDLE, 0, 0, S_RUN, Fn.idlefn, 1, Count⟩)] ++ [(p + 64 * 3, ⟨p + 64 * 0, I_WORK, 1000, (p + 64 * 2), S_WAITPKT, Fn.workfn, I_HANDLERA, 0⟩)]), Mem.ofList (L0 ++ [(p + 64 * 1, ⟨0, 0, K_WORK, 0, [0, 0, 0, 0]⟩)] ++ [(p + 64 * 2, ⟨(p + 64 * 1), 0, K_WORK, 0, [0, 0, 0, 0]⟩)]), [10, p + 64 * 0, p + 64 * 3, a3, a4, a5, a6, 0, 0, 0, 0], p + 64 * 3, tcb, taskid, v1, v2, qc, hc, tr, lay⟩) 0 I_DEVA K_DEV
      = ((⟨cells, pool, p + 64 * 5⟩, ⟨Mem.ofList (T0 ++ [(p + 64 * 0, ⟨tasklist, I_IDLE, 0, 0, S_RUN, Fn.idlefn, 1, Count⟩)] ++ [(p + 64 * 3, ⟨p + 64 * 0, I_WORK, 1000, (p + 64 * 2), S_WAITPKT, Fn.workfn, I_HANDLERA, 0⟩)]), Mem.ofList (L0 ++ [(p + 64 * 1, ⟨0, 0, K_WORK, 0, [0, 0, 0, 0]⟩)] ++ [(p + 64 * 2, ⟨(p + 64 * 1), 0, K_WORK, 0, [0, 0, 0, 0]⟩)] ++ [(p + 64 * 4, ⟨0, I_DEVA, K_DEV, 0, [0, 0, 0, 0]⟩)]), [10, p + 64 * 0, p + 64 * 3, a3, a4, a5, a6, 0, 0, 0, 0], p + 64 * 3, tcb, taskid, v1, v2, qc, hc, tr, lay⟩), p + 64 * 4) :=
    pkt_step cells pool _ _ (by omega) (hcells 4 (by decide)) _ bP4 _ _ _ _ _ _ _ _ _ _ _ _ _ _
  have bP5 : (Mem.ofList (L0 ++ [(p + 64 * 1, ⟨0, 0, K_WORK, 0, [0, 0, 0, 0]⟩)] ++ [(p + 64 * 2, ⟨(p + 64 * 1), 0, K_WORK, 0, [0, 0, 0, 0]⟩)] ++ [(p + 64 * 4, ⟨0, I_DEVA, K_DEV, 0, [0, 0, 0, 0]⟩)])).Below (p + 64 * 5) := Mem.Below.snoc_below _ bP4 (by omega) (by omega)
  have bT5 : (Mem.ofList (T0 ++ [(p + 64 * 0, ⟨tasklist, I_IDLE, 0, 0, S_RUN, Fn.idlefn, 1, Count⟩)] ++ [(p + 64 * 3, ⟨p + 64 * 0, I_WORK, 1000, (p + 64 * 2), S_WAITPKT, Fn.workfn, I_HANDLERA, 0⟩)])).Below (p + 64 * 5) := Mem.Below.mono bT4 (by omega)
  have e6 : pkt (⟨cells, pool, p + 64 * 5⟩, ⟨Mem.ofList (T0 ++ [(p + 64 * 0, ⟨tasklist, I_IDLE, 0, 0, S_RUN, Fn.idlefn, 1, Count⟩)] ++ [(p + 64 * 3, ⟨p + 64 * 0, I_WORK, 1000, (p + 64 * 2), S_WAITPKT, Fn.workfn, I_HANDLERA, 0⟩)]), Mem.ofList (L0 ++ [(p + 64 * 1, ⟨0, 0, K_WORK, 0, [0, 0, 0, 0]⟩)] ++ [(p + 64 * 2, ⟨(p + 64 * 1), 0, K_WORK, 0, [0, 0, 0, 0]⟩)] ++ [(p + 64 * 4, ⟨0, I_DEVA, K_DEV, 0, [0, 0, 0, 0]⟩)]), [10, p + 64 * 0, p + 64 * 3, a3, a4, a5, a6, 0, 0, 0, 0], p + 64 * 3, tcb, taskid, v1, v2, qc, hc, tr, lay⟩) (p + 64 * 4) I_DEVA K_DEV
      = ((⟨cells, pool, p + 64 * 6⟩, ⟨Mem.ofList (T0 ++ [(p + 64 * 0, ⟨tasklist, I_IDLE, 0, 0, S_RUN, Fn.idlefn, 1, Count⟩)] ++ [(p + 64 * 3, ⟨p + 64 * 0, I_WORK, 1000, (p + 64 * 2), S_WAITPKT, Fn.workfn, I_HANDLERA, 0⟩)]), Mem.ofList (L0 ++ [(p + 64 * 1, ⟨0, 0, K_WORK, 0, [0, 0, 0, 0]⟩)] ++ [(p + 64 * 2, ⟨(p + 64 * 1), 0, K_WORK, 0, [0, 0, 0, 0]⟩)] ++ [(p + 64 * 4, ⟨0, I_DEVA, K_DEV, 0, [0, 0, 0, 0]⟩)] ++ [(p + 64 * 5, ⟨(p + 64 * 4), I_DEVA, K_DEV, 0, [0, 0, 0, 0]⟩)]), [10, p + 64 * 0, p + 64 * 3, a3, a4, a5, a6, 0, 0, 0, 0], p + 64 * 3, tcb, taskid, v1, v2, qc, hc, tr, lay⟩), p + 64 * 5) :=
    pkt_step cells pool _ _ (by omega) (hcells 5 (by decide)) _ bP5 _ _ _ _ _ _ _ _ _ _ _ _ _ _
  have bP6 : (Mem.ofList (L0 ++ [(p + 64 * 1, ⟨0, 0, K_WORK, 0, [0, 0, 0, 0]⟩)] ++ [(p + 64 * 2, ⟨(p + 64 * 1), 0, K_WORK, 0, [0, 0, 0, 0]⟩)] ++ [(p + 64 * 4, ⟨0, I_DEVA, K_DEV, 0, [0, 0, 0, 0]⟩)] ++ [(p + 64 * 5, ⟨(p + 64 * 4), I_DEVA, K_DEV, 0, [0, 0, 0, 0]⟩)])).Below (p + 64 * 6) := Mem.Below.snoc_below _ bP5 (by omega) (by omega)
  have bT6 : (Mem.ofList (T0 ++ [(p + 64 * 0, ⟨tasklist, I_IDLE, 0, 0, S_RUN, Fn.idlefn, 1, Count⟩)] ++ [(p + 64 * 3, ⟨p + 64 * 0, I_WORK, 1000, (p + 64 * 2), S_WAITPKT, Fn.workfn, I_HANDLERA, 0⟩)])).Below (p + 64 * 6) := Mem.Below.mono bT5 (by omega)
  have e7 : pkt (⟨cells, pool, p + 64 * 6⟩, ⟨Mem.ofList (T0 ++ [(p + 64 * 0, ⟨tasklist, I_IDLE, 0, 0, S_RUN, Fn.idlefn, 1, Count⟩)] ++ [(p + 64 * 3, ⟨p + 64 * 0, I_WORK, 1000, (p + 64 * 2), S_WAITPKT, Fn.workfn, I_HANDLERA, 0⟩)]), Mem.ofList (L0 ++ [(p + 64 * 1, ⟨0, 0, K_WORK, 0, [0, 0, 0, 0]⟩)] ++ [(p + 64 * 2, ⟨(p + 64 * 1), 0, K_WORK, 0, [0, 0, 0, 0]⟩)] ++ [(p + 64 * 4, ⟨0, I_DEVA, K_DEV, 0, [0, 0, 0, 0]⟩)] ++ [(p + 64 * 5, ⟨(p + 64 * 4), I_DEVA, K_DEV, 0, [0, 0, 0, 0]⟩)]), [10, p + 64 * 0, p + 64 * 3, a3, a4, a5, a6, 0, 0, 0, 0], p + 64 * 3, tcb, taskid, v1, v2, qc, hc, tr, lay⟩) (p + 64 * 5) I_DEVA K_DEV
      = ((⟨cells, pool, p + 64 * 7⟩, ⟨Mem.ofList (T0 ++ [(p + 64 * 0, ⟨tasklist, I_IDLE, 0, 0, S_RUN, Fn.idlefn, 1, Count⟩)] ++ [(p + 64 * 3, ⟨p + 64 * 0, I_WORK, 1000, (p + 64 * 2), S_WAITPKT, Fn.workfn, I_HANDLERA, 0⟩)]), Mem.ofList (L0 ++ [(p + 64 * 1, ⟨0, 0, K_WORK, 0, [0, 0, 0, 0]⟩)] ++ [(p + 64 * 2, ⟨(p + 64 * 1), 0, K_WORK, 0, [0, 0, 0, 0]⟩)] ++ [(p + 64 * 4, ⟨0, I_DEVA, K_DEV, 0, [0, 0, 0, 0]⟩)] ++ [(p + 64 * 5, ⟨(p + 64 * 4), I_DEVA, K_DEV, 0, [0, 0, 0, 0]⟩)] ++ [(p + 64 * 6, ⟨(p + 64 * 5), I_DEVA, K_DEV, 0, [0, 0, 0, 0]⟩)]), [10, p + 64 * 0, p + 64 * 3, a3, a4, a5, a6, 0, 0, 0, 0], p + 64 * 3, tcb, taskid, v1, v2, qc, hc, tr, lay⟩), p + 64 * 6) :=
    pkt_step cells pool _ _ (by omega) (hcells 6 (by decide)) _ bP6 _ _ _ _ _ _ _ _ _ _ _ _ _ _
  have bP7 : (Mem.ofList (L0 ++ [(p + 64 * 1, ⟨0, 0, K_WORK, 0, [0, 0, 0, 0]⟩)] ++ [(p + 64 * 2, ⟨(p + 64 * 1), 0, K_WORK, 0, [0, 0, 0, 0]⟩)] ++ [(p + 64 * 4, ⟨0, I_DEVA, K_DEV, 0, [0, 0, 0, 0]⟩)] ++ [(p + 64 * 5, ⟨(p + 64 * 4), I_DEVA, K_DEV, 0, [0, 0, 0, 0]⟩)] ++ [(p + 64 * 6, ⟨(p + 64 * 5), I_DEVA, K_DEV, 0, [0, 0, 0, 0]⟩)])).Below (p + 64 * 7) := Mem.Below.snoc_below _ bP6 (by omega) (by omega)
  have bT7 : (Mem.ofList (T0 ++ [(p + 64 * 0, ⟨tasklist, I_IDLE, 0, 0, S_RUN, Fn.idlefn, 1, Count⟩)] ++ [(p + 64 * 3, ⟨p + 64 * 0, I_WORK, 1000, (p + 64 * 2), S_WAITPKT, Fn.workfn, I_HANDLERA, 0⟩)])).Below (p + 64 * 7) := Mem.Below.mono bT6 (by omega)
  have e8 : createtask (⟨cells, pool, p + 64 * 7⟩, ⟨Mem.ofList (T0 ++ [(p + 64 * 0, ⟨tasklist, I_IDLE, 0, 0, S_RUN, Fn.idlefn, 1, Count⟩)] ++ [(p + 64 * 3, ⟨p + 64 * 0, I_WORK, 1000, (p + 64 * 2), S_WAITPKT, Fn.workfn, I_HANDLERA, 0⟩)]), Mem.ofList (L0 ++ [(p + 64 * 1, ⟨0, 0, K_WORK, 0, [0, 0, 0, 0]⟩)] ++ [(p + 64 * 2, ⟨(p + 64 * 1), 0, K_WORK, 0, [0, 0, 0, 0]⟩)] ++ [(p + 64 * 4, ⟨0, I_DEVA, K_DEV, 0, [0, 0, 0, 0]⟩)] ++ [(p + 64 * 5, ⟨(p + 64 * 4), I_DEVA, K_DEV, 0, [0, 0, 0, 0]⟩)] ++ [(p + 64 * 6, ⟨(p + 64 * 5), I_DEVA, K_DEV, 0, [0, 0, 0, 0]⟩)]), [10, p + 64 * 0, p + 64 * 3, a3, a4, a5, a6, 0, 0, 0, 0], p + 64 * 3, tcb, taskid, v1, v2, qc, hc, tr, lay⟩) I_HANDLERA 2000 (p + 64 * 6) S_WAITPKT Fn.handlerfn 0 0
      = (⟨cells, pool, p + 64 * 8⟩, ⟨Mem.ofList (T0 ++ [(p + 64 * 0, ⟨tasklist, I_IDLE, 0, 0, S_RUN, Fn.idlefn, 1, Count⟩)] ++ [(p + 64 * 3, ⟨p + 64 * 0, I_WORK, 1000, (p + 64 * 2), S_WAITPKT, Fn.workfn, I_HANDLERA, 0⟩)] ++ [(p + 64 * 7, ⟨p + 64 * 3, I_HANDLERA, 2000, (p + 64 * 6), S_WAITPKT, Fn.handlerfn, 0, 0⟩)]), Mem.ofList (L0 ++ [(p + 64 * 1, ⟨0, 0, K_WORK, 0, [0, 0, 0, 0]⟩)] ++ [(p + 64 * 2, ⟨(p + 64 * 1), 0, K_WORK, 0, [0, 0, 0, 0]⟩)] ++ [(p + 64 * 4, ⟨0, I_DEVA, K_DEV, 0, [0, 0, 0, 0]⟩)] ++ [(p + 64 * 5, ⟨(p + 64 * 4), I_DEVA, K_DEV, 0, [0, 0, 0, 0]⟩)] ++ [(p + 64 * 6, ⟨(p + 64 * 5), I_DEVA, K_DEV, 0, [0, 0, 0, 0]⟩)]), [10, p + 64 * 0, p + 64 * 3, p + 64 * 7, a4, a5, a6, 0, 0, 0, 0], p + 64 * 7, tcb, taskid, v1, v2, qc, hc, tr, lay⟩) :=
    createtask_step cells pool _ _ (by omega) (hcells 7 (by decide)) _ bT7 _ _ _ _ _ _ _ _ _ _ _ _ _ _ _ _ _ _
  have bT8 : (Mem.ofList (T0 ++ [(p + 64 * 0, ⟨tasklist, I_IDLE, 0, 0, S_RUN, Fn.idlefn, 1, Count⟩)] ++ [(p + 64 * 3, ⟨p + 64 * 0, I_WORK, 1000, (p + 64 * 2), S_WAITPKT, Fn.workfn, I_HANDLERA, 0⟩)] ++ [(p + 64 * 7, ⟨p + 64 * 3, I_HANDLERA, 2000, (p + 64 * 6), S_WAITPKT, Fn.handlerfn, 0, 0⟩)])).Below (p + 64 * 8) := Mem.Below.snoc_below _ bT7 (by omega) (by omega)
  have bP8 : (Mem.ofList (L0 ++ [(p + 64 * 1, ⟨0, 0, K_WORK, 0, [0, 0, 0, 0]⟩)] ++ [(p + 64 * 2, ⟨(p + 64 * 1), 0, K_WORK, 0, [0, 0, 0, 0]⟩)] ++ [(p + 64 * 4, ⟨0, I_DEVA, K_DEV, 0, [0, 0, 0, 0]⟩)] ++ [(p + 64 * 5, ⟨(p + 64 * 4), I_DEVA, K_DEV, 0, [0, 0, 0, 0]⟩)] ++ [(p + 64 * 6, ⟨(p + 64 * 5), I_DEVA, K_DEV, 0, [0, 0, 0, 0]⟩)])).Below (p + 64 * 8) := Mem.Below.mono bP7 (by omega)
  have e9 : pkt (⟨cells, pool, p + 64 * 8⟩, ⟨Mem.ofList (T0 ++ [(p + 64 * 0, ⟨tasklist, I_IDLE, 0, 0, S_RUN, Fn.idlefn, 1, Count⟩)] ++ [(p + 64 * 3, ⟨p + 64 * 0, I_WORK, 1000, (p + 64 * 2), S_WAITPKT, Fn.workfn, I_HANDLERA, 0⟩)] ++ [(p + 64 * 7, ⟨p + 64 * 3, I_HANDLERA, 2000, (p + 64 * 6), S_WAITPKT, Fn.handlerfn, 0, 0⟩)]), Mem.ofList (L0 ++ [(p + 64 * 1, ⟨0, 0, K_WORK, 0, [0, 0, 0, 0]⟩)] ++ [(p + 64 * 2, ⟨(p + 64 * 1), 0, K_WORK, 0, [0, 0, 0, 0]⟩)] ++ [(p + 64 * 4, ⟨0, I_DEVA, K_DEV, 0, [0, 0, 0, 0]⟩)] ++ [(p + 64 * 5, ⟨(p + 64 * 4), I_DEVA, K_DEV, 0, [0, 0, 0, 0]⟩)] ++ [(p + 64 * 6, ⟨(p + 64 * 5), I_DEVA, K_DEV, 0, [0, 0, 0, 0]⟩)]), [10, p + 64 * 0, p + 64 * 3, p + 64 * 7, a4, a5, a6, 0, 0, 0, 0], p + 64 * 7, tcb, taskid, v1, v2, qc, hc, tr, lay⟩) 0 I_DEVB K_DEV
      = ((⟨cells, pool, p + 64 * 9⟩, ⟨Mem.ofList (T0 ++ [(p + 64 * 0, ⟨tasklist, I_IDLE, 0, 0, S_RUN, Fn.idlefn, 1, Count⟩)] ++ [(p + 64 * 3, ⟨p + 64 * 0, I_WORK, 1000, (p + 64 * 2), S_WAITPKT, Fn.workfn, I_HANDLERA, 0⟩)] ++ [(p + 64 * 7, ⟨p + 64 * 3, I_HANDLERA, 2000, (p + 64 * 6), S_WAITPKT, Fn.handlerfn, 0, 0⟩)]), Mem.ofList (L0 ++ [(p + 64 * 1, ⟨0, 0, K_WORK, 0, [0, 0, 0, 0]⟩)] ++ [(p + 64 * 2, ⟨(p + 64 * 1), 0, K_WORK, 0, [0, 0, 0, 0]⟩)] ++ [(p + 64 * 4, ⟨0, I_DEVA, K_DEV, 0, [0, 0, 0, 0]⟩)] ++ [(p + 64 * 5, ⟨(p + 64 * 4), I_DEVA, K_DEV, 0, [0, 0, 0, 0]⟩)] ++ [(p + 64 * 6, ⟨(p + 64 * 5), I_DEVA, K_DEV, 0, [0, 0, 0, 0]⟩)] ++ [(p + 64 * 8, ⟨0, I_DEVB, K_DEV, 0, [0, 0, 0, 0]⟩)]), [10, p + 64 * 0, p + 64 * 3, p + 64 * 7, a4, a5, a6, 0, 0, 0, 0], p + 64 * 7, tcb, taskid, v1, v2, qc, hc, tr, lay⟩), p + 64 * 8) :=
    pkt_step cells pool _ _ (by omega) (hcells 8 (by decide)) _ bP8 _ _ _ _ _ _ _ _ _ _ _ _ _ _
  have bP9 : (Mem.ofList (L0 ++ [(p + 64 * 1, ⟨0, 0, K_WORK, 0, [0, 0, 0, 0]⟩)] ++ [(p + 64 * 2, ⟨(p + 64 * 1), 0, K_WORK, 0, [0, 0, 0, 0]⟩)] ++ [(p + 64 * 4, ⟨0, I_DEVA, K_DEV, 0, [0, 0, 0, 0]⟩)] ++ [(p + 64 * 5, ⟨(p + 64 * 4), I_DEVA, K_DEV, 0, [0, 0, 0, 0]⟩)] ++ [(p + 64 * 6, ⟨(p + 64 * 5), I_DEVA, K_DEV, 0, [0, 0, 0, 0]⟩)] ++ [(p + 64 * 8, ⟨0, I_DEVB, K_DEV, 0, [0, 0, 0, 0]⟩)])).Below (p + 64 * 9) := Mem.Below.snoc_below _ bP8 (by omega) (by omega)
  have bT9 : (Mem.ofList (T0 ++ [(p + 64 * 0, ⟨tasklist, I_IDLE, 0, 0, S_RUN, Fn.idlefn, 1, Count⟩)] ++ [(p + 64 * 3, ⟨p + 64 * 0, I_WORK, 1000, (p + 64 * 2), S_WAITPKT, Fn.workfn, I_HANDLERA, 0⟩)] ++ [(p + 64 * 7, ⟨p + 64 * 3, I_HANDLERA, 2000, (p + 64 * 6), S_WAITPKT, Fn.handlerfn, 0, 0⟩)])).Below (p + 64 * 9) := Mem.Below.mono bT8 (by omega)
  have e10 : pkt (⟨cells, pool, p + 64 * 9⟩, ⟨Mem.ofList (T0 ++ [(p + 64 * 0, ⟨tasklist, I_IDLE, 0, 0, S_RUN, Fn.idlefn, 1, Count⟩)] ++ [(p + 64 * 3, ⟨p + 64 * 0, I_WORK, 1000, (p + 64 * 2), S_WAITPKT, Fn.workfn, I_HANDLERA, 0⟩)] ++ [(p + 64 * 7, ⟨p + 64 * 3, I_HANDLERA, 2000, (p + 64 * 6), S_WAITPKT, Fn.handlerfn, 0, 0⟩)]), Mem.ofList (L0 ++ [(p + 64 * 1, ⟨0, 0, K_WORK, 0, [0, 0, 0, 0]⟩)] ++ [(p + 64 * 2, ⟨(p + 64 * 1), 0, K_WORK, 0, [0, 0, 0, 0]⟩)] ++ [(p + 64 * 4, ⟨0, I_DEVA, K_DEV, 0, [0, 0, 0, 0]⟩)] ++ [(p + 64 * 5, ⟨(p + 64 * 4), I_DEVA, K_DEV, 0, [0, 0, 0, 0]⟩)] ++ [(p + 64 * 6, ⟨(p + 64 * 5), I_DEVA, K_DEV, 0, [0, 0, 0, 0]⟩)] ++ [(p + 64 * 8, ⟨0, I_DEVB, K_DEV, 0, [0, 0, 0, 0]⟩)]), [10, p + 64 * 0, p + 64 * 3, p + 64 * 7, a4, a5, a6, 0, 0, 0, 0], p + 64 * 7, tcb, taskid, v1, v2, qc, hc, tr, lay⟩) (p + 64 * 8) I_DEVB K_DEV
      = ((⟨cells, pool, p + 64 * 10⟩, ⟨Mem.ofList (T0 ++ [(p + 64 * 0, ⟨tasklist, I_IDLE, 0, 0, S_RUN, Fn.idlefn, 1, Count⟩)] ++ [(p + 64 * 3, ⟨p + 64 * 0, I_WORK, 1000, (p + 64 * 2), S_WAITPKT, Fn.workfn, I_HANDLERA, 0⟩)] ++ [(p + 64 * 7, ⟨p + 64 * 3, I_HANDLERA, 2000, (p + 64 * 6), S_WAITPKT, Fn.handlerfn, 0, 0⟩)]), Mem.ofList (L0 ++ [(p + 64 * 1, ⟨0, 0, K_WORK, 0, [0, 0, 0, 0]⟩)] ++ [(p + 64 * 2, ⟨(p + 64 * 1), 0, K_WORK, 0, [0, 0, 0, 0]⟩)] ++ [(p + 64 * 4, ⟨0, I_DEVA, K_DEV, 0, [0, 0, 0, 0]⟩)] ++ [(p + 64 * 5, ⟨(p + 64 * 4), I_DEVA, K_DEV, 0, [0, 0, 0, 0]⟩)] ++ [(p + 64 * 6, ⟨(p + 64 * 5), I_DEVA, K_DEV, 0, [0, 0, 0, 0]⟩)] ++ [(p + 64 * 8, ⟨0, I_DEVB, K_DEV, 0, [0, 0, 0, 0]⟩)] ++ [(p + 64 * 9, ⟨(p + 64 * 8), I_DEVB, K_DEV, 0, [0, 0, 0, 0]⟩)]), [10, p + 64 * 0, p + 64 * 3, p + 64 * 7, a4, a5, a6, 0, 0, 0, 0], p + 64 * 7, tcb, taskid, v1, v2, qc, hc, tr, lay⟩), p + 64 * 9) :=
    pkt_step cells pool _ _ (by omega) (hcells 9 (by decide)) _ bP9 _ _ _ _ _ _ _ _ _ _ _ _ _ _
  have bP10 : (Mem.ofList (L0 ++ [(p + 64 * 1, ⟨0, 0, K_WORK, 0, [0, 0, 0, 0]⟩)] ++ [(p + 64 * 2, ⟨(p + 64 * 1), 0, K_WORK, 0, [0, 0, 0, 0]⟩)] ++ [(p + 64 * 4, ⟨0, I_DEVA, K_DEV, 0, [0, 0, 0, 0]⟩)] ++ [(p + 64 * 5, ⟨(p + 64 * 4), I_DEVA, K_DEV, 0, [0, 0, 0, 0]⟩)] ++ [(p + 64 * 6, ⟨(p + 64 * 5), I_DEVA, K_DEV, 0, [0, 0, 0, 0]⟩)] ++ [(p + 64 * 8, ⟨0, I_DEVB, K_DEV, 0, [0, 0, 0, 0]⟩)] ++ [(p + 64 * 9, ⟨(p + 64 * 8), I_DEVB, K_DEV, 0, [0, 0, 0, 0]⟩)])).Below (p + 64 * 10) := Mem.Below.snoc_below _ bP9 (by omega) (by omega)
  have bT10 : (Mem.ofList (T0 ++ [(p + 64 * 0, ⟨tasklist, I_IDLE, 0, 0, S_RUN, Fn.idlefn, 1, Count⟩)] ++ [(p + 64 * 3, ⟨p + 64 * 0, I_WORK, 1000, (p + 64 * 2), S_WAITPKT, Fn.workfn, I_HANDLERA, 0⟩)] ++ [(p + 64 * 7, ⟨p + 64 * 3, I_HANDLERA, 2000, (p + 64 * 6), S_WAITPKT, Fn.handlerfn, 0, 0⟩)])).Below (p + 64 * 10) := Mem.Below.mono bT9 (by omega)
  have e11 : pkt (⟨cells, pool, p + 64 * 10⟩, ⟨Mem.ofList (T0 ++ [(p + 64 * 0, ⟨tasklist, I_IDLE, 0, 0, S_RUN, Fn.idlefn, 1, Count⟩)] ++ [(p + 64 * 3, ⟨p + 64 * 0, I_WORK, 1000, (p + 64 * 2), S_WAITPKT, Fn.workfn, I_HANDLERA, 0⟩)] ++ [(p + 64 * 7, ⟨p + 64 * 3, I_HANDLERA, 2000, (p + 64 * 6), S_WAITPKT, Fn.handlerfn, 0, 0⟩)]), Mem.ofList (L0 ++ [(p + 64 * 1, ⟨0, 0, K_WORK, 0, [0, 0, 0, 0]⟩)] ++ [(p + 64 * 2, ⟨(p + 64 * 1), 0, K_WORK, 0, [0, 0, 0, 0]⟩)] ++ [(p + 64 * 4, ⟨0, I_DEVA, K_DEV, 0, [0, 0, 0, 0]⟩)] ++ [(p + 64 * 5, ⟨(p + 64 * 4), I_DEVA, K_DEV, 0, [0, 0, 0, 0]⟩)] ++ [(p + 64 * 6, ⟨(p + 64 * 5), I_DEVA, K_DEV, 0, [0, 0, 0, 0]⟩)] ++ [(p + 64 * 8, ⟨0, I_DEVB, K_DEV, 0, [0, 0, 0, 0]⟩)] ++ [(p + 64 * 9, ⟨(p + 64 * 8), I_DEVB, K_DEV, 0, [0, 0, 0, 0]⟩)]), [10, p + 64 * 0, p + 64 * 3, p + 64 * 7, a4, a5, a6, 0, 0, 0, 0], p + 64 * 7, tcb, taskid, v1, v2, qc, hc, tr, lay⟩) (p + 64 * 9) I_DEVB K_DEV
      = ((⟨cells, pool, p + 64 * 11⟩, ⟨Mem.ofList (T0 ++ [(p + 64 * 0, ⟨tasklist, I_IDLE, 0, 0, S_RUN, Fn.idlefn, 1, Count⟩)] ++ [(p + 64 * 3, ⟨p + 64 * 0, I_WORK, 1000, (p + 64 * 2), S_WAITPKT, Fn.workfn, I_HANDLERA, 0⟩)] ++ [(p + 64 * 7, ⟨p + 64 * 3, I_HANDLERA, 2000, (p + 64 * 6), S_WAITPKT, Fn.handlerfn, 0, 0⟩)]), Mem.ofList (L0 ++ [(p + 64 * 1, ⟨0, 0, K_WORK, 0, [0, 0, 0, 0]⟩)] ++ [(p + 64 * 2, ⟨(p + 64 * 1), 0, K_WORK, 0, [0, 0, 0, 0]⟩)] ++ [(p + 64 * 4, ⟨0, I_DEVA, K_DEV, 0, [0, 0, 0, 0]⟩)] ++ [(p + 64 * 5, ⟨(p + 64 * 4), I_DEVA, K_DEV, 0, [0, 0, 0, 0]⟩)] ++ [(p + 64 * 6, ⟨(p + 64 * 5), I_DEVA, K_DEV, 0, [0, 0, 0, 0]⟩)] ++ [(p + 64 * 8, ⟨0, I_DEVB, K_DEV, 0, [0, 0, 0, 0]⟩)] ++ [(p + 64 * 9, ⟨(p + 64 * 8), I_DEVB, K_DEV, 0, [0, 0, 0, 0]⟩)] ++ [(p + 64 * 10, ⟨(p + 64 * 9), I_DEVB, K_DEV, 0, [0, 0, 0, 0]⟩)]), [10, p + 64 * 0, p + 64 * 3, p + 64 * 7, a4, a5, a6, 0, 0, 0, 0], p + 64 * 7, tcb, taskid, v1, v2, qc, hc, tr, lay⟩), p + 64 * 10) :=
    pkt_step cells pool _ _ (by omega) (hcells 10 (by decide)) _ bP10 _ _ _ _ _ _ _ _ _ _ _ _ _ _
  have bP11 : (Mem.ofList (L0 ++ [(p + 64 * 1, ⟨0, 0, K_WORK, 0, [0, 0, 0, 0]⟩)] ++ [(p + 64 * 2, ⟨(p + 64 * 1), 0, K_WORK, 0, [0, 0, 0, 0]⟩)] ++ [(p + 64 * 4, ⟨0, I_DEVA, K_DEV, 0, [0, 0, 0, 0]⟩)] ++ [(p + 64 * 5, ⟨(p + 64 * 4), I_DEVA, K_DEV, 0, [0, 0, 0, 0]⟩)] ++ [(p + 64 * 6, ⟨(p + 64 * 5), I_DEVA, K_DEV, 0, [0, 0, 0, 0]⟩)] ++ [(p + 64 * 8, ⟨0, I_DEVB, K_DEV, 0, [0, 0, 0, 0]⟩)] ++ [(p + 64 * 9, ⟨(p + 64 * 8), I_DEVB, K_DEV, 0, [0, 0, 0, 0]⟩)] ++ [(p + 64 * 10, ⟨(p + 64 * 9), I_DEVB, K_DEV, 0, [0, 0, 0, 0]⟩)])).Below (p + 64 * 11) := Mem.Below.snoc_below _ bP10 (by omega) (by omega)
  have bT11 : (Mem.ofList (T0 ++ [(p + 64 * 0, ⟨tasklist, I_IDLE, 0, 0, S_RUN, Fn.idlefn, 1, Count⟩)] ++ [(p + 64 * 3, ⟨p + 64 * 0, I_WORK, 1000, (p + 64 * 2), S_WAITPKT, Fn.workfn, I_HANDLERA, 0⟩)] ++ [(p + 64 * 7, ⟨p + 64 * 3, I_HANDLERA, 2000, (p + 64 * 6), S_WAITPKT, Fn.handlerfn, 0, 0⟩)])).Below (p + 64 * 11) := Mem.Below.mono bT10 (by omega)
  have e12 : createtask (⟨cells, pool, p + 64 * 11⟩, ⟨Mem.ofList (T0 ++ [(p + 64 * 0, ⟨tasklist, I_IDLE, 0, 0, S_RUN, Fn.idlefn, 1, Count⟩)] ++ [(p + 64 * 3, ⟨p + 64 * 0, I_WORK, 1000, (p + 64 * 2), S_WAITPKT, Fn.workfn, I_HANDLERA, 0⟩)] ++ [(p + 64 * 7, ⟨p + 64 * 3, I_HANDLERA, 2000, (p + 64 * 6), S_WAITPKT, Fn.handlerfn, 0, 0⟩)]), Mem.ofList (L0 ++ [(p + 64 * 1, ⟨0, 0, K_WORK, 0, [0, 0, 0, 0]⟩)] ++ [(p + 64 * 2, ⟨(p + 64 * 1), 0, K_WORK, 0, [0, 0, 0, 0]⟩)] ++ [(p + 64 * 4, ⟨0, I_DEVA, K_DEV, 0, [0, 0, 0, 0]⟩)] ++ [(p + 64 * 5, ⟨(p + 64 * 4), I_DEVA, K_DEV, 0, [0, 0, 0, 0]⟩)] ++ [(p + 64 * 6, ⟨(p + 64 * 5), I_DEVA, K_DEV, 0, [0, 0, 0, 0]⟩)] ++ [(p + 64 * 8, ⟨0, I_DEVB, K_DEV, 0, [0, 0, 0, 0]⟩)] ++ [(p + 64 * 9, ⟨(p + 64 * 8), I_DEVB, K_DEV, 0, [0, 0, 0, 0]⟩)] ++ [(p + 64 * 10, ⟨(p + 64 * 9), I_DEVB, K_DEV, 0, [0, 0, 0, 0]⟩)]), [10, p + 64 * 0, p + 64 * 3, p + 64 * 7, a4, a5, a6, 0, 0, 0, 0], p + 64 * 7, tcb, taskid, v1, v2, qc, hc, tr, lay⟩) I_HANDLERB 3000 (p + 64 * 10) S_WAITPKT Fn.handlerfn 0 0
      = (⟨cells, pool, p + 64 * 12⟩, ⟨Mem.ofList (T0 ++ [(p + 64 * 0, ⟨tasklist, I_IDLE, 0, 0, S_RUN, Fn.idlefn, 1, Count⟩)] ++ [(p + 64 * 3, ⟨p + 64 * 0, I_WORK, 1000, (p + 64 * 2), S_WAITPKT, Fn.workfn, I_HANDLERA, 0⟩)] ++ [(p + 64 * 7, ⟨p + 64 * 3, I_HANDLERA, 2000, (p + 64 * 6), S_WAITPKT, Fn.handlerfn, 0, 0⟩)] ++ [(p + 64 * 11, ⟨p + 64 * 7, I_HANDLERB, 3000, (p + 64 * 10), S_WAITPKT, Fn.handlerfn, 0, 0⟩)]), Mem.ofList (L0 ++ [(p + 64 * 1, ⟨0, 0, K_WORK, 0, [0, 0, 0, 0]⟩)] ++ [(p + 64 * 2, ⟨(p + 64 * 1), 0, K_WORK, 0, [0, 0, 0, 0]⟩)] ++ [(p + 64 * 4, ⟨0, I_DEVA, K_DEV, 0, [0, 0, 0, 0]⟩)] ++ [(p + 64 * 5, ⟨(p + 64 * 4), I_DEVA, K_DEV, 0, [0, 0, 0, 0]⟩)] ++ [(p + 64 * 6, ⟨(p + 64 * 5), I_DEVA, K_DEV, 0, [0, 0, 0, 0]⟩)] ++ [(p + 64 * 8, ⟨0, I_DEVB, K_DEV, 0, [0, 0, 0, 0]⟩)] ++ [(p + 64 * 9, ⟨(p + 64 * 8), I_DEVB, K_DEV, 0, [0, 0, 0, 0]⟩)] ++ [(p + 64 * 10, ⟨(p + 64 * 9), I_DEVB, K_DEV, 0, [0, 0, 0, 0]⟩)]), [10, p + 64 * 0, p + 64 * 3, p + 64 * 7, p + 64 * 11, a5, a6, 0, 0, 0, 0], p + 64 * 11, tcb, taskid, v1, v2, qc, hc, tr, lay⟩) :=
    createtask_step cells pool _ _ (by omega) (hcells 11 (by decide)) _ bT11 _ _ _ _ _ _ _ _ _ _ _ _ _ _ _ _ _ _
  have bT12 : (Mem.ofList (T0 ++ [(p + 64 * 0, ⟨tasklist, I_IDLE, 0, 0, S_RUN, Fn.idlefn, 1, Count⟩)] ++ [(p + 64 * 3, ⟨p + 64 * 0, I_WORK, 1000, (p + 64 * 2), S_WAITPKT, Fn.workfn, I_HANDLERA, 0⟩)] ++ [(p + 64 * 7, ⟨p + 64 * 3, I_HANDLERA, 2000, (p + 64 * 6), S_WAITPKT, Fn.handlerfn, 0, 0⟩)] ++ [(p + 64 * 11, ⟨p + 64 * 7, I_HANDLERB, 3000, (p + 64 * 10), S_WAITPKT, Fn.handlerfn, 0, 0⟩)])).Below (p + 64 * 12) := Mem.Below.snoc_below _ bT11 (by omega) (by omega)
  have bP12 : (Mem.ofList (L0 ++ [(p + 64 * 1, ⟨0, 0, K_WORK, 0, [0, 0, 0, 0]⟩)] ++ [(p + 64 * 2, ⟨(p + 64 * 1), 0, K_WORK, 0, [0, 0, 0, 0]⟩)] ++ [(p + 64 * 4, ⟨0, I_DEVA, K_DEV, 0, [0, 0, 0, 0]⟩)] ++ [(p + 64 * 5, ⟨(p + 64 * 4), I_DEVA, K_DEV, 0, [0, 0, 0, 0]⟩)] ++ [(p + 64 * 6, ⟨(p + 64 * 5), I_DEVA, K_DEV, 0, [0, 0, 0, 0]⟩)] ++ [(p + 64 * 8, ⟨0, I_DEVB, K_DEV, 0, [0, 0, 0, 0]⟩)] ++ [(p + 64 * 9, ⟨(p + 64 * 8), I_DEVB, K_DEV, 0, [0, 0, 0, 0]⟩)] ++ [(p + 64 * 10, ⟨(p + 64 * 9), I_DEVB, K_DEV, 0, [0, 0, 0, 0]⟩)])).Below (p + 64 * 12) := Mem.Below.mono bP11 (by omega)
  have e13 : createtask (⟨cells, pool, p + 64 * 12⟩, ⟨Mem.ofList (T0 ++ [(p + 64 * 0, ⟨tasklist, I_IDLE, 0, 0, S_RUN, Fn.idlefn, 1, Count⟩)] ++ [(p + 64 * 3, ⟨p + 64 * 0, I_WORK, 1000, (p + 64 * 2), S_WAITPKT, Fn.workfn, I_HANDLERA, 0⟩)] ++ [(p + 64 * 7, ⟨p + 64 * 3, I_HANDLERA, 2000, (p + 64 * 6), S_WAITPKT, Fn.handlerfn, 0, 0⟩)] ++ [(p + 64 * 11, ⟨p + 64 * 7, I_HANDLERB, 3000, (p + 64 * 10), S_WAITPKT, Fn.handlerfn, 0, 0⟩)]), Mem.ofList (L0 ++ [(p + 64 * 1, ⟨0, 0, K_WORK, 0, [0, 0, 0, 0]⟩)] ++ [(p + 64 * 2, ⟨(p + 64 * 1), 0, K_WORK, 0, [0, 0, 0, 0]⟩)] ++ [(p + 64 * 4, ⟨0, I_DEVA, K_DEV, 0, [0, 0, 0, 0]⟩)] ++ [(p + 64 * 5, ⟨(p + 64 * 4), I_DEVA, K_DEV, 0, [0, 0, 0, 0]⟩)] ++ [(p + 64 * 6, ⟨(p + 64 * 5), I_DEVA, K_DEV, 0, [0, 0, 0, 0]⟩)] ++ [(p + 64 * 8, ⟨0, I_DEVB, K_DEV, 0, [0, 0, 0, 0]⟩)] ++ [(p + 64 * 9, ⟨(p + 64 * 8), I_DEVB, K_DEV, 0, [0, 0, 0, 0]⟩)] ++ [(p + 64 * 10, ⟨(p + 64 * 9), I_DEVB, K_DEV, 0, [0, 0, 0, 0]⟩)]), [10, p + 64 * 0, p + 64 * 3, p + 64 * 7, p + 64 * 11, a5, a6, 0, 0, 0, 0], p + 64 * 11, tcb, taskid, v1, v2, qc, hc, tr, lay⟩) I_DEVA 4000 0 S_WAIT Fn.devfn 0 0
      = (⟨cells, pool, p + 64 * 13⟩, ⟨Mem.ofList (T0 ++ [(p + 64 * 0, ⟨tasklist, I_IDLE, 0, 0, S_RUN, Fn.idlefn, 1, Count⟩)] ++ [(p + 64 * 3, ⟨p + 64 * 0, I_WORK, 1000, (p + 64 * 2), S_WAITPKT, Fn.workfn, I_HANDLERA, 0⟩)] ++ [(p + 64 * 7, ⟨p + 64 * 3, I_HANDLERA, 2000, (p + 64 * 6), S_WAITPKT, Fn.handlerfn, 0, 0⟩)] ++ [(p + 64 * 11, ⟨p + 64 * 7, I_HANDLERB, 3000, (p + 64 * 10), S_WAITPKT, Fn.handlerfn, 0, 0⟩)] ++ [(p + 64 * 12, ⟨p + 64 * 11, I_DEVA, 4000, 0, S_WAIT, Fn.devfn, 0, 0⟩)]), Mem.ofList (L0 ++ [(p + 64 * 1, ⟨0, 0, K_WORK, 0, [0, 0, 0, 0]⟩)] ++ [(p + 64 * 2, ⟨(p + 64 * 1), 0, K_WORK, 0, [0, 0, 0, 0]⟩)] ++ [(p + 64 * 4, ⟨0, I_DEVA, K_DEV, 0, [0, 0, 0, 0]⟩)] ++ [(p + 64 * 5, ⟨(p + 64 * 4), I_DEVA, K_DEV, 0, [0, 0, 0, 0]⟩)] ++ [(p + 64 * 6, ⟨(p + 64 * 5), I_DEVA, K_DEV, 0, [0, 0, 0, 0]⟩)] ++ [(p + 64 * 8, ⟨0, I_DEVB, K_DEV, 0, [0, 0, 0, 0]⟩)] ++ [(p + 64 * 9, ⟨(p + 64 * 8), I_DEVB, K_DEV, 0, [0, 0, 0, 0]⟩)] ++ [(p + 64 * 10, ⟨(p + 64 * 9), I_DEVB, K_DEV, 0, [0, 0, 0, 0]⟩)]), [10, p + 64 * 0, p + 64 * 3, p + 64 * 7, p + 64 * 11, p + 64 * 12, a6, 0, 0, 0, 0], p + 64 * 12, tcb, taskid, v1, v2, qc, hc, tr, lay⟩) :=
    createtask_step cells pool _ _ (by omega) (hcells 12 (by decide)) _ bT12 _ _ _ _ _ _ _ _ _ _ _ _ _ _ _ _ _ _
  have bT13 : (Mem.ofList (T0 ++ [(p + 64 * 0, ⟨tasklist, I_IDLE, 0, 0, S_RUN, Fn.idlefn, 1, Count⟩)] ++ [(p + 64 * 3, ⟨p + 64 * 0, I_WORK, 1000, (p + 64 * 2), S_WAITPKT, Fn.workfn, I_HANDLERA, 0⟩)] ++ [(p + 64 * 7, ⟨p + 64 * 3, I_HANDLERA, 2000, (p + 64 * 6), S_WAITPKT, Fn.handlerfn, 0, 0⟩)] ++ [(p + 64 * 11, ⟨p + 64 * 7, I_HANDLERB, 3000, (p + 64 * 10), S_WAITPKT, Fn.handlerfn, 0, 0⟩)] ++ [(p + 64 * 12, ⟨p + 64 * 11, I_DEVA, 4000, 0, S_WAIT, Fn.devfn, 0, 0⟩)])).Below (p + 64 * 13) := Mem.Below.snoc_below _ bT12 (by omega) (by omega)
  have bP13 : (Mem.ofList (L0 ++ [(p + 64 * 1, ⟨0, 0, K_WORK, 0, [0, 0, 0, 0]⟩)] ++ [(p + 64 * 2, ⟨(p + 64 * 1), 0, K_WORK, 0, [0, 0, 0, 0]⟩)] ++ [(p + 64 * 4, ⟨0, I_DEVA, K_DEV, 0, [0, 0, 0, 0]⟩)] ++ [(p + 64 * 5, ⟨(p + 64 * 4), I_DEVA, K_DEV, 0, [0, 0, 0, 0]⟩)] ++ [(p + 64 * 6, ⟨(p + 64 * 5), I_DEVA, K_DEV, 0, [0, 0, 0, 0]⟩)] ++ [(p + 64 * 8, ⟨0, I_DEVB, K_DEV, 0, [0, 0, 0, 0]⟩)] ++ [(p + 64 * 9, ⟨(p + 64 * 8), I_DEVB, K_DEV, 0, [0, 0, 0, 0]⟩)] ++ [(p + 64 * 10, ⟨(p + 64 * 9), I_DEVB, K_DEV, 0, [0, 0, 0, 0]⟩)])).Below (p + 64 * 13) := Mem.Below.mono bP12 (by omega)
  have e14 : createtask (⟨cells, pool, p + 64 * 13⟩, ⟨Mem.ofList (T0 ++ [(p + 64 * 0, ⟨tasklist, I_IDLE, 0, 0, S_RUN, Fn.idlefn, 1, Count⟩)] ++ [(p + 64 * 3, ⟨p + 64 * 0, I_WORK, 1000, (p + 64 * 2), S_WAITPKT, Fn.workfn, I_HANDLERA, 0⟩)] ++ [(p + 64 * 7, ⟨p + 64 * 3, I_HANDLERA, 2000, (p + 64 * 6), S_WAITPKT, Fn.handlerfn, 0, 0⟩)] ++ [(p + 64 * 11, ⟨p + 64 * 7, I_HANDLERB, 3000, (p + 64 * 10), S_WAITPKT, Fn.handlerfn, 0, 0⟩)] ++ [(p + 64 * 12, ⟨p + 64 * 11, I_DEVA, 4000, 0, S_WAIT, Fn.devfn, 0, 0⟩)]), Mem.ofList (L0 ++ [(p + 64 * 1, ⟨0, 0, K_WORK, 0, [0, 0, 0, 0]⟩)] ++ [(p + 64 * 2, ⟨(p + 64 * 1), 0, K_WORK, 0, [0, 0, 0, 0]⟩)] ++ [(p + 64 * 4, ⟨0, I_DEVA, K_DEV, 0, [0, 0, 0, 0]⟩)] ++ [(p + 64 * 5, ⟨(p + 64 * 4), I_DEVA, K_DEV, 0, [0, 0, 0, 0]⟩)] ++ [(p + 64 * 6, ⟨(p + 64 * 5), I_DEVA, K_DEV, 0, [0, 0, 0, 0]⟩)] ++ [(p + 64 * 8, ⟨0, I_DEVB, K_DEV, 0, [0, 0, 0, 0]⟩)] ++ [(p + 64 * 9, ⟨(p + 64 * 8), I_DEVB, K_DEV, 0, [0, 0, 0, 0]⟩)] ++ [(p + 64 * 10, ⟨(p + 64 * 9), I_DEVB, K_DEV, 0, [0, 0, 0, 0]⟩)]), [10, p + 64 * 0, p + 64 * 3, p + 64 * 7, p + 64 * 11, p + 64 * 12, a6, 0, 0, 0, 0], p + 64 * 12, tcb, taskid, v1, v2, qc, hc, tr, lay⟩) I_DEVB 5000 0 S_WAIT Fn.devfn 0 0
      = (⟨cells, pool, p + 64 * 14⟩, ⟨Mem.ofList (T0 ++ [(p + 64 * 0, ⟨tasklist, I_IDLE, 0, 0, S_RUN, Fn.idlefn, 1, Count⟩)] ++ [(p + 64 * 3, ⟨p + 64 * 0, I_WORK, 1000, (p + 64 * 2), S_WAITPKT, Fn.workfn, I_HANDLERA, 0⟩)] ++ [(p + 64 * 7, ⟨p + 64 * 3, I_HANDLERA, 2000, (p + 64 * 6), S_WAITPKT, Fn.handlerfn, 0, 0⟩)] ++ [(p + 64 * 11, ⟨p + 64 * 7, I_HANDLERB, 3000, (p + 64 * 10), S_WAITPKT, Fn.handlerfn, 0, 0⟩)] ++ [(p + 64 * 12, ⟨p + 64 * 11, I_DEVA, 4000, 0, S_WAIT, Fn.devfn, 0, 0⟩)] ++ [(p + 64 * 13, ⟨p + 64 * 12, I_DEVB, 5000, 0, S_WAIT, Fn.devfn, 0, 0⟩)]), Mem.ofList (L0 ++ [(p + 64 * 1, ⟨0, 0, K_WORK, 0, [0, 0, 0, 0]⟩)] ++ [(p + 64 * 2, ⟨(p + 64 * 1), 0, K_WORK, 0, [0, 0, 0, 0]⟩)] ++ [(p + 64 * 4, ⟨0, I_DEVA, K_DEV, 0, [0, 0, 0, 0]⟩)] ++ [(p + 64 * 5, ⟨(p + 64 * 4), I_DEVA, K_DEV, 0, [0, 0, 0, 0]⟩)] ++ [(p + 64 * 6, ⟨(p + 64 * 5), I_DEVA, K_DEV, 0, [0, 0, 0, 0]⟩)] ++ [(p + 64 * 8, ⟨0, I_DEVB, K_DEV, 0, [0, 0, 0, 0]⟩)] ++ [(p + 64 * 9, ⟨(p + 64 * 8), I_DEVB, K_DEV, 0, [0, 0, 0, 0]⟩)] ++ [(p + 64 * 10, ⟨(p + 64 * 9), I_DEVB, K_DEV, 0, [0, 0, 0, 0]⟩)]), [10, p + 64 * 0, p + 64 * 3, p + 64 * 7, p + 64 * 11, p + 64 * 12, p + 64 * 13, 0, 0, 0, 0], p + 64 * 13, tcb, taskid, v1, v2, qc, hc, tr, lay⟩) :=
    createtask_step cells pool _ _ (by omega) (hcells 13 (by decide)) _ bT13 _ _ _ _ _ _ _ _ _ _ _ _ _ _ _ _ _ _
  have bT14 : (Mem.ofList (T0 ++ [(p + 64 * 0, ⟨tasklist, I_IDLE, 0, 0, S_RUN, Fn.idlefn, 1, Count⟩)] ++ [(p + 64 * 3, ⟨p + 64 * 0, I_WORK, 1000, (p + 64 * 2), S_WAITPKT, Fn.workfn, I_HANDLERA, 0⟩)] ++ [(p + 64 * 7, ⟨p + 64 * 3, I_HANDLERA, 2000, (p + 64 * 6), S_WAITPKT, Fn.handlerfn, 0, 0⟩)] ++ [(p + 64 * 11, ⟨p + 64 * 7, I_HANDLERB, 3000, (p + 64 * 10), S_WAITPKT, Fn.handlerfn, 0, 0⟩)] ++ [(p + 64 * 12, ⟨p + 64 * 11, I_DEVA, 4000, 0, S_WAIT, Fn.devfn, 0, 0⟩)] ++ [(p + 64 * 13, ⟨p + 64 * 12, I_DEVB, 5000, 0, S_WAIT, Fn.devfn, 0, 0⟩)])).Below (p + 64 * 14) := Mem.Below.snoc_below _ bT13 (by omega) (by omega)
  have bP14 : (Mem.ofList (L0 ++ [(p + 64 * 1, ⟨0, 0, K_WORK, 0, [0, 0, 0, 0]⟩)] ++ [(p + 64 * 2, ⟨(p + 64 * 1), 0, K_WORK, 0, [0, 0, 0, 0]⟩)] ++ [(p + 64 * 4, ⟨0, I_DEVA, K_DEV, 0, [0, 0, 0, 0]⟩)] ++ [(p + 64 * 5, ⟨(p + 64 * 4), I_DEVA, K_DEV, 0, [0, 0, 0, 0]⟩)] ++ [(p + 64 * 6, ⟨(p + 64 * 5), I_DEVA, K_DEV, 0, [0, 0, 0, 0]⟩)] ++ [(p + 64 * 8, ⟨0, I_DEVB, K_DEV, 0, [0, 0, 0, 0]⟩)] ++ [(p + 64 * 9, ⟨(p + 64 * 8), I_DEVB, K_DEV, 0, [0, 0, 0, 0]⟩)] ++ [(p + 64 * 10, ⟨(p + 64 * 9), I_DEVB, K_DEV, 0, [0, 0, 0, 0]⟩)])).Below (p + 64 * 14) := Mem.Below.mono bP13 (by omega)
  unfold bench_setup
  simp only [e1, e2, e3, e4, e5, e6, e7, e8, e9, e10, e11, e12, e13, e14]

/-- The canonical setup: what `bench` has built when it calls `schedule` is the
configuration that the flat state `FState.start` stands for. -/
theorem bench_setup_place (cells : Mem Nat) (pool p : Nat) (hp : 0 < p)
    (hcells : ∀ k, k < 14 → cells.read (p + 64 * k) = p + 64 * (k + 1))
    (T0 : List (Nat × Task)) (L0 : List (Nat × Packet)) (hT : (Mem.ofList T0).Below p)
    (hP : (Mem.ofList L0).Below p)
    (a1 a2 a3 a4 a5 a6 tasklist tcb : Nat) (taskid v1 v2 qc hc tr lay : Int) :
    (bench_setup (⟨cells, pool, p⟩,
        ⟨Mem.ofList T0, Mem.ofList L0, [10, a1, a2, a3, a4, a5, a6, 0, 0, 0, 0], tasklist, tcb,
          taskid, v1, v2, qc, hc, tr, lay⟩)).1 = ⟨cells, pool, p + 64 * 14⟩ ∧
    Place.ok ⟨p, tasklist, T0, L0⟩ ∧
    Place.Rep ⟨p, tasklist, T0, L0⟩ FState.start
      (bench_setup (⟨cells, pool, p⟩,
        ⟨Mem.ofList T0, Mem.ofList L0, [10, a1, a2, a3, a4, a5, a6, 0, 0, 0, 0], tasklist, tcb,
          taskid, v1, v2, qc, hc, tr, lay⟩)).2 := by
  have h := bench_setup_eq cells pool p hp hcells T0 L0 hT hP a1 a2 a3 a4 a5 a6 tasklist tcb
    taskid v1 v2 qc hc tr lay
  rw [show p + 64 * 0 = p from rfl] at h
  rw [h]
  refine ⟨rfl, ⟨hp, hT, hP⟩, ?_, ?_, rfl, rfl, rfl, rfl, rfl, rfl⟩
  · simp only [List.append_assoc, List.cons_append, List.nil_append]
    rfl
  · simp only [List.append_assoc, List.cons_append, List.nil_append]
    rfl

/-! ## The task list of a run -/

theorem State.listFrom_zero (s : State) (n : Nat) : s.listFrom n 0 = [] := by
  cases n with
  | zero => rfl
  | succ n => simp [State.listFrom]

/-- One step of the walk along the task list. -/
theorem Place.listFrom_step (E : Place) (h : E.ok) (f : FState) (S : State)
    (hR : E.Rep f S) (n j : Nat) (T : FTask) (hr : f.tasks.rd j = some T) :
    S.listFrom (n + 1) (E.cell j) = E.cell j :: S.listFrom n (E.tptr (tLink j)) := by
  rw [State.listFrom, if_neg (E.cell_ne_zero h j), E.task_read h S f.tasks hR.1 j T hr]
  rfl

/-- The six tasks of a run, from the head of the task list on. -/
theorem Place.listFrom_six (E : Place) (h : E.ok) (f : FState) (S : State) (hR : E.Rep f S)
    (n : Nat) :
    S.listFrom (n + 6) S.tasklist
      = E.cell 14 :: E.cell 13 :: E.cell 12 :: E.cell 8 :: E.cell 4 :: E.cell 1 ::
          S.listFrom n E.L := by
  have r14 : f.tasks.rd 14 = some f.tasks.t14 := by rw [FTasks.task_rd_eq]; rfl
  have r13 : f.tasks.rd 13 = some f.tasks.t13 := by rw [FTasks.task_rd_eq]; rfl
  have r12 : f.tasks.rd 12 = some f.tasks.t12 := by rw [FTasks.task_rd_eq]; rfl
  have r8 : f.tasks.rd 8 = some f.tasks.t8 := by rw [FTasks.task_rd_eq]; rfl
  have r4 : f.tasks.rd 4 = some f.tasks.t4 := by rw [FTasks.task_rd_eq]; rfl
  have r1 : f.tasks.rd 1 = some f.tasks.t1 := by rw [FTasks.task_rd_eq]; rfl
  have e13 : E.tptr (tLink 14) = E.cell 13 := rfl
  have e12 : E.tptr (tLink 13) = E.cell 12 := rfl
  have e8 : E.tptr (tLink 12) = E.cell 8 := rfl
  have e4 : E.tptr (tLink 8) = E.cell 4 := rfl
  have e1 : E.tptr (tLink 4) = E.cell 1 := rfl
  have e0 : E.tptr (tLink 1) = E.L := rfl
  rw [hR.2.2.2.2.2.2.2, E.listFrom_step h f S hR (n + 5) 14 _ r14, e13,
    E.listFrom_step h f S hR (n + 4) 13 _ r13, e12, E.listFrom_step h f S hR (n + 3) 12 _ r12, e8,
    E.listFrom_step h f S hR (n + 2) 8 _ r8, e4, E.listFrom_step h f S hR (n + 1) 4 _ r4, e1,
    E.listFrom_step h f S hR n 1 _ r1, e0]

theorem canonical_list (E : Place) (h : E.ok) (hL : E.L = 0) (f : FState) (S : State)
    (hR : E.Rep f S) :
    S.listFrom 7 S.tasklist
      = [E.cell 14, E.cell 13, E.cell 12, E.cell 8, E.cell 4, E.cell 1] := by
  rw [E.listFrom_six h f S hR 1, hL, State.listFrom_zero]

theorem Place.task_six (E : Place) (h : E.ok) (f : FState) (S : State) (hR : E.Rep f S) :
    S.task (E.cell 14) = E.task 14 f.tasks.t14 ∧ S.task (E.cell 13) = E.task 13 f.tasks.t13 ∧
      S.task (E.cell 12) = E.task 12 f.tasks.t12 ∧ S.task (E.cell 8) = E.task 8 f.tasks.t8 ∧
      S.task (E.cell 4) = E.task 4 f.tasks.t4 ∧ S.task (E.cell 1) = E.task 1 f.tasks.t1 := by
  have r14 : f.tasks.rd 14 = some f.tasks.t14 := by rw [FTasks.task_rd_eq]; rfl
  have r13 : f.tasks.rd 13 = some f.tasks.t13 := by rw [FTasks.task_rd_eq]; rfl
  have r12 : f.tasks.rd 12 = some f.tasks.t12 := by rw [FTasks.task_rd_eq]; rfl
  have r8 : f.tasks.rd 8 = some f.tasks.t8 := by rw [FTasks.task_rd_eq]; rfl
  have r4 : f.tasks.rd 4 = some f.tasks.t4 := by rw [FTasks.task_rd_eq]; rfl
  have r1 : f.tasks.rd 1 = some f.tasks.t1 := by rw [FTasks.task_rd_eq]; rfl
  exact ⟨E.task_read h S _ hR.1 _ _ r14, E.task_read h S _ hR.1 _ _ r13,
    E.task_read h S _ hR.1 _ _ r12, E.task_read h S _ hR.1 _ _ r8,
    E.task_read h S _ hR.1 _ _ r4, E.task_read h S _ hR.1 _ _ r1⟩

theorem canonical_priorities (E : Place) (h : E.ok) (hL : E.L = 0) (f : FState) (S : State)
    (hR : E.Rep f S) :
    (S.listFrom 7 S.tasklist).map (fun t => (S.task t).t_pri)
      = [5000, 4000, 3000, 2000, 1000, 0] := by
  obtain ⟨a, b, c, d, e, g⟩ := E.task_six h f S hR
  rw [canonical_list E h hL f S hR]
  simp only [List.map, a, b, c, d, e, g]
  rfl

theorem canonical_ids (E : Place) (h : E.ok) (hL : E.L = 0) (f : FState) (S : State)
    (hR : E.Rep f S) :
    (S.listFrom 7 S.tasklist).map (fun t => (S.task t).t_id)
      = [I_DEVB, I_DEVA, I_HANDLERB, I_HANDLERA, I_WORK, I_IDLE] := by
  obtain ⟨a, b, c, d, e, g⟩ := E.task_six h f S hR
  rw [canonical_list E h hL f S hR]
  simp only [List.map, a, b, c, d, e, g]
  rfl

/-! ## The second evaluator computes what the first one does -/

theorem FState.bad_tcb : FState.bad.tcb = 15 := rfl

theorem FState.bad_absurd {r : FState} {C : Prop} (h : FState.bad = r) (hr : r.tcb ≠ 15) : C :=
  absurd (h ▸ FState.bad_tcb) hr

theorem bool_cases {α : Type} (b : Bool) (x y r : α) (h : (Bool.casesOn b x y : α) = r) :
    (b = false ∧ x = r) ∨ (b = true ∧ y = r) := by
  cases b
  · exact Or.inl ⟨rfl, h⟩
  · exact Or.inr ⟨rfl, h⟩

theorem gBit_true (n : Nat) (h : gBit n = true) : n = 2 ∨ n = 4 ∨ n = 5 ∨ n = 6 ∨ n = 7 := by
  by_cases hn : n < 8
  · interval_cases n <;> first | exact absurd h (by decide) | decide
  · have h8 : 244 >>> n = 0 := by
      rw [Nat.shiftRight_eq_div_pow]
      apply Nat.div_eq_of_lt
      calc 244 < 2 ^ 8 := by decide
        _ ≤ 2 ^ n := Nat.pow_le_pow_right (by decide) (by omega)
    have : gBit n = false := by
      show Nat.beq (Nat.land (244 >>> n) 1) 1 = false
      rw [h8]
      rfl
    rw [this] at h
    exact absurd h (by decide)

theorem gParked_sound (T : FTask) (h : gParked T = true) : fParked T.state = true := by
  obtain ⟨w, st, v1, v2⟩ := T
  cases st with
  | ofNat n =>
    have hb : gBit n = true := h
    rcases gBit_true n hb with h | h | h | h | h <;> subst h <;> rfl
  | negSucc n => exact absurd (show false = true from h) (by decide)

theorem gPkt_spec (i : Nat) (ps : FPkts) (k : PCont) (r : FState) (h : gPkt i ps k = r)
    (hr : r.tcb ≠ 15) : ∃ P, ps.rd i = some P ∧ k P (ps.wr i) = r := by
  obtain ⟨a, b, c, d, e, f, g, p⟩ := ps
  by_cases hi : i < 12
  · interval_cases i
    all_goals first
      | exact ⟨_, rfl, h⟩
      | exact FState.bad_absurd h hr
  · have h0 : gPkt i = gP0 := by
      have e1 : Nat.ble i 6 = false := by
        cases hb : Nat.ble i 6
        · rfl
        · exact absurd (Nat.le_of_ble_eq_true hb) (by omega)
      have e2 : Nat.ble i 9 = false := by
        cases hb : Nat.ble i 9
        · rfl
        · exact absurd (Nat.le_of_ble_eq_true hb) (by omega)
      have e3 : Nat.beq i 10 = false := by
        cases hb : Nat.beq i 10
        · rfl
        · exact absurd (Nat.eq_of_beq_eq_true hb) (by omega)
      have e4 : Nat.beq i 11 = false := by
        cases hb : Nat.beq i 11
        · rfl
        · exact absurd (Nat.eq_of_beq_eq_true hb) (by omega)
      show (Bool.casesOn (Nat.ble i 6)
        (Bool.casesOn (Nat.ble i 9)
          (Bool.casesOn (Nat.beq i 10) (Bool.casesOn (Nat.beq i 11) gP0 gP11) gP10)
          (Bool.casesOn (Nat.beq i 7) (Bool.casesOn (Nat.beq i 9) gP0 gP9) gP7))
        (Bool.casesOn (Nat.ble i 3)
          (Bool.casesOn (Nat.beq i 5) (Bool.casesOn (Nat.beq i 6) gP0 gP6) gP5)
          (Bool.casesOn (Nat.beq i 2) (Bool.casesOn (Nat.beq i 3) gP0 gP3) gP2)) :
          FPkts → PCont → FState) = gP0
      rw [e1, e2, e3, e4]
    rw [h0] at h
    exact FState.bad_absurd h hr

/-- One more packet of the chain. -/
theorem gLast_step (n : Nat) (G : FPkts → Nat → Nat → (FPkts → FState) → FState)
    (hG : ∀ ps i pkt k r, G ps i pkt k = r → r.tcb ≠ 15 →
      ∃ q Q, fWalk n ps i = some q ∧ ps.rd q = some Q ∧
        k (ps.wr q ⟨pkt, Q.id, Q.a1, Q.b0, Q.b1, Q.b2, Q.b3⟩) = r)
    (ps : FPkts) (i pkt : Nat) (k : FPkts → FState) (r : FState)
    (h : (gPkt i ps fun Q set => FPkt.casesOn Q fun l id a1 b0 b1 b2 b3 =>
      Bool.casesOn (Nat.beq l (nat_lit 0)) (G ps l pkt k)
        (k (set ⟨pkt, id, a1, b0, b1, b2, b3⟩))) = r) (hr : r.tcb ≠ 15) :
    ∃ q Q, fWalk (n + 1) ps i = some q ∧ ps.rd q = some Q ∧
      k (ps.wr q ⟨pkt, Q.id, Q.a1, Q.b0, Q.b1, Q.b2, Q.b3⟩) = r := by
  obtain ⟨Q, hQ, hk⟩ := gPkt_spec _ _ _ _ h hr
  obtain ⟨l, id, a1, b0, b1, b2, b3⟩ := Q
  dsimp only at hk
  rcases bool_cases _ _ _ _ hk with ⟨hl, hk⟩ | ⟨hl, hk⟩
  · obtain ⟨q, Q, h1, h2, h3⟩ := hG _ _ _ _ _ hk hr
    refine ⟨q, Q, ?_, h2, h3⟩
    unfold fWalk
    rw [hQ]
    show (bif Nat.beq l 0 then some i else fWalk n ps l) = some q
    rw [hl]
    exact h1
  · refine ⟨i, _, ?_, hQ, hk⟩
    unfold fWalk
    rw [hQ]
    show (bif Nat.beq l 0 then some i else fWalk n ps l) = some i
    rw [hl]
    rfl

theorem gLast1_spec (ps : FPkts) (i pkt : Nat) (k : FPkts → FState) (r : FState)
    (h : gLast1 ps i pkt k = r) (hr : r.tcb ≠ 15) :
    ∃ q Q, fWalk 1 ps i = some q ∧ ps.rd q = some Q ∧
      k (ps.wr q ⟨pkt, Q.id, Q.a1, Q.b0, Q.b1, Q.b2, Q.b3⟩) = r :=
  gLast_step 0 (fun _ _ _ _ => FState.bad) (fun _ _ _ _ _ h hr => FState.bad_absurd h hr)
    ps i pkt k r h hr

theorem gLast2_spec (ps : FPkts) (i pkt : Nat) (k : FPkts → FState) (r : FState)
    (h : gLast2 ps i pkt k = r) (hr : r.tcb ≠ 15) :
    ∃ q Q, fWalk 2 ps i = some q ∧ ps.rd q = some Q ∧
      k (ps.wr q ⟨pkt, Q.id, Q.a1, Q.b0, Q.b1, Q.b2, Q.b3⟩) = r :=
  gLast_step 1 gLast1 gLast1_spec ps i pkt k r h hr

theorem gLast3_spec (ps : FPkts) (i pkt : Nat) (k : FPkts → FState) (r : FState)
    (h : gLast3 ps i pkt k = r) (hr : r.tcb ≠ 15) :
    ∃ q Q, fWalk 3 ps i = some q ∧ ps.rd q = some Q ∧
      k (ps.wr q ⟨pkt, Q.id, Q.a1, Q.b0, Q.b1, Q.b2, Q.b3⟩) = r :=
  gLast_step 2 gLast2 gLast2_spec ps i pkt k r h hr

/-- The chain walk of the second evaluator gives what `fWalk` gives, for every fuel from
4 on. -/
theorem gLast4_spec (ps : FPkts) (i pkt : Nat) (k : FPkts → FState) (r : FState)
    (h : gLast4 ps i pkt k = r) (hr : r.tcb ≠ 15) :
    ∃ q Q, (∀ fuel, 4 ≤ fuel → fWalk fuel ps i = some q) ∧ ps.rd q = some Q ∧
      k (ps.wr q ⟨pkt, Q.id, Q.a1, Q.b0, Q.b1, Q.b2, Q.b3⟩) = r := by
  obtain ⟨q, Q, h1, h2, h3⟩ := gLast_step 3 gLast3 gLast3_spec ps i pkt k r h hr
  exact ⟨q, Q, fun fuel hf => fWalk_mono ps 4 fuel i q hf h1, h2, h3⟩

/-- The function `append` of the second evaluator gives what `fAppend` gives. -/
theorem gApp_spec (ps : FPkts) (hd pkt : Nat) (k : FPkts → Nat → FState) (r : FState)
    (h : gApp ps hd pkt k = r) (hr : r.tcb ≠ 15) :
    ∃ ps1 h1, (∀ fuel, 5 ≤ fuel → fAppend fuel ps hd pkt = some (ps1, h1)) ∧ k ps1 h1 = r := by
  obtain ⟨P, hP, hk⟩ := gPkt_spec _ _ _ _ h hr
  obtain ⟨l, id, a1, b0, b1, b2, b3⟩ := P
  dsimp only at hk
  rcases bool_cases _ _ _ _ hk with ⟨hl, hk⟩ | ⟨hl, hk⟩
  · obtain ⟨q, Q, h1, h2, h3⟩ := gLast4_spec _ _ _ _ _ hk hr
    refine ⟨_, _, ?_, h3⟩
    intro fuel hf
    obtain ⟨j, rfl⟩ : ∃ j, fuel = j + 1 := ⟨fuel - 1, by omega⟩
    unfold fAppend
    simp only [hP]
    show (bif Nat.beq hd 0 then _ else _) = _
    rw [hl]
    simp only [cond_false, h1 j (by omega), h2]
  · refine ⟨_, _, ?_, hk⟩
    intro fuel hf
    obtain ⟨j, rfl⟩ : ∃ j, fuel = j + 1 := ⟨fuel - 1, by omega⟩
    unfold fAppend
    simp only [hP]
    show (bif Nat.beq hd 0 then _ else _) = _
    rw [hl]
    rfl

/-- The function `qpkt` of the second evaluator, followed by the end of the dispatch,
gives what `fQpkt` and `fSent` give. -/
theorem gSend_spec (k : Cont) (idc : Int) (U : FTask) (mkE : FTask → FTasks) (tsN : FTasks)
    (nxE cc : Nat) (set : FPkt → FPkts) (pkt : Nat) (a1 b0 b1 b2 b3 q h : Int) (r : FState)
    (f : FState) (ts : FTasks) (ps : FPkts) (T : FTask) (v1 v2 : Int) (l : Nat) (id : Int)
    (t fuel : Nat) (hfuel : 5 ≤ fuel) (hq : f.qpktcount = q) (hh : f.holdcount = h)
    (hP : ps.rd pkt = some ⟨l, id, a1, b0, b1, b2, b3⟩) (hset : set = ps.wr pkt)
    (hfind : fFind id = t) (ht0 : Nat.beq t 0 = false) (htc : Nat.beq t cc = false)
    (hU : ts.rd t = some U) (hidc : idc = tId cc)
    (hmkE : ∀ u, mkE u = (ts.wr t u).wr cc ⟨T.wkq, T.state, v1, v2⟩)
    (htsN : tsN = ts.wr cc ⟨T.wkq, T.state, v1, v2⟩)
    (hnx : nxE = bif Nat.blt (tPri cc) (tPri t) then t else cc)
    (hg : gSend k idc U mkE tsN nxE cc set pkt a1 b0 b1 b2 b3 q h = r) (hr : r.tcb ≠ 15) :
    ∃ f', fSent f cc T v1 v2 (fQpkt fuel ts ps cc pkt) = some f' ∧
      k f'.tasks f'.pkts f'.tcb f'.qpktcount f'.holdcount = r := by
  obtain ⟨uw, ust, uv1, uv2⟩ := U
  subst hset hidc htsN hnx hq hh
  unfold gSend at hg
  dsimp only at hg
  rcases bool_cases _ _ _ _ hg with ⟨hw, hk⟩ | ⟨hw, hk⟩
  · obtain ⟨q', Q, h1, h2, h3⟩ := gLast4_spec _ _ _ _ _ hk hr
    obtain ⟨j, rfl⟩ : ∃ j, fuel = j + 1 := ⟨fuel - 1, by omega⟩
    have hQ : fQpkt (j + 1) ts ps cc pkt
        = some (ts, (ps.wr pkt ⟨0, tId cc, a1, b0, b1, b2, b3⟩).wr q'
            ⟨pkt, Q.id, Q.a1, Q.b0, Q.b1, Q.b2, Q.b3⟩, cc) := by
      unfold fQpkt
      simp only [hP, hfind, ht0, htc, hU, cond_false]
      show (bif Nat.beq uw 0 then _ else _) = _
      rw [hw]
      simp only [cond_false, h1 j (by omega), h2]
    rw [hQ]
    exact ⟨_, rfl, h3⟩
  · cases ust with
    | negSucc n => exact FState.bad_absurd hk hr
    | ofNat us =>
      dsimp only at hk
      have hQ : fQpkt fuel ts ps cc pkt
          = some (ts.wr t ⟨pkt, Int.lor (Int.ofNat us) 1, uv1, uv2⟩,
              ps.wr pkt ⟨0, tId cc, a1, b0, b1, b2, b3⟩,
              bif Nat.blt (tPri cc) (tPri t) then t else cc) := by
        unfold fQpkt
        simp only [hP, hfind, ht0, htc, hU, cond_false]
        show (bif Nat.beq uw 0 then _ else _) = _
        rw [hw]
        rfl
      rw [hQ]
      refine ⟨_, rfl, ?_⟩
      rw [hmkE] at hk
      exact hk

/-! ## The cases of an iteration -/

theorem fStep_pass (fuel : Nat) (f : FState) (T : FTask) (n : Nat)
    (hT : f.tasks.rd f.tcb = some T) (hst : T.state = Int.ofNat n)
    (hn : n = 2 ∨ n = 4 ∨ n = 5 ∨ n = 6 ∨ n = 7) :
    fStep fuel f = some ⟨f.tasks, f.pkts, tLink f.tcb, f.qpktcount, f.holdcount⟩ := by
  unfold fStep
  rw [hT]
  dsimp only
  rw [hst]
  rcases hn with rfl | rfl | rfl | rfl | rfl <;> rfl

theorem fStep_run (fuel : Nat) (f : FState) (T : FTask) (n : Nat)
    (hT : f.tasks.rd f.tcb = some T) (hst : T.state = Int.ofNat n)
    (hn : Nat.ble n 1 = true) : fStep fuel f = fCall fuel f f.tasks f.tcb T 0 := by
  have hn1 : n ≤ 1 := Nat.le_of_ble_eq_true hn
  unfold fStep
  rw [hT]
  dsimp only
  rw [hst]
  interval_cases n <;> rfl

theorem fStep_deq (fuel : Nat) (f : FState) (T : FTask) (P : FPkt)
    (hT : f.tasks.rd f.tcb = some T) (hst : T.state = Int.ofNat 3)
    (hP : f.pkts.rd T.wkq = some P) :
    fStep fuel f = fCall fuel f
      (f.tasks.wr f.tcb ⟨P.link, bif Nat.beq P.link 0 then 0 else 1, T.v1, T.v2⟩) f.tcb
      ⟨P.link, bif Nat.beq P.link 0 then 0 else 1, T.v1, T.v2⟩ T.wkq := by
  unfold fStep
  rw [hT]
  dsimp only
  rw [hst]
  show (match f.pkts.rd T.wkq with
    | none => none
    | some P => fCall fuel f
        (f.tasks.wr f.tcb ⟨P.link, bif Nat.beq P.link 0 then 0 else 1, T.v1, T.v2⟩) f.tcb
        ⟨P.link, bif Nat.beq P.link 0 then 0 else 1, T.v1, T.v2⟩ T.wkq) = _
  rw [hP]

theorem beq_pkt_zero (ps : FPkts) (i : Nat) (P : FPkt) (h : ps.rd i = some P) :
    Nat.beq i 0 = false := by
  have := FPkts.pkt_pos_of_rd ps i P h
  cases hb : Nat.beq i 0
  · rfl
  · exact absurd (Nat.eq_of_beq_eq_true hb) this

/-- A dispatch of `devfn` in the second evaluator gives what `fStep` gives. -/
theorem gDev_spec (k : Cont) (ts : FTasks) (ps : FPkts) (q h : Int) (T : FTask)
    (mk : FTask → FTasks) (mk2 : FTask → FTask → FTasks) (U : FTask) (cc lk : Nat) (idc : Int)
    (eid : Nat) (r : FState) (t fuel : Nat) (hfuel : 5 ≤ fuel)
    (hT : ts.rd cc = some T)
    (hmk : ∀ T' x, mk x = (ts.wr cc T').wr cc x) (hmk0 : ∀ x, mk x = ts.wr cc x)
    (hmk2 : ∀ u x, mk2 u x = (ts.wr t u).wr cc x)
    (hU : ts.rd t = some U) (hfind : fFind (Int.ofNat eid) = t) (ht0 : Nat.beq t 0 = false)
    (htc : Nat.beq t cc = false) (hlk : tLink cc = lk) (hidc : idc = tId cc)
    (hpri : Nat.blt (tPri cc) (tPri t) = false)
    (hc4 : Nat.ble cc 4 = false) (hc12 : Nat.ble cc 12 = false)
    (hg : gDev k ts ps q h T mk mk2 U cc lk idc eid = r) (hr : r.tcb ≠ 15) :
    ∃ f', fStep fuel ⟨ts, ps, cc, q, h⟩ = some f' ∧
      k f'.tasks f'.pkts f'.tcb f'.qpktcount f'.holdcount = r := by
  obtain ⟨wkq, st, v1, v2⟩ := T
  have hcall : ∀ ts' T' pkt, fCall fuel ⟨ts, ps, cc, q, h⟩ ts' cc T' pkt
      = fDev fuel ⟨ts, ps, cc, q, h⟩ ts' cc T' pkt := by
    intro ts' T' pkt
    unfold fCall
    rw [hc4, hc12]
    rfl
  cases st with
  | negSucc n => exact FState.bad_absurd hg hr
  | ofNat n =>
    unfold gDev at hg
    dsimp only at hg
    rcases bool_cases _ _ _ _ hg with ⟨hb, hg⟩ | ⟨hb, hg⟩
    · unfold gDevGo at hg
      rcases bool_cases _ _ _ _ hg with ⟨hn1, hg⟩ | ⟨hn1, hg⟩
      · rcases bool_cases _ _ _ _ hg with ⟨hn3, hg⟩ | ⟨hn3, hg⟩
        · exact FState.bad_absurd hg hr
        · have h3 : n = 3 := Nat.eq_of_beq_eq_true hn3
          subst h3
          obtain ⟨P, hP, hk⟩ := gPkt_spec _ _ _ _ hg hr
          obtain ⟨l, id, a1, b0, b1, b2, b3⟩ := P
          dsimp only at hk
          rw [fStep_deq fuel ⟨ts, ps, cc, q, h⟩ _ _ hT rfl hP, hcall]
          unfold fDev
          dsimp only
          rw [beq_pkt_zero ps wkq _ hP]
          refine ⟨_, rfl, ?_⟩
          rw [hmk ⟨l, bif Nat.beq l 0 then 0 else 1, v1, v2⟩, ← hlk] at hk
          cases hl : Nat.beq l 0 <;> rw [hl] at hk <;> exact hk
      · cases v1 with
        | negSucc m => exact FState.bad_absurd hg hr
        | ofNat m =>
          dsimp only at hg
          rw [fStep_run fuel ⟨ts, ps, cc, q, h⟩ _ n hT rfl hn1, hcall]
          unfold fDev
          dsimp only
          rcases bool_cases _ _ _ _ hg with ⟨hm, hg⟩ | ⟨hm, hg⟩
          · obtain ⟨P, hP, hk⟩ := gPkt_spec _ _ _ _ hg hr
            obtain ⟨l, id, a1, b0, b1, b2, b3⟩ := P
            dsimp only at hk
            cases id with
            | negSucc i => exact FState.bad_absurd hk hr
            | ofNat i =>
              dsimp only at hk
              rcases bool_cases _ _ _ _ hk with ⟨hi, hk2⟩ | ⟨hi, hk2⟩
              · exact FState.bad_absurd hk2 hr
              · have hie : i = eid := Nat.eq_of_beq_eq_true hi
                clear hk hi
                subst hie
                have hm' : Nat.beq (Int.toNat (Int.ofNat m)) 0 = false := hm
                rw [show Nat.beq 0 0 = true from rfl, cond_true, hm', cond_false]
                exact gSend_spec k idc U _ _ cc cc _ m a1 b0 b1 b2 b3 q h r ⟨ts, ps, cc, q, h⟩ ts
                  ps ⟨wkq, Int.ofNat n, Int.ofNat m, v2⟩ 0 v2 l (Int.ofNat i) t fuel hfuel rfl rfl
                  hP rfl hfind ht0 htc hU hidc (fun u => hmk2 u _) (hmk0 _)
                  (by rw [hpri]; rfl) hk2 hr
          · have hm' : Nat.beq (Int.toNat (Int.ofNat m)) 0 = true := hm
            rw [show Nat.beq 0 0 = true from rfl, cond_true, hm', cond_true]
            refine ⟨_, rfl, ?_⟩
            rw [hmk0] at hg
            exact hg
    · rw [fStep_pass fuel ⟨ts, ps, cc, q, h⟩ _ n hT rfl (gBit_true n hb)]
      refine ⟨_, rfl, ?_⟩
      rw [← hlk] at hg
      exact hg

/-! ## The handlers -/

theorem int_gt_three (na : Nat) : (Int.ofNat na > 3) ↔ Nat.ble 4 na = true := by
  rw [Nat.ble_eq]
  show (3 : Int) < (na : Int) ↔ 4 ≤ na
  omega

theorem char_of_le (l : Nat) (id a1 b0 b1 b2 b3 : Int) (na : Nat) (h : Nat.ble 4 na = false) :
    FPkt.char ⟨l, id, a1, b0, b1, b2, b3⟩ (Int.ofNat na).toNat
      = Bool.casesOn (Nat.ble na 1) (Bool.casesOn (Nat.beq na 2) b3 b2)
          (Bool.casesOn (Nat.beq na 0) b1 b0) := by
  have hn : na < 4 := by
    cases hb : Nat.ble 4 na
    · by_contra hc
      have : Nat.ble 4 na = true := Nat.ble_eq_true_of_le (by omega)
      rw [hb] at this
      exact absurd this (by decide)
    · rw [hb] at h
      exact absurd h (by decide)
  show FPkt.char ⟨l, id, a1, b0, b1, b2, b3⟩ na = _
  interval_cases na <;> rfl

/-- The part of `handlerfn` after the inbound packet has been filed gives what `fPair`
gives. -/
theorem gPair_spec (k : Cont) (cc : Nat) (idc : Int) (mk : FTask → FTasks) (UW : FTask)
    (mkW : FTask → FTask → FTasks) (UD : FTask) (mkD : FTask → FTask → FTasks) (nxD eid : Nat)
    (wkq sn w d : Nat) (ps : FPkts) (q h : Int) (r : FState)
    (f : FState) (ts : FTasks) (T : FTask) (fuel : Nat) (hfuel : 5 ≤ fuel)
    (hq : f.qpktcount = q) (hh : f.holdcount = h)
    (hTw : T.wkq = wkq) (hTs : T.state = Int.ofNat sn)
    (hmk : ∀ x, mk x = ts.wr cc x)
    (hmkW : ∀ u x, mkW u x = (ts.wr 4 u).wr cc x)
    (hmkD : ∀ u x, mkD u x = (ts.wr nxD u).wr cc x)
    (hUW : ts.rd 4 = some UW) (hUD : ts.rd nxD = some UD)
    (hfD : fFind (Int.ofNat eid) = nxD)
    (h4c : Nat.beq 4 cc = false) (hd0 : Nat.beq nxD 0 = false) (hdc : Nat.beq nxD cc = false)
    (hidc : idc = tId cc)
    (hpW : Nat.blt (tPri cc) (tPri 4) = false) (hpD : Nat.blt (tPri cc) (tPri nxD) = true)
    (hg : gPair k cc idc mk UW mkW UD mkD nxD eid wkq sn w d ps q h = r) (hr : r.tcb ≠ 15) :
    ∃ f', fPair fuel f ts ps cc T w d = some f' ∧
      k f'.tasks f'.pkts f'.tcb f'.qpktcount f'.holdcount = r := by
  obtain ⟨Tw, Ts, Tv1, Tv2⟩ := T
  dsimp only at hTw hTs
  subst hTw hTs hq hh
  have hwait : ∀ r', k (mk ⟨Tw, Int.ofNat (Nat.lor sn 2), Int.ofNat w, Int.ofNat d⟩) ps cc
        f.qpktcount f.holdcount = r' →
      ∃ f', fWait f ts ps cc ⟨Tw, Int.ofNat sn, Tv1, Tv2⟩ (Int.ofNat w) (Int.ofNat d) = some f' ∧
        k f'.tasks f'.pkts f'.tcb f'.qpktcount f'.holdcount = r' := by
    intro r' hk
    refine ⟨_, rfl, ?_⟩
    rw [hmk] at hk
    exact hk
  unfold gPair at hg
  unfold fPair
  rcases bool_cases _ _ _ _ hg with ⟨hw, hg1⟩ | ⟨hw, hg1⟩
  · rw [show Nat.beq w 0 = false from hw, cond_false]
    obtain ⟨W, hW, hk⟩ := gPkt_spec _ _ _ _ hg1 hr
    obtain ⟨wl, wid, wa1, wb0, wb1, wb2, wb3⟩ := W
    rw [hW]
    dsimp only at hk ⊢
    cases wa1 with
    | negSucc na => exact FState.bad_absurd hk hr
    | ofNat na =>
      dsimp only at hk
      rcases bool_cases _ _ _ _ hk with ⟨hna, hk1⟩ | ⟨hna, hk1⟩
      · have hna' : ¬ (Int.ofNat na > 3) := by
          rw [int_gt_three, hna]
          decide
        rw [if_neg hna']
        rcases bool_cases _ _ _ _ hk1 with ⟨hd, hk2⟩ | ⟨hd, hk2⟩
        · rw [show Nat.beq d 0 = false from hd, cond_false]
          obtain ⟨D, hD, hk3⟩ := gPkt_spec _ _ _ _ hk2 hr
          obtain ⟨dl, did, da1, db0, db1, db2, db3⟩ := D
          rw [hD]
          dsimp only at hk3 ⊢
          rw [char_of_le wl wid (Int.ofNat na) wb0 wb1 wb2 wb3 na hna]
          obtain ⟨W2, hW2, hk4⟩ := gPkt_spec _ _ _ _ hk3 hr
          obtain ⟨l2, id2, a2, c0, c1, c2, c3⟩ := W2
          rw [hW2]
          dsimp only at hk4 ⊢
          obtain ⟨D2, hD2, hk5⟩ := gPkt_spec _ _ _ _ hk4 hr
          obtain ⟨l3, id3, ea1, e0, e1, e2, e3⟩ := D2
          dsimp only at hk5
          cases id3 with
          | negSucc i => exact FState.bad_absurd hk5 hr
          | ofNat i =>
            dsimp only at hk5
            rcases bool_cases _ _ _ _ hk5 with ⟨hi, hk6⟩ | ⟨hi, hk6⟩
            · exact FState.bad_absurd hk6 hr
            · have hie : i = eid := Nat.eq_of_beq_eq_true hi
              clear hk5 hi
              subst hie
              exact gSend_spec k idc UD _ _ nxD cc _ d ea1 e0 e1 e2 e3 f.qpktcount f.holdcount r
                f ts _ ⟨Tw, Int.ofNat sn, Tv1, Tv2⟩ (Int.ofNat w) (Int.ofNat dl) l3 (Int.ofNat i)
                nxD fuel hfuel rfl rfl hD2 rfl hfD hd0 hdc hUD hidc (fun u => hmkD u _) (hmk _)
                (by rw [hpD]; rfl) hk6 hr
        · rw [show Nat.beq d 0 = true from hd, cond_true]
          exact hwait r hk2
      · have hna' : Int.ofNat na > 3 := by
          rw [int_gt_three, hna]
        rw [if_pos hna']
        cases wid with
        | negSucc i => exact FState.bad_absurd hk1 hr
        | ofNat i =>
          dsimp only at hk1
          rcases bool_cases _ _ _ _ hk1 with ⟨hi, hk2⟩ | ⟨hi, hk2⟩
          · exact FState.bad_absurd hk2 hr
          · have hie : i = 2 := Nat.eq_of_beq_eq_true hi
            clear hk1 hi
            subst hie
            exact gSend_spec k idc UW _ _ cc cc _ w (Int.ofNat na) wb0 wb1 wb2 wb3 f.qpktcount
              f.holdcount r f ts ps ⟨Tw, Int.ofNat sn, Tv1, Tv2⟩ (Int.ofNat wl) (Int.ofNat d)
              wl (Int.ofNat 2) 4 fuel hfuel rfl rfl hW rfl rfl rfl h4c hUW hidc
              (fun u => hmkW u _) (hmk _) (by rw [hpW]; rfl) hk2 hr
  · rw [show Nat.beq w 0 = true from hw, cond_true]
    exact hwait r hg1

theorem state_after_dequeue (l : Nat) :
    (bif Nat.beq l 0 then (0 : Int) else 1)
      = Int.ofNat (Bool.casesOn (Nat.beq l 0) (1 : Nat) (0 : Nat)) := by
  cases Nat.beq l 0 <;> rfl

/-- A dispatch of `handlerfn` in the second evaluator gives what `fStep` gives. -/
theorem gHandler_spec (k : Cont) (ts : FTasks) (ps : FPkts) (q h : Int) (T : FTask)
    (cc lk : Nat) (idc : Int) (mk : FTask → FTasks) (UW : FTask)
    (mkW : FTask → FTask → FTasks) (UD : FTask) (mkD : FTask → FTask → FTasks) (nxD eid : Nat)
    (r : FState) (fuel : Nat) (hfuel : 5 ≤ fuel)
    (hT : ts.rd cc = some T)
    (hmk : ∀ T' x, mk x = (ts.wr cc T').wr cc x) (hmk0 : ∀ x, mk x = ts.wr cc x)
    (hmkW : ∀ T' u x, mkW u x = ((ts.wr cc T').wr 4 u).wr cc x)
    (hmkW0 : ∀ u x, mkW u x = (ts.wr 4 u).wr cc x)
    (hmkD : ∀ T' u x, mkD u x = ((ts.wr cc T').wr nxD u).wr cc x)
    (hmkD0 : ∀ u x, mkD u x = (ts.wr nxD u).wr cc x)
    (hUW : ∀ T', (ts.wr cc T').rd 4 = some UW) (hUW0 : ts.rd 4 = some UW)
    (hUD : ∀ T', (ts.wr cc T').rd nxD = some UD) (hUD0 : ts.rd nxD = some UD)
    (hfD : fFind (Int.ofNat eid) = nxD)
    (h4c : Nat.beq 4 cc = false) (hd0 : Nat.beq nxD 0 = false) (hdc : Nat.beq nxD cc = false)
    (hlk : tLink cc = lk) (hidc : idc = tId cc)
    (hpW : Nat.blt (tPri cc) (tPri 4) = false) (hpD : Nat.blt (tPri cc) (tPri nxD) = true)
    (hc4 : Nat.ble cc 4 = false) (hc12 : Nat.ble cc 12 = true)
    (hg : gHandler k ts ps q h T cc lk idc mk UW mkW UD mkD nxD eid = r) (hr : r.tcb ≠ 15) :
    ∃ f', fStep fuel ⟨ts, ps, cc, q, h⟩ = some f' ∧
      k f'.tasks f'.pkts f'.tcb f'.qpktcount f'.holdcount = r := by
  obtain ⟨wkq, st, v1, v2⟩ := T
  have hcall : ∀ ts' T' pkt, fCall fuel ⟨ts, ps, cc, q, h⟩ ts' cc T' pkt
      = fHandler fuel ⟨ts, ps, cc, q, h⟩ ts' cc T' pkt := by
    intro ts' T' pkt
    unfold fCall
    rw [hc4, hc12]
    rfl
  cases st with
  | negSucc n => exact FState.bad_absurd hg hr
  | ofNat n =>
    unfold gHandler at hg
    dsimp only at hg
    rcases bool_cases _ _ _ _ hg with ⟨hb, hg1⟩ | ⟨hb, hg1⟩
    · unfold gHandlerGo at hg1
      cases v1 with
      | negSucc w => exact FState.bad_absurd hg1 hr
      | ofNat w =>
        cases v2 with
        | negSucc d => exact FState.bad_absurd hg1 hr
        | ofNat d =>
          dsimp only at hg1
          rcases bool_cases _ _ _ _ hg1 with ⟨hn1, hg2⟩ | ⟨hn1, hg2⟩
          · rcases bool_cases _ _ _ _ hg2 with ⟨hn3, hg3⟩ | ⟨hn3, hg3⟩
            · exact FState.bad_absurd hg3 hr
            · have h3 : n = 3 := Nat.eq_of_beq_eq_true hn3
              clear hg hg1 hg2 hn1 hn3 hb
              subst h3
              obtain ⟨P, hP, hk⟩ := gPkt_spec _ _ _ _ hg3 hr
              obtain ⟨l, id, a1, b0, b1, b2, b3⟩ := P
              dsimp only at hk
              rw [fStep_deq fuel ⟨ts, ps, cc, q, h⟩ _ _ hT rfl hP, hcall]
              unfold fHandler
              dsimp only
              rw [beq_pkt_zero ps wkq _ hP, cond_false]
              rcases bool_cases _ _ _ _ hk with ⟨h3, hk1⟩ | ⟨h3, hk1⟩
              · rw [show Nat.ble wkq 3 = false from h3, cond_false]
                obtain ⟨ps1, d1, hA, hk2⟩ := gApp_spec _ _ _ _ _ hk1 hr
                rw [show (Int.ofNat d).toNat = d from rfl, hA fuel hfuel]
                exact gPair_spec k cc idc mk UW mkW UD mkD nxD eid l _ w d1 ps1 q h r
                  ⟨ts, ps, cc, q, h⟩ _ _ fuel hfuel rfl rfl rfl (state_after_dequeue l)
                  (hmk _) (hmkW _) (hmkD _) (hUW _) (hUD _) hfD h4c hd0 hdc hidc hpW hpD hk2 hr
              · rw [show Nat.ble wkq 3 = true from h3, cond_true]
                obtain ⟨ps1, w1, hA, hk2⟩ := gApp_spec _ _ _ _ _ hk1 hr
                rw [show (Int.ofNat w).toNat = w from rfl, hA fuel hfuel]
                exact gPair_spec k cc idc mk UW mkW UD mkD nxD eid l _ w1 d ps1 q h r
                  ⟨ts, ps, cc, q, h⟩ _ _ fuel hfuel rfl rfl rfl (state_after_dequeue l)
                  (hmk _) (hmkW _) (hmkD _) (hUW _) (hUD _) hfD h4c hd0 hdc hidc hpW hpD hk2 hr
          · rw [fStep_run fuel ⟨ts, ps, cc, q, h⟩ _ n hT rfl hn1, hcall]
            unfold fHandler
            dsimp only
            rw [show Nat.beq 0 0 = true from rfl, cond_true]
            exact gPair_spec k cc idc mk UW mkW UD mkD nxD eid wkq n w d ps q h r
              ⟨ts, ps, cc, q, h⟩ _ _ fuel hfuel rfl rfl rfl rfl
              hmk0 hmkW0 hmkD0 hUW0 hUD0 hfD h4c hd0 hdc hidc hpW hpD hg2 hr
    · rw [fStep_pass fuel ⟨ts, ps, cc, q, h⟩ _ n hT rfl (gBit_true n hb)]
      refine ⟨_, rfl, ?_⟩
      rw [← hlk] at hg1
      exact hg1

/-! ## The worker and the idle task -/

theorem fBump_ofNat (j : Nat) : fBump (Int.ofNat j) = Int.ofNat (gBump j) := by
  unfold fBump gBump
  cases hb : Nat.ble 26 j
  · have hj : j < 26 := by
      by_contra hc
      have : Nat.ble 26 j = true := Nat.ble_eq_true_of_le (by omega)
      rw [hb] at this
      exact absurd this (by decide)
    have hn : ¬ (Int.ofNat j + 1 > 26) := by
      show ¬ ((26 : Int) < (j : Int) + 1)
      omega
    rw [if_neg hn]
    rfl
  · have hj : 26 ≤ j := Nat.le_of_ble_eq_true hb
    have hp : Int.ofNat j + 1 > 26 := by
      show (26 : Int) < (j : Int) + 1
      omega
    rw [if_pos hp]
    rfl

theorem gBump_range (j : Nat) : 1 ≤ gBump j ∧ gBump j ≤ 26 := by
  unfold gBump
  cases hb : Nat.ble 26 j
  · have hj : j < 26 := by
      by_contra hc
      have : Nat.ble 26 j = true := Nat.ble_eq_true_of_le (by omega)
      rw [hb] at this
      exact absurd this (by decide)
    show 1 ≤ Nat.succ j ∧ Nat.succ j ≤ 26
    omega
  · show 1 ≤ 1 ∧ 1 ≤ 26
    omega

theorem alphabet_gBump (j : Nat) :
    alphabet.getD (Int.ofNat (gBump j)).toNat 0 = Int.ofNat (Nat.add 64 (gBump j)) := by
  obtain ⟨h1, h2⟩ := gBump_range j
  show alphabet.getD (gBump j) 0 = _
  generalize gBump j = x at h1 h2
  interval_cases x <;> rfl

/-- A dispatch of `workfn` in the second evaluator gives what `fStep` gives. -/
theorem gWork_spec (k : Cont) (ps : FPkts) (q h : Int) (a T c d e g : FTask) (r : FState)
    (fuel : Nat) (hfuel : 5 ≤ fuel)
    (hg : gWork k ⟨a, T, c, d, e, g⟩ ps q h a T c d e g = r) (hr : r.tcb ≠ 15) :
    ∃ f', fStep fuel ⟨⟨a, T, c, d, e, g⟩, ps, 4, q, h⟩ = some f' ∧
      k f'.tasks f'.pkts f'.tcb f'.qpktcount f'.holdcount = r := by
  obtain ⟨wkq, st, v1, v2⟩ := T
  have hT : FTasks.rd ⟨a, ⟨wkq, st, v1, v2⟩, c, d, e, g⟩ 4 = some ⟨wkq, st, v1, v2⟩ := rfl
  have hcall : ∀ f ts' T' pkt, fCall fuel f ts' 4 T' pkt = fWork fuel f ts' T' pkt :=
    fun _ _ _ _ => rfl
  cases st with
  | negSucc n => exact FState.bad_absurd hg hr
  | ofNat n =>
    unfold gWork at hg
    dsimp only at hg
    rcases bool_cases _ _ _ _ hg with ⟨hb, hg1⟩ | ⟨hb, hg1⟩
    · unfold gWorkGo at hg1
      rcases bool_cases _ _ _ _ hg1 with ⟨hn1, hg2⟩ | ⟨hn1, hg2⟩
      · rcases bool_cases _ _ _ _ hg2 with ⟨hn3, hg3⟩ | ⟨hn3, hg3⟩
        · exact FState.bad_absurd hg3 hr
        · have h3 : n = 3 := Nat.eq_of_beq_eq_true hn3
          clear hg hg1 hg2 hn1 hn3 hb
          subst h3
          obtain ⟨P, hP, hk⟩ := gPkt_spec _ _ _ _ hg3 hr
          obtain ⟨l, id, a1, b0, b1, b2, b3⟩ := P
          dsimp only at hk
          rw [fStep_deq fuel ⟨_, ps, 4, q, h⟩ _ _ hT rfl hP, hcall]
          unfold fWork
          dsimp only
          rw [beq_pkt_zero ps wkq _ hP, cond_false, hP]
          dsimp only
          cases v1 with
          | negSucc m => exact FState.bad_absurd hk hr
          | ofNat m =>
            cases v2 with
            | negSucc j => exact FState.bad_absurd hk hr
            | ofNat j =>
              dsimp only at hk
              simp only [fBump_ofNat, alphabet_gBump, state_after_dequeue]
              have hset : ∀ X, ps.wr wkq = (ps.wr wkq X).wr wkq :=
                fun X => funext fun x => (FPkts.pkt_wr_wr ps wkq X x).symm
              have hrd : ∀ X, (ps.wr wkq X).rd wkq = some X := by
                intro X
                rw [FPkts.pkt_rd_wr ps wkq wkq _ X hP, if_pos rfl]
              rcases bool_cases _ _ _ _ hk with ⟨hm3, hk1⟩ | ⟨hm3, hk1⟩
              · rcases bool_cases _ _ _ _ hk1 with ⟨hm4, hk2⟩ | ⟨hm4, hk2⟩
                · exact FState.bad_absurd hk2 hr
                · have h4 : m = 4 := Nat.eq_of_beq_eq_true hm4
                  clear hk hk1 hm3 hm4
                  subst h4
                  unfold gFill at hk2
                  exact gSend_spec k (Int.ofNat 2) c _ _ 8 4 _ wkq _ _ _ _ _ q h r
                    ⟨_, ps, 4, q, h⟩ _ _ ⟨l, _, Int.ofNat 4, Int.ofNat j⟩ _ _ l (Int.ofNat 3) 8
                    fuel hfuel rfl rfl (hrd _) (hset _) rfl rfl rfl rfl rfl (fun u => rfl) rfl
                    rfl hk2 hr
              · have h3 : m = 3 := Nat.eq_of_beq_eq_true hm3
                clear hk hm3
                subst h3
                unfold gFill at hk1
                exact gSend_spec k (Int.ofNat 2) d _ _ 12 4 _ wkq _ _ _ _ _ q h r
                  ⟨_, ps, 4, q, h⟩ _ _ ⟨l, _, Int.ofNat 3, Int.ofNat j⟩ _ _ l (Int.ofNat 4) 12
                  fuel hfuel rfl rfl (hrd _) (hset _) rfl rfl rfl rfl rfl (fun u => rfl) rfl
                  rfl hk1 hr
      · rw [fStep_run fuel ⟨_, ps, 4, q, h⟩ _ n hT rfl hn1, hcall]
        exact ⟨_, rfl, hg2⟩
    · rw [fStep_pass fuel ⟨_, ps, 4, q, h⟩ _ n hT rfl (gBit_true n hb)]
      exact ⟨_, rfl, hg1⟩

theorem int_pred (j : Nat) (hj : 1 ≤ j) : Int.ofNat j - 1 = Int.ofNat (Nat.pred j) := by
  show (j : Int) - 1 = ((Nat.pred j : Nat) : Int)
  have : Nat.pred j = j - 1 := rfl
  rw [this]
  omega

theorem int_pred_ne (j : Nat) (hj : 2 ≤ j) : ¬ (Int.ofNat j - 1 = 0) := by
  show ¬ ((j : Int) - 1 = 0)
  omega

theorem int_land_one (m : Nat) : (Int.land (Int.ofNat m) 1 = 0) ↔ Nat.beq (Nat.land m 1) 0 = true := by
  show (Int.ofNat (Nat.land m 1) = 0) ↔ _
  constructor
  · intro h
    have : Nat.land m 1 = 0 := Int.ofNat.inj h
    rw [this]
    rfl
  · intro h
    have : Nat.land m 1 = 0 := Nat.eq_of_beq_eq_true h
    rw [this]
    rfl

theorem not_ble_one (j : Nat) (h : Nat.ble j 1 = false) : 2 ≤ j := by
  by_contra hc
  have : Nat.ble j 1 = true := Nat.ble_eq_true_of_le (by omega)
  rw [h] at this
  exact absurd this (by decide)

/-- A dispatch of `idlefn` in the second evaluator gives what `fStep` gives. -/
theorem gIdle_spec (k : Cont) (ps : FPkts) (q h : Int) (T b c d e g : FTask) (r : FState)
    (fuel : Nat)
    (hg : gIdle k ⟨T, b, c, d, e, g⟩ ps q h T b c d e g = r) (hr : r.tcb ≠ 15) :
    ∃ f', fStep fuel ⟨⟨T, b, c, d, e, g⟩, ps, 1, q, h⟩ = some f' ∧
      k f'.tasks f'.pkts f'.tcb f'.qpktcount f'.holdcount = r := by
  obtain ⟨wkq, st, v1, v2⟩ := T
  have hT : FTasks.rd ⟨⟨wkq, st, v1, v2⟩, b, c, d, e, g⟩ 1 = some ⟨wkq, st, v1, v2⟩ := rfl
  have hcall : ∀ f ts' T' pkt, fCall fuel f ts' 1 T' pkt = fIdle f ts' T' :=
    fun _ _ _ _ => rfl
  cases st with
  | negSucc n => exact FState.bad_absurd hg hr
  | ofNat n =>
    unfold gIdle at hg
    dsimp only at hg
    rcases bool_cases _ _ _ _ hg with ⟨hb, hg1⟩ | ⟨hb, hg1⟩
    · unfold gIdleGo at hg1
      rcases bool_cases _ _ _ _ hg1 with ⟨hn1, hg2⟩ | ⟨hn1, hg2⟩
      · exact FState.bad_absurd hg2 hr
      · rw [fStep_run fuel ⟨_, ps, 1, q, h⟩ _ n hT rfl hn1, hcall]
        unfold fIdle
        dsimp only
        cases v2 with
        | negSucc j => exact FState.bad_absurd hg2 hr
        | ofNat j =>
          dsimp only at hg2
          rcases bool_cases _ _ _ _ hg2 with ⟨hj1, hg3⟩ | ⟨hj1, hg3⟩
          · have hj2 : 2 ≤ j := not_ble_one j hj1
            rw [if_neg (int_pred_ne j hj2), int_pred j (by omega)]
            cases v1 with
            | negSucc m => exact FState.bad_absurd hg3 hr
            | ofNat m =>
              dsimp only at hg3
              rcases bool_cases _ _ _ _ hg3 with ⟨hm, hg4⟩ | ⟨hm, hg4⟩
              · have hne : ¬ (Int.land (Int.ofNat m) 1 = 0) := by
                  rw [int_land_one, hm]
                  decide
                rw [if_neg hne]
                obtain ⟨uw, ust, uv1, uv2⟩ := g
                cases ust with
                | negSucc us => exact FState.bad_absurd hg4 hr
                | ofNat us => exact ⟨_, rfl, hg4⟩
              · rw [if_pos ((int_land_one m).2 hm)]
                obtain ⟨uw, ust, uv1, uv2⟩ := e
                cases ust with
                | negSucc us => exact FState.bad_absurd hg4 hr
                | ofNat us => exact ⟨_, rfl, hg4⟩
          · rcases bool_cases _ _ _ _ hg3 with ⟨hj, hg4⟩ | ⟨hj, hg4⟩
            · exact FState.bad_absurd hg4 hr
            · have h1 : j = 1 := Nat.eq_of_beq_eq_true hj
              clear hg2 hg3 hj1 hj
              subst h1
              rw [if_pos (by decide)]
              exact ⟨_, rfl, hg4⟩
    · rw [fStep_pass fuel ⟨_, ps, 1, q, h⟩ _ n hT rfl (gBit_true n hb)]
      exact ⟨_, rfl, hg1⟩

/-! ## The iterations of the second evaluator -/

theorem g14_spec (k : Cont) (ts : FTasks) (ps : FPkts) (q h : Int) (r : FState) (fuel : Nat)
    (hfuel : 5 ≤ fuel) (hg : g14 k ts ps q h = r) (hr : r.tcb ≠ 15) :
    ∃ f', fOk ⟨ts, ps, 14, q, h⟩ = true ∧ fStep fuel ⟨ts, ps, 14, q, h⟩ = some f' ∧
      k f'.tasks f'.pkts f'.tcb f'.qpktcount f'.holdcount = r := by
  obtain ⟨a, b, c, d, e, g⟩ := ts
  unfold g14 at hg
  dsimp only at hg
  obtain ⟨f', h1, h2⟩ := gDev_spec k ⟨a, b, c, d, e, g⟩ ps q h g (fun x => ⟨a, b, c, d, e, x⟩)
    (fun u x => ⟨a, b, c, u, e, x⟩) d 14 13 (Int.ofNat 6) 4 r 12 fuel hfuel rfl
    (fun _ _ => rfl) (fun _ => rfl) (fun _ _ => rfl) rfl rfl rfl rfl rfl rfl rfl rfl rfl hg hr
  exact ⟨f', rfl, h1, h2⟩

theorem g13_spec (k : Cont) (ts : FTasks) (ps : FPkts) (q h : Int) (r : FState) (fuel : Nat)
    (hfuel : 5 ≤ fuel) (hg : g13 k ts ps q h = r) (hr : r.tcb ≠ 15) :
    ∃ f', fOk ⟨ts, ps, 13, q, h⟩ = true ∧ fStep fuel ⟨ts, ps, 13, q, h⟩ = some f' ∧
      k f'.tasks f'.pkts f'.tcb f'.qpktcount f'.holdcount = r := by
  obtain ⟨a, b, c, d, e, g⟩ := ts
  unfold g13 at hg
  dsimp only at hg
  rcases bool_cases _ _ _ _ hg with ⟨_, hg1⟩ | ⟨p14, hg1⟩
  · exact FState.bad_absurd hg1 hr
  obtain ⟨f', h1, h2⟩ := gDev_spec k ⟨a, b, c, d, e, g⟩ ps q h e (fun x => ⟨a, b, c, d, x, g⟩)
    (fun u x => ⟨a, b, u, d, x, g⟩) c 13 12 (Int.ofNat 5) 3 r 8 fuel hfuel rfl
    (fun _ _ => rfl) (fun _ => rfl) (fun _ _ => rfl) rfl rfl rfl rfl rfl rfl rfl rfl rfl hg1 hr
  refine ⟨f', ?_, h1, h2⟩
  have q14 := gParked_sound g p14
  show (true && (fParked g.state && (true && (true && (true && (true && true)))))) = true
  rw [q14]
  rfl

theorem g12_spec (k : Cont) (ts : FTasks) (ps : FPkts) (q h : Int) (r : FState) (fuel : Nat)
    (hfuel : 5 ≤ fuel) (hg : g12 k ts ps q h = r) (hr : r.tcb ≠ 15) :
    ∃ f', fOk ⟨ts, ps, 12, q, h⟩ = true ∧ fStep fuel ⟨ts, ps, 12, q, h⟩ = some f' ∧
      k f'.tasks f'.pkts f'.tcb f'.qpktcount f'.holdcount = r := by
  obtain ⟨a, b, c, d, e, g⟩ := ts
  unfold g12 at hg
  dsimp only at hg
  rcases bool_cases _ _ _ _ hg with ⟨_, hg1⟩ | ⟨p14, hg1⟩
  · exact FState.bad_absurd hg1 hr
  rcases bool_cases _ _ _ _ hg1 with ⟨_, hg2⟩ | ⟨p13, hg2⟩
  · exact FState.bad_absurd hg2 hr
  obtain ⟨f', h1, h2⟩ := gHandler_spec k ⟨a, b, c, d, e, g⟩ ps q h d 12 8 (Int.ofNat 4)
    (fun x => ⟨a, b, c, x, e, g⟩) b (fun u x => ⟨a, u, c, x, e, g⟩) g
    (fun u x => ⟨a, b, c, x, e, u⟩) 14 6 r fuel hfuel rfl
    (fun _ _ => rfl) (fun _ => rfl) (fun _ _ _ => rfl) (fun _ _ => rfl) (fun _ _ _ => rfl)
    (fun _ _ => rfl) (fun _ => rfl) rfl (fun _ => rfl) rfl rfl rfl rfl rfl rfl rfl rfl rfl rfl
    rfl hg2 hr
  refine ⟨f', ?_, h1, h2⟩
  have q14 := gParked_sound g p14
  have q13 := gParked_sound e p13
  show (true && (fParked g.state && (fParked e.state && (true && (true && (true && true))))))
    = true
  rw [q14, q13]
  rfl

theorem g8_spec (k : Cont) (ts : FTasks) (ps : FPkts) (q h : Int) (r : FState) (fuel : Nat)
    (hfuel : 5 ≤ fuel) (hg : g8 k ts ps q h = r) (hr : r.tcb ≠ 15) :
    ∃ f', fOk ⟨ts, ps, 8, q, h⟩ = true ∧ fStep fuel ⟨ts, ps, 8, q, h⟩ = some f' ∧
      k f'.tasks f'.pkts f'.tcb f'.qpktcount f'.holdcount = r := by
  obtain ⟨a, b, c, d, e, g⟩ := ts
  unfold g8 at hg
  dsimp only at hg
  rcases bool_cases _ _ _ _ hg with ⟨_, hg1⟩ | ⟨p14, hg1⟩
  · exact FState.bad_absurd hg1 hr
  rcases bool_cases _ _ _ _ hg1 with ⟨_, hg2⟩ | ⟨p13, hg2⟩
  · exact FState.bad_absurd hg2 hr
  rcases bool_cases _ _ _ _ hg2 with ⟨_, hg3⟩ | ⟨p12, hg3⟩
  · exact FState.bad_absurd hg3 hr
  obtain ⟨f', h1, h2⟩ := gHandler_spec k ⟨a, b, c, d, e, g⟩ ps q h c 8 4 (Int.ofNat 3)
    (fun x => ⟨a, b, x, d, e, g⟩) b (fun u x => ⟨a, u, x, d, e, g⟩) e
    (fun u x => ⟨a, b, x, d, u, g⟩) 13 5 r fuel hfuel rfl
    (fun _ _ => rfl) (fun _ => rfl) (fun _ _ _ => rfl) (fun _ _ => rfl) (fun _ _ _ => rfl)
    (fun _ _ => rfl) (fun _ => rfl) rfl (fun _ => rfl) rfl rfl rfl rfl rfl rfl rfl rfl rfl rfl
    rfl hg3 hr
  refine ⟨f', ?_, h1, h2⟩
  have q14 := gParked_sound g p14
  have q13 := gParked_sound e p13
  have q12 := gParked_sound d p12
  show (true && (fParked g.state && (fParked e.state && (fParked d.state &&
    (true && (true && true)))))) = true
  rw [q14, q13, q12]
  rfl

theorem g4_spec (k : Cont) (ts : FTasks) (ps : FPkts) (q h : Int) (r : FState) (fuel : Nat)
    (hfuel : 5 ≤ fuel) (hg : g4 k ts ps q h = r) (hr : r.tcb ≠ 15) :
    ∃ f', fOk ⟨ts, ps, 4, q, h⟩ = true ∧ fStep fuel ⟨ts, ps, 4, q, h⟩ = some f' ∧
      k f'.tasks f'.pkts f'.tcb f'.qpktcount f'.holdcount = r := by
  obtain ⟨a, b, c, d, e, g⟩ := ts
  unfold g4 at hg
  dsimp only at hg
  rcases bool_cases _ _ _ _ hg with ⟨_, hg1⟩ | ⟨p14, hg1⟩
  · exact FState.bad_absurd hg1 hr
  rcases bool_cases _ _ _ _ hg1 with ⟨_, hg2⟩ | ⟨p13, hg2⟩
  · exact FState.bad_absurd hg2 hr
  rcases bool_cases _ _ _ _ hg2 with ⟨_, hg3⟩ | ⟨p12, hg3⟩
  · exact FState.bad_absurd hg3 hr
  rcases bool_cases _ _ _ _ hg3 with ⟨_, hg4⟩ | ⟨p8, hg4⟩
  · exact FState.bad_absurd hg4 hr
  obtain ⟨f', h1, h2⟩ := gWork_spec k ps q h a b c d e g r fuel hfuel hg4 hr
  refine ⟨f', ?_, h1, h2⟩
  have q14 := gParked_sound g p14
  have q13 := gParked_sound e p13
  have q12 := gParked_sound d p12
  have q8 := gParked_sound c p8
  show (true && (fParked g.state && (fParked e.state && (fParked d.state &&
    (fParked c.state && (true && true)))))) = true
  rw [q14, q13, q12, q8]
  rfl

theorem g1_spec (k : Cont) (ts : FTasks) (ps : FPkts) (q h : Int) (r : FState) (fuel : Nat)
    (hg : g1 k ts ps q h = r) (hr : r.tcb ≠ 15) :
    ∃ f', fOk ⟨ts, ps, 1, q, h⟩ = true ∧ fStep fuel ⟨ts, ps, 1, q, h⟩ = some f' ∧
      k f'.tasks f'.pkts f'.tcb f'.qpktcount f'.holdcount = r := by
  obtain ⟨a, b, c, d, e, g⟩ := ts
  unfold g1 at hg
  dsimp only at hg
  rcases bool_cases _ _ _ _ hg with ⟨_, hg1⟩ | ⟨p14, hg1⟩
  · exact FState.bad_absurd hg1 hr
  rcases bool_cases _ _ _ _ hg1 with ⟨_, hg2⟩ | ⟨p13, hg2⟩
  · exact FState.bad_absurd hg2 hr
  rcases bool_cases _ _ _ _ hg2 with ⟨_, hg3⟩ | ⟨p12, hg3⟩
  · exact FState.bad_absurd hg3 hr
  rcases bool_cases _ _ _ _ hg3 with ⟨_, hg4⟩ | ⟨p8, hg4⟩
  · exact FState.bad_absurd hg4 hr
  rcases bool_cases _ _ _ _ hg4 with ⟨_, hg5⟩ | ⟨p4, hg5⟩
  · exact FState.bad_absurd hg5 hr
  obtain ⟨f', h1, h2⟩ := gIdle_spec k ps q h a b c d e g r fuel hg5 hr
  refine ⟨f', ?_, h1, h2⟩
  have q14 := gParked_sound g p14
  have q13 := gParked_sound e p13
  have q12 := gParked_sound d p12
  have q8 := gParked_sound c p8
  have q4 := gParked_sound b p4
  show (true && (fParked g.state && (fParked e.state && (fParked d.state &&
    (fParked c.state && (fParked b.state && true)))))) = true
  rw [q14, q13, q12, q8, q4]
  rfl

/-- One iteration of the second evaluator is one iteration of the first, with the check
of the state before it. -/
theorem gStep_spec (k : Cont) (ts : FTasks) (ps : FPkts) (tcb : Nat) (q h : Int) (r : FState)
    (hg : gStep k ts ps tcb q h = r) (hr : r.tcb ≠ 15) :
    ∃ f', fOk ⟨ts, ps, tcb, q, h⟩ = true ∧
      (∀ fuel, 5 ≤ fuel → fStep fuel ⟨ts, ps, tcb, q, h⟩ = some f') ∧
      k f'.tasks f'.pkts f'.tcb f'.qpktcount f'.holdcount = r := by
  have key : ∃ f', fOk ⟨ts, ps, tcb, q, h⟩ = true ∧ fStep 5 ⟨ts, ps, tcb, q, h⟩ = some f' ∧
      k f'.tasks f'.pkts f'.tcb f'.qpktcount f'.holdcount = r := by
    by_cases h14 : tcb = 14
    · subst h14
      exact g14_spec k ts ps q h r 5 (Nat.le_refl 5) hg hr
    by_cases h13 : tcb = 13
    · subst h13
      exact g13_spec k ts ps q h r 5 (Nat.le_refl 5) hg hr
    by_cases h12 : tcb = 12
    · subst h12
      exact g12_spec k ts ps q h r 5 (Nat.le_refl 5) hg hr
    by_cases h8 : tcb = 8
    · subst h8
      exact g8_spec k ts ps q h r 5 (Nat.le_refl 5) hg hr
    by_cases h4 : tcb = 4
    · subst h4
      exact g4_spec k ts ps q h r 5 (Nat.le_refl 5) hg hr
    by_cases h1 : tcb = 1
    · subst h1
      exact g1_spec k ts ps q h r 5 hg hr
    have e14 : Nat.beq tcb 14 = false := by
      cases hb : Nat.beq tcb 14
      · rfl
      · exact absurd (Nat.eq_of_beq_eq_true hb) h14
    have e13 : Nat.beq tcb 13 = false := by
      cases hb : Nat.beq tcb 13
      · rfl
      · exact absurd (Nat.eq_of_beq_eq_true hb) h13
    have e12 : Nat.beq tcb 12 = false := by
      cases hb : Nat.beq tcb 12
      · rfl
      · exact absurd (Nat.eq_of_beq_eq_true hb) h12
    have e8 : Nat.beq tcb 8 = false := by
      cases hb : Nat.beq tcb 8
      · rfl
      · exact absurd (Nat.eq_of_beq_eq_true hb) h8
    have e4 : Nat.beq tcb 4 = false := by
      cases hb : Nat.beq tcb 4
      · rfl
      · exact absurd (Nat.eq_of_beq_eq_true hb) h4
    have e1 : Nat.beq tcb 1 = false := by
      cases hb : Nat.beq tcb 1
      · rfl
      · exact absurd (Nat.eq_of_beq_eq_true hb) h1
    have hbad : gStep k ts ps tcb q h = FState.bad := by
      show (Bool.casesOn (Nat.ble tcb 8)
        (Bool.casesOn (Nat.beq tcb 12)
          (Bool.casesOn (Nat.beq tcb 13) (Bool.casesOn (Nat.beq tcb 14) g0 g14) g13) g12)
        (Bool.casesOn (Nat.beq tcb 8)
          (Bool.casesOn (Nat.beq tcb 4) (Bool.casesOn (Nat.beq tcb 1) g0 g1) g4) g8) :
          Cont → FTasks → FPkts → Int → Int → FState) k ts ps q h = FState.bad
      rw [e14, e13, e12, e8, e4, e1]
      cases Nat.ble tcb 8 <;> rfl
    rw [hbad] at hg
    exact FState.bad_absurd hg hr
  obtain ⟨f', h1, h2, h3⟩ := key
  exact ⟨f', h1, fun fuel hf => fStep_mono _ 5 fuel f' hf h2, h3⟩

theorem fRunI_cons (k fuel : Nat) (f f' g : FState) (ho : fOk f = true)
    (hs : fStep (fuel + k) f = some f') (hrun : fRunI k fuel f' = some g) :
    fRunI (k + 1) fuel f = some g := by
  unfold fRunI
  rw [ho, cond_true, hs]
  exact hrun

theorem fRunI_start_ok (k fuel : Nat) (f g : FState) (h : fRunI k fuel f = some g) :
    fOk f = true := by
  cases hb : fOk f
  · cases k with
    | zero =>
      unfold fRunI at h
      rw [hb] at h
      exact absurd h (by simp)
    | succ k =>
      unfold fRunI at h
      rw [hb] at h
      exact absurd h (by simp)
  · rfl

/-- The `4 * n` iterations of the second evaluator, followed by `m` iterations of the
first, are `4 * n + m` iterations of the first. -/
theorem gRunK_spec : ∀ (n : Nat) (ts : FTasks) (ps : FPkts) (tcb : Nat) (q h : Int)
    (r : FState), gRunK n ts ps tcb q h = r → r.tcb ≠ 15 →
    ∀ (m fuel : Nat) (g : FState), 5 ≤ fuel → fRunI m fuel r = some g →
      fRunI (4 * n + m) fuel ⟨ts, ps, tcb, q, h⟩ = some g := by
  intro n
  induction n with
  | zero =>
    intro ts ps tcb q h r hg _ m fuel g _ hrun
    have e : (⟨ts, ps, tcb, q, h⟩ : FState) = r := hg
    rw [e, Nat.mul_zero, Nat.zero_add]
    exact hrun
  | succ n ih =>
    intro ts ps tcb q h r hg hr m fuel g hfuel hrun
    have hg' : gStep (gStep (gStep (gStep (gRunK n)))) ts ps tcb q h = r := hg
    obtain ⟨f1, o1, s1, hg1⟩ := gStep_spec _ ts ps tcb q h r hg' hr
    obtain ⟨f2, o2, s2, hg2⟩ := gStep_spec _ _ _ _ _ _ r hg1 hr
    obtain ⟨f3, o3, s3, hg3⟩ := gStep_spec _ _ _ _ _ _ r hg2 hr
    obtain ⟨f4, o4, s4, hg4⟩ := gStep_spec _ _ _ _ _ _ r hg3 hr
    have h0 := ih _ _ _ _ _ r hg4 hr m fuel g hfuel hrun
    have e : 4 * (n + 1) + m = 4 * n + m + 1 + 1 + 1 + 1 := by omega
    rw [e]
    exact fRunI_cons _ fuel _ f1 g o1 (s1 _ (by omega))
      (fRunI_cons _ fuel _ f2 g o2 (s2 _ (by omega))
        (fRunI_cons _ fuel _ f3 g o3 (s3 _ (by omega))
          (fRunI_cons _ fuel _ f4 g o4 (s4 _ (by omega)) h0)))

/-- What the second evaluator computes in `n` rounds, the first one computes in `4 * n`
iterations. -/
theorem gRun_sound (n : Nat) (f r : FState) (hg : gRun n f = r) (m fuel : Nat) (g : FState)
    (hfuel : 5 ≤ fuel) (hrun : fRunI m fuel r = some g) :
    fRunI (4 * n + m) fuel f = some g := by
  obtain ⟨ts, ps, tcb, q, h⟩ := f
  have hr : r.tcb ≠ 15 := by
    have ho := fRunI_start_ok m fuel r g hrun
    rcases fOk_tcb r ho with e | e | e | e | e | e | e <;> rw [e] <;> decide
  exact gRunK_spec n ts ps tcb q h r hg hr m fuel g hfuel hrun

/-! ## Evaluation of the run, 2000 iterations at a time -/

theorem chunk1 : gRun 500 ck0 = ck1 := by decide!

theorem chunk2 : gRun 500 ck1 = ck2 := by decide!

theorem chunk3 : gRun 500 ck2 = ck3 := by decide!

theorem chunk4 : gRun 500 ck3 = ck4 := by decide!

theorem chunk5 : gRun 500 ck4 = ck5 := by decide!

theorem chunk6 : gRun 500 ck5 = ck6 := by decide!

theorem chunk7 : gRun 500 ck6 = ck7 := by decide!

theorem chunk8 : gRun 500 ck7 = ck8 := by decide!

theorem chunk9 : gRun 500 ck8 = ck9 := by decide!

theorem chunk10 : gRun 500 ck9 = ck10 := by decide!

theorem chunk11 : gRun 500 ck10 = ck11 := by decide!

theorem chunk12 : gRun 500 ck11 = ck12 := by decide!

theorem chunk13 : gRun 500 ck12 = ck13 := by decide!

theorem chunk14 : gRun 500 ck13 = ck14 := by decide!

theorem chunk15 : gRun 500 ck14 = ck15 := by decide!

theorem chunk16 : gRun 500 ck15 = ck16 := by decide!

theorem chunk17 : gRun 500 ck16 = ck17 := by decide!

theorem chunk18 : gRun 500 ck17 = ck18 := by decide!

theorem chunk19 : gRun 500 ck18 = ck19 := by decide!

theorem chunk20 : gRun 500 ck19 = ck20 := by decide!

theorem chunk21 : gRun 500 ck20 = ck21 := by decide!

theorem chunk22 : gRun 500 ck21 = ck22 := by decide!

theorem chunk23 : gRun 500 ck22 = ck23 := by decide!

theorem chunk24 : gRun 500 ck23 = ck24 := by decide!

theorem chunk25 : gRun 500 ck24 = ck25 := by decide!

theorem chunk26 : gRun 500 ck25 = ck26 := by decide!

theorem chunk27 : gRun 500 ck26 = ck27 := by decide!

theorem chunk28 : gRun 500 ck27 = ck28 := by decide!

theorem chunk29 : gRun 500 ck28 = ck29 := by decide!

theorem chunk30 : gRun 500 ck29 = ck30 := by decide!

theorem chunk31 : gRun 500 ck30 = ck31 := by decide!

theorem chunk32 : gRun 500 ck31 = ck32 := by decide!

theorem chunk33 : gRun 500 ck32 = ck33 := by decide!

theorem chunk34 : gRun 500 ck33 = ck34 := by decide!

theorem chunk35 : gRun 500 ck34 = ck35 := by decide!

theorem chunk36 : gRun 500 ck35 = ck36 := by decide!

theorem chunk37 : gRun 500 ck36 = ck37 := by decide!

theorem chunk38 : gRun 500 ck37 = ck38 := by decide!

theorem chunk39 : gRun 500 ck38 = ck39 := by decide!

theorem chunk40 : gRun 500 ck39 = ck40 := by decide!

theorem chunk41 : gRun 500 ck40 = ck41 := by decide!

theorem chunk42 : gRun 500 ck41 = ck42 := by decide!

theorem chunk43 : gRun 500 ck42 = ck43 := by decide!

theorem chunk44 : gRun 500 ck43 = ck44 := by decide!

theorem chunk45 : gRun 500 ck44 = ck45 := by decide!

theorem chunk46 : gRun 500 ck45 = ck46 := by decide!

theorem chunk47 : gRun 500 ck46 = ck47 := by decide!

theorem chunk48 : gRun 500 ck47 = ck48 := by decide!

theorem chunk49 : gRun 500 ck48 = ck49 := by decide!

theorem chunk50 : gRun 500 ck49 = ck50 := by decide!

theorem chunk51 : gRun 500 ck50 = ck51 := by decide!

theorem chunk52 : gRun 500 ck51 = ck52 := by decide!

theorem chunk53 : gRun 500 ck52 = ck53 := by decide!

theorem chunk54 : gRun 151 ck53 = ck54 := by decide!

/-! ## The whole run of the flat evaluator -/

theorem tail54 : fRunI 0 10 ck54 = some ck54 := by decide

theorem tail53 : fRunI 604 10 ck53 = some ck54 :=
  gRun_sound 151 ck53 ck54 chunk54 0 10 ck54 (by decide) tail54

theorem tail52 : fRunI 2604 10 ck52 = some ck54 :=
  gRun_sound 500 ck52 ck53 chunk53 604 10 ck54 (by decide) tail53

theorem tail51 : fRunI 4604 10 ck51 = some ck54 :=
  gRun_sound 500 ck51 ck52 chunk52 2604 10 ck54 (by decide) tail52

theorem tail50 : fRunI 6604 10 ck50 = some ck54 :=
  gRun_sound 500 ck50 ck51 chunk51 4604 10 ck54 (by decide) tail51

theorem tail49 : fRunI 8604 10 ck49 = some ck54 :=
  gRun_sound 500 ck49 ck50 chunk50 6604 10 ck54 (by decide) tail50

theorem tail48 : fRunI 10604 10 ck48 = some ck54 :=
  gRun_sound 500 ck48 ck49 chunk49 8604 10 ck54 (by decide) tail49

theorem tail47 : fRunI 12604 10 ck47 = some ck54 :=
  gRun_sound 500 ck47 ck48 chunk48 10604 10 ck54 (by decide) tail48

theorem tail46 : fRunI 14604 10 ck46 = some ck54 :=
  gRun_sound 500 ck46 ck47 chunk47 12604 10 ck54 (by decide) tail47

theorem tail45 : fRunI 16604 10 ck45 = some ck54 :=
  gRun_sound 500 ck45 ck46 chunk46 14604 10 ck54 (by decide) tail46

theorem tail44 : fRunI 18604 10 ck44 = some ck54 :=
  gRun_sound 500 ck44 ck45 chunk45 16604 10 ck54 (by decide) tail45

theorem tail43 : fRunI 20604 10 ck43 = some ck54 :=
  gRun_sound 500 ck43 ck44 chunk44 18604 10 ck54 (by decide) tail44

theorem tail42 : fRunI 22604 10 ck42 = some ck54 :=
  gRun_sound 500 ck42 ck43 chunk43 20604 10 ck54 (by decide) tail43

theorem tail41 : fRunI 24604 10 ck41 = some ck54 :=
  gRun_sound 500 ck41 ck42 chunk42 22604 10 ck54 (by decide) tail42

theorem tail40 : fRunI 26604 10 ck40 = some ck54 :=
  gRun_sound 500 ck40 ck41 chunk41 24604 10 ck54 (by decide) tail41

theorem tail39 : fRunI 28604 10 ck39 = some ck54 :=
  gRun_sound 500 ck39 ck40 chunk40 26604 10 ck54 (by decide) tail40

theorem tail38 : fRunI 30604 10 ck38 = some ck54 :=
  gRun_sound 500 ck38 ck39 chunk39 28604 10 ck54 (by decide) tail39

theorem tail37 : fRunI 32604 10 ck37 = some ck54 :=
  gRun_sound 500 ck37 ck38 chunk38 30604 10 ck54 (by decide) tail38

theorem tail36 : fRunI 34604 10 ck36 = some ck54 :=
  gRun_sound 500 ck36 ck37 chunk37 32604 10 ck54 (by decide) tail37

theorem tail35 : fRunI 36604 10 ck35 = some ck54 :=
  gRun_sound 500 ck35 ck36 chunk36 34604 10 ck54 (by decide) tail36

theorem tail34 : fRunI 38604 10 ck34 = some ck54 :=
  gRun_sound 500 ck34 ck35 chunk35 36604 10 ck54 (by decide) tail35

theorem tail33 : fRunI 40604 10 ck33 = some ck54 :=
  gRun_sound 500 ck33 ck34 chunk34 38604 10 ck54 (by decide) tail34

theorem tail32 : fRunI 42604 10 ck32 = some ck54 :=
  gRun_sound 500 ck32 ck33 chunk33 40604 10 ck54 (by decide) tail33

theorem tail31 : fRunI 44604 10 ck31 = some ck54 :=
  gRun_sound 500 ck31 ck32 chunk32 42604 10 ck54 (by decide) tail32

theorem tail30 : fRunI 46604 10 ck30 = some ck54 :=
  gRun_sound 500 ck30 ck31 chunk31 44604 10 ck54 (by decide) tail31

theorem tail29 : fRunI 48604 10 ck29 = some ck54 :=
  gRun_sound 500 ck29 ck30 chunk30 46604 10 ck54 (by decide) tail30

theorem tail28 : fRunI 50604 10 ck28 = some ck54 :=
  gRun_sound 500 ck28 ck29 chunk29 48604 10 ck54 (by decide) tail29

theorem tail27 : fRunI 52604 10 ck27 = some ck54 :=
  gRun_sound 500 ck27 ck28 chunk28 50604 10 ck54 (by decide) tail28

theorem tail26 : fRunI 54604 10 ck26 = some ck54 :=
  gRun_sound 500 ck26 ck27 chunk27 52604 10 ck54 (by decide) tail27

theorem tail25 : fRunI 56604 10 ck25 = some ck54 :=
  gRun_sound 500 ck25 ck26 chunk26 54604 10 ck54 (by decide) tail26

theorem tail24 : fRunI 58604 10 ck24 = some ck54 :=
  gRun_sound 500 ck24 ck25 chunk25 56604 10 ck54 (by decide) tail25

theorem tail23 : fRunI 60604 10 ck23 = some ck54 :=
  gRun_sound 500 ck23 ck24 chunk24 58604 10 ck54 (by decide) tail24

theorem tail22 : fRunI 62604 10 ck22 = some ck54 :=
  gRun_sound 500 ck22 ck23 chunk23 60604 10 ck54 (by decide) tail23

theorem tail21 : fRunI 64604 10 ck21 = some ck54 :=
  gRun_sound 500 ck21 ck22 chunk22 62604 10 ck54 (by decide) tail22

theorem tail20 : fRunI 66604 10 ck20 = some ck54 :=
  gRun_sound 500 ck20 ck21 chunk21 64604 10 ck54 (by decide) tail21

theorem tail19 : fRunI 68604 10 ck19 = some ck54 :=
  gRun_sound 500 ck19 ck20 chunk20 66604 10 ck54 (by decide) tail20

theorem tail18 : fRunI 70604 10 ck18 = some ck54 :=
  gRun_sound 500 ck18 ck19 chunk19 68604 10 ck54 (by decide) tail19

theorem tail17 : fRunI 72604 10 ck17 = some ck54 :=
  gRun_sound 500 ck17 ck18 chunk18 70604 10 ck54 (by decide) tail18

theorem tail16 : fRunI 74604 10 ck16 = some ck54 :=
  gRun_sound 500 ck16 ck17 chunk17 72604 10 ck54 (by decide) tail17

theorem tail15 : fRunI 76604 10 ck15 = some ck54 :=
  gRun_sound 500 ck15 ck16 chunk16 74604 10 ck54 (by decide) tail16

theorem tail14 : fRunI 78604 10 ck14 = some ck54 :=
  gRun_sound 500 ck14 ck15 chunk15 76604 10 ck54 (by decide) tail15

theorem tail13 : fRunI 80604 10 ck13 = some ck54 :=
  gRun_sound 500 ck13 ck14 chunk14 78604 10 ck54 (by decide) tail14

theorem tail12 : fRunI 82604 10 ck12 = some ck54 :=
  gRun_sound 500 ck12 ck13 chunk13 80604 10 ck54 (by decide) tail13

theorem tail11 : fRunI 84604 10 ck11 = some ck54 :=
  gRun_sound 500 ck11 ck12 chunk12 82604 10 ck54 (by decide) tail12

theorem tail10 : fRunI 86604 10 ck10 = some ck54 :=
  gRun_sound 500 ck10 ck11 chunk11 84604 10 ck54 (by decide) tail11

theorem tail9 : fRunI 88604 10 ck9 = some ck54 :=
  gRun_sound 500 ck9 ck10 chunk10 86604 10 ck54 (by decide) tail10

theorem tail8 : fRunI 90604 10 ck8 = some ck54 :=
  gRun_sound 500 ck8 ck9 chunk9 88604 10 ck54 (by decide) tail9

theorem tail7 : fRunI 92604 10 ck7 = some ck54 :=
  gRun_sound 500 ck7 ck8 chunk8 90604 10 ck54 (by decide) tail8

theorem tail6 : fRunI 94604 10 ck6 = some ck54 :=
  gRun_sound 500 ck6 ck7 chunk7 92604 10 ck54 (by decide) tail7

theorem tail5 : fRunI 96604 10 ck5 = some ck54 :=
  gRun_sound 500 ck5 ck6 chunk6 94604 10 ck54 (by decide) tail6

theorem tail4 : fRunI 98604 10 ck4 = some ck54 :=
  gRun_sound 500 ck4 ck5 chunk5 96604 10 ck54 (by decide) tail5

theorem tail3 : fRunI 100604 10 ck3 = some ck54 :=
  gRun_sound 500 ck3 ck4 chunk4 98604 10 ck54 (by decide) tail4

theorem tail2 : fRunI 102604 10 ck2 = some ck54 :=
  gRun_sound 500 ck2 ck3 chunk3 100604 10 ck54 (by decide) tail3

theorem tail1 : fRunI 104604 10 ck1 = some ck54 :=
  gRun_sound 500 ck1 ck2 chunk2 102604 10 ck54 (by decide) tail2

theorem tail0 : fRunI 106604 10 ck0 = some ck54 :=
  gRun_sound 500 ck0 ck1 chunk1 104604 10 ck54 (by decide) tail1

/-- The flat evaluator runs through the 106604 iterations of the scheduler loop, with
the check `fOk` of every state, and ends with a null current task. -/
theorem fRunI_total (n : Nat) : fRunI 106604 (10 + n) FState.start = some ck54 :=
  fRunI_mono 106604 10 (10 + n) ck0 ck54 (Nat.le_add_right 10 n) tail0

/-- The run of `schedule` from a configuration that `FState.start` stands for, up to
the state in which the six tasks have been passed by. -/
theorem run_from_start (E : Place) (h : E.ok) (Q : State → Prop)
    (hQ : ∀ f S, E.Rep f S → fOk f = true → Q S) (S0 : State) (hR : E.Rep FState.start S0)
    (n : Nat) :
    ∃ S' l, E.Rep ck54 S' ∧ Q S' ∧ schedule (10 + n + 106604) S0 = schedule (10 + n) S' ∧
      schedule_trace (10 + n + 106604) S0 = l ++ schedule_trace (10 + n) S' ∧
      ∀ s ∈ l, Q s ∧ E.p ≤ s.tcb :=
  run_place E h Q hQ 106604 (10 + n) FState.start S0 ck54 hR (fRunI_total n)

/-! ## The behaviours leave the current task pointer alone -/

theorem release_tcb (s : State) (id : Int) : (release s id).1.tcb = s.tcb := by
  unfold release
  simp only
  split
  · rfl
  · split <;> rfl

theorem qpkt_tcb (fuel : Nat) (s : State) (pkt : Nat) (r : State × Nat)
    (h : qpkt fuel s pkt = some r) : r.1.tcb = s.tcb := by
  unfold qpkt at h
  simp only at h
  split at h
  · rw [← Option.some.inj h]
  · split at h
    · split at h <;> rw [← Option.some.inj h] <;> rfl
    · split at h
      · exact absurd h (by simp)
      · rename_i s' hs'
        rw [← Option.some.inj h]
        exact (append_frame fuel _ s' pkt _ hs').2.1

theorem idlefn_tcb (s : State) (pkt : Nat) : (idlefn s pkt).1.tcb = s.tcb := by
  unfold idlefn
  simp only
  split
  · rfl
  · split <;> exact release_tcb _ _

theorem workfn_tcb (fuel : Nat) (s : State) (pkt : Nat) (r : State × Nat)
    (h : workfn fuel s pkt = some r) : r.1.tcb = s.tcb := by
  unfold workfn at h
  split at h
  · rw [← Option.some.inj h]; rfl
  · rw [qpkt_tcb fuel _ pkt r h]
    exact (workfn_fill_frame s pkt).2.1

theorem handler_pair_tcb (fuel : Nat) (s : State) (r : State × Nat)
    (h : handler_pair fuel s = some r) : r.1.tcb = s.tcb := by
  unfold handler_pair at h
  simp only at h
  split at h
  · split at h
    · rw [qpkt_tcb fuel _ _ r h]; rfl
    · split at h
      · rw [qpkt_tcb fuel _ _ r h]
        exact (handler_pair_dev_frame s).2.1
      · rw [← Option.some.inj h]; rfl
  · rw [← Option.some.inj h]; rfl

theorem handlerfn_tcb (fuel : Nat) (s : State) (pkt : Nat) (r : State × Nat)
    (h : handlerfn fuel s pkt = some r) : r.1.tcb = s.tcb := by
  unfold handlerfn at h
  cases hf : handler_file fuel s pkt with
  | none => rw [hf] at h; exact absurd h (by simp)
  | some s1 =>
    rw [hf] at h
    simp only at h
    rw [handler_pair_tcb fuel s1 r h]
    unfold handler_file at hf
    split at hf
    · exact (append_frame fuel s s1 pkt _ hf).2.1
    · rw [← Option.some.inj hf]

theorem devfn_tcb (fuel : Nat) (s : State) (pkt : Nat) (r : State × Nat)
    (h : devfn fuel s pkt = some r) : r.1.tcb = s.tcb := by
  unfold devfn at h
  simp only at h
  split at h
  · split at h
    · rw [← Option.some.inj h]; rfl
    · rw [qpkt_tcb fuel _ _ r h]
  · rw [← Option.some.inj h]
    show (holdself _).1.tcb = _
    split
    · exact (trace_tasks _ _).2.2.1
    · rfl

/-- No behaviour assigns to `tcb`. -/
theorem callFn_tcb (f : Fn) (fuel : Nat) (s : State) (pkt : Nat) (r : State × Nat)
    (h : callFn f fuel s pkt = some r) : r.1.tcb = s.tcb := by
  cases f with
  | null => exact absurd h (by simp [callFn])
  | idlefn =>
    simp only [callFn, Option.some.injEq] at h
    rw [← h]; exact idlefn_tcb s pkt
  | workfn => exact workfn_tcb fuel s pkt r h
  | handlerfn => exact handlerfn_tcb fuel s pkt r h
  | devfn => exact devfn_tcb fuel s pkt r h

theorem store_scratch_task (r : State × Nat) :
    (store_scratch r).task r.1.tcb
        = { r.1.task r.1.tcb with t_v1 := r.1.v1, t_v2 := r.1.v2 } ∧
      (∀ t, t ≠ r.1.tcb → (store_scratch r).task t = r.1.task t) ∧
      (store_scratch r).packets = r.1.packets ∧ (store_scratch r).tcb = r.2 := by
  obtain ⟨s, n⟩ := r
  unfold store_scratch
  obtain ⟨tasks, packets, tasktab, tasklist, tcb, taskid, v1, v2, qc, hc, tr, lay⟩ := s
  simp only [State.task, State.setTask, Mem.read_write_same, Mem.write_write_same]
  refine ⟨trivial, ?_, trivial, trivial⟩
  intro t ht
  rw [Mem.read_write_ne _ _ _ _ (Ne.symm ht)]

/-- C11: for a current task `T` in state `S_RUN` or `S_RUNPKT`, an iteration of
`schedule` loads `v1`, `v2` and `taskid` from `T` (tasks and packets, so also the queue
of `T`, are as they were), calls the behaviour of `T` with the null packet, and, when
the behaviour returns `r`, goes on with the state `store_scratch r`: there the scratch
fields of `T` are the values the behaviour left in `v1` and `v2` and its other fields
are as the behaviour left them, every other task and all packets are as the behaviour
left them, and the current task is the task the behaviour returned. -/
theorem schedule_run_case (s : State) (fuel : Nat) (hcur : s.tcb ≠ 0)
    (hst : (s.task s.tcb).t_state = S_RUN ∨ (s.task s.tcb).t_state = S_RUNPKT) :
    (load_scratch s).v1 = (s.task s.tcb).t_v1 ∧ (load_scratch s).v2 = (s.task s.tcb).t_v2 ∧
      (load_scratch s).taskid = (s.task s.tcb).t_id ∧
      (load_scratch s).tasks = s.tasks ∧ (load_scratch s).packets = s.packets ∧
      schedule (fuel + 1) s
        = (match callFn (s.task s.tcb).t_fn fuel (load_scratch s) 0 with
           | none => none
           | some r => schedule fuel (store_scratch r)) ∧
      ∀ r, callFn (s.task s.tcb).t_fn fuel (load_scratch s) 0 = some r →
        (store_scratch r).tcb = r.2 ∧
        (store_scratch r).task s.tcb
          = { r.1.task s.tcb with t_v1 := r.1.v1, t_v2 := r.1.v2 } ∧
        (∀ t, t ≠ s.tcb → (store_scratch r).task t = r.1.task t) ∧
        (store_scratch r).packets = r.1.packets := by
  obtain ⟨lT, lP, lc, _, _, _, lid, l1, l2, _⟩ := load_scratch_frame s
  have hfn : ((load_scratch s).task (load_scratch s).tcb).t_fn = (s.task s.tcb).t_fn := by
    rw [load_scratch_task, lc]
  refine ⟨l1, l2, lid, lT, lP, ?_, ?_⟩
  · have hn : ¬ (s.task s.tcb).t_state = S_WAITPKT := by
      rcases hst with e | e <;> rw [e] <;> decide
    rw [schedule_succ, if_pos hcur, if_neg hn, if_pos hst]
    unfold dispatch
    simp only [hfn]
    cases callFn (s.task s.tcb).t_fn fuel (load_scratch s) 0 <;> rfl
  · intro r hr
    have ht : r.1.tcb = s.tcb := (callFn_tcb _ fuel _ 0 r hr).trans lc
    obtain ⟨a, b, c, d⟩ := store_scratch_task r
    rw [ht] at a b
    exact ⟨d, a, b, c⟩

theorem schedule_run_case_witness :
    (load_scratch State.sample).v1 = (State.sample.task State.sample.tcb).t_v1 ∧
      (load_scratch State.sample).v2 = (State.sample.task State.sample.tcb).t_v2 ∧
      (load_scratch State.sample).taskid = (State.sample.task State.sample.tcb).t_id :=
  ⟨(schedule_run_case State.sample 3 (by decide) (by decide)).1,
   (schedule_run_case State.sample 3 (by decide) (by decide)).2.1,
   (schedule_run_case State.sample 3 (by decide) (by decide)).2.2.1⟩

/-! ## Consistency of the task states -/

theorem state_bits (st : Int) (h0 : 0 ≤ st) (h7 : st ≤ 7) :
    (0 ≤ Int.lor st WAITBIT ∧ Int.lor st WAITBIT ≤ 7 ∧
        Int.land (Int.lor st WAITBIT) PKTBIT = Int.land st PKTBIT) ∧
      (0 ≤ Int.lor st HOLDBIT ∧ Int.lor st HOLDBIT ≤ 7 ∧
        Int.land (Int.lor st HOLDBIT) PKTBIT = Int.land st PKTBIT) ∧
      (0 ≤ Int.land st NOTHOLDBIT ∧ Int.land st NOTHOLDBIT ≤ 7 ∧
        Int.land (Int.land st NOTHOLDBIT) PKTBIT = Int.land st PKTBIT) ∧
      (0 ≤ Int.lor st PKTBIT ∧ Int.lor st PKTBIT ≤ 7 ∧
        Int.land (Int.lor st PKTBIT) PKTBIT ≠ 0) := by
  interval_cases st <;> decide

/-- Assignment of a consistent task keeps the consistency. -/
theorem State.Consistent.set_task (s : State) (h : s.Consistent) (t : Nat) (T : Task)
    (hT : T.consistent) : (s.setTask t T).Consistent := by
  intro u
  rw [State.task_setTask]
  split
  · exact hT
  · exact h u

theorem wait_task_consistent (s : State) (h : s.Consistent) : (wait_task s).1.Consistent := by
  unfold wait_task
  simp only
  apply State.Consistent.set_task s h
  obtain ⟨a, b, c⟩ := h s.tcb
  obtain ⟨⟨x, y, z⟩, _⟩ := state_bits _ a b
  exact ⟨x, y, by show (Int.land _ PKTBIT ≠ 0 ↔ _); rw [z]; exact c⟩

theorem holdself_consistent (s : State) (h : s.Consistent) : (holdself s).1.Consistent := by
  unfold holdself
  simp only
  have h' : ({ s with holdcount := s.holdcount + 1 } : State).Consistent := h
  apply State.Consistent.set_task _ h'
  obtain ⟨a, b, c⟩ := h s.tcb
  obtain ⟨_, ⟨x, y, z⟩, _⟩ := state_bits _ a b
  have hz : (Int.land (Int.lor (s.task s.tcb).t_state HOLDBIT) PKTBIT ≠ 0 ↔
      (s.task s.tcb).t_wkq ≠ 0) := by rw [z]; exact c
  exact ⟨x, y, hz⟩

theorem release_consistent (s : State) (id : Int) (h : s.Consistent) :
    (release s id).1.Consistent := by
  have key : (s.setTask (findtcb s id)
      { s.task (findtcb s id) with
        t_state := Int.land (s.task (findtcb s id)).t_state NOTHOLDBIT }).Consistent := by
    apply State.Consistent.set_task s h
    obtain ⟨a, b, c⟩ := h (findtcb s id)
    obtain ⟨_, _, ⟨x, y, z⟩, _⟩ := state_bits _ a b
    exact ⟨x, y, by show (Int.land _ PKTBIT ≠ 0 ↔ _); rw [z]; exact c⟩
  unfold release
  simp only
  split
  · exact h
  · split <;> exact key

theorem dequeue_consistent (s : State) (h : s.Consistent) : (dequeue s).1.Consistent := by
  rw [dequeue_eq]
  apply State.Consistent.set_task s h
  by_cases hl : (s.packet (s.task s.tcb).t_wkq).p_link = 0
  · simp only [hl, if_true]
    have e0 : (0 : Int) ≤ S_RUN := by decide
    have e7 : S_RUN ≤ 7 := by decide
    have eb : ¬ (Int.land S_RUN PKTBIT ≠ 0) := by decide
    exact ⟨e0, e7, ⟨fun hh => absurd hh eb, fun hh => absurd rfl hh⟩⟩
  · simp only [hl, if_false]
    have e0 : (0 : Int) ≤ S_RUNPKT := by decide
    have e7 : S_RUNPKT ≤ 7 := by decide
    have eb : Int.land S_RUNPKT PKTBIT ≠ 0 := by decide
    exact ⟨e0, e7, ⟨fun _ => hl, fun _ => eb⟩⟩

theorem append_walk_pkt : ∀ (fuel : Nat) (s : State) (p : Nat) (r : Ref),
    append_walk fuel s (Ref.pkt p) = some r → ∃ q, r = Ref.pkt q := by
  intro fuel
  induction fuel with
  | zero => intro s p r h; exact absurd h (by simp [append_walk])
  | succ k ih =>
    intro s p r h
    rw [append_walk] at h
    split at h
    · exact ih s _ r h
    · exact ⟨p, (Option.some.inj h).symm⟩

/-- Appending to a queue that is not empty leaves the tasks as they are. -/
theorem append_tasks (fuel : Nat) (s s' : State) (pkt t : Nat)
    (hq : (s.task t).t_wkq ≠ 0) (h : append fuel s pkt (Ref.wkq t) = some s') :
    s'.tasks = s.tasks := by
  unfold append at h
  simp only at h
  cases hw : append_walk fuel (s.setPacket pkt { s.packet pkt with p_link := 0 }) (Ref.wkq t) with
  | none => rw [hw] at h; exact absurd h (by simp)
  | some r =>
    rw [hw] at h
    cases fuel with
    | zero => exact absurd hw (by simp [append_walk])
    | succ k =>
      rw [append_walk] at hw
      have hne : (s.setPacket pkt { s.packet pkt with p_link := 0 }).rdLink (Ref.wkq t) ≠ 0 := hq
      rw [if_pos hne] at hw
      obtain ⟨q, rfl⟩ := append_walk_pkt k _ _ r hw
      rw [← Option.some.inj h]
      rfl

theorem qpkt_consistent (fuel : Nat) (s : State) (pkt : Nat) (r : State × Nat)
    (h : s.Consistent) (hp : pkt ≠ 0) (hq : qpkt fuel s pkt = some r) : r.1.Consistent := by
  by_cases ht : findtcb s (s.packet pkt).p_id = 0
  · rw [qpkt_of_bad_id fuel s pkt ht] at hq
    rw [← Option.some.inj hq]
    exact h
  · by_cases hw : (s.task (findtcb s (s.packet pkt).p_id)).t_wkq = 0
    · rw [qpkt_of_empty fuel s pkt _ rfl ht hw] at hq
      rw [← Option.some.inj hq]
      show (qpkt_empty_state s pkt _).Consistent
      unfold qpkt_empty_state
      have hs : (qpkt_stamped s pkt).Consistent := h
      apply State.Consistent.set_task _ hs
      obtain ⟨a, b, c⟩ := h (findtcb s (s.packet pkt).p_id)
      obtain ⟨_, _, _, ⟨x, y, z⟩⟩ := state_bits _ a b
      exact ⟨x, y, ⟨fun _ => hp, fun _ => z⟩⟩
    · rw [qpkt_unfold fuel s pkt _ rfl ht hw] at hq
      cases ha : append fuel (qpkt_stamped s pkt) pkt
          (Ref.wkq (findtcb s (s.packet pkt).p_id)) with
      | none => rw [ha] at hq; exact absurd hq (by simp)
      | some s' =>
        rw [ha] at hq
        rw [← Option.some.inj hq]
        have := append_tasks fuel (qpkt_stamped s pkt) s' pkt _ hw ha
        intro t
        show (s'.tasks.read t).consistent
        rw [this]
        exact h t

/-! ## The handler -/

theorem handlerfn_of_file (fuel : Nat) (s s1 : State) (pkt : Nat)
    (h : handler_file fuel s pkt = some s1) : handlerfn fuel s pkt = handler_pair fuel s1 := by
  unfold handlerfn
  rw [h]

theorem handler_pair_dev_packets (s : State) (w d : Nat) (hw : s.v1.toNat = w)
    (hd : s.v2.toNat = d) (hwd : w ≠ d) :
    (handler_pair_dev s).packet d
        = { s.packet d with p_a1 := (s.packet w).p_a2.getD (s.packet w).p_a1.toNat 0 } ∧
      (handler_pair_dev s).packet w = { s.packet w with p_a1 := (s.packet w).p_a1 + 1 } ∧
      (∀ q, q ≠ w → q ≠ d → (handler_pair_dev s).packet q = s.packet q) ∧
      (handler_pair_dev s).v2 = ((s.packet d).p_link : Int) ∧
      (handler_pair_dev s).v1 = s.v1 ∧ (handler_pair_dev s).tasks = s.tasks := by
  unfold handler_pair_dev
  obtain ⟨tasks, packets, tasktab, tasklist, tcb, taskid, v1, v2, qc, hc, tr, lay⟩ := s
  simp only [State.packet, State.setPacket] at *
  subst hw hd
  refine ⟨?_, ?_, ?_, ?_⟩
  · rw [Mem.read_write_ne _ _ _ _ hwd, Mem.read_write_same]
  · rw [Mem.read_write_same, Mem.read_write_ne _ _ _ _ (Ne.symm hwd)]
  · intro q hq1 hq2
    rw [Mem.read_write_ne _ _ _ _ (Ne.symm hq1), Mem.read_write_ne _ _ _ _ (Ne.symm hq2)]
  · exact ⟨rfl, trivial, trivial⟩

/-- C16: for an invocation of `handlerfn` after whose first statement (the filing of
the inbound packet, if any, at the end of the chain for its kind, state `s1`) the work
chain `v1` has the head `w`, a work packet with the cursor `c`, `0 ≤ c ≤ BUFSIZE`, and
the device chain `v2` has the head `d`, a device packet: `handlerfn` is the call of
`qpkt` for `d` in the state `s2` in which the integer field of `d` is the payload
character of `w` at index `c`, the cursor of `w` is `c + 1`, `v2` is the link of `d`
(the chain of the successors of `d`), `v1` is still `w`, the other fields of `d` (so
its destination) and of `w` and all other packets and the tasks are as in `s1`. -/
theorem handler_pairing (s s1 : State) (fuel pkt w d : Nat) (c : Int)
    (hfile : handler_file fuel s pkt = some s1)
    (hw : s1.v1 = (w : Int)) (hw0 : w ≠ 0) (hd : s1.v2 = (d : Int)) (hd0 : d ≠ 0)
    (hkw : (s1.packet w).p_kind = K_WORK) (hkd : (s1.packet d).p_kind = K_DEV)
    (hc : (s1.packet w).p_a1 = c) (hc0 : 0 ≤ c) (hc3 : c ≤ BUFSIZE) :
    ∃ s2, handlerfn fuel s pkt = qpkt fuel s2 d ∧
      s2.packet d = { s1.packet d with p_a1 := (s1.packet w).p_a2.getD c.toNat 0 } ∧
      s2.packet w = { s1.packet w with p_a1 := c + 1 } ∧
      (∀ q, q ≠ w → q ≠ d → s2.packet q = s1.packet q) ∧
      s2.v2 = ((s1.packet d).p_link : Int) ∧ s2.v1 = (w : Int) ∧ s2.tasks = s1.tasks := by
  have hwd : w ≠ d := by
    intro e
    rw [e, hkd] at hkw
    exact absurd hkw (by decide)
  have e1 : s1.v1.toNat = w := by rw [hw]; rfl
  have e2 : s1.v2.toNat = d := by rw [hd]; rfl
  have n1 : s1.v1 ≠ 0 := by rw [hw]; exact_mod_cast hw0
  have n2 : s1.v2 ≠ 0 := by rw [hd]; exact_mod_cast hd0
  obtain ⟨a, b, q, v2, v1, t⟩ := handler_pair_dev_packets s1 w d e1 e2 hwd
  refine ⟨handler_pair_dev s1, ?_, ?_, ?_, q, v2, v1.trans hw, t⟩
  · rw [handlerfn_of_file fuel s s1 pkt hfile]
    unfold handler_pair
    simp only
    rw [if_pos n1, e1, hc, if_neg (not_lt.2 hc3), if_pos n2, e2]
  · rw [a, hc]
  · rw [b, hc]

theorem handler_pairing_witness :
    ∃ s2, handlerfn 3 State.pairing 0 = qpkt 3 s2 384 ∧
      s2.packet 384
        = { State.pairing.packet 384 with
            p_a1 := (State.pairing.packet 256).p_a2.getD (2 : Int).toNat 0 } ∧
      s2.packet 256 = { State.pairing.packet 256 with p_a1 := 2 + 1 } ∧
      (∀ q, q ≠ 256 → q ≠ 384 → s2.packet q = State.pairing.packet q) ∧
      s2.v2 = ((State.pairing.packet 384).p_link : Int) ∧ s2.v1 = (256 : Nat) ∧
      s2.tasks = State.pairing.tasks :=
  handler_pairing State.pairing State.pairing 3 0 256 384 2 (by decide) (by decide) (by decide)
    (by decide) (by decide) (by decide) (by decide) (by decide) (by decide) (by decide)

/-- C17 fails as stated: in the configuration `State.forwarding` the cursor of the
head 256 of the work chain is 4, which does not exceed the number of characters of
the payload (`BUFSIZE + 1 = 4`), and `handlerfn` forwards the packet: it is the call
of `qpkt` for 256 in the state `handler_unlink_work`, in which the work chain is the
link of 256 (the empty chain), and it counts one packet queued. -/
theorem handler_forwards_at_payload_length :
    (State.forwarding.packet 256).p_a1 = 4 ∧
      (State.forwarding.packet 256).p_a2.length = BUFSIZE + 1 ∧
      ¬ ((State.forwarding.packet 256).p_a1
          > ((State.forwarding.packet 256).p_a2.length : Int)) ∧
      handlerfn 3 State.forwarding 0 = qpkt 3 (handler_unlink_work State.forwarding) 256 ∧
      (handler_unlink_work State.forwarding).v1 = 0 ∧
      (handlerfn 3 State.forwarding 0).map (fun r => (r.1.v1, r.1.v2, r.1.qpktcount))
        = some (0, 384, 1) := by
  decide

/-- C17 (as the code behaves): for an invocation of `handlerfn` after whose first
statement (state `s1`) the work chain `v1` is not empty, with head `w`: if the cursor
of `w` is greater than `BUFSIZE = 3`, so from 4, the number of characters of the
payload, on, `handlerfn` forwards `w`: it is the call of `qpkt` for `w` in the state in
which `v1` is the link of `w` and `v2`, the packets and the tasks are untouched; if the
cursor is at most `BUFSIZE`, `handlerfn` does not forward `w`: it is the call of `qpkt`
for the head of the device chain or, if that chain is empty, `wait_task`, and `w` stays
the head of the work chain. -/
theorem handler_forward_threshold (s s1 : State) (fuel pkt w : Nat)
    (hfile : handler_file fuel s pkt = some s1) (hw : s1.v1 = (w : Int)) (hw0 : w ≠ 0) :
    ((s1.packet w).p_a1 > BUFSIZE →
        handlerfn fuel s pkt = qpkt fuel (handler_unlink_work s1) w ∧
        (handler_unlink_work s1).v1 = ((s1.packet w).p_link : Int) ∧
        (handler_unlink_work s1).v2 = s1.v2 ∧
        (handler_unlink_work s1).packets = s1.packets ∧
        (handler_unlink_work s1).tasks = s1.tasks) ∧
      ((s1.packet w).p_a1 ≤ BUFSIZE →
        handlerfn fuel s pkt
          = (if s1.v2 ≠ 0 then qpkt fuel (handler_pair_dev s1) s1.v2.toNat
             else some (wait_task s1)) ∧
        (handler_pair_dev s1).v1 = (w : Int) ∧ (wait_task s1).1.v1 = (w : Int)) := by
  have e1 : s1.v1.toNat = w := by rw [hw]; rfl
  have n1 : s1.v1 ≠ 0 := by rw [hw]; exact_mod_cast hw0
  constructor
  · intro hc
    refine ⟨?_, ?_, rfl, rfl, rfl⟩
    · rw [handlerfn_of_file fuel s s1 pkt hfile]
      unfold handler_pair
      simp only
      rw [if_pos n1, e1, if_pos hc]
    · unfold handler_unlink_work
      simp only [e1]
  · intro hc
    refine ⟨?_, hw, hw⟩
    rw [handlerfn_of_file fuel s s1 pkt hfile]
    unfold handler_pair
    simp only
    rw [if_pos n1, e1, if_neg (not_lt.2 hc)]

theorem handler_forward_threshold_witness :
    handler_file 3 State.forwarding 0 = some State.forwarding ∧
      State.forwarding.v1 = ((256 : Nat) : Int) ∧
      (State.forwarding.packet 256).p_a1 > BUFSIZE ∧
      handlerfn 3 State.forwarding 0 = qpkt 3 (handler_unlink_work State.forwarding) 256 ∧
      (handler_unlink_work State.forwarding).v1 = ((State.forwarding.packet 256).p_link : Int) ∧
      (handler_unlink_work State.forwarding).v2 = State.forwarding.v2 ∧
      (handler_unlink_work State.forwarding).packets = State.forwarding.packets ∧
      (handler_unlink_work State.forwarding).tasks = State.forwarding.tasks :=
  ⟨by decide, by decide, by decide,
    (handler_forward_threshold State.forwarding State.forwarding 3 0 256 (by decide) (by decide)
      (by decide)).1 (by decide)⟩

/-! ## The worker -/

/-- One pass of the loop of `workfn` on the counter `v2`. -/
theorem workfn_body_v2 (pkt : Nat) (s : State) (i : Nat) :
    workfn_body pkt s i
      = { s with
          v2 := if s.v2 + 1 > 26 then 1 else s.v2 + 1,
          packets := s.packets.write pkt
            { s.packet pkt with
              p_a2 := (s.packet pkt).p_a2.set i
                (alphabet.getD (if s.v2 + 1 > 26 then 1 else s.v2 + 1).toNat 0) } } := by
  unfold workfn_body
  simp only
  split <;> rfl

theorem workfn_loop_v1 (pkt : Nat) : ∀ (l : List Nat) (s : State),
    (l.foldl (workfn_body pkt) s).v1 = s.v1 := by
  intro l
  induction l with
  | nil => intro s; rfl
  | cons i l ih =>
    intro s
    rw [List.foldl, ih, workfn_body_v2]

theorem bump_mod (v : Int) (h0 : 0 ≤ v) (h26 : v ≤ 26) :
    (if v + 1 > 26 then 1 else v + 1) = v % 26 + 1 := by
  interval_cases v <;> decide

theorem mod_range (v : Int) : 1 ≤ v % 26 + 1 ∧ v % 26 + 1 ≤ 26 := by
  have h1 := Int.emod_nonneg v (by decide : (26 : Int) ≠ 0)
  have h2 := Int.emod_lt_of_pos v (by decide : (0 : Int) < 26)
  omega

theorem alphabet_letter (k : Int) (h1 : 1 ≤ k) (h26 : k ≤ 26) :
    65 ≤ alphabet.getD k.toNat 0 ∧ alphabet.getD k.toNat 0 ≤ 90 ∧
      alphabet.getD k.toNat 0 = 64 + k ∧ k.toNat < alphabet.length := by
  interval_cases k <;> decide

/-- The state in which `workfn` calls `qpkt`. -/
theorem workfn_fill_eq (s : State) (pkt : Nat) (x0 x1 x2 x3 : Int)
    (hlen : (s.packet pkt).p_a2 = [x0, x1, x2, x3]) (h0 : 0 ≤ s.v2) (h26 : s.v2 ≤ 26) :
    workfn_fill s pkt
      = { s with
          v1 := I_HANDLERA + I_HANDLERB - s.v1,
          v2 := (s.v2 + 3) % 26 + 1,
          packets := s.packets.write pkt
            { s.packet pkt with
              p_id := I_HANDLERA + I_HANDLERB - s.v1, p_a1 := 0,
              p_a2 := [alphabet.getD ((s.v2 + 0) % 26 + 1).toNat 0,
                       alphabet.getD ((s.v2 + 1) % 26 + 1).toNat 0,
                       alphabet.getD ((s.v2 + 2) % 26 + 1).toNat 0,
                       alphabet.getD ((s.v2 + 3) % 26 + 1).toNat 0] } } := by
  have b1 := bump_mod s.v2 h0 h26
  have r1 := mod_range s.v2
  have b2 := bump_mod (s.v2 % 26 + 1) (by omega) (by omega)
  have r2 := mod_range (s.v2 % 26 + 1)
  have b3 := bump_mod ((s.v2 % 26 + 1) % 26 + 1) (by omega) (by omega)
  have r3 := mod_range ((s.v2 % 26 + 1) % 26 + 1)
  have b4 := bump_mod (((s.v2 % 26 + 1) % 26 + 1) % 26 + 1) (by omega) (by omega)
  have m0 : (s.v2 + 0) % 26 + 1 = s.v2 % 26 + 1 := by rw [Int.add_zero]
  have m1 : (s.v2 + 1) % 26 + 1 = (s.v2 % 26 + 1) % 26 + 1 := by omega
  have m2 : (s.v2 + 2) % 26 + 1 = ((s.v2 % 26 + 1) % 26 + 1) % 26 + 1 := by omega
  have m3 : (s.v2 + 3) % 26 + 1 = (((s.v2 % 26 + 1) % 26 + 1) % 26 + 1) % 26 + 1 := by omega
  rw [m0, m1, m2, m3]
  unfold workfn_fill
  have hrange : List.range (BUFSIZE + 1) = [0, 1, 2, 3] := by decide
  rw [hrange]
  simp only [List.foldl, workfn_body_v2]
  obtain ⟨tasks, packets, tasktab, tasklist, tcb, taskid, v1, v2, qc', hc', tr, lay⟩ := s
  simp only [State.packet, State.setPacket, Mem.read_write_same, Mem.write_write_same] at *
  rw [b1, b2, b3, b4, hlen]
  rfl

/-- C18: for an invocation of `workfn` with a packet other than null, `v1` one of the
two handler identifiers 3 and 4, `v2` in 0..26 (and the payload of the packet an array
of `BUFSIZE + 1 = 4` characters): `workfn` is the call of `qpkt` for the packet in the
state in which `v1` is the other handler identifier `7 - v1` (so a second invocation
restores `v1`), the destination of the packet is the new `v1`, its cursor is 0, its
payload character at index `i` (0 to 3) is `alphabet[((v2 + i) mod 26) + 1]`, a letter
`A` to `Z` taken at an index in 1..26 within the bounds of `alphabet`, and `v2` is
`((v2 + 3) mod 26) + 1`, which lies in 1..26. -/
theorem worker_step (s : State) (fuel pkt : Nat) (x0 x1 x2 x3 : Int) (hp : pkt ≠ 0)
    (h1 : s.v1 = I_HANDLERA ∨ s.v1 = I_HANDLERB) (h0 : 0 ≤ s.v2) (h26 : s.v2 ≤ 26)
    (hlen : (s.packet pkt).p_a2 = [x0, x1, x2, x3]) :
    workfn fuel s pkt = qpkt fuel (workfn_fill s pkt) pkt ∧
      (workfn_fill s pkt).v1 = 7 - s.v1 ∧
      ((workfn_fill s pkt).v1 = I_HANDLERA ∨ (workfn_fill s pkt).v1 = I_HANDLERB) ∧
      (workfn_fill s pkt).v1 ≠ s.v1 ∧
      (∀ (s' : State) (pkt' : Nat), s'.v1 = (workfn_fill s pkt).v1 →
        (workfn_fill s' pkt').v1 = s.v1) ∧
      ((workfn_fill s pkt).packet pkt).p_id = (workfn_fill s pkt).v1 ∧
      ((workfn_fill s pkt).packet pkt).p_a1 = 0 ∧
      (∀ i : Nat, i < 4 →
        ((workfn_fill s pkt).packet pkt).p_a2.getD i 0
            = alphabet.getD ((s.v2 + i) % 26 + 1).toNat 0 ∧
          1 ≤ (s.v2 + i) % 26 + 1 ∧ (s.v2 + i) % 26 + 1 ≤ 26 ∧
          ((s.v2 + i) % 26 + 1).toNat < alphabet.length ∧
          65 ≤ ((workfn_fill s pkt).packet pkt).p_a2.getD i 0 ∧
          ((workfn_fill s pkt).packet pkt).p_a2.getD i 0 ≤ 90) ∧
      (workfn_fill s pkt).v2 = (s.v2 + 3) % 26 + 1 ∧
      1 ≤ (workfn_fill s pkt).v2 ∧ (workfn_fill s pkt).v2 ≤ 26 := by
  have hv1 : ∀ (s' : State) (pkt' : Nat),
      (workfn_fill s' pkt').v1 = I_HANDLERA + I_HANDLERB - s'.v1 := by
    intro s' pkt'
    unfold workfn_fill
    simp only
    rw [workfn_loop_v1]
    rfl
  have hfill := workfn_fill_eq s pkt x0 x1 x2 x3 hlen h0 h26
  have hpk : (workfn_fill s pkt).packet pkt
      = { s.packet pkt with
          p_id := I_HANDLERA + I_HANDLERB - s.v1, p_a1 := 0,
          p_a2 := [alphabet.getD ((s.v2 + 0) % 26 + 1).toNat 0,
                   alphabet.getD ((s.v2 + 1) % 26 + 1).toNat 0,
                   alphabet.getD ((s.v2 + 2) % 26 + 1).toNat 0,
                   alphabet.getD ((s.v2 + 3) % 26 + 1).toNat 0] } := by
    rw [hfill]
    simp only [State.packet, Mem.read_write_same]
  have hv2 : (workfn_fill s pkt).v2 = (s.v2 + 3) % 26 + 1 := by rw [hfill]
  have hsum : I_HANDLERA + I_HANDLERB = 7 := by decide
  refine ⟨?_, ?_, ?_, ?_, ?_, ?_, ?_, ?_, hv2, ?_, ?_⟩
  · unfold workfn
    rw [if_neg hp]
  · rw [hv1, hsum]
  · rw [hv1]
    rcases h1 with e | e <;> rw [e] <;> decide
  · rw [hv1]
    rcases h1 with e | e <;> rw [e] <;> decide
  · intro s' pkt' hs'
    rw [hv1 s' pkt', hs', hv1 s pkt]
    omega
  · rw [hpk, hv1]
  · rw [hpk]
  · intro i hi
    have hr := mod_range (s.v2 + i)
    obtain ⟨l1, l2, _, l4⟩ := alphabet_letter _ hr.1 hr.2
    have hget : ((workfn_fill s pkt).packet pkt).p_a2.getD i 0
        = alphabet.getD ((s.v2 + i) % 26 + 1).toNat 0 := by
      rw [hpk]
      interval_cases i <;> rfl
    rw [hget]
    exact ⟨rfl, hr.1, hr.2, l4, l1, l2⟩
  · rw [hv2]; exact (mod_range _).1
  · rw [hv2]; exact (mod_range _).2

theorem worker_step_witness :
    workfn 3 ({ State.sample with v1 := 3, v2 := 0 } : State) 256
        = qpkt 3 (workfn_fill ({ State.sample with v1 := 3, v2 := 0 } : State) 256) 256 ∧
      (workfn_fill ({ State.sample with v1 := 3, v2 := 0 } : State) 256).v1 = 7 - 3 :=
  ⟨(worker_step ({ State.sample with v1 := 3, v2 := 0 } : State) 3 256 0 0 0 0 (by decide)
      (Or.inl (by decide)) (by decide) (by decide) (by decide)).1,
   (worker_step ({ State.sample with v1 := 3, v2 := 0 } : State) 3 256 0 0 0 0 (by decide)
      (Or.inl (by decide)) (by decide) (by decide) (by decide)).2.1⟩

/-! ## The idle task -/

theorem release_scratch (s : State) (id : Int) :
    (release s id).1.v1 = s.v1 ∧ (release s id).1.v2 = s.v2 := by
  unfold release
  simp only
  split
  · exact ⟨rfl, rfl⟩
  · split <;> exact ⟨rfl, rfl⟩

theorem nat_xor_range (x : Nat) (hx : x < 32768) :
    1 ≤ x ^^^ 53256 ∧ x ^^^ 53256 ≤ 65535 := by
  constructor
  · rcases Nat.eq_zero_or_pos (x ^^^ 53256) with e | e
    · have := Nat.xor_eq_zero.1 e
      omega
    · exact e
  · have := Nat.xor_lt_two_pow (show x < 2 ^ 16 by omega) (show 53256 < 2 ^ 16 by decide)
    omega

/-- The two values `idlefn` may leave in `v1`. -/
theorem idle_values (v : Int) (h1 : 1 ≤ v) (h2 : v ≤ 65535) :
    (Int.land v 1 = 0 ↔ v % 2 = 0) ∧
      (v % 2 = 0 → 1 ≤ Int.land (v >>> 1) MAXINT ∧ Int.land (v >>> 1) MAXINT ≤ 65535) ∧
      (1 ≤ Int.xor (Int.land (v >>> 1) MAXINT) 0xD008 ∧
        Int.xor (Int.land (v >>> 1) MAXINT) 0xD008 ≤ 65535) := by
  obtain ⟨n, rfl⟩ := Int.eq_ofNat_of_zero_le (by omega : 0 ≤ v)
  have hn1 : 1 ≤ n := by omega
  have hn2 : n ≤ 65535 := by omega
  have hland : Int.land (n : Int) 1 = ((n &&& 1 : Nat) : Int) := rfl
  have hsh : Int.land ((n : Int) >>> 1) MAXINT = (((n >>> 1) &&& 32767 : Nat) : Int) := rfl
  have hx : Int.xor (Int.land ((n : Int) >>> 1) MAXINT) 0xD008
      = ((((n >>> 1) &&& 32767) ^^^ 53256 : Nat) : Int) := rfl
  have hand : (n >>> 1) &&& 32767 = (n / 2) % 32768 := by
    rw [Nat.shiftRight_eq_div_pow]
    exact Nat.and_pow_two_sub_one_eq_mod (n / 2 ^ 1) 15
  have hand1 : n &&& 1 = n % 2 := Nat.and_one_is_mod n
  rw [hland, hx, hsh, hand, hand1]
  refine ⟨?_, ?_, ?_⟩
  · constructor
    · intro h; omega
    · intro h; omega
  · intro h
    constructor <;> omega
  · obtain ⟨a, b⟩ := nat_xor_range (n / 2 % 32768) (Nat.mod_lt _ (by decide))
    constructor <;> omega

/-- C20: for an invocation of `idlefn` with `v1` in 1..65535 that does not exhaust the
repetition counter (`v2 - 1` is not 0): `v2` is decremented by 1; if `v1` is even, `v1`
becomes `(v1 >> 1) & 32767` and `idlefn` is the call `release(I_DEVA)` (identifier 5)
in that state, otherwise `v1` becomes `((v1 >> 1) & 32767) ^ 0xD008` and `idlefn` is
the call `release(I_DEVB)` (identifier 6); in both cases the new `v1` lies in 1..65535
again. -/
theorem idle_step (s : State) (pkt : Nat) (h1 : 1 ≤ s.v1) (h2 : s.v1 ≤ 65535)
    (hv : s.v2 - 1 ≠ 0) :
    (idlefn s pkt).1.v2 = s.v2 - 1 ∧
      (s.v1 % 2 = 0 →
        idlefn s pkt
          = release { s with v2 := s.v2 - 1, v1 := Int.land (s.v1 >>> 1) 32767 } I_DEVA ∧
        (idlefn s pkt).1.v1 = Int.land (s.v1 >>> 1) 32767 ∧ I_DEVA = 5) ∧
      (s.v1 % 2 ≠ 0 →
        idlefn s pkt
          = release { s with v2 := s.v2 - 1,
                             v1 := Int.xor (Int.land (s.v1 >>> 1) 32767) 0xD008 } I_DEVB ∧
        (idlefn s pkt).1.v1 = Int.xor (Int.land (s.v1 >>> 1) 32767) 0xD008 ∧ I_DEVB = 6) ∧
      1 ≤ (idlefn s pkt).1.v1 ∧ (idlefn s pkt).1.v1 ≤ 65535 := by
  obtain ⟨hev, hr1, hr2⟩ := idle_values s.v1 h1 h2
  have heven : s.v1 % 2 = 0 →
      idlefn s pkt
        = release { s with v2 := s.v2 - 1, v1 := Int.land (s.v1 >>> 1) 32767 } I_DEVA := by
    intro he
    unfold idlefn
    simp only
    rw [if_neg hv, if_pos (hev.2 he)]
    rfl
  have hodd : s.v1 % 2 ≠ 0 →
      idlefn s pkt
        = release { s with v2 := s.v2 - 1,
                           v1 := Int.xor (Int.land (s.v1 >>> 1) 32767) 0xD008 } I_DEVB := by
    intro ho
    unfold idlefn
    simp only
    rw [if_neg hv, if_neg (fun e => ho (hev.1 e))]
    rfl
  by_cases he : s.v1 % 2 = 0
  · have e := heven he
    refine ⟨?_, fun _ => ⟨e, ?_, rfl⟩, fun ho => absurd he ho, ?_, ?_⟩
    · rw [e]; exact (release_scratch _ _).2
    · rw [e]; exact (release_scratch _ _).1
    · rw [e, (release_scratch _ _).1]; exact (hr1 he).1
    · rw [e, (release_scratch _ _).1]; exact (hr1 he).2
  · have e := hodd he
    refine ⟨?_, fun h => absurd h he, fun _ => ⟨e, ?_, rfl⟩, ?_, ?_⟩
    · rw [e]; exact (release_scratch _ _).2
    · rw [e]; exact (release_scratch _ _).1
    · rw [e, (release_scratch _ _).1]; exact hr2.1
    · rw [e, (release_scratch _ _).1]; exact hr2.2

theorem idle_step_witness :
    (idlefn State.sample 0).1.v2 = State.sample.v2 - 1 ∧
      1 ≤ (idlefn State.sample 0).1.v1 ∧ (idlefn State.sample 0).1.v1 ≤ 65535 :=
  ⟨(idle_step State.sample 0 (by decide) (by decide) (by decide)).1,
   (idle_step State.sample 0 (by decide) (by decide) (by decide)).2.2.2⟩

/-! ## The allocations of the benchmark -/

theorem my_malloc_n_add (a : Nat) : ∀ (b : Nat) (P : Pool),
    (my_malloc_n (a + b) P).1 = (my_malloc_n b (my_malloc_n a P).1).1 := by
  induction a with
  | zero => intro b P; rw [Nat.zero_add]; rfl
  | succ a ih =>
    intro b P
    rw [Nat.succ_add]
    show (my_malloc_n (a + b) (my_malloc P).1).1 = _
    rw [ih]
    rfl

theorem createtask_pool (M : Pool × State) (id pri : Int) (wkq : Nat) (st : Int) (fn : Fn)
    (v1 v2 : Int) : (createtask M id pri wkq st fn v1 v2).1 = (my_malloc M.1).1 := rfl

theorem pkt_pool (M : Pool × State) (link : Nat) (id kind : Int) :
    (pkt M link id kind).1.1 = (my_malloc M.1).1 := rfl

theorem my_malloc_n_succ (n : Nat) (P : Pool) :
    (my_malloc_n (n + 1) P).1 = (my_malloc_n n (my_malloc P).1).1 := rfl

theorem my_malloc_n_zero (P : Pool) : (my_malloc_n 0 P).1 = P := rfl

theorem my_malloc_n_14 (P : Pool) :
    (my_malloc_n 14 P).1
      = (my_malloc (my_malloc (my_malloc (my_malloc (my_malloc (my_malloc (my_malloc
          (my_malloc (my_malloc (my_malloc (my_malloc (my_malloc (my_malloc
            (my_malloc P).1).1).1).1).1).1).1).1).1).1).1).1).1).1 := by
  rw [show (14 : Nat) = 0 + 1 + 1 + 1 + 1 + 1 + 1 + 1 + 1 + 1 + 1 + 1 + 1 + 1 + 1 from rfl]
  simp only [my_malloc_n_succ, my_malloc_n_zero]

/-- The pool after the setup of `bench` is the pool after fourteen calls of
`my_malloc`. -/
theorem bench_setup_pool (M : Pool × State) : (bench_setup M).1 = (my_malloc_n 14 M.1).1 := by
  rw [my_malloc_n_14]
  unfold bench_setup
  simp only [createtask_pool, pkt_pool]

theorem bench_pool (fuel : Nat) (M M' : Pool × State) (q : Int)
    (h : bench fuel M = some (.returned (M', q))) : M'.1 = (my_malloc_n 14 M.1).1 := by
  unfold bench at h
  simp only at h
  cases hs : schedule fuel (bench_setup M).2 with
  | none => rw [hs] at h; exact absurd h (by simp)
  | some s =>
    rw [hs] at h
    simp only at h
    split at h
    · exact absurd h (by simp)
    · simp only [Option.some.injEq, Outcome.returned.injEq, Prod.mk.injEq] at h
      rw [← h.1]
      dsimp only
      exact bench_setup_pool M

theorem inner_loop_pool (fuel : Nat) : ∀ (n : Nat) (r : Int) (M M' : Pool × State) (r' : Int),
    inner_loop_from fuel n r M = some (.returned (M', r')) →
      M'.1 = (my_malloc_n (14 * n) M.1).1 := by
  intro n
  induction n with
  | zero =>
    intro r M M' r' h
    simp only [inner_loop_from, Option.some.injEq, Outcome.returned.injEq, Prod.mk.injEq] at h
    rw [← h.1]
    rfl
  | succ n ih =>
    intro r M M' r' h
    rw [inner_loop_from] at h
    cases hb : bench fuel M with
    | none => rw [hb] at h; exact absurd h (by simp)
    | some o =>
      rw [hb] at h
      cases o with
      | exited c => exact absurd h (by simp)
      | returned a =>
        obtain ⟨M1, q⟩ := a
        simp only at h
        rw [ih _ M1 M' r' h, bench_pool fuel M M1 q hb, show 14 * (n + 1) = 14 + 14 * n by omega,
          my_malloc_n_add]

theorem my_malloc_cells (P : Pool) : (my_malloc P).1.cells = P.cells := by
  unfold my_malloc
  split <;> rfl

/-! ## The canonical run -/

theorem canonical_rep (p : Nat) (hp : 0 < p) (P : Pool) :
    (Place.first p).ok ∧
      (Place.first p).Rep FState.start (bench_setup (init_mem_pool p P, State.init)).2 := by
  have hcells : ∀ k, k < 14 →
      (init_mem_pool p P).cells.read (p + 64 * k) = p + 64 * (k + 1) :=
    fun k hk => init_mem_pool_read p P k (by omega)
  have hb : ∀ (α : Type), (Mem.ofList ([] : List (Nat × α))).Below p :=
    fun _ kv hkv => absurd hkv (List.not_mem_nil kv)
  obtain ⟨_, hok, hrep⟩ := bench_setup_place (init_mem_pool p P).cells (init_mem_pool p P).pool p
    hp hcells [] [] (hb _) (hb _) 0 0 0 0 0 0 0 0 0 0 0 0 0 0 0
  exact ⟨hok, hrep⟩

theorem Place.rep_end (E : Place) (hL : E.L = 0) (S : State) (hR : E.Rep ck54 S) :
    S.tcb = 0 ∧ S.qpktcount = Qpktcountval ∧ S.holdcount = Holdcountval := by
  obtain ⟨_, _, _, d, e, g, _, _⟩ := hR
  refine ⟨?_, ?_, ?_⟩
  · rw [d]; exact hL
  · rw [e]; rfl
  · rw [g]; rfl

/-- C1: from the canonical setup built by `bench` (for the pool at any address `p`
other than null: the six tasks `idle`, `worker`, `handlerA`, `handlerB`, `devA`,
`devB` in the cells 1, 4, 8, 12, 13 and 14 of the pool with the identifiers,
priorities, queues, states, behaviours and scratch values of the source, the current
task the head of the task list, both counters 0), `schedule` returns, for every fuel
from 106614 on, in a state with a null current task, `qpktcount = 23246` and
`holdcount = 9297`. -/
theorem bench_run_canonical (p : Nat) (hp : 0 < p) (P : Pool) (n : Nat) :
    (bench_setup (init_mem_pool p P, State.init)).2.task p
        = ⟨0, I_IDLE, 0, 0, S_RUN, Fn.idlefn, 1, Count⟩ ∧
      (bench_setup (init_mem_pool p P, State.init)).2.task (p + 64 * 3)
        = ⟨p, I_WORK, 1000, p + 64 * 2, S_WAITPKT, Fn.workfn, I_HANDLERA, 0⟩ ∧
      (bench_setup (init_mem_pool p P, State.init)).2.task (p + 64 * 7)
        = ⟨p + 64 * 3, I_HANDLERA, 2000, p + 64 * 6, S_WAITPKT, Fn.handlerfn, 0, 0⟩ ∧
      (bench_setup (init_mem_pool p P, State.init)).2.task (p + 64 * 11)
        = ⟨p + 64 * 7, I_HANDLERB, 3000, p + 64 * 10, S_WAITPKT, Fn.handlerfn, 0, 0⟩ ∧
      (bench_setup (init_mem_pool p P, State.init)).2.task (p + 64 * 12)
        = ⟨p + 64 * 11, I_DEVA, 4000, 0, S_WAIT, Fn.devfn, 0, 0⟩ ∧
      (bench_setup (init_mem_pool p P, State.init)).2.task (p + 64 * 13)
        = ⟨p + 64 * 12, I_DEVB, 5000, 0, S_WAIT, Fn.devfn, 0, 0⟩ ∧
      (bench_setup (init_mem_pool p P, State.init)).2.tcb
        = (bench_setup (init_mem_pool p P, State.init)).2.tasklist ∧
      (bench_setup (init_mem_pool p P, State.init)).2.tasklist = p + 64 * 13 ∧
      (bench_setup (init_mem_pool p P, State.init)).2.qpktcount = 0 ∧
      (bench_setup (init_mem_pool p P, State.init)).2.holdcount = 0 ∧
      ∃ s', schedule (106614 + n) (bench_setup (init_mem_pool p P, State.init)).2 = some s' ∧
        s'.tcb = 0 ∧ s'.qpktcount = Qpktcountval ∧ s'.holdcount = Holdcountval := by
  obtain ⟨hok, hrep⟩ := canonical_rep p hp P
  have ht : ∀ j T, FState.start.tasks.rd j = some T →
      (bench_setup (init_mem_pool p P, State.init)).2.task ((Place.first p).cell j)
        = (Place.first p).task j T :=
    fun j T hr => (Place.first p).task_read hok _ _ hrep.1 j T hr
  refine ⟨ht 1 _ rfl, ht 4 _ rfl, ht 8 _ rfl, ht 12 _ rfl, ht 13 _ rfl, ht 14 _ rfl, ?_, ?_, ?_, ?_,
    ?_⟩
  · rw [hrep.2.2.2.1, hrep.2.2.2.2.2.2.2]; rfl
  · rw [hrep.2.2.2.2.2.2.2]; rfl
  · rw [hrep.2.2.2.2.1]; rfl
  · rw [hrep.2.2.2.2.2.1]; rfl
  · obtain ⟨S', _, hR', _, hs, _, _⟩ := run_from_start (Place.first p) hok (fun _ => True)
      (fun _ _ _ _ => trivial) _ hrep n
    obtain ⟨e1, e2, e3⟩ := (Place.first p).rep_end rfl S' hR'
    refine ⟨S', ?_, e1, e2, e3⟩
    rw [show 106614 + n = 10 + n + 106604 by omega, hs,
      show 10 + n = (9 + n) + 1 by omega]
    exact schedule_of_null (9 + n) S' e1

theorem bench_run_canonical_witness :
    0 < 4096 ∧
      ∃ s', schedule (106614 + 0)
          (bench_setup (init_mem_pool 4096 ⟨Mem.empty, 0, 0⟩, State.init)).2 = some s' ∧
        s'.tcb = 0 ∧ s'.qpktcount = Qpktcountval ∧ s'.holdcount = Holdcountval :=
  ⟨by decide, (bench_run_canonical 4096 (by decide) ⟨Mem.empty, 0, 0⟩ 0).2.2.2.2.2.2.2.2.2.2⟩

/-! ## Properties of the canonical run -/

/-- C13: in every state at the top of an iteration of the scheduler loop in the run
from the canonical six-task setup (for the pool at any address `p` other than null and
every fuel from 106614 on), every task that precedes the current task in the task list
is in one of the states `S_WAIT`, `S_HOLD`, `S_HOLDPKT`, `S_HOLDWAIT`, `S_HOLDWAITPKT`,
so in none of `S_RUN`, `S_RUNPKT`, `S_WAITPKT`; the states listed are all the states of
the run: the last one has a null current task.  The task list is in the order of
decreasing priority. -/
theorem priority_ordered_dispatch (p : Nat) (hp : 0 < p) (P : Pool) (n : Nat) :
    (∀ s ∈ schedule_trace (106614 + n) (bench_setup (init_mem_pool p P, State.init)).2,
        ∀ t ∈ s.before 6 s.tasklist,
          parked (s.task t).t_state ∧ (s.task t).t_state ≠ S_RUN ∧
            (s.task t).t_state ≠ S_RUNPKT ∧ (s.task t).t_state ≠ S_WAITPKT) ∧
      (∃ s', (schedule_trace (106614 + n)
          (bench_setup (init_mem_pool p P, State.init)).2).getLast? = some s' ∧ s'.tcb = 0) ∧
      ((bench_setup (init_mem_pool p P, State.init)).2.listFrom 7
          (bench_setup (init_mem_pool p P, State.init)).2.tasklist).map
        (fun t => ((bench_setup (init_mem_pool p P, State.init)).2.task t).t_pri)
        = [5000, 4000, 3000, 2000, 1000, 0] := by
  obtain ⟨hok, hrep⟩ := canonical_rep p hp P
  obtain ⟨S', l, hR', hQ', _, htr, hl⟩ := run_from_start (Place.first p) hok
    (fun s => s.PriorityOrdered 6) (fun f S hR ho => ok_place (Place.first p) hok rfl f S hR ho)
    _ hrep n
  obtain ⟨e1, _, _⟩ := (Place.first p).rep_end rfl S' hR'
  have htrace : schedule_trace (106614 + n) (bench_setup (init_mem_pool p P, State.init)).2
      = l ++ [S'] := by
    rw [show 106614 + n = 10 + n + 106604 by omega, htr, show 10 + n = (9 + n) + 1 by omega,
      schedule_trace_of_null (9 + n) S' e1]
  have hpk : ∀ st, parked st → st ≠ S_RUN ∧ st ≠ S_RUNPKT ∧ st ≠ S_WAITPKT := by
    intro st hs
    rcases hs with e | e | e | e | e <;> rw [e] <;> decide
  refine ⟨?_, ⟨S', ?_, e1⟩, ?_⟩
  · intro s hs t ht
    rw [htrace] at hs
    have hq : s.PriorityOrdered 6 := by
      rcases List.mem_append.1 hs with e | e
      · exact (hl s e).1
      · rw [List.mem_singleton.1 e]; exact hQ'
    exact ⟨hq t ht, hpk _ (hq t ht)⟩
  · rw [htrace, List.getLast?_append]
    rfl
  · exact canonical_priorities (Place.first p) hok rfl _ _ hrep

theorem priority_ordered_dispatch_witness :
    0 < 4096 ∧
      ∀ s ∈ schedule_trace (106614 + 0)
          (bench_setup (init_mem_pool 4096 ⟨Mem.empty, 0, 0⟩, State.init)).2,
        ∀ t ∈ s.before 6 s.tasklist,
          parked (s.task t).t_state ∧ (s.task t).t_state ≠ S_RUN ∧
            (s.task t).t_state ≠ S_RUNPKT ∧ (s.task t).t_state ≠ S_WAITPKT :=
  ⟨by decide, (priority_ordered_dispatch 4096 (by decide) ⟨Mem.empty, 0, 0⟩ 0).1⟩

/-! ## Consistency of the canonical setup -/

theorem Place.first_task (p : Nat) (ts : FTasks) (t : Nat) :
    ((Place.first p).tasks ts).read t = default ∨
      ∃ j T, ts.rd j = some T ∧ ((Place.first p).tasks ts).read t = (Place.first p).task j T := by
  have r14 : ts.rd 14 = some ts.t14 := by rw [FTasks.task_rd_eq]; rfl
  have r13 : ts.rd 13 = some ts.t13 := by rw [FTasks.task_rd_eq]; rfl
  have r12 : ts.rd 12 = some ts.t12 := by rw [FTasks.task_rd_eq]; rfl
  have r8 : ts.rd 8 = some ts.t8 := by rw [FTasks.task_rd_eq]; rfl
  have r4 : ts.rd 4 = some ts.t4 := by rw [FTasks.task_rd_eq]; rfl
  have r1 : ts.rd 1 = some ts.t1 := by rw [FTasks.task_rd_eq]; rfl
  simp only [Place.tasks, Place.first, Mem.ofList, List.nil_append, Mem.read]
  split
  · exact Or.inr ⟨1, _, r1, rfl⟩
  split
  · exact Or.inr ⟨4, _, r4, rfl⟩
  split
  · exact Or.inr ⟨8, _, r8, rfl⟩
  split
  · exact Or.inr ⟨12, _, r12, rfl⟩
  split
  · exact Or.inr ⟨13, _, r13, rfl⟩
  split
  · exact Or.inr ⟨14, _, r14, rfl⟩
  exact Or.inl rfl

theorem canonical_consistent (p : Nat) (hp : 0 < p) (P : Pool) :
    (bench_setup (init_mem_pool p P, State.init)).2.Consistent := by
  obtain ⟨hok, hrep⟩ := canonical_rep p hp P
  intro t
  show ((bench_setup (init_mem_pool p P, State.init)).2.tasks.read t).consistent
  rw [hrep.1]
  have hdef : (default : Task).consistent := by
    refine ⟨by decide, by decide, ?_⟩
    exact ⟨fun hh => absurd (by decide) hh, fun hh => absurd rfl hh⟩
  rcases Place.first_task p FState.start.tasks t with e | ⟨j, T, hr, e⟩
  · rw [e]; exact hdef
  · rw [e]
    have hw : ((Place.first p).task j T).t_wkq ≠ 0 ↔ T.wkq ≠ 0 := by
      show (Place.first p).ptr T.wkq ≠ 0 ↔ _
      rw [Ne, (Place.first p).ptr_eq_zero hok]
    have hst : ∀ T : FTask, (0 ≤ T.state ∧ T.state ≤ 7 ∧ (Int.land T.state PKTBIT ≠ 0 ↔ T.wkq ≠ 0)) →
        ((Place.first p).task j T).consistent := by
      intro T' ⟨a, b, c⟩
      refine ⟨a, b, ?_⟩
      show (Int.land T'.state PKTBIT ≠ 0 ↔ (Place.first p).ptr T'.wkq ≠ 0)
      rw [c, Ne, Ne, (Place.first p).ptr_eq_zero hok]
    apply hst
    rw [FTasks.task_rd_eq] at hr
    rcases FTasks.task_rd_some FState.start.tasks j T (by rw [FTasks.task_rd_eq]; exact hr)
      with e | e | e | e | e | e <;>
      subst e <;> simp only [if_true, OfNat.ofNat_ne_one, Nat.reduceEqDiff, if_false,
        Option.some.injEq] at hr <;> subst hr <;> decide

/-- C14: the predicate "for every task, the state is one of the eight composite states
0 to 7 and the packet-pending bit is set if and only if the queue is not empty" holds
in the canonical setup (for the pool at any address `p` other than null) and is kept
by `wait_task`, by `holdself`, by `release`, by the dequeue of the `S_WAITPKT` case of
`schedule` and by `qpkt` (called, as C requires, with a packet other than null); so a
task in `S_WAITPKT` has a queue that is not empty. -/
theorem state_consistency (p : Nat) (hp : 0 < p) (P : Pool) :
    (bench_setup (init_mem_pool p P, State.init)).2.Consistent ∧
      (∀ s : State, s.Consistent → (wait_task s).1.Consistent) ∧
      (∀ s : State, s.Consistent → (holdself s).1.Consistent) ∧
      (∀ (s : State) (id : Int), s.Consistent → (release s id).1.Consistent) ∧
      (∀ s : State, s.Consistent → (dequeue s).1.Consistent) ∧
      (∀ (fuel : Nat) (s : State) (pkt : Nat) (r : State × Nat), s.Consistent → pkt ≠ 0 →
        qpkt fuel s pkt = some r → r.1.Consistent) ∧
      (∀ (s : State) (t : Nat), s.Consistent → (s.task t).t_state = S_WAITPKT →
        (s.task t).t_wkq ≠ 0) := by
  refine ⟨canonical_consistent p hp P, wait_task_consistent, holdself_consistent,
    fun s id h => release_consistent s id h, dequeue_consistent,
    fun fuel s pkt r h hp hq => qpkt_consistent fuel s pkt r h hp hq, ?_⟩
  intro s t h hst
  obtain ⟨_, _, c⟩ := h t
  rw [hst] at c
  exact c.1 (by decide)

theorem state_consistency_witness :
    0 < 4096 ∧ (bench_setup (init_mem_pool 4096 ⟨Mem.empty, 0, 0⟩, State.init)).2.Consistent :=
  ⟨by decide, (state_consistency 4096 (by decide) ⟨Mem.empty, 0, 0⟩).1⟩

/-! ## The order of the task list -/

/-- C15 fails as stated: `createtask` puts the new task at the head of the task list.
After the tasks with the identifiers `I_IDLE` and `I_WORK` have been created in this
order on the empty list, the list from its head is `I_WORK`, `I_IDLE`. -/
theorem createtask_reverses_creation_order :
    ((createtask (createtask (Pool.sample, State.init) I_IDLE 0 0 S_RUN Fn.idlefn 1 Count)
        I_WORK 1000 0 S_WAIT Fn.workfn 0 0).2.listFrom 3
      (createtask (createtask (Pool.sample, State.init) I_IDLE 0 0 S_RUN Fn.idlefn 1 Count)
        I_WORK 1000 0 S_WAIT Fn.workfn 0 0).2.tasklist).map
      (fun t => ((createtask (createtask (Pool.sample, State.init) I_IDLE 0 0 S_RUN Fn.idlefn 1
        Count) I_WORK 1000 0 S_WAIT Fn.workfn 0 0).2.task t).t_id)
      = [I_WORK, I_IDLE] := by
  decide

/-- C15 (as the code behaves): `createtask` makes the new task the head of the task
list and links it to the former head, so the list is in the reverse of the order of
creation; in the canonical setup (for the pool at any address `p` other than null)
the list from its head is `devB`, `devA`, `handlerB`, `handlerA`, `worker`, `idle`. -/
theorem tasklist_is_prepend_order (p : Nat) (hp : 0 < p) (P : Pool) :
    (∀ (M : Pool × State) (id pri : Int) (wkq : Nat) (st : Int) (fn : Fn) (v1 v2 : Int),
        (createtask M id pri wkq st fn v1 v2).2.tasklist = (my_malloc M.1).2 ∧
        ((createtask M id pri wkq st fn v1 v2).2.task (my_malloc M.1).2).t_link
          = M.2.tasklist ∧
        ((createtask M id pri wkq st fn v1 v2).2.task (my_malloc M.1).2).t_id = id) ∧
      ((bench_setup (init_mem_pool p P, State.init)).2.listFrom 7
          (bench_setup (init_mem_pool p P, State.init)).2.tasklist).map
        (fun t => ((bench_setup (init_mem_pool p P, State.init)).2.task t).t_id)
        = [I_DEVB, I_DEVA, I_HANDLERB, I_HANDLERA, I_WORK, I_IDLE] := by
  obtain ⟨hok, hrep⟩ := canonical_rep p hp P
  refine ⟨?_, canonical_ids (Place.first p) hok rfl _ _ hrep⟩
  intro M id pri wkq st fn v1 v2
  unfold createtask
  simp only [State.task, State.setTask, Mem.read_write_same]
  exact ⟨trivial, trivial, trivial⟩

theorem tasklist_is_prepend_order_witness :
    0 < 4096 ∧
      ((bench_setup (init_mem_pool 4096 ⟨Mem.empty, 0, 0⟩, State.init)).2.listFrom 7
          (bench_setup (init_mem_pool 4096 ⟨Mem.empty, 0, 0⟩, State.init)).2.tasklist).map
        (fun t => ((bench_setup (init_mem_pool 4096 ⟨Mem.empty, 0, 0⟩, State.init)).2.task t).t_id)
        = [I_DEVB, I_DEVA, I_HANDLERB, I_HANDLERA, I_WORK, I_IDLE] :=
  ⟨by decide, (tasklist_is_prepend_order 4096 (by decide) ⟨Mem.empty, 0, 0⟩).2⟩

/-! ## Runs of `bench` in a row -/

theorem State.tcb_null_eq (S : State) (h : S.tcb = 0) : ({ S with tcb := 0 } : State) = S := by
  obtain ⟨tasks, packets, tasktab, tasklist, tcb, taskid, v1, v2, qc, hc, tr, lay⟩ := S
  simp only at h
  subst h
  rfl

/-- The scheduler walks along a list of tasks that it passes by, to its end. -/
theorem schedule_parked : ∀ (m : Nat) (S : State) (k : Nat), ParkedFrom S.tasks m S.tcb →
    schedule (m + (k + 1)) S = some { S with tcb := 0 } := by
  intro m
  induction m with
  | zero =>
    intro S k h
    rw [Nat.zero_add, schedule_of_null k S h, S.tcb_null_eq h]
  | succ m ih =>
    intro S k h
    obtain ⟨h0, hp, hl⟩ := h
    rw [show m + 1 + (k + 1) = (m + (k + 1)) + 1 by omega,
      (schedule_pass (m + (k + 1)) S h0 hp).1]
    exact ih { S with tcb := (S.task S.tcb).t_link } k hl

/-- The states of the walk along a list of tasks that the scheduler passes by. -/
theorem schedule_trace_parked : ∀ (m : Nat) (S : State) (k : Nat),
    ParkedFrom S.tasks m S.tcb →
    ∀ s ∈ schedule_trace (m + (k + 1)) S, s.tcb = 0 ∨ parked (s.task s.tcb).t_state := by
  intro m
  induction m with
  | zero =>
    intro S k h s hs
    rw [Nat.zero_add, schedule_trace_of_null k S h] at hs
    rw [List.mem_singleton.1 hs]
    exact Or.inl h
  | succ m ih =>
    intro S k h s hs
    obtain ⟨h0, hp, hl⟩ := h
    rw [show m + 1 + (k + 1) = (m + (k + 1)) + 1 by omega,
      (schedule_pass (m + (k + 1)) S h0 hp).2] at hs
    rcases List.mem_cons.1 hs with e | e
    · rw [e]; exact Or.inr hp
    · exact ih { S with tcb := (S.task S.tcb).t_link } k hl s e

theorem Mem.read_append (α : Type) [Inhabited α] (fr l : List (Nat × α)) (t : Nat) :
    (Mem.ofList (fr ++ l)).read t = (Mem.ofList fr).read t ∨ (Mem.ofList fr).read t = default := by
  induction fr with
  | nil => exact Or.inr rfl
  | cons kv r ih =>
    obtain ⟨k, v⟩ := kv
    by_cases e : k = t
    · left
      show (if k = t then v else _) = (if k = t then v else _)
      rw [if_pos e, if_pos e]
    · rcases ih with h | h
      · left
        show (if k = t then v else Mem.read (r ++ l) t) = (if k = t then v else Mem.read r t)
        rw [if_neg e, if_neg e]
        exact h
      · right
        show (if k = t then v else Mem.read r t) = default
        rw [if_neg e]
        exact h

theorem parked_not_default (T : Task) (h : parked T.t_state) : T ≠ default := by
  intro e
  rw [e] at h
  exact absurd h (by decide)

/-- Tasks added above the list do not change it. -/
theorem ParkedFrom.append_above (fr l : List (Nat × Task)) : ∀ (m t : Nat),
    ParkedFrom (Mem.ofList fr) m t → ParkedFrom (Mem.ofList (fr ++ l)) m t := by
  intro m
  induction m with
  | zero => intro t h; exact h
  | succ m ih =>
    intro t h
    obtain ⟨h0, hp, hl⟩ := h
    have e : (Mem.ofList (fr ++ l)).read t = (Mem.ofList fr).read t := by
      rcases Mem.read_append Task fr l t with e | e
      · exact e
      · exact absurd e (parked_not_default _ hp)
    refine ⟨h0, ?_, ?_⟩
    · rw [e]; exact hp
    · rw [e]; exact ih _ hl

theorem ParkedFrom.list_length (S : State) : ∀ (m t x : Nat), ParkedFrom S.tasks m t →
    (S.listFrom (m + 1 + x) t).length = m := by
  intro m
  induction m with
  | zero =>
    intro t x h
    have h0 : t = 0 := h
    rw [h0, State.listFrom_zero]
    rfl
  | succ m ih =>
    intro t x h
    obtain ⟨h0, _, hl⟩ := h
    rw [show m + 1 + 1 + x = (m + 1 + x) + 1 by omega, State.listFrom, if_neg h0,
      List.length_cons]
    exact congrArg (fun n => n + 1) (ih (S.tasks.read t).t_link x hl)

theorem Place.tasks_below (E : Place) (h : E.ok) (ts : FTasks) :
    (E.tasks ts).Below (E.p + 896) := by
  intro kv hkv
  rcases List.mem_append.1 hkv with e | e
  · exact Nat.lt_of_lt_of_le (h.2.1 kv e) (Nat.le_add_right _ _)
  · simp only [List.mem_cons, List.mem_singleton, List.not_mem_nil, or_false] at e
    rcases e with e | e | e | e | e | e <;> rw [e] <;> simp only [Place.cell] <;> omega

theorem Place.packets_below (E : Place) (h : E.ok) (ps : FPkts) :
    (E.packets ps).Below (E.p + 896) := by
  intro kv hkv
  rcases List.mem_append.1 hkv with e | e
  · exact Nat.lt_of_lt_of_le (h.2.2 kv e) (Nat.le_add_right _ _)
  · simp only [List.mem_cons, List.mem_singleton, List.not_mem_nil, or_false] at e
    rcases e with e | e | e | e | e | e | e | e <;> rw [e] <;> simp only [Place.cell] <;> omega

/-- The six tasks of a run and the list before it, when all are passed by. -/
theorem Place.parked_six (E : Place) (h : E.ok) (f : FState) (ho : fOk f = true)
    (hc : f.tcb = 0) (m : Nat) (hl : ParkedFrom (Mem.ofList E.frT) m E.L) :
    ParkedFrom (E.tasks f.tasks) (m + 6) (E.cell 14) := by
  have hp : ∀ j T, f.tasks.rd j = some T → parked ((E.tasks f.tasks).read (E.cell j)).t_state ∧
      ((E.tasks f.tasks).read (E.cell j)).t_link = E.tptr (tLink j) := by
    intro j T hr
    rw [E.read_tasks h f.tasks j T hr]
    exact ⟨fPassed_parked _ _ _ (fOk_passed f ho j T hr) (Or.inl hc), rfl⟩
  have r14 : f.tasks.rd 14 = some f.tasks.t14 := by rw [FTasks.task_rd_eq]; rfl
  have r13 : f.tasks.rd 13 = some f.tasks.t13 := by rw [FTasks.task_rd_eq]; rfl
  have r12 : f.tasks.rd 12 = some f.tasks.t12 := by rw [FTasks.task_rd_eq]; rfl
  have r8 : f.tasks.rd 8 = some f.tasks.t8 := by rw [FTasks.task_rd_eq]; rfl
  have r4 : f.tasks.rd 4 = some f.tasks.t4 := by rw [FTasks.task_rd_eq]; rfl
  have r1 : f.tasks.rd 1 = some f.tasks.t1 := by rw [FTasks.task_rd_eq]; rfl
  have e13 : E.tptr (tLink 14) = E.cell 13 := rfl
  have e12 : E.tptr (tLink 13) = E.cell 12 := rfl
  have e8 : E.tptr (tLink 12) = E.cell 8 := rfl
  have e4 : E.tptr (tLink 8) = E.cell 4 := rfl
  have e1 : E.tptr (tLink 4) = E.cell 1 := rfl
  have e0 : E.tptr (tLink 1) = E.L := rfl
  have hbase : ParkedFrom (E.tasks f.tasks) m E.L := ParkedFrom.append_above E.frT _ m E.L hl
  refine ⟨E.cell_ne_zero h _, (hp 14 _ r14).1, ?_⟩
  rw [(hp 14 _ r14).2, e13]
  refine ⟨E.cell_ne_zero h _, (hp 13 _ r13).1, ?_⟩
  rw [(hp 13 _ r13).2, e12]
  refine ⟨E.cell_ne_zero h _, (hp 12 _ r12).1, ?_⟩
  rw [(hp 12 _ r12).2, e8]
  refine ⟨E.cell_ne_zero h _, (hp 8 _ r8).1, ?_⟩
  rw [(hp 8 _ r8).2, e4]
  refine ⟨E.cell_ne_zero h _, (hp 4 _ r4).1, ?_⟩
  rw [(hp 4 _ r4).2, e1]
  refine ⟨E.cell_ne_zero h _, (hp 1 _ r1).1, ?_⟩
  rw [(hp 1 _ r1).2, e0]
  exact hbase

theorem ck54_ok : fOk ck54 = true := by decide

/-- One call of `bench` between two others: it returns 23246 and leaves the memory
ready for the next call. -/
theorem bench_between (cells : Mem Nat) (pool p j : Nat) (hp : 0 < p)
    (hcells : ∀ k, k < 14 →
      cells.read (p + 896 * j + 64 * k) = p + 896 * j + 64 * (k + 1))
    (M : Pool × State) (hM : Between cells pool p j M) (n : Nat) :
    ∃ M', bench (106614 + 6 * j + n) M = some (.returned (M', Qpktcountval)) ∧
      Between cells pool p (j + 1) M' ∧ M'.2.tcb = 0 ∧ M'.2.qpktcount = Qpktcountval ∧
      M'.2.holdcount = Holdcountval ∧
      ((bench_setup M).2.listFrom (6 * j + 7) (bench_setup M).2.tasklist).length
        = 6 * j + 6 ∧
      ∀ s ∈ schedule_trace (106614 + 6 * j + n) (bench_setup M).2, s.tcb < p + 896 * j →
        s.tcb = 0 ∨ parked (s.task s.tcb).t_state := by
  obtain ⟨P, S⟩ := M
  obtain ⟨hfree, hT, hP, ⟨a1, a2, a3, a4, a5, a6, htab⟩, hlist⟩ := hM
  obtain ⟨tasks, packets, tasktab, tasklist, tcb, taskid, v1, v2, qc, hc, tr, lay⟩ := S
  simp only at hfree hT hP htab hlist
  subst hfree htab
  obtain ⟨hpool, hok, hrep⟩ := bench_setup_place cells pool (p + 896 * j) (by omega) hcells
    tasks.toList packets.toList hT hP a1 a2 a3 a4 a5 a6 tasklist tcb taskid v1 v2 qc hc tr lay
  generalize hE : (⟨p + 896 * j, tasklist, tasks.toList, packets.toList⟩ : Place) = E at hok hrep
  have hEL : E.L = tasklist := by rw [← hE]
  have hEp : E.p = p + 896 * j := by rw [← hE]
  have hEf : E.frT = tasks.toList := by rw [← hE]
  change Place.Rep E FState.start
    (bench_setup (⟨cells, pool, p + 896 * j⟩,
      ⟨tasks, packets, [10, a1, a2, a3, a4, a5, a6, 0, 0, 0, 0], tasklist, tcb, taskid, v1, v2,
        qc, hc, tr, lay⟩)).2 at hrep
  change (bench_setup (⟨cells, pool, p + 896 * j⟩,
      ⟨tasks, packets, [10, a1, a2, a3, a4, a5, a6, 0, 0, 0, 0], tasklist, tcb, taskid, v1, v2,
        qc, hc, tr, lay⟩)).1 = _ at hpool
  generalize hS0 : bench_setup (⟨cells, pool, p + 896 * j⟩,
      (⟨tasks, packets, [10, a1, a2, a3, a4, a5, a6, 0, 0, 0, 0], tasklist, tcb, taskid, v1, v2,
        qc, hc, tr, lay⟩ : State)) = M0 at hrep hpool ⊢
  have hbase : ParkedFrom (Mem.ofList E.frT) (6 * j) E.L := by
    rw [hEL, hEf]; exact hlist
  obtain ⟨S', l, hR', _, hs, htr, hl⟩ := run_from_start E hok (fun _ => True)
    (fun _ _ _ _ => trivial) M0.2 hrep (6 * j + n)
  have htcb : S'.tcb = E.L := hR'.2.2.2.1
  have hpk : ParkedFrom S'.tasks (6 * j) S'.tcb := by
    rw [htcb, hR'.1]
    exact ParkedFrom.append_above E.frT _ (6 * j) E.L hbase
  have hwalk := schedule_parked (6 * j) S' (9 + n) hpk
  have hsched : schedule (106614 + 6 * j + n) M0.2 = some { S' with tcb := 0 } := by
    rw [show 106614 + 6 * j + n = 10 + (6 * j + n) + 106604 by omega, hs,
      show 10 + (6 * j + n) = 6 * j + (9 + n + 1) by omega]
    exact hwalk
  have hq : S'.qpktcount = Qpktcountval := hR'.2.2.2.2.1
  have hh : S'.holdcount = Holdcountval := hR'.2.2.2.2.2.1
  refine ⟨(M0.1, { S' with tcb := 0 }), ?_, ?_, rfl, hq, hh, ?_, ?_⟩
  · unfold bench
    simp only [hS0, hsched]
    rw [if_neg (by simp only [not_not]; exact ⟨hq, hh⟩), hq]
  · refine ⟨?_, ?_, ?_, ?_, ?_⟩
    · rw [hpool]
      exact congrArg (fun x => (⟨cells, pool, x⟩ : Pool)) (by omega)
    · show S'.tasks.Below _
      rw [hR'.1, show p + 896 * (j + 1) = E.p + 896 by rw [hEp]; omega]
      exact E.tasks_below hok _
    · show S'.packets.Below _
      rw [hR'.2.1, show p + 896 * (j + 1) = E.p + 896 by rw [hEp]; omega]
      exact E.packets_below hok _
    · exact ⟨_, _, _, _, _, _, hR'.2.2.1⟩
    · show ParkedFrom S'.tasks (6 * (j + 1)) S'.tasklist
      rw [hR'.1, hR'.2.2.2.2.2.2.2, show 6 * (j + 1) = 6 * j + 6 by omega]
      exact E.parked_six hok ck54 ck54_ok rfl (6 * j) hbase
  · have hl0 : ParkedFrom M0.2.tasks (6 * j) E.L := by
      rw [hrep.1]
      exact ParkedFrom.append_above E.frT _ (6 * j) E.L hbase
    rw [show 6 * j + 7 = (6 * j + 1) + 6 by omega, E.listFrom_six hok FState.start M0.2 hrep]
    simp only [List.length_cons]
    rw [ParkedFrom.list_length M0.2 (6 * j) E.L 0 hl0]
  · intro s hs' hlt
    rw [show 106614 + 6 * j + n = 10 + (6 * j + n) + 106604 by omega, htr,
      show 10 + (6 * j + n) = 6 * j + (9 + n + 1) by omega] at hs'
    rcases List.mem_append.1 hs' with e | e
    · have := (hl s e).2
      rw [hEp] at this
      omega
    · exact schedule_trace_parked (6 * j) S' (9 + n) hpk s e

theorem inner_loop_from_succ (fuel n : Nat) (r : Int) (M M1 : Pool × State) (q : Int)
    (hb : bench fuel M = some (.returned (M1, q))) :
    inner_loop_from fuel (n + 1) r M = inner_loop_from fuel n (r + q) M1 := by
  rw [inner_loop_from, hb]

/-- The loop of `inner_loop`: `n` calls of `bench` after `j` others. -/
theorem inner_between (cells : Mem Nat) (pool p : Nat) (hp : 0 < p)
    (Hc : ∀ i, i < 256000 → cells.read (p + 64 * i) = p + 64 * (i + 1)) :
    ∀ (n j : Nat) (r : Int) (M : Pool × State) (x : Nat), j + n ≤ 18000 →
      Between cells pool p j M →
      ∃ M', inner_loop_from (106614 + 6 * (j + n) + x) n r M
          = some (.returned (M', r + n * Qpktcountval)) ∧
        Between cells pool p (j + n) M' := by
  intro n
  induction n with
  | zero =>
    intro j r M x _ hM
    refine ⟨M, ?_, hM⟩
    rw [inner_loop_from]
    simp
  | succ n ih =>
    intro j r M x hj hM
    have hcells : ∀ k, k < 14 →
        cells.read (p + 896 * j + 64 * k) = p + 896 * j + 64 * (k + 1) := by
      intro k hk
      have := Hc (14 * j + k) (by omega)
      rw [show p + 64 * (14 * j + k) = p + 896 * j + 64 * k by omega,
        show p + 64 * (14 * j + k + 1) = p + 896 * j + 64 * (k + 1) by omega] at this
      exact this
    obtain ⟨M1, hb, hM1, _, _, _, _, _⟩ := bench_between cells pool p j hp hcells M hM
      (6 * (n + 1) + x)
    obtain ⟨M', hi, hM'⟩ := ih (j + 1) (r + Qpktcountval) M1 x (by omega) hM1
    have hF1 : 106614 + 6 * (j + (n + 1)) + x = 106614 + 6 * j + (6 * (n + 1) + x) := by omega
    have hF2 : 106614 + 6 * (j + 1 + n) + x = 106614 + 6 * j + (6 * (n + 1) + x) := by omega
    have e : r + Qpktcountval + (n : Int) * Qpktcountval
        = r + ((n + 1 : Nat) : Int) * Qpktcountval := by
      push_cast
      ring
    rw [hF2, e] at hi
    refine ⟨M', ?_, ?_⟩
    · rw [hF1, inner_loop_from_succ _ n r M M1 Qpktcountval hb]
      exact hi
    · rw [show j + (n + 1) = j + 1 + n by omega]
      exact hM'

theorem between_start (p : Nat) (P : Pool) :
    Between (init_mem_pool p P).cells (init_mem_pool p P).pool p 0
      (init_mem_pool p P, State.init) :=
  ⟨rfl, fun kv hkv => absurd hkv (List.not_mem_nil kv),
    fun kv hkv => absurd hkv (List.not_mem_nil kv), ⟨0, 0, 0, 0, 0, 0, rfl⟩, rfl⟩

/-- C19: after one `init_mem_pool` (for the pool at any address `p` other than null),
for every fuel from 107214 on: for every `k < 100`, the first `k` calls of `bench` in a
row return `k * 23246` in all and leave a memory `Mk` in which the next call of `bench`
builds its six tasks in front of the `6 * k` tasks of the earlier calls (the task list
is not reset: it has `6 * k + 6` tasks when `schedule` is called) and nevertheless
returns 23246 with a null current task, `qpktcount = 23246` and `holdcount = 9297`;
the tasks of the earlier calls lie below the address `p + 896 * k`, and whenever the
current task of that run of `schedule` lies there, it is in a state in which
`schedule` passes it by: no task of an earlier call is dispatched.  So `inner_loop(n)`
returns `n * 23246` for `n ≤ 100`, and `start` returns, without a call of `exit`, with
`result = 100 * 23246`. -/
theorem repeated_runs (p : Nat) (hp : 0 < p) (P : Pool) (x : Nat) :
    (∀ k : Nat, k < 100 → ∃ Mk M',
        inner_loop_from (107214 + x) k 0 (init_mem_pool p P, State.init)
          = some (.returned (Mk, (k : Int) * 23246)) ∧
        ((bench_setup Mk).2.listFrom (6 * k + 7) (bench_setup Mk).2.tasklist).length
          = 6 * k + 6 ∧
        bench (107214 + x) Mk = some (.returned (M', 23246)) ∧
        M'.2.tcb = 0 ∧ M'.2.qpktcount = 23246 ∧ M'.2.holdcount = 9297 ∧
        Mk.2.tasks.Below (p + 896 * k) ∧
        ∀ s ∈ schedule_trace (107214 + x) (bench_setup Mk).2, s.tcb < p + 896 * k →
          s.tcb = 0 ∨ parked (s.task s.tcb).t_state) ∧
      (∀ n : Nat, n ≤ 100 → ∃ M',
        inner_loop (107214 + x) (n : Int) (init_mem_pool p P, State.init)
          = some (.returned (M', (n : Int) * 23246))) ∧
      ∃ M', start (107214 + x) p (P, State.init) = some (.returned (M', 2324600)) := by
  have Hc : ∀ i, i < 256000 →
      (init_mem_pool p P).cells.read (p + 64 * i) = p + 64 * (i + 1) :=
    fun i hi => init_mem_pool_read p P i hi
  have hloop : ∀ n : Nat, n ≤ 100 → ∃ M',
      inner_loop_from (107214 + x) n 0 (init_mem_pool p P, State.init)
          = some (.returned (M', (n : Int) * 23246)) ∧
        Between (init_mem_pool p P).cells (init_mem_pool p P).pool p n M' := by
    intro n hn
    obtain ⟨M', h1, h2⟩ := inner_between _ _ p hp Hc n 0 0 _ (600 - 6 * n + x) (by omega)
      (between_start p P)
    have e : (0 : Int) + (n : Int) * Qpktcountval = (n : Int) * 23246 := by
      rw [Int.zero_add]
      rfl
    have hF : 106614 + 6 * (0 + n) + (600 - 6 * n + x) = 107214 + x := by omega
    rw [e, hF] at h1
    rw [Nat.zero_add] at h2
    exact ⟨M', h1, h2⟩
  refine ⟨?_, ?_, ?_⟩
  · intro k hk
    obtain ⟨Mk, h1, h2⟩ := hloop k (by omega)
    have hcells : ∀ i, i < 14 → (init_mem_pool p P).cells.read (p + 896 * k + 64 * i)
        = p + 896 * k + 64 * (i + 1) := by
      intro i hi
      have := Hc (14 * k + i) (by omega)
      rw [show p + 64 * (14 * k + i) = p + 896 * k + 64 * i by omega,
        show p + 64 * (14 * k + i + 1) = p + 896 * k + 64 * (i + 1) by omega] at this
      exact this
    obtain ⟨M', hb, _, e1, e2, e3, e4, e5⟩ := bench_between _ _ p k hp hcells Mk h2
      (600 - 6 * k + x)
    have hF : 106614 + 6 * k + (600 - 6 * k + x) = 107214 + x := by omega
    rw [hF] at hb e5
    exact ⟨Mk, M', h1, e4, hb, e1, e2, e3, h2.tasks, e5⟩
  · intro n hn
    obtain ⟨M', h1, _⟩ := hloop n hn
    exact ⟨M', h1⟩
  · obtain ⟨M', h1, _⟩ := hloop 100 (by omega)
    refine ⟨M', ?_⟩
    have h2 : inner_loop (107214 + x) 100 (init_mem_pool p P, State.init)
        = some (.returned (M', ((100 : Nat) : Int) * 23246)) := h1
    unfold start
    simp only
    rw [h2]
    exact congrArg (fun r => some (Outcome.returned (M', r))) (by decide)

theorem repeated_runs_witness :
    0 < 4096 ∧
      ∃ M', start (107214 + 0) 4096 (⟨Mem.empty, 0, 0⟩, State.init)
        = some (.returned (M', 2324600)) :=
  ⟨by decide, (repeated_runs 4096 (by decide) ⟨Mem.empty, 0, 0⟩ 0).2.2⟩

/-! ## The cells of the run -/

/-- The objects that the setup of `bench` builds, when `j` calls of `bench` have gone
before: the six tasks and the eight packets lie in the fourteen cells number `14 * j`
to `14 * j + 13` of the pool at `p`. -/
theorem bench_setup_objects (cells : Mem Nat) (pool p j : Nat) (hp : 0 < p)
    (hcells : ∀ k, k < 14 →
      cells.read (p + 896 * j + 64 * k) = p + 896 * j + 64 * (k + 1))
    (M : Pool × State) (hM : Between cells pool p j M) :
    (bench_setup M).2.tasktab
        = [10, p + CELL_SIZE * (14 * j + 0), p + CELL_SIZE * (14 * j + 3),
            p + CELL_SIZE * (14 * j + 7), p + CELL_SIZE * (14 * j + 11),
            p + CELL_SIZE * (14 * j + 12), p + CELL_SIZE * (14 * j + 13), 0, 0, 0, 0] ∧
      (bench_setup M).2.listFrom 6 (bench_setup M).2.tasklist
        = [p + CELL_SIZE * (14 * j + 13), p + CELL_SIZE * (14 * j + 12),
            p + CELL_SIZE * (14 * j + 11), p + CELL_SIZE * (14 * j + 7),
            p + CELL_SIZE * (14 * j + 3), p + CELL_SIZE * (14 * j + 0)] ∧
      (bench_setup M).2.Queue (p + CELL_SIZE * (14 * j + 3))
        [p + CELL_SIZE * (14 * j + 2), p + CELL_SIZE * (14 * j + 1)] ∧
      (bench_setup M).2.Queue (p + CELL_SIZE * (14 * j + 7))
        [p + CELL_SIZE * (14 * j + 6), p + CELL_SIZE * (14 * j + 5),
          p + CELL_SIZE * (14 * j + 4)] ∧
      (bench_setup M).2.Queue (p + CELL_SIZE * (14 * j + 11))
        [p + CELL_SIZE * (14 * j + 10), p + CELL_SIZE * (14 * j + 9),
          p + CELL_SIZE * (14 * j + 8)] := by
  obtain ⟨P, S⟩ := M
  obtain ⟨hfree, hT, hP, ⟨a1, a2, a3, a4, a5, a6, htab⟩, _⟩ := hM
  obtain ⟨tasks, packets, tasktab, tasklist, tcb, taskid, v1, v2, qc, hc, tr, lay⟩ := S
  simp only at hfree hT hP htab
  subst hfree htab
  obtain ⟨_, hok, hrep⟩ := bench_setup_place cells pool (p + 896 * j) (by omega) hcells
    tasks.toList packets.toList hT hP a1 a2 a3 a4 a5 a6 tasklist tcb taskid v1 v2 qc hc tr lay
  generalize hE : (⟨p + 896 * j, tasklist, tasks.toList, packets.toList⟩ : Place) = E at hok hrep
  have hEp : E.p = p + 896 * j := by rw [← hE]
  change Place.Rep E FState.start
    (bench_setup (⟨cells, pool, p + 896 * j⟩,
      ⟨tasks, packets, [10, a1, a2, a3, a4, a5, a6, 0, 0, 0, 0], tasklist, tcb, taskid, v1, v2,
        qc, hc, tr, lay⟩)).2 at hrep
  generalize (bench_setup (⟨cells, pool, p + 896 * j⟩,
      (⟨tasks, packets, [10, a1, a2, a3, a4, a5, a6, 0, 0, 0, 0], tasklist, tcb, taskid, v1, v2,
        qc, hc, tr, lay⟩ : State))).2 = S0 at hrep ⊢
  have c1 : E.cell 1 = p + CELL_SIZE * (14 * j + 0) := by
    simp only [Place.cell, CELL_SIZE, hEp]; omega
  have c2 : E.cell 2 = p + CELL_SIZE * (14 * j + 1) := by
    simp only [Place.cell, CELL_SIZE, hEp]; omega
  have c3 : E.cell 3 = p + CELL_SIZE * (14 * j + 2) := by
    simp only [Place.cell, CELL_SIZE, hEp]; omega
  have c4 : E.cell 4 = p + CELL_SIZE * (14 * j + 3) := by
    simp only [Place.cell, CELL_SIZE, hEp]; omega
  have c5 : E.cell 5 = p + CELL_SIZE * (14 * j + 4) := by
    simp only [Place.cell, CELL_SIZE, hEp]; omega
  have c6 : E.cell 6 = p + CELL_SIZE * (14 * j + 5) := by
    simp only [Place.cell, CELL_SIZE, hEp]; omega
  have c7 : E.cell 7 = p + CELL_SIZE * (14 * j + 6) := by
    simp only [Place.cell, CELL_SIZE, hEp]; omega
  have c8 : E.cell 8 = p + CELL_SIZE * (14 * j + 7) := by
    simp only [Place.cell, CELL_SIZE, hEp]; omega
  have c9 : E.cell 9 = p + CELL_SIZE * (14 * j + 8) := by
    simp only [Place.cell, CELL_SIZE, hEp]; omega
  have c10 : E.cell 10 = p + CELL_SIZE * (14 * j + 9) := by
    simp only [Place.cell, CELL_SIZE, hEp]; omega
  have c11 : E.cell 11 = p + CELL_SIZE * (14 * j + 10) := by
    simp only [Place.cell, CELL_SIZE, hEp]; omega
  have c12 : E.cell 12 = p + CELL_SIZE * (14 * j + 11) := by
    simp only [Place.cell, CELL_SIZE, hEp]; omega
  have c13 : E.cell 13 = p + CELL_SIZE * (14 * j + 12) := by
    simp only [Place.cell, CELL_SIZE, hEp]; omega
  have c14 : E.cell 14 = p + CELL_SIZE * (14 * j + 13) := by
    simp only [Place.cell, CELL_SIZE, hEp]; omega
  have hne : ∀ i, E.cell i ≠ 0 := fun i => E.cell_ne_zero hok i
  obtain ⟨_, _, t12, t8, t4, _⟩ := E.task_six hok FState.start S0 hrep
  have p2 := E.packet_read hok S0 FState.start.pkts hrep.2.1 2 _ rfl
  have p3 := E.packet_read hok S0 FState.start.pkts hrep.2.1 3 _ rfl
  have p5 := E.packet_read hok S0 FState.start.pkts hrep.2.1 5 _ rfl
  have p6 := E.packet_read hok S0 FState.start.pkts hrep.2.1 6 _ rfl
  have p7 := E.packet_read hok S0 FState.start.pkts hrep.2.1 7 _ rfl
  have p9 := E.packet_read hok S0 FState.start.pkts hrep.2.1 9 _ rfl
  have p10 := E.packet_read hok S0 FState.start.pkts hrep.2.1 10 _ rfl
  have p11 := E.packet_read hok S0 FState.start.pkts hrep.2.1 11 _ rfl
  refine ⟨?_, ?_, ?_, ?_, ?_⟩
  · rw [hrep.2.2.1, ← c1, ← c4, ← c8, ← c12, ← c13, ← c14]
    rfl
  · rw [← c1, ← c4, ← c8, ← c12, ← c13, ← c14, E.listFrom_six hok FState.start S0 hrep 0]
    rfl
  · rw [← c4, ← c3, ← c2]
    unfold State.Queue
    rw [t4]
    refine ⟨rfl, hne 3, ?_, hne 2, ?_⟩
    · show (S0.packet (E.cell 3)).p_link = E.cell 2
      rw [p3]
      rfl
    · show (S0.packet (E.cell 2)).p_link = 0
      rw [p2]
      rfl
  · rw [← c8, ← c7, ← c6, ← c5]
    unfold State.Queue
    rw [t8]
    refine ⟨rfl, hne 7, ?_, hne 6, ?_, hne 5, ?_⟩
    · show (S0.packet (E.cell 7)).p_link = E.cell 6
      rw [p7]
      rfl
    · show (S0.packet (E.cell 6)).p_link = E.cell 5
      rw [p6]
      rfl
    · show (S0.packet (E.cell 5)).p_link = 0
      rw [p5]
      rfl
  · rw [← c12, ← c11, ← c10, ← c9]
    unfold State.Queue
    rw [t12]
    refine ⟨rfl, hne 11, ?_, hne 10, ?_, hne 9, ?_⟩
    · show (S0.packet (E.cell 11)).p_link = E.cell 10
      rw [p11]
      rfl
    · show (S0.packet (E.cell 10)).p_link = E.cell 9
      rw [p10]
      rfl
    · show (S0.packet (E.cell 9)).p_link = 0
      rw [p9]
      rfl

/-- The first `n` calls of `bench` in `start` return, and leave the memory between two
calls of `bench`. -/
theorem start_loop (p : Nat) (hp : 0 < p) (P : Pool) (x n : Nat) (hn : n ≤ 100) :
    ∃ M', inner_loop_from (107214 + x) n 0 (init_mem_pool p P, State.init)
        = some (.returned (M', (n : Int) * 23246)) ∧
      Between (init_mem_pool p P).cells (init_mem_pool p P).pool p n M' := by
  obtain ⟨M', h1, h2⟩ := inner_between _ _ p hp (fun i hi => init_mem_pool_read p P i hi) n 0 0 _
    (600 - 6 * n + x) (by omega) (between_start p P)
  have e : (0 : Int) + (n : Int) * Qpktcountval = (n : Int) * 23246 := by
    rw [Int.zero_add]
    rfl
  have hF : 106614 + 6 * (0 + n) + (600 - 6 * n + x) = 107214 + x := by omega
  rw [e, hF] at h1
  rw [Nat.zero_add] at h2
  exact ⟨M', h1, h2⟩

/-- C12: every call of `createtask` and of `pkt` makes one call of `my_malloc` and puts
its object into the cell that call returns.  In `start`, after `init_mem_pool` (for the
pool at any address `p` other than null) and for every fuel from 107214 on, for every
`k < 100`: the first `k` calls of `bench` return and leave a memory `Mk` whose pool is
the pool after `14 * k` calls of `my_malloc`; the next fourteen calls of `my_malloc`
return the cells `p + 64 * (14 * k + i)`, `i < 14`, the cells number `14 * k + i` of the
1400 that `my_malloc` returns in all; the setup of the next call of `bench`
makes exactly these fourteen calls and builds its objects in these cells, the six tasks
(task table and task list) in the cells number 0, 3, 7, 11, 12, 13 of the fourteen and the
eight packets (the queues of the worker and of the two handlers) in the cells number 1,
2, 4, 5, 6, 8, 9, 10; that call of `bench` returns, with the pool after `14 * (k + 1)`
calls of `my_malloc`: nothing is released.  The 1400 cells that `my_malloc` returns in
all are `p + 64 * i`, `i < 1400`: none is null and they are pairwise distinct; and
`start` returns with the pool after these 1400 calls. -/
theorem pool_never_exhausts (p : Nat) (hp : 0 < p) (P : Pool) (x : Nat) :
    (∀ (M : Pool × State) (id pri : Int) (wkq : Nat) (st : Int) (fn : Fn) (v1 v2 : Int),
        (createtask M id pri wkq st fn v1 v2).1 = (my_malloc M.1).1 ∧
        (createtask M id pri wkq st fn v1 v2).2.tasklist = (my_malloc M.1).2) ∧
      (∀ (M : Pool × State) (link : Nat) (id kind : Int),
        (pkt M link id kind).1.1 = (my_malloc M.1).1 ∧
        (pkt M link id kind).2 = (my_malloc M.1).2) ∧
      (∀ k : Nat, k < 100 → ∃ Mk M',
        inner_loop_from (107214 + x) k 0 (init_mem_pool p P, State.init)
          = some (.returned (Mk, (k : Int) * 23246)) ∧
        Mk.1 = (my_malloc_n (14 * k) (init_mem_pool p P)).1 ∧
        (my_malloc_n 14 Mk.1).2
          = (List.range 14).map (fun i => p + CELL_SIZE * (14 * k + i)) ∧
        (∀ i, i < 14 → (my_malloc_n 14 Mk.1).2[i]?
          = (my_malloc_n 1400 (init_mem_pool p P)).2[14 * k + i]?) ∧
        (bench_setup Mk).1 = (my_malloc_n 14 Mk.1).1 ∧
        (bench_setup Mk).2.tasktab
          = [10, p + CELL_SIZE * (14 * k + 0), p + CELL_SIZE * (14 * k + 3),
              p + CELL_SIZE * (14 * k + 7), p + CELL_SIZE * (14 * k + 11),
              p + CELL_SIZE * (14 * k + 12), p + CELL_SIZE * (14 * k + 13), 0, 0, 0, 0] ∧
        (bench_setup Mk).2.listFrom 6 (bench_setup Mk).2.tasklist
          = [p + CELL_SIZE * (14 * k + 13), p + CELL_SIZE * (14 * k + 12),
              p + CELL_SIZE * (14 * k + 11), p + CELL_SIZE * (14 * k + 7),
              p + CELL_SIZE * (14 * k + 3), p + CELL_SIZE * (14 * k + 0)] ∧
        (bench_setup Mk).2.Queue (p + CELL_SIZE * (14 * k + 3))
          [p + CELL_SIZE * (14 * k + 2), p + CELL_SIZE * (14 * k + 1)] ∧
        (bench_setup Mk).2.Queue (p + CELL_SIZE * (14 * k + 7))
          [p + CELL_SIZE * (14 * k + 6), p + CELL_SIZE * (14 * k + 5),
            p + CELL_SIZE * (14 * k + 4)] ∧
        (bench_setup Mk).2.Queue (p + CELL_SIZE * (14 * k + 11))
          [p + CELL_SIZE * (14 * k + 10), p + CELL_SIZE * (14 * k + 9),
            p + CELL_SIZE * (14 * k + 8)] ∧
        bench (107214 + x) Mk = some (.returned (M', 23246)) ∧
        M'.1 = (my_malloc_n (14 * (k + 1)) (init_mem_pool p P)).1) ∧
      (my_malloc_n 1400 (init_mem_pool p P)).2
        = (List.range 1400).map (fun i => p + CELL_SIZE * i) ∧
      (∀ c ∈ (my_malloc_n 1400 (init_mem_pool p P)).2, c ≠ 0) ∧
      (my_malloc_n 1400 (init_mem_pool p P)).2.Nodup ∧
      ∃ M', start (107214 + x) p (P, State.init) = some (.returned (M', 2324600)) ∧
        M'.1 = (my_malloc_n 1400 (init_mem_pool p P)).1 := by
  have hall : (my_malloc_n 1400 (init_mem_pool p P)).2
      = (List.range 1400).map (fun i => p + CELL_SIZE * i) := by
    have := (my_malloc_n_chain 1400 (init_mem_pool p P) p 0 hp rfl
      (fun j _ hj => init_mem_pool_read p P j (by omega))).1
    rw [this]
    apply List.map_congr_left
    intro i _
    rw [Nat.zero_add]
  refine ⟨fun M id pri wkq st fn v1 v2 => ⟨rfl, rfl⟩, fun M link id kind => ⟨rfl, rfl⟩,
    ?_, hall, ?_, ?_, ?_⟩
  · intro k hk
    obtain ⟨Mk, h1, h2⟩ := start_loop p hp P x k (by omega)
    have hcells : ∀ i, i < 14 → (init_mem_pool p P).cells.read (p + 896 * k + 64 * i)
        = p + 896 * k + 64 * (i + 1) := by
      intro i hi
      have := init_mem_pool_read p P (14 * k + i) (by omega)
      simp only [CELL_SIZE] at this
      rw [show p + 64 * (14 * k + i) = p + 896 * k + 64 * i by omega,
        show p + 64 * (14 * k + i + 1) = p + 896 * k + 64 * (i + 1) by omega] at this
      exact this
    obtain ⟨M', hb, _, _, _, _, _, _⟩ := bench_between _ _ p k hp hcells Mk h2 (600 - 6 * k + x)
    have hF : 106614 + 6 * k + (600 - 6 * k + x) = 107214 + x := by omega
    rw [hF] at hb
    have hb' : bench (107214 + x) Mk = some (.returned (M', 23246)) := hb
    have hpool := inner_loop_pool (107214 + x) k 0 _ Mk _ h1
    have hfl : Mk.1.freelist = p + CELL_SIZE * (14 * k) := by
      rw [h2.free]
      simp only [CELL_SIZE]
      omega
    have hcl : Mk.1.cells = (init_mem_pool p P).cells := by rw [h2.free]
    have hL := (my_malloc_n_chain 14 Mk.1 p (14 * k) hp hfl
      (fun j _ hj => by rw [hcl]; exact init_mem_pool_read p P j (by omega))).1
    obtain ⟨o1, o2, o3, o4, o5⟩ := bench_setup_objects _ _ p k hp hcells Mk h2
    have hidx : ∀ i, i < 14 → (my_malloc_n 14 Mk.1).2[i]?
        = (my_malloc_n 1400 (init_mem_pool p P)).2[14 * k + i]? := by
      intro i hi
      have hi2 : 14 * k + i < 1400 := by omega
      rw [hL, hall, List.getElem?_map, List.getElem?_map, List.getElem?_range hi,
        List.getElem?_range hi2]
      rfl
    refine ⟨Mk, M', h1, hpool, hL, hidx, bench_setup_pool Mk, o1, o2, o3, o4, o5, hb', ?_⟩
    rw [bench_pool (107214 + x) Mk M' _ hb', hpool, show 14 * (k + 1) = 14 * k + 14 by omega,
      my_malloc_n_add]
  · intro c hc
    rw [hall] at hc
    obtain ⟨i, _, rfl⟩ := List.mem_map.1 hc
    omega
  · rw [hall]
    apply List.Nodup.map _ (List.nodup_range 1400)
    intro a b hab
    simp only [CELL_SIZE] at hab
    omega
  · obtain ⟨M', h1, _⟩ := start_loop p hp P x 100 (Nat.le_refl 100)
    refine ⟨M', ?_, ?_⟩
    · have h2 : inner_loop (107214 + x) 100 (init_mem_pool p P, State.init)
          = some (.returned (M', ((100 : Nat) : Int) * 23246)) := h1
      unfold start
      simp only
      rw [h2]
      exact congrArg (fun r => some (Outcome.returned (M', r))) (by decide)
    · have h3 := inner_loop_pool (107214 + x) 100 0 _ M' _ h1
      rw [show 14 * 100 = 1400 from rfl] at h3
      exact h3

theorem pool_never_exhausts_witness :
    0 < 4096 ∧
      (my_malloc_n 1400 (init_mem_pool 4096 ⟨Mem.empty, 0, 0⟩)).2.Nodup ∧
      ∃ M', start (107214 + 0) 4096 (⟨Mem.empty, 0, 0⟩, State.init)
          = some (.returned (M', 2324600)) ∧
        M'.1 = (my_malloc_n 1400 (init_mem_pool 4096 ⟨Mem.empty, 0, 0⟩)).1 :=
  ⟨by decide, (pool_never_exhausts 4096 (by decide) ⟨Mem.empty, 0, 0⟩ 0).2.2.2.2.2⟩

end Richards
